import Mathlib

/-!
The parameter grammar, validation and batch-apply engine of amdcovc.

A shallow embedding of the command-line core of `amdcovc`
(`src/amdcovc.cpp`, `src/source/amdgpuproovc.cpp`) and theorems about it.

Modelling conventions

* A C string is a `List Char` without the terminating NUL; a `char*` into it is
  the suffix that starts at the pointer.  Comparing two pointers into the same
  string is comparing the suffixes.
* `long` is 64 bit and `int` is 32 bit (LP64, the platform of the drivers the
  program talks to); the conversion `int x = strtol(..)` keeps the low 32 bits.
* `strtol`/`strtod` follow glibc: `errno` is set only to `ERANGE`, never on
  "no conversion".
* A finite `double` is modelled by the rational number it denotes.  Every
  operation of the source on doubles that can round (`iMin / 100.0`,
  `clock * 1.20`, `value * 100.0`, `value * 1000.0`, `(value - clock) / clock *
  100.0`, the constant `1.20` and the conversion of a text by `strtod`) is
  followed by `binary64`, the rounding to the nearest binary64 number, ties to
  even, subnormal numbers included; the overflow of a product to an infinity
  is not modelled.  Comparisons of doubles and `round` are exact.
* Text written to `std::cout` is not modelled, except the line "Voltage for
  adapter i is not set!" of the level merge (`ADL.mergeNoteAt`); text written
  to `std::cerr` by the validation phases is modelled as a list of
  diagnostics, and so are the messages of `parseOVCParameter` in `main`.
* The backends are modelled by what their read calls report and by the list of
  write calls issued; every backend call is taken to succeed.
* A read of a vector outside its bounds is undefined in C++; the validation
  phases make such reads for a negative adapter index.  The outcome of an
  engine records in its field `undefined` whether the call made such a read;
  when it did, nothing is claimed about what the program does: the other
  fields of the outcome are then computed with `junk`, a parameter of the
  engines, for the value read, and describe no run of the program.
* The conversion of a `double` to `unsigned int` is undefined in C++ when the
  truncated value does not fit; it yields a value `junk` that is a parameter of
  `parseDPMPCIEFile`.  `strtoul` follows glibc on LP64.
* A file is the list of its characters, or nothing when it cannot be opened;
  `std::getline` and the stream state follow the standard.
* What `printAdaptersInfo` prints is modelled by the list of the adapters it
  reports.
* Loops over a text run on fuel computed from the length of the text; the
  fuel is never used up (`parseAdaptersLoop_fuel`, `iterate_eq`).
-/

namespace Amdcovc

/-! ## C library layer -/

/-- The `isspace` test of the C locale. -/
def isspace (c : Char) : Bool :=
  c == ' ' || c == '\t' || c == '\n' || c == '\x0b' || c == '\x0c' || c == '\r'

/-- The `isdigit` test. -/
def isdigit (c : Char) : Bool := '0' ≤ c && c ≤ '9'

/-- Value of a decimal digit character. -/
def digitVal (c : Char) : Nat := c.toNat - '0'.toNat

/-- Skip leading white space, as every `strto*` function does first. -/
def skipSpace : List Char → List Char
  | [] => []
  | c :: cs => if isspace c then skipSpace cs else c :: cs

/-- Consume a maximal run of decimal digits, accumulating their value. -/
def scanDigits (acc : Nat) : List Char → Nat × List Char
  | [] => (acc, [])
  | c :: cs => if isdigit c then scanDigits (acc * 10 + digitVal c) cs else (acc, c :: cs)

/-- The largest `long` (LP64). -/
def LONG_MAX : Int := 2 ^ 63 - 1

/-- The smallest `long` (LP64). -/
def LONG_MIN : Int := -(2 ^ 63)

/-- The largest `int`. -/
def INT_MAX : Int := 2 ^ 31 - 1

/-- The smallest `int`. -/
def INT_MIN : Int := -(2 ^ 31)

/-- Conversion of a `long` to `int`: the low 32 bits, read as two's complement. -/
def toInt32 (v : Int) : Int := (v + 2 ^ 31) % 2 ^ 32 - 2 ^ 31

/-- What `strtol(s, &endptr, 10)` leaves behind: the returned value, `endptr`, and
whether `errno` was set to `ERANGE`. -/
structure StrtolResult where
  value : Int
  endptr : List Char
  erange : Bool
deriving DecidableEq, Repr

/-- Split off an optional sign: `(negative, rest)`. -/
def scanSign : List Char → Bool × List Char
  | [] => (false, [])
  | c :: cs =>
    if c = '-' then (true, cs) else if c = '+' then (false, cs) else (false, c :: cs)

/-- The subject sequence of `strtol` in base 10 and its value: optional white space, an
optional sign and at least one digit.  Returns the value (not yet limited to any machine type)
and the text after the last digit, or `none` when there is no digit. -/
def readNumeral (s : List Char) : Option (Int × List Char) :=
  let (neg, u) := scanSign (skipSpace s)
  match u with
  | [] => none
  | c :: _ =>
    if isdigit c then
      let (n, rest) := scanDigits 0 u
      some (if neg then -(n : Int) else (n : Int), rest)
    else none

/-- The function `strtol(s, &endptr, 10)`.  Without a subject sequence no conversion is
performed: the value is 0 and `endptr` is `s`.  A value outside `long` is clamped and reported
through `ERANGE`. -/
def strtol (s : List Char) : StrtolResult :=
  match readNumeral s with
  | none => ⟨0, s, false⟩
  | some (v, rest) =>
    if v > LONG_MAX then ⟨LONG_MAX, rest, true⟩
    else if v < LONG_MIN then ⟨LONG_MIN, rest, true⟩
    else ⟨v, rest, false⟩

/-- The function `strchr(s, c)`: the suffix starting at the first `c`, or `none` (a null
pointer). -/
def strchr (s : List Char) (c : Char) : Option (List Char) :=
  match s with
  | [] => none
  | d :: ds => if d = c then some (d :: ds) else strchr ds c

/-- The text between the start of `s` and the first `c` (all of `s` when there is none):
what `std::string(s, strchr(s, c))` holds. -/
def upTo (s : List Char) (c : Char) : List Char :=
  match s with
  | [] => []
  | d :: ds => if d = c then [] else d :: upTo ds c

/-! ## Selector parser: `parseAdaptersList` -/

/-- How a call ended: it returned, it threw `Error(what)`, it ran into undefined behaviour of
the C++ abstract machine, or the model ran out of fuel (which never happens, see
`parseAdaptersLoop_fuel`). -/
inductive Status where
  | ok
  | thrown (what : String)
  | undefined
  | outOfFuel
deriving DecidableEq, Repr

/-- The two output parameters of `parseAdaptersList` together with how the call ended. -/
structure AdaptersResult where
  adapters : List Int
  allAdapters : Bool
  status : Status
deriving DecidableEq, Repr

/-- The integers `lo, lo+1, ..., hi` in this order (empty when `hi < lo`). -/
def intRange (lo hi : Int) : List Int :=
  (List.range (hi + 1 - lo).toNat).map (fun (k : Nat) => lo + (k : Int))

/-- The algorithm `std::unique`: drop every element equal to its predecessor. -/
def unique : List Int → List Int
  | [] => []
  | [a] => [a]
  | a :: b :: t => if a = b then unique (b :: t) else a :: unique (b :: t)

/-- The `while (true)` loop of `parseAdaptersList` (lines 1181-1236).  `string` is the
current read position and `adapters` the vector filled so far; the result is the vector and
the way the loop ended.  A range that ends at `INT_MAX` makes `i++` overflow in the `for`
loop of line 1213, which is undefined. -/
def parseAdaptersLoop : Nat → List Char → List Int → List Int × Status
  | 0, _, adapters => (adapters, Status.outOfFuel)
  | fuel + 1, string, adapters =>
    let r := strtol string
    let adapterIndex := toInt32 r.value
    if r.erange || r.endptr == string then
      (adapters, Status.thrown "Unable to parse adapter index")
    else
      let afterTerm : List Char → List Int → List Int × Status := fun string adapters =>
        match string with
        | [] => (adapters, Status.ok)
        | c :: rest =>
          if c = ',' then parseAdaptersLoop fuel rest adapters
          else (adapters, Status.thrown "Invalid data in adapter list")
      if r.endptr.head? = some '-' then
        let string1 := r.endptr.tail
        let r2 := strtol string1
        let adapterIndexEnd := toInt32 r2.value
        if r2.erange || r2.endptr == string1 then
          (adapters, Status.thrown "Unable to parse adapter index")
        else if adapterIndex > adapterIndexEnd then
          (adapters, Status.thrown "Wrong range of adapter indices in adapter list")
        else if adapterIndexEnd = INT_MAX then
          (adapters ++ intRange adapterIndex adapterIndexEnd, Status.undefined)
        else
          afterTerm r2.endptr (adapters ++ intRange adapterIndex adapterIndexEnd)
      else afterTerm r.endptr (adapters ++ [adapterIndex])

/-- The function `parseAdaptersList(string, adapters, allAdapters)` (lines 1170-1241).  The
outputs are cleared first, so the result does not depend on what they held; when the call
throws, the result holds what was pushed up to then. -/
def parseAdaptersList (string : List Char) : AdaptersResult :=
  if string = "all".toList then ⟨[], true, Status.ok⟩
  else
    match parseAdaptersLoop (string.length + 1) string [] with
    | (adapters, Status.ok) => ⟨unique (adapters.insertionSort (· ≤ ·)), false, Status.ok⟩
    | (adapters, st) => ⟨adapters, false, st⟩

/-- The two variables a caller passes by reference to `parseAdaptersList`. -/
structure SelectorVars where
  adapters : List Int
  allAdapters : Bool
deriving DecidableEq, Repr

/-- The call `parseAdaptersList(string, adapters, allAdapters)` as its caller sees it: `vars`
is what the two variables hold before the call, the result is what they hold after it and how
the call ended.  Lines 1172-1173 overwrite both before anything is read. -/
def parseAdaptersListOn (string : List Char) (vars : SelectorVars) : SelectorVars × Status :=
  let vars := { vars with adapters := [] }
  let vars := { vars with allAdapters := false }
  if string = "all".toList then ({ vars with allAdapters := true }, Status.ok)
  else
    match parseAdaptersLoop (string.length + 1) string vars.adapters with
    | (adapters, Status.ok) =>
      ({ vars with adapters := unique (adapters.insertionSort (· ≤ ·)) }, Status.ok)
    | (adapters, st) => ({ vars with adapters := adapters }, st)

/-! ## Binary64 arithmetic -/

/-- The nearest integer to `x`, the even one of the two when `x` lies halfway between them. -/
def roundEven (x : ℚ) : Int :=
  if x - ⌊x⌋ < 1 / 2 then ⌊x⌋
  else if 1 / 2 < x - ⌊x⌋ then ⌊x⌋ + 1
  else if ⌊x⌋ % 2 = 0 then ⌊x⌋ else ⌊x⌋ + 1

/-- The number of times `n` can be halved before it falls below 2, for at most `fuel`
halvings. -/
def log2Loop : Nat → Nat → Nat
  | 0, _ => 0
  | fuel + 1, n => if 2 ≤ n then log2Loop fuel (n / 2) + 1 else 0

/-- The function `ilogb` of `<cmath>` on a number other than 0: the exponent `e` with
`2 ^ e ≤ |x| < 2 ^ (e + 1)` (`ilogb_spec`). -/
def ilogb (x : ℚ) : Int :=
  if (2 : ℚ) ^ ((log2Loop x.num.natAbs x.num.natAbs : Int) - (log2Loop x.den x.den : Int)) ≤ |x|
  then (log2Loop x.num.natAbs x.num.natAbs : Int) - (log2Loop x.den x.den : Int)
  else (log2Loop x.num.natAbs x.num.natAbs : Int) - (log2Loop x.den x.den : Int) - 1

/-- Rounding to 53 significant bits with unbounded exponent: to nearest, ties to even. -/
def roundTo53 (x : ℚ) : ℚ :=
  if x = 0 then 0 else roundEven (x / 2 ^ (ilogb x - 52)) * 2 ^ (ilogb x - 52)

/-- Rounding to the format binary64 of IEEE 754, the `double` of the platform: to nearest,
ties to even, with 53 significant bits for the normal numbers and multiples of `2 ^ -1074`
below `2 ^ -1022`.  The result of an arithmetic operation on `double`s is the rounded exact
result.  A magnitude that rounds beyond the largest `double` gives an infinity in C++; here
the rounded number is kept, which `strtod` tests before it rounds and which in the engines
can only reach a conversion to `int` that C++ leaves undefined. -/
def binary64 (x : ℚ) : ℚ :=
  if x = 0 then 0
  else roundEven (x / 2 ^ (max (ilogb x) (-1022) - 52)) * 2 ^ (max (ilogb x) (-1022) - 52)

/-! ## `strtod` -/

/-- A `double`: a finite value, an infinity or a NaN. -/
inductive Double where
  | finite (q : ℚ)
  | inf (negative : Bool)
  | nan
deriving DecidableEq

/-- What `strtod(s, &endptr)` leaves behind: the value, `endptr`, and whether `errno` was set
to `ERANGE`. -/
structure StrtodResult where
  value : Double
  endptr : List Char
  erange : Bool
deriving DecidableEq

/-- ASCII lower case of a character. -/
def tolower (c : Char) : Char :=
  if 'A' ≤ c ∧ c ≤ 'Z' then Char.ofNat (c.toNat + 32) else c

/-- Does `s` start with the lower-case word `w`, ignoring case?  Returns what follows. -/
def stripWord : List Char → List Char → Option (List Char)
  | [], s => some s
  | _ :: _, [] => none
  | w :: ws, c :: cs => if tolower c = w then stripWord ws cs else none

/-- The `isxdigit` test. -/
def isxdigit (c : Char) : Bool :=
  isdigit c || ('a' ≤ tolower c && tolower c ≤ 'f')

/-- Value of a hexadecimal digit character. -/
def xdigitVal (c : Char) : Nat :=
  if isdigit c then digitVal c else (tolower c).toNat - 'a'.toNat + 10

/-- Consume a maximal run of digits in `base` (10 or 16): the accumulated value, the number
of digits read, and the rest. -/
def scanMantissa (base : Nat) (acc count : Nat) : List Char → Nat × Nat × List Char
  | [] => (acc, count, [])
  | c :: cs =>
    if base = 16 then
      if isxdigit c then scanMantissa base (acc * 16 + xdigitVal c) (count + 1) cs
      else (acc, count, c :: cs)
    else
      if isdigit c then scanMantissa base (acc * 10 + digitVal c) (count + 1) cs
      else (acc, count, c :: cs)

/-- An optional exponent part: the marker (`e` or `p`, either case), an optional sign and
at least one decimal digit.  When the digits are missing nothing is consumed. -/
def scanExponent (marker : Char) (s : List Char) : Int × List Char :=
  match s with
  | [] => (0, s)
  | c :: cs =>
    if tolower c = marker then
      let (neg, u) := scanSign cs
      match u with
      | [] => (0, s)
      | d :: _ =>
        if isdigit d then
          let (n, rest) := scanDigits 0 u
          (if neg then -(n : Int) else (n : Int), rest)
        else (0, s)
    else (0, s)

/-- The number `m * b ^ e` for an integer exponent. -/
def scale (m : ℚ) (b : ℚ) (e : Int) : ℚ :=
  if 0 ≤ e then m * b ^ e.toNat else m / b ^ (-e).toNat

/-- A mantissa with optional fraction and exponent in `base`: digits, optionally a point and
more digits, at least one digit in all; then the optional exponent (a power of 10 for base 10,
of 2 for base 16).  Returns the magnitude and the rest, or `none` without any digit. -/
def scanNumber (base : Nat) (s : List Char) : Option (ℚ × List Char) :=
  let (ip, ni, r1) := scanMantissa base 0 0 s
  let (fp, nf, r2) :=
    match r1 with
    | '.' :: cs => scanMantissa base ip 0 cs
    | _ => (ip, 0, r1)
  if ni + nf = 0 then none
  else
    let (e, r3) := scanExponent (if base = 16 then 'p' else 'e') r2
    let m : ℚ := (fp : ℚ) / (base : ℚ) ^ nf
    some (scale m (if base = 16 then 2 else 10) e, r3)

/-- The characters of the optional `(n-char-sequence)` after `nan`. -/
def scanNanChars : List Char → Option (List Char)
  | [] => none
  | c :: cs =>
    if c = ')' then some cs
    else if isdigit c || ('a' ≤ tolower c && tolower c ≤ 'z') || c == '_' then scanNanChars cs
    else none

/-- Magnitudes from here on round to an infinity. -/
def overflowBound : ℚ := 2 ^ 1024 - 2 ^ 970

/-- The smallest normal `double`: magnitudes below it are subnormal. -/
def minNormal : ℚ := 1 / 2 ^ 1022

/-- Range handling of `strtod` for the exact magnitude `m` of the text: overflow gives an
infinity and `ERANGE`; otherwise the value is the `double` nearest to the number, and `ERANGE`
is set when the result is not exact and tiny, that is below the normal range when rounded with
unbounded exponent. -/
def finishStrtod (neg : Bool) (m : ℚ) (rest : List Char) : StrtodResult :=
  let v : ℚ := if neg then -m else m
  if overflowBound ≤ m then ⟨Double.inf neg, rest, true⟩
  else if binary64 v ≠ v ∧ |roundTo53 v| < minNormal then
    ⟨Double.finite (binary64 v), rest, true⟩
  else ⟨Double.finite (binary64 v), rest, false⟩

/-- The function `strtod(s, &endptr)`: optional white space, optional sign, then `inf` or
`infinity`, `nan` with an optional parenthesised sequence, a hexadecimal floating constant, or
a decimal one.  Without a conversion the value is 0 and `endptr` is `s`. -/
def strtod (s : List Char) : StrtodResult :=
  let (neg, u) := scanSign (skipSpace s)
  match stripWord "infinity".toList u with
  | some rest => ⟨Double.inf neg, rest, false⟩
  | none =>
  match stripWord "inf".toList u with
  | some rest => ⟨Double.inf neg, rest, false⟩
  | none =>
  match stripWord "nan".toList u with
  | some rest =>
    match rest with
    | '(' :: cs =>
      match scanNanChars cs with
      | some rest1 => ⟨Double.nan, rest1, false⟩
      | none => ⟨Double.nan, rest, false⟩
    | _ => ⟨Double.nan, rest, false⟩
  | none =>
  let hex : Option (ℚ × List Char) :=
    match stripWord "0x".toList u with
    | some h => scanNumber 16 h
    | none => none
  match hex with
  | some (m, rest) => finishStrtod neg m rest
  | none =>
  match scanNumber 10 u with
  | some (m, rest) => finishStrtod neg m rest
  | none => ⟨Double.finite 0, s, false⟩

/-! ## Directive parser: `parseOVCParameter` -/

/-- The `enum class OVCParamType`. -/
inductive OVCParamType where
  | CORE_CLOCK
  | MEMORY_CLOCK
  | VDDC_VOLTAGE
  | FAN_SPEED
  | CORE_OD
  | MEMORY_OD
deriving DecidableEq, Repr

/-- The enumerator `LAST_PERFLEVEL = -1`. -/
def LAST_PERFLEVEL : Int := -1

/-- The `struct OVCParameter`. -/
structure OVCParameter where
  type : OVCParamType
  adapters : List Int
  allAdapters : Bool
  partId : Int
  value : ℚ
  useDefault : Bool
  argText : List Char
deriving DecidableEq

/-- The message with which `parseOVCParameter` returns `false`. -/
inductive ParseDiag where
  | notParameter
  | wrongName
  | adapterList (what : String)
  | partId
  | unterminated
  | value
  | notFinite
  | garbage
deriving DecidableEq, Repr

/-- How a call of `parseOVCParameter` ends: it returns `true` with `param` filled, it returns
`false` after printing a message (the caller drops `param`), or it runs into undefined
behaviour. -/
inductive ParseResult where
  | accepted (param : OVCParameter)
  | rejected (diag : ParseDiag)
  | undefined
deriving DecidableEq

/-- Lines 1271-1285: `afterName` is the first `:` or, without one, the first `=`; the name is
the text before it.  `none` is the null pointer of line 1277. -/
def splitName (string : List Char) : Option (List Char × List Char) :=
  match strchr string ':' with
  | some afterName => some (upTo string ':', afterName)
  | none =>
    match strchr string '=' with
    | some afterName => some (upTo string '=', afterName)
    | none => none

/-- Lines 1290-1343, the name table: the type, the initial `partId` and `partIdSet`. -/
def nameTable (name : List Char) : Option (OVCParamType × Int × Bool) :=
  if name = "coreclk".toList then some (OVCParamType.CORE_CLOCK, LAST_PERFLEVEL, false)
  else if name = "memclk".toList then some (OVCParamType.MEMORY_CLOCK, LAST_PERFLEVEL, false)
  else if name = "coreod".toList then some (OVCParamType.CORE_OD, LAST_PERFLEVEL, false)
  else if name = "memod".toList then some (OVCParamType.MEMORY_OD, LAST_PERFLEVEL, false)
  else if name = "vcore".toList then some (OVCParamType.VDDC_VOLTAGE, LAST_PERFLEVEL, false)
  else if name = "fanspeed".toList then some (OVCParamType.FAN_SPEED, 0, false)
  else if name = "icoreclk".toList then some (OVCParamType.CORE_CLOCK, 0, true)
  else if name = "imemclk".toList then some (OVCParamType.MEMORY_CLOCK, 0, true)
  else if name = "ivcore".toList then some (OVCParamType.VDDC_VOLTAGE, 0, true)
  else none

/-- Lines 1410-1448, the value: `afterName` must point at `=`; then the word `default` or a
finite number read by `strtod`, and nothing after it.  The `default` branch leaves
`param.value` as it was. -/
def parseValue (afterName : List Char) (param : OVCParameter) : ParseResult :=
  match afterName with
  | '=' :: afterName1 =>
    if afterName1 = "default".toList then
      ParseResult.accepted { param with useDefault := true }
    else
      let r := strtod afterName1
      if r.erange || r.endptr == afterName1 then ParseResult.rejected ParseDiag.value
      else
        match r.value with
        | Double.finite q =>
          if r.endptr ≠ [] then ParseResult.rejected ParseDiag.garbage
          else ParseResult.accepted { param with value := q }
        | _ => ParseResult.rejected ParseDiag.notFinite
  | _ => ParseResult.rejected ParseDiag.unterminated

/-- Lines 1385-1408, the level: after a `:` and unless `partIdSet`, `strtol` reads the level;
`ERANGE` fails, no conversion keeps the `partId` of the name table.  The value read is
stored in an `int`. -/
def parseLevel (afterName : List Char) (partIdSet : Bool) (param : OVCParameter) : ParseResult :=
  match afterName with
  | [] => ParseResult.rejected ParseDiag.unterminated
  | c :: afterName1 =>
    if c = ':' ∧ partIdSet = false then
      let r := strtol afterName1
      let value := toInt32 r.value
      if r.erange then ParseResult.rejected ParseDiag.partId
      else if afterName1 ≠ r.endptr then parseValue r.endptr { param with partId := value }
      else parseValue r.endptr param
    else parseValue afterName param

/-- Lines 1345-1383, the adapter list: after a first `:`, the text up to the next `:` or,
without one, the next `=` (the same search as for the name) is handed to `parseAdaptersList`
unless it is empty.  When neither character follows, line 1363 adds to a null pointer and
line 1368 builds a string from an invalid range: undefined behaviour.  An `Error` from the list
parser is caught and the function returns `false`. -/
def parseSelector (afterName : List Char) (partIdSet : Bool) (param : OVCParameter) :
    ParseResult :=
  match afterName with
  | [] => ParseResult.rejected ParseDiag.unterminated
  | c :: afterName1 =>
    if c = ':' then
      match splitName afterName1 with
      | none => ParseResult.undefined
      | some (listString, afterList) =>
        if afterList ≠ afterName1 then
          let r := parseAdaptersList listString
          match r.status with
          | Status.ok =>
            parseLevel afterList partIdSet
              { param with adapters := r.adapters, allAdapters := r.allAdapters }
          | Status.thrown what => ParseResult.rejected (ParseDiag.adapterList what)
          | _ => ParseResult.undefined
        else parseLevel afterName1 partIdSet param
    else parseLevel afterName partIdSet param

/-- The function `parseOVCParameter(string, param)` (lines 1269-1449).  `value0` stands for
the content of the uninitialised `param.value` of the caller. -/
def parseOVCParameter (string : List Char) (value0 : ℚ) : ParseResult :=
  match splitName string with
  | none => ParseResult.rejected ParseDiag.notParameter
  | some (name, afterName) =>
    match nameTable name with
    | none => ParseResult.rejected ParseDiag.wrongName
    | some (type, partId, partIdSet) =>
      parseSelector afterName partIdSet
        { type := type, adapters := [0], allAdapters := false, partId := partId,
          value := value0, useDefault := false, argText := string }

/-! ## Adapter iterator -/

/-- The `struct AdapterIterator` (lines 1458-1489). -/
structure AdapterIterator where
  adapters : List Int
  allAdapters : Bool
  allAdaptersNum : Int
  position : Int
deriving DecidableEq

/-- The conversion `operator bool()`. -/
def AdapterIterator.valid (it : AdapterIterator) : Bool :=
  (!it.allAdapters && it.position < (it.adapters.length : Int)) ||
    (it.allAdapters && it.position < it.allAdaptersNum)

/-- The dereference `operator*()`. -/
def AdapterIterator.deref (it : AdapterIterator) : Int :=
  if it.allAdapters then it.position else it.adapters.getD it.position.toNat 0

/-- The increment `operator++()`. -/
def AdapterIterator.next (it : AdapterIterator) : AdapterIterator :=
  { it with position := it.position + 1 }

/-- The values `*ait` seen by `for (...; ait; ++ait)`, for at most `fuel` rounds. -/
def AdapterIterator.run : Nat → AdapterIterator → List Int
  | 0, _ => []
  | fuel + 1, it => if it.valid then it.deref :: AdapterIterator.run fuel it.next else []

/-- The values seen by `for (AdapterIterator ait(adapters, allAdapters, num); ait; ++ait)`;
the fuel covers every round the loop can make (`iterate_eq`). -/
def iterate (adapters : List Int) (allAdapters : Bool) (num : Int) : List Int :=
  AdapterIterator.run (adapters.length + num.toNat) ⟨adapters, allAdapters, num, 0⟩

/-! ## Shared pieces of the engines -/

/-- The kinds of message the validation phases write to `std::cerr`. -/
inductive DiagKind where
  | adapterIndices
  | thermalControlIndex
  | fanSpeedRange
  | perfLevel
  | coreClock
  | memoryClock
  | voltage
  | coreOverdrive
  | memoryOverdrive
deriving DecidableEq, Repr

/-- One message on `std::cerr`: its kind and the `argText` it quotes. -/
structure Diag where
  kind : DiagKind
  argText : List Char
deriving DecidableEq, Repr

/-- The state of validation: the variable `failed` and the messages written so far. -/
structure Check where
  failed : Bool
  err : List Diag
deriving DecidableEq, Repr

/-- Print a message and set `failed = true`. -/
def Check.report (st : Check) (kind : DiagKind) (param : OVCParameter) : Check :=
  ⟨true, st.err ++ [⟨kind, param.argText⟩]⟩

/-- The `struct FanSpeedSetup`. -/
structure FanSpeedSetup where
  value : ℚ
  useDefault : Bool
  isSet : Bool
deriving DecidableEq

/-- The read `xs[i]` of a vector with an `int` index.  A read outside the vector is undefined
in C++; here it yields `junk`, which the theorems leave arbitrary. -/
def readAt {α : Type} (xs : List α) (i : Int) (junk : α) : α :=
  if 0 ≤ i then xs.getD i.toNat junk else junk

/-- The write `xs[i] = v` of a vector with an `int` index (no effect outside the vector,
where C++ leaves the behaviour undefined). -/
def writeAt {α : Type} (xs : List α) (i : Int) (v : α) : List α :=
  if 0 ≤ i then xs.set i.toNat v else xs

/-- The function `round` of `<cmath>`: nearest integer, halves away from zero.  The
conversion `int(..)` of the result is taken to be exact. -/
def cround (q : ℚ) : Int :=
  if 0 ≤ q then ⌊q + 1 / 2⌋ else ⌈q - 1 / 2⌉

/-- How an engine call ended: the messages on `std::cerr`, the backend write calls in the
order they were issued, and the `Error` thrown, if any.  Backend calls are taken to succeed.
`undefined` tells that the call has read a vector with a negative index: C++ leaves the
behaviour of the program undefined from that read on, and the other three fields, which are
computed with `junk` for the value read, then describe no run of the program. -/
structure Outcome (Call : Type) where
  err : List Diag
  calls : List Call
  thrown : Option String
  undefined : Bool

/-! ## Catalyst engine: `setOVCParameters(ADLMainControl&, ...)` -/

/-- The ADL type `ADLODParameterRange`. -/
structure ADLODParameterRange where
  iMin : Int
  iMax : Int
  iStep : Int
deriving DecidableEq

/-- The ADL type `ADLODParameters`, with the fields the engine reads.  The number of levels is
a count. -/
structure ADLODParameters where
  iNumberOfPerformanceLevels : Nat
  sEngineClock : ADLODParameterRange
  sMemoryClock : ADLODParameterRange
  sVddc : ADLODParameterRange
deriving DecidableEq

/-- The ADL type `ADLODPerformanceLevel`. -/
structure ADLODPerformanceLevel where
  iEngineClock : Int
  iMemoryClock : Int
  iVddc : Int
deriving DecidableEq

/-- The read side of `ADLMainControl`: what `getODParameters(adapter, ..)` reports, and entry
`level` of what `getODPerformanceLevels(adapter, isDefault, ..)` fills in. -/
structure ADLMainControl where
  getODParameters : Int → ADLODParameters
  getODPerformanceLevels : Int → Bool → Nat → ADLODPerformanceLevel

/-- The write calls of `ADLMainControl`. -/
inductive ADLCall where
  | setFanSpeed (adapterIndex thermalControllerIndex fanSpeed : Int)
  | setFanSpeedToDefault (adapterIndex thermalControllerIndex : Int)
  | setODPerformanceLevels (adapterIndex : Int) (num : Nat)
      (levels : List ADLODPerformanceLevel)
deriving DecidableEq

namespace ADL

/-- Lines 1508-1523, the selector phase. -/
def checkIndices (ovcParams : List OVCParameter) (realAdaptersNum : Int) (st : Check) : Check :=
  ovcParams.foldl (fun st param =>
    if !param.allAdapters then
      (param.adapters.foldl (fun (acc : Bool × Check) adapterIndex =>
        if !acc.1 && (adapterIndex ≥ realAdaptersNum || adapterIndex < 0) then
          (true, acc.2.report DiagKind.adapterIndices param)
        else acc) (false, st)).2
    else st) st

/-- Lines 1525-1541, the fan speed check. -/
def checkFanSpeed (ovcParams : List OVCParameter) (st : Check) : Check :=
  ovcParams.foldl (fun st param =>
    if param.type = OVCParamType.FAN_SPEED then
      let st1 := if param.partId ≠ 0 then st.report DiagKind.thermalControlIndex param else st
      if !param.useDefault && (param.value < 0 || param.value > 100) then
        st1.report DiagKind.fanSpeedRange param
      else st1
    else st) st

/-- Lines 1543-1554: the vectors `odParams`, `perfLevels` (`isDefault = false`) and
`defaultPerfLevels` (`isDefault = true`) read from the backend. -/
def readODParams (mainControl : ADLMainControl) (activeAdapters : List Int) :
    List ADLODParameters :=
  activeAdapters.map mainControl.getODParameters

/-- See `readODParams`. -/
def readPerfLevels (mainControl : ADLMainControl) (activeAdapters : List Int)
    (isDefault : Bool) : List (List ADLODPerformanceLevel) :=
  activeAdapters.map (fun i =>
    (List.range (mainControl.getODParameters i).iNumberOfPerformanceLevels).map
      (mainControl.getODPerformanceLevels i isDefault))

/-- Lines 1563-1609, the body of the loop over the adapters of one parameter in "check other
params". -/
def checkOtherAt (odParams : List ADLODParameters) (junk : ADLODParameters)
    (realAdaptersNum : Int) (param : OVCParameter) (st : Check) (i : Int) : Check :=
  if i ≥ realAdaptersNum then st
  else
    let od := readAt odParams i junk
    let partId : Int :=
      if param.partId ≠ LAST_PERFLEVEL then param.partId
      else (od.iNumberOfPerformanceLevels : Int) - 1
    if partId ≥ (od.iNumberOfPerformanceLevels : Int) || partId < 0 then
      st.report DiagKind.perfLevel param
    else
      match param.type with
      | OVCParamType.CORE_CLOCK =>
        if !param.useDefault && (param.value < binary64 ((od.sEngineClock.iMin : ℚ) / 100) ||
            param.value > binary64 ((od.sEngineClock.iMax : ℚ) / 100)) then
          st.report DiagKind.coreClock param
        else st
      | OVCParamType.MEMORY_CLOCK =>
        if !param.useDefault && (param.value < binary64 ((od.sMemoryClock.iMin : ℚ) / 100) ||
            param.value > binary64 ((od.sMemoryClock.iMax : ℚ) / 100)) then
          st.report DiagKind.memoryClock param
        else st
      | OVCParamType.VDDC_VOLTAGE =>
        if !param.useDefault && (param.value < binary64 ((od.sVddc.iMin : ℚ) / 1000) ||
            param.value > binary64 ((od.sVddc.iMax : ℚ) / 1000)) then
          st.report DiagKind.voltage param
        else st
      | _ => st

/-- Lines 1556-1612, "check other params". -/
def checkOther (odParams : List ADLODParameters) (junk : ADLODParameters)
    (realAdaptersNum : Int) (ovcParams : List OVCParameter) (st : Check) : Check :=
  ovcParams.foldl (fun st param =>
    if param.type ≠ OVCParamType.FAN_SPEED then
      (iterate param.adapters param.allAdapters realAdaptersNum).foldl
        (checkOtherAt odParams junk realAdaptersNum param) st
    else st) st

/-- Lines 1716-1730, the fan speed merge. -/
def fanMerge (ovcParams : List OVCParameter) (realAdaptersNum : Nat) : List FanSpeedSetup :=
  ovcParams.foldl (fun fanSpeedSetups param =>
    if param.type = OVCParamType.FAN_SPEED then
      (iterate param.adapters param.allAdapters realAdaptersNum).foldl
        (fun fanSpeedSetups i => writeAt fanSpeedSetups i ⟨param.value, param.useDefault, true⟩)
        fanSpeedSetups
    else fanSpeedSetups) (List.replicate realAdaptersNum ⟨0, false, false⟩)

/-- The vectors the level merge works on. -/
structure LevelState where
  perfLevels : List (List ADLODPerformanceLevel)
  changedDevices : List Bool
deriving DecidableEq

/-- Lines 1743-1790, the `switch` that changes `perfLevel`. -/
def mergeLevel (param : OVCParameter) (perfLevel defaultPerfLevel : ADLODPerformanceLevel) :
    ADLODPerformanceLevel :=
  match param.type with
  | OVCParamType.CORE_CLOCK =>
    if param.useDefault then { perfLevel with iEngineClock := defaultPerfLevel.iEngineClock }
    else { perfLevel with iEngineClock := cround (binary64 (param.value * 100)) }
  | OVCParamType.MEMORY_CLOCK =>
    if param.useDefault then { perfLevel with iMemoryClock := defaultPerfLevel.iMemoryClock }
    else { perfLevel with iMemoryClock := cround (binary64 (param.value * 100)) }
  | OVCParamType.VDDC_VOLTAGE =>
    if param.useDefault then { perfLevel with iVddc := defaultPerfLevel.iVddc }
    else if perfLevel.iVddc = 0 then perfLevel
    else { perfLevel with iVddc := cround (binary64 (param.value * 1000)) }
  | _ => perfLevel

/-- The level a parameter addresses on adapter `i` (lines 1570, 1648, 1739). -/
def resolveLevel (odParams : List ADLODParameters) (junk : ADLODParameters)
    (param : OVCParameter) (i : Int) : Int :=
  if param.partId ≠ LAST_PERFLEVEL then param.partId
  else ((readAt odParams i junk).iNumberOfPerformanceLevels : Int) - 1

/-- Lines 1738-1792, the body of the loop over the adapters of one parameter in the level
merge. -/
def mergeAt (odParams : List ADLODParameters) (junk : ADLODParameters)
    (defaultPerfLevels : List (List ADLODPerformanceLevel)) (param : OVCParameter)
    (ls : LevelState) (i : Int) : LevelState :=
  let partId := resolveLevel odParams junk param i
  let zero : ADLODPerformanceLevel := ⟨0, 0, 0⟩
  let perfLevel := readAt (readAt ls.perfLevels i []) partId zero
  let defaultPerfLevel := readAt (readAt defaultPerfLevels i []) partId zero
  { perfLevels :=
      writeAt ls.perfLevels i
        (writeAt (readAt ls.perfLevels i []) partId (mergeLevel param perfLevel defaultPerfLevel))
    changedDevices := writeAt ls.changedDevices i true }

/-- Lines 1732-1795, the level merge. -/
def levelMerge (odParams : List ADLODParameters) (junk : ADLODParameters)
    (defaultPerfLevels : List (List ADLODPerformanceLevel)) (realAdaptersNum : Int)
    (ovcParams : List OVCParameter) (ls : LevelState) : LevelState :=
  ovcParams.foldl (fun ls param =>
    if param.type ≠ OVCParamType.FAN_SPEED then
      (iterate param.adapters param.allAdapters realAdaptersNum).foldl
        (mergeAt odParams junk defaultPerfLevels param) ls
    else ls) ls

/-- Lines 1797-1811, "set fan speeds". -/
def commitFan (activeAdapters : List Int) (fanSpeedSetups : List FanSpeedSetup) :
    List ADLCall :=
  (List.range activeAdapters.length).filterMap (fun i =>
    let setup := fanSpeedSetups.getD i ⟨0, false, false⟩
    if setup.isSet then
      if !setup.useDefault then
        some (ADLCall.setFanSpeed (activeAdapters.getD i 0) 0 (cround setup.value))
      else some (ADLCall.setFanSpeedToDefault (activeAdapters.getD i 0) 0)
    else none)

/-- Lines 1813-1820, "set od perflevels". -/
def commitLevels (activeAdapters : List Int) (odParams : List ADLODParameters)
    (junk : ADLODParameters) (ls : LevelState) : List ADLCall :=
  (List.range activeAdapters.length).filterMap (fun i =>
    if ls.changedDevices.getD i false then
      some (ADLCall.setODPerformanceLevels (activeAdapters.getD i 0)
        (odParams.getD i junk).iNumberOfPerformanceLevels (ls.perfLevels.getD i []))
    else none)

/-- The three validation phases (lines 1506-1612) and the variable `failed` they leave. -/
def validate (mainControl : ADLMainControl) (activeAdapters : List Int)
    (ovcParams : List OVCParameter) (junk : ADLODParameters) : Check :=
  let realAdaptersNum : Int := activeAdapters.length
  let st := checkIndices ovcParams realAdaptersNum ⟨false, []⟩
  let st := checkFanSpeed ovcParams st
  checkOther (readODParams mainControl activeAdapters) junk realAdaptersNum ovcParams st

/-- The state of the level vectors after the merge of a batch (lines 1732-1795). -/
def merged (mainControl : ADLMainControl) (activeAdapters : List Int)
    (ovcParams : List OVCParameter) (junk : ADLODParameters) : LevelState :=
  levelMerge (readODParams mainControl activeAdapters) junk
    (readPerfLevels mainControl activeAdapters true) activeAdapters.length ovcParams
    ⟨readPerfLevels mainControl activeAdapters false,
      List.replicate activeAdapters.length false⟩

/-- The adapter indices `i` with which "check other params" (lines 1556-1612) indexes
`odParams`, in the order of the reads: the loop skips an index with `i >= realAdaptersNum`
(line 1565) and evaluates `odParams[i]` in lines 1570 and 1572 for every other one. -/
def checkOtherIndices (realAdaptersNum : Int) (ovcParams : List OVCParameter) : List Int :=
  ovcParams.flatMap (fun param =>
    if param.type ≠ OVCParamType.FAN_SPEED then
      (iterate param.adapters param.allAdapters realAdaptersNum).filter
        (fun i => !decide (i ≥ realAdaptersNum))
    else [])

/-- The function `setOVCParameters(mainControl, adaptersNum, activeAdapters, ovcParams)`
(lines 1491-1821).  `junk` is what an out-of-range read of `odParams` yields; the behaviour is
undefined when "check other params" has made such a read. -/
def setOVCParameters (mainControl : ADLMainControl) (activeAdapters : List Int)
    (ovcParams : List OVCParameter) (junk : ADLODParameters) : Outcome ADLCall :=
  let st := validate mainControl activeAdapters ovcParams junk
  let undefined := (checkOtherIndices activeAdapters.length ovcParams).any (fun i => decide (i < 0))
  if st.failed then ⟨st.err, [], some "Wrong parameters!", undefined⟩
  else
    let fanSpeedSetups := fanMerge ovcParams activeAdapters.length
    let ls := merged mainControl activeAdapters ovcParams junk
    ⟨st.err,
      commitFan activeAdapters fanSpeedSetups ++
        commitLevels activeAdapters (readODParams mainControl activeAdapters) junk ls,
      none, undefined⟩

end ADL

/-! ## AMDGPU engines -/

/-- The `struct PerfClocks` (two `unsigned int`). -/
structure PerfClocks where
  coreClock : Nat
  memoryClock : Nat
deriving DecidableEq

/-- The write calls of `AMDGPUAdapterHandle`.  The percentage of an overdrive call is `none`
when the expression that computes it divides by a base clock of 0: the `double` is then an
infinity or a NaN and its conversion to `int` is undefined. -/
inductive AMDGPUCall where
  | setFanSpeed (index : Int) (fanSpeed : Int)
  | setFanSpeedToDefault (index : Int)
  | setOverdriveCoreParam (index : Int) (value : Option Int)
  | setOverdriveMemoryParam (index : Int) (value : Option Int)
deriving DecidableEq

/-- The expression `int(round((double(value - clock) / clock) * 100.0))`: the difference, the
quotient and the product are each rounded to binary64. -/
def clockPercent (value : ℚ) (clock : Nat) : Option Int :=
  if clock = 0 then none
  else some (cround (binary64 (binary64 (binary64 (value - (clock : ℚ)) / (clock : ℚ)) * 100)))

namespace AMDGPU

/-- Lines 2081-2134 of `amdcovc.cpp`, the `switch` that issues the overdrive call of one
parameter for adapter `i`. -/
def setParamAt (perfClocks : List PerfClocks) (junk : PerfClocks) (param : OVCParameter)
    (i : Int) : List AMDGPUCall :=
  let perfClks := readAt perfClocks i junk
  match param.type with
  | OVCParamType.CORE_CLOCK =>
    if param.useDefault then [AMDGPUCall.setOverdriveCoreParam i (some 0)]
    else [AMDGPUCall.setOverdriveCoreParam i (clockPercent param.value perfClks.coreClock)]
  | OVCParamType.MEMORY_CLOCK =>
    if param.useDefault then [AMDGPUCall.setOverdriveMemoryParam i (some 0)]
    else [AMDGPUCall.setOverdriveMemoryParam i (clockPercent param.value perfClks.memoryClock)]
  | OVCParamType.CORE_OD =>
    if param.useDefault then [AMDGPUCall.setOverdriveCoreParam i (some 0)]
    else [AMDGPUCall.setOverdriveCoreParam i (some (cround param.value))]
  | OVCParamType.MEMORY_OD =>
    if param.useDefault then [AMDGPUCall.setOverdriveMemoryParam i (some 0)]
    else [AMDGPUCall.setOverdriveMemoryParam i (some (cround param.value))]
  | _ => []

/-- Lines 1880-1938 of `amdcovc.cpp`, the body of the loop over the adapters of one parameter
in "check other params". -/
def checkOtherAt (perfClocks : List PerfClocks) (junk : PerfClocks) (adaptersNum : Int)
    (param : OVCParameter) (st : Check) (i : Int) : Check :=
  if i ≥ adaptersNum then st
  else
    let partId : Int := if param.partId ≠ LAST_PERFLEVEL then param.partId else 0
    if partId ≠ 0 then st.report DiagKind.perfLevel param
    else
      let perfClks := readAt perfClocks i junk
      match param.type with
      | OVCParamType.CORE_CLOCK =>
        if !param.useDefault && (param.value < (perfClks.coreClock : ℚ) ||
            param.value > binary64 ((perfClks.coreClock : ℚ) * binary64 (120 / 100))) then
          st.report DiagKind.coreClock param
        else st
      | OVCParamType.MEMORY_CLOCK =>
        if !param.useDefault && (param.value < (perfClks.memoryClock : ℚ) ||
            param.value > binary64 ((perfClks.memoryClock : ℚ) * binary64 (120 / 100))) then
          st.report DiagKind.memoryClock param
        else st
      | OVCParamType.CORE_OD =>
        if !param.useDefault && (param.value < 0 || param.value > 20) then
          st.report DiagKind.coreOverdrive param
        else st
      | OVCParamType.MEMORY_OD =>
        if !param.useDefault && (param.value < 0 || param.value > 20) then
          st.report DiagKind.memoryOverdrive param
        else st
      | _ => st

/-- Lines 1840-1854 of `amdcovc.cpp`, the selector phase. -/
def checkIndices (ovcParams : List OVCParameter) (adaptersNum : Int) (st : Check) : Check :=
  ovcParams.foldl (fun st param =>
    if !param.allAdapters then
      (param.adapters.foldl (fun (acc : Bool × Check) adapterIndex =>
        if !acc.1 && (adapterIndex ≥ adaptersNum || adapterIndex < 0) then
          (true, acc.2.report DiagKind.adapterIndices param)
        else acc) (false, st)).2
    else st) st

/-- Lines 1856-1872 of `amdcovc.cpp`, the fan speed check. -/
def checkFanSpeed (ovcParams : List OVCParameter) (st : Check) : Check :=
  ovcParams.foldl (fun st param =>
    if param.type = OVCParamType.FAN_SPEED then
      let st1 := if param.partId ≠ 0 then st.report DiagKind.thermalControlIndex param else st
      if !param.useDefault && (param.value < 0 || param.value > 100) then
        st1.report DiagKind.fanSpeedRange param
      else st1
    else st) st

/-- Lines 1874-1940 of `amdcovc.cpp`, "check other params". -/
def checkOther (perfClocks : List PerfClocks) (junk : PerfClocks) (adaptersNum : Int)
    (ovcParams : List OVCParameter) (st : Check) : Check :=
  ovcParams.foldl (fun st param =>
    if param.type ≠ OVCParamType.FAN_SPEED then
      (iterate param.adapters param.allAdapters adaptersNum).foldl
        (checkOtherAt perfClocks junk adaptersNum param) st
    else st) st

/-- Lines 1837-1940 of `amdcovc.cpp`: the three validation phases and the variable `failed`
they leave. -/
def validate (adaptersNum : Nat) (ovcParams : List OVCParameter)
    (perfClocks : List PerfClocks) (junk : PerfClocks) : Check :=
  let st := checkIndices ovcParams adaptersNum ⟨false, []⟩
  let st := checkFanSpeed ovcParams st
  checkOther perfClocks junk adaptersNum ovcParams st

/-- Lines 2055-2069 of `amdcovc.cpp`, the fan speed merge. -/
def fanMerge (ovcParams : List OVCParameter) (adaptersNum : Nat) : List FanSpeedSetup :=
  ovcParams.foldl (fun fanSpeedSetups param =>
    if param.type = OVCParamType.FAN_SPEED then
      (iterate param.adapters param.allAdapters adaptersNum).foldl
        (fun fanSpeedSetups i => writeAt fanSpeedSetups i ⟨param.value, param.useDefault, true⟩)
        fanSpeedSetups
    else fanSpeedSetups) (List.replicate adaptersNum ⟨0, false, false⟩)

/-- Lines 2071-2137 of `amdcovc.cpp`: the overdrive calls, in the order they are issued. -/
def setParams (ovcParams : List OVCParameter) (adaptersNum : Int)
    (perfClocks : List PerfClocks) (junk : PerfClocks) : List AMDGPUCall :=
  ovcParams.foldl (fun calls param =>
    if param.type ≠ OVCParamType.FAN_SPEED then
      (iterate param.adapters param.allAdapters adaptersNum).foldl
        (fun calls i => calls ++ setParamAt perfClocks junk param i) calls
    else calls) []

/-- Lines 2139-2153 of `amdcovc.cpp`, "set fan speeds". -/
def commitFan (adaptersNum : Nat) (fanSpeedSetups : List FanSpeedSetup) : List AMDGPUCall :=
  (List.range adaptersNum).filterMap (fun i =>
    let setup := fanSpeedSetups.getD i ⟨0, false, false⟩
    if setup.isSet then
      if !setup.useDefault then some (AMDGPUCall.setFanSpeed i (cround setup.value))
      else some (AMDGPUCall.setFanSpeedToDefault i)
    else none)

/-- The adapter indices `i` with which "check other params" of `amdcovc.cpp` (lines 1874-1940)
indexes `perfClocks`, in the order of the reads: the loop skips an index with
`i >= adaptersNum` and a directive whose level is not 0, and evaluates `perfClocks[i]` for
every other pair. -/
def checkOtherIndices (adaptersNum : Int) (ovcParams : List OVCParameter) : List Int :=
  ovcParams.flatMap (fun param =>
    if param.type ≠ OVCParamType.FAN_SPEED then
      (iterate param.adapters param.allAdapters adaptersNum).filter
        (fun i => !decide (i ≥ adaptersNum) &&
          decide ((if param.partId ≠ LAST_PERFLEVEL then param.partId else 0) = 0))
    else [])

/-- The function `setOVCParameters(handle, ovcParams, perfClocks)` of `amdcovc.cpp` (lines
1831-2154).  `adaptersNum` is what `handle.getAdaptersNum()` returns and `junk` what an
out-of-range read of `perfClocks` yields; the behaviour is undefined when "check other params"
has made such a read. -/
def setOVCParameters (adaptersNum : Nat) (ovcParams : List OVCParameter)
    (perfClocks : List PerfClocks) (junk : PerfClocks) : Outcome AMDGPUCall :=
  let st := validate adaptersNum ovcParams perfClocks junk
  let undefined := (checkOtherIndices adaptersNum ovcParams).any (fun i => decide (i < 0))
  if st.failed then ⟨st.err, [], some "Invalid parameters.", undefined⟩
  else
    let fanSpeedSetups := fanMerge ovcParams adaptersNum
    ⟨st.err,
      setParams ovcParams adaptersNum perfClocks junk ++ commitFan adaptersNum fanSpeedSetups,
      none, undefined⟩

end AMDGPU

namespace AmdGpuProOvc

/-- The function `AmdGpuProOvc::checkAdapterIndicies` (`amdgpuproovc.cpp`, lines 69-86). -/
def checkAdapterIndicies (ovcParams : List OVCParameter) (adaptersNum : Int) (st : Check) :
    Check :=
  ovcParams.foldl (fun st param =>
    if !param.allAdapters then
      (param.adapters.foldl (fun (acc : Bool × Check) adapterIndex =>
        if !acc.1 && (adapterIndex ≥ adaptersNum || adapterIndex < 0) then
          (true, acc.2.report DiagKind.adapterIndices param)
        else acc) (false, st)).2
    else st) st

/-- The function `AmdGpuProOvc::checkFanSpeeds` (lines 49-67). -/
def checkFanSpeeds (ovcParams : List OVCParameter) (st : Check) : Check :=
  ovcParams.foldl (fun st param =>
    if param.type = OVCParamType.FAN_SPEED then
      let st1 := if param.partId ≠ 0 then st.report DiagKind.thermalControlIndex param else st
      if !param.useDefault && (param.value < 0 || param.value > 100) then
        st1.report DiagKind.fanSpeedRange param
      else st1
    else st) st

/-- Lines 96-155, the body of the inner loop of `checkParameters`. -/
def checkParameterAt (perfClocksList : List PerfClocks) (junk : PerfClocks) (adaptersNum : Int)
    (param : OVCParameter) (st : Check) (i : Int) : Check :=
  if i ≥ adaptersNum then st
  else
    let partId : Int := if param.partId ≠ LAST_PERFLEVEL then param.partId else 0
    if partId ≠ 0 then st.report DiagKind.perfLevel param
    else
      let perfClks := readAt perfClocksList i junk
      match param.type with
      | OVCParamType.CORE_CLOCK =>
        if !param.useDefault && (param.value < (perfClks.coreClock : ℚ) ||
            param.value > binary64 ((perfClks.coreClock : ℚ) * binary64 (120 / 100))) then
          st.report DiagKind.coreClock param
        else st
      | OVCParamType.MEMORY_CLOCK =>
        if !param.useDefault && (param.value < (perfClks.memoryClock : ℚ) ||
            param.value > binary64 ((perfClks.memoryClock : ℚ) * binary64 (120 / 100))) then
          st.report DiagKind.memoryClock param
        else st
      | OVCParamType.CORE_OD =>
        if !param.useDefault && (param.value < 0 || param.value > 20) then
          st.report DiagKind.coreOverdrive param
        else st
      | OVCParamType.MEMORY_OD =>
        if !param.useDefault && (param.value < 0 || param.value > 20) then
          st.report DiagKind.memoryOverdrive param
        else st
      | _ => st

/-- The function `AmdGpuProOvc::checkParameters` (lines 88-159). -/
def checkParameters (ovcParams : List OVCParameter) (adaptersNum : Int)
    (perfClocksList : List PerfClocks) (junk : PerfClocks) (st : Check) : Check :=
  ovcParams.foldl (fun st param =>
    if param.type ≠ OVCParamType.FAN_SPEED then
      (iterate param.adapters param.allAdapters adaptersNum).foldl
        (checkParameterAt perfClocksList junk adaptersNum param) st
    else st) st

/-- The function `AmdGpuProOvc::setFanSpeedSetup` (lines 284-300); the vector arrives with
`adaptersNum` entries and is filled with unset entries first. -/
def setFanSpeedSetup (fanSpeedSetups : List FanSpeedSetup) (ovcParams : List OVCParameter)
    (adaptersNum : Int) : List FanSpeedSetup :=
  ovcParams.foldl (fun fanSpeedSetups param =>
    if param.type = OVCParamType.FAN_SPEED then
      (iterate param.adapters param.allAdapters adaptersNum).foldl
        (fun fanSpeedSetups i => writeAt fanSpeedSetups i ⟨param.value, param.useDefault, true⟩)
        fanSpeedSetups
    else fanSpeedSetups) (fanSpeedSetups.map (fun _ => ⟨0, false, false⟩))

/-- Lines 310-366, the body of the inner loop of `setParameters`. -/
def setParameterAt (perfClocksList : List PerfClocks) (junk : PerfClocks)
    (param : OVCParameter) (i : Int) : List AMDGPUCall :=
  let perfClks := readAt perfClocksList i junk
  match param.type with
  | OVCParamType.CORE_CLOCK =>
    if param.useDefault then [AMDGPUCall.setOverdriveCoreParam i (some 0)]
    else [AMDGPUCall.setOverdriveCoreParam i (clockPercent param.value perfClks.coreClock)]
  | OVCParamType.MEMORY_CLOCK =>
    if param.useDefault then [AMDGPUCall.setOverdriveMemoryParam i (some 0)]
    else [AMDGPUCall.setOverdriveMemoryParam i (clockPercent param.value perfClks.memoryClock)]
  | OVCParamType.CORE_OD =>
    if param.useDefault then [AMDGPUCall.setOverdriveCoreParam i (some 0)]
    else [AMDGPUCall.setOverdriveCoreParam i (some (cround param.value))]
  | OVCParamType.MEMORY_OD =>
    if param.useDefault then [AMDGPUCall.setOverdriveMemoryParam i (some 0)]
    else [AMDGPUCall.setOverdriveMemoryParam i (some (cround param.value))]
  | _ => []

/-- The function `AmdGpuProOvc::setParameters` (lines 302-370): the overdrive calls it
issues, in order. -/
def setParameters (ovcParams : List OVCParameter) (adaptersNum : Int)
    (perfClocksList : List PerfClocks) (junk : PerfClocks) : List AMDGPUCall :=
  ovcParams.foldl (fun calls param =>
    if param.type ≠ OVCParamType.FAN_SPEED then
      (iterate param.adapters param.allAdapters adaptersNum).foldl
        (fun calls i => calls ++ setParameterAt perfClocksList junk param i) calls
    else calls) []

/-- The function `AmdGpuProOvc::setFanSpeeds` (lines 31-47): the fan calls it issues. -/
def setFanSpeeds (adaptersNum : Nat) (fanSpeedSetups : List FanSpeedSetup) :
    List AMDGPUCall :=
  (List.range adaptersNum).filterMap (fun i =>
    let setup := fanSpeedSetups.getD i ⟨0, false, false⟩
    if setup.isSet then
      if !setup.useDefault then some (AMDGPUCall.setFanSpeed i (cround setup.value))
      else some (AMDGPUCall.setFanSpeedToDefault i)
    else none)

/-- The three checks of `Set` (lines 7-14) and the variable `failed` they leave. -/
def validate (adaptersNum : Nat) (OvcParams : List OVCParameter)
    (PerfClocksList : List PerfClocks) (junk : PerfClocks) : Check :=
  let st := checkAdapterIndicies OvcParams adaptersNum ⟨false, []⟩
  let st := checkFanSpeeds OvcParams st
  checkParameters OvcParams adaptersNum PerfClocksList junk st

/-- The adapter indices `i` with which `AmdGpuProOvc::checkParameters` (lines 88-159) indexes
`perfClocksList` (line 112), in the order of the reads. -/
def checkParametersIndices (adaptersNum : Int) (ovcParams : List OVCParameter) : List Int :=
  ovcParams.flatMap (fun param =>
    if param.type ≠ OVCParamType.FAN_SPEED then
      (iterate param.adapters param.allAdapters adaptersNum).filter
        (fun i => !decide (i ≥ adaptersNum) &&
          decide ((if param.partId ≠ LAST_PERFLEVEL then param.partId else 0) = 0))
    else [])

/-- The function `AmdGpuProOvc::Set` (lines 3-29).  `adaptersNum` is what
`Handle_.getAdaptersNum()` returns; `throwErrorOnFailed` is the `if`.  The behaviour is
undefined when `checkParameters` has read `perfClocksList` outside its bounds. -/
def Set (adaptersNum : Nat) (OvcParams : List OVCParameter)
    (PerfClocksList : List PerfClocks) (junk : PerfClocks) : Outcome AMDGPUCall :=
  let st := validate adaptersNum OvcParams PerfClocksList junk
  let undefined :=
    (checkParametersIndices adaptersNum OvcParams).any (fun i => decide (i < 0))
  if st.failed then ⟨st.err, [], some "Invalid parameters.", undefined⟩
  else
    let fanSpeedSetups : List FanSpeedSetup := List.replicate adaptersNum ⟨0, false, false⟩
    let fanSpeedSetups := setFanSpeedSetup fanSpeedSetups OvcParams adaptersNum
    ⟨st.err,
      setParameters OvcParams adaptersNum PerfClocksList junk ++
        setFanSpeeds adaptersNum fanSpeedSetups,
      none, undefined⟩

end AmdGpuProOvc

namespace ADL

/-- Lines 1777-1780: the line "Voltage for adapter i is not set!" that the body of the loop of
the level merge writes to `std::cout` for a voltage directive with a value when the current
voltage of the level is 0; the result is the list of the adapters named (none or one). -/
def mergeNoteAt (odParams : List ADLODParameters) (junk : ADLODParameters)
    (param : OVCParameter) (ls : LevelState) (i : Int) : List Int :=
  let partId := resolveLevel odParams junk param i
  let zero : ADLODPerformanceLevel := ⟨0, 0, 0⟩
  let perfLevel := readAt (readAt ls.perfLevels i []) partId zero
  match param.type with
  | OVCParamType.VDDC_VOLTAGE =>
    if param.useDefault then []
    else if perfLevel.iVddc = 0 then [i]
    else []
  | _ => []

/-- Lines 1732-1795, the level merge together with the lines it writes to `std::cout`: the
state of the vectors and the adapters named in "Voltage for adapter i is not set!", in the
order printed. -/
def levelMergeNotes (odParams : List ADLODParameters) (junk : ADLODParameters)
    (defaultPerfLevels : List (List ADLODPerformanceLevel)) (realAdaptersNum : Int)
    (ovcParams : List OVCParameter) (ls : LevelState) : LevelState × List Int :=
  ovcParams.foldl (fun (acc : LevelState × List Int) param =>
    if param.type ≠ OVCParamType.FAN_SPEED then
      (iterate param.adapters param.allAdapters realAdaptersNum).foldl
        (fun (acc : LevelState × List Int) i =>
          (mergeAt odParams junk defaultPerfLevels param acc.1 i,
            acc.2 ++ mergeNoteAt odParams junk param acc.1 i)) acc
    else acc) (ls, [])

/-- The adapters named in the lines "Voltage for adapter i is not set!" that
`setOVCParameters` writes to `std::cout` during the level merge of a batch. -/
def mergeNotes (mainControl : ADLMainControl) (activeAdapters : List Int)
    (ovcParams : List OVCParameter) (junk : ADLODParameters) : List Int :=
  (levelMergeNotes (readODParams mainControl activeAdapters) junk
    (readPerfLevels mainControl activeAdapters true) activeAdapters.length ovcParams
    ⟨readPerfLevels mainControl activeAdapters false,
      List.replicate activeAdapters.length false⟩).2

end ADL

/-! ## The argument loop of `main` -/

/-- The local variables of `main` that the argument loop sets (lines 2223-2230), and the
messages `parseOVCParameter` has written for the tokens it rejected, each with its token. -/
structure ArgState where
  printHelp : Bool
  printVerbose : Bool
  ovcParameters : List OVCParameter
  choosenAdapters : List Int
  useAdaptersList : Bool
  chooseAllAdapters : Bool
  failed : Bool
  err : List (List Char × ParseDiag)
deriving DecidableEq

/-- The variables as initialised in lines 2223-2230. -/
def ArgState.init : ArgState := ⟨false, false, [], [], false, false, false, []⟩

/-- How the argument loop ends: it runs to its end, `main` returns from inside it, an `Error`
is thrown inside it, or a call runs into undefined behaviour. -/
inductive LoopResult where
  | done (st : ArgState)
  | returned (code : Int) (st : ArgState)
  | thrown (what : String) (st : ArgState)
  | undefined
deriving DecidableEq

/-- The calls `parseAdaptersList(list, choosenAdapters, chooseAllAdapters)` of lines 2244,
2251, 2263 and 2267 with the assignment `useAdaptersList = true` that follows; `next` is the rest
of the loop. -/
def adaptersOption (list : List Char) (st : ArgState) (next : ArgState → LoopResult) :
    LoopResult :=
  match parseAdaptersListOn list ⟨st.choosenAdapters, st.chooseAllAdapters⟩ with
  | (vars, Status.ok) =>
    next { st with choosenAdapters := vars.adapters, chooseAllAdapters := vars.allAdapters,
                   useAdaptersList := true }
  | (vars, Status.thrown what) =>
    LoopResult.thrown what
      { st with choosenAdapters := vars.adapters, chooseAllAdapters := vars.allAdapters }
  | _ => LoopResult.undefined

/-- The loop `for (int i = 1; i < argc; i++)` of `main` (lines 2232-2298) over the arguments
that are left.  `value0` stands for the content of the uninitialised `param.value`. -/
def argLoop (value0 : ℚ) : List (List Char) → ArgState → LoopResult
  | [], st => LoopResult.done st
  | arg :: rest, st =>
    if arg = "--help".toList ∨ arg = "-?".toList then
      argLoop value0 rest { st with printHelp := true }
    else if arg = "--verbose".toList ∨ arg = "-v".toList then
      argLoop value0 rest { st with printVerbose := true }
    else if arg.take 11 = "--adapters=".toList then
      adaptersOption (arg.drop 11) st (argLoop value0 rest)
    else if arg = "--adapters".toList then
      match rest with
      | list :: rest1 => adaptersOption list st (argLoop value0 rest1)
      | [] => LoopResult.thrown "Adapter list not supplied" st
    else if arg.take 2 = "-a".toList then
      if arg.drop 2 ≠ [] then adaptersOption (arg.drop 2) st (argLoop value0 rest)
      else
        match rest with
        | list :: rest1 => adaptersOption list st (argLoop value0 rest1)
        | [] => LoopResult.thrown "Adapter list not supplied" st
    else if arg = "--version".toList then LoopResult.returned 0 st
    else
      match parseOVCParameter arg value0 with
      | ParseResult.accepted param =>
        argLoop value0 rest { st with ovcParameters := st.ovcParameters ++ [param] }
      | ParseResult.rejected diag =>
        argLoop value0 rest { st with failed := true, err := st.err ++ [(arg, diag)] }
      | ParseResult.undefined => LoopResult.undefined

/-- How `main` ends before it opens a backend, or that it goes on to open one. -/
inductive MainResult where
  | exit (code : Int) (what : Option String) (st : ArgState)
  | proceed (st : ArgState)
  | undefined
deriving DecidableEq

/-- The function `main` up to line 2311: the argument loop, the help text, which returns 0,
and the `Error` for a token that was rejected, which together with every `Error` thrown in the
loop is caught in line 2402 and makes `main` return 1 after printing its text.  With `proceed`
control reaches line 2313, where a backend is opened; `setOVCParameters` is called from there
when `ovcParameters` is not empty. -/
def main (value0 : ℚ) (argv : List (List Char)) : MainResult :=
  match argLoop value0 argv.tail ArgState.init with
  | LoopResult.done st =>
    if st.printHelp then MainResult.exit 0 none st
    else if st.failed then MainResult.exit 1 (some "Unable to parse parameters") st
    else MainResult.proceed st
  | LoopResult.returned code st => MainResult.exit code none st
  | LoopResult.thrown what st => MainResult.exit 1 (some what) st
  | LoopResult.undefined => MainResult.undefined

/-- The batch `main` hands to `setOVCParameters` (lines 2336-2339, 2357-2368), if it makes
the call. -/
def MainResult.batch : MainResult → Option (List OVCParameter)
  | MainResult.proceed st => if st.ovcParameters ≠ [] then some st.ovcParameters else none
  | _ => none

/-! ## Read-only mode of the AMDGPU backend: `printAdaptersInfo` -/

/-- The loop `for (int ai = 0; ai < adaptersNum; ai++)` of
`printAdaptersInfo(AMDGPUAdapterHandle&, ...)` (lines 852-904) and of
`printAdaptersInfoVerbose` (lines 913-971) for the rounds that are left, with the variables
`ai`, `i` and `choosenIter` (the part of `choosenAdapters` from the iterator on).  The result
holds, for every adapter reported, the number `i` printed after "Adapter" and the index `ai`
given to `parseAdapterInfo`. -/
def printAdaptersLoop (useChoosen : Bool) : Nat → Int → Int → List Int → List (Int × Int)
  | 0, _, _, _ => []
  | rounds + 1, ai, i, choosenIter =>
    if useChoosen && (choosenIter = [] || choosenIter.head? ≠ some i) then
      printAdaptersLoop useChoosen rounds (ai + 1) (i + 1) choosenIter
    else
      (i, ai) :: printAdaptersLoop useChoosen rounds (ai + 1) (i + 1)
        (if useChoosen then choosenIter.tail else choosenIter)

/-- The function `printAdaptersInfo(handle, choosenAdapters, useChoosen)` of the AMDGPU
backend (lines 846-905): the adapters it reports, in the order printed.  `adaptersNum` is what
`handle.getAdaptersNum()` returns. -/
def printAdaptersInfo (adaptersNum : Nat) (choosenAdapters : List Int) (useChoosen : Bool) :
    List (Int × Int) :=
  printAdaptersLoop useChoosen adaptersNum 0 0 choosenAdapters

/-- The function `printAdaptersInfoVerbose(handle, choosenAdapters, useChoosen)` of the AMDGPU
backend (lines 907-972): the adapters it reports, in the order printed. -/
def printAdaptersInfoVerbose (adaptersNum : Nat) (choosenAdapters : List Int)
    (useChoosen : Bool) : List (Int × Int) :=
  printAdaptersLoop useChoosen adaptersNum 0 0 choosenAdapters

/-- The read-only mode of `main` for the AMDGPU backend (lines 2370-2391), entered when
`ovcParameters` is empty: the range check of the adapter list, which throws, and the call of
one of the two print functions; the result is the `Error` or the adapters reported. -/
def amdgpuReadOnly (adaptersNum : Nat) (st : ArgState) : Except String (List (Int × Int)) :=
  if st.useAdaptersList ∧
      st.choosenAdapters.any (fun adapterIndex =>
        decide (adapterIndex ≥ (adaptersNum : Int)) || decide (adapterIndex < 0)) then
    Except.error "Some adapter indices are out of range"
  else if st.printVerbose then
    Except.ok (printAdaptersInfoVerbose adaptersNum st.choosenAdapters
      (st.useAdaptersList && !st.chooseAllAdapters))
  else
    Except.ok (printAdaptersInfo adaptersNum st.choosenAdapters
      (st.useAdaptersList && !st.chooseAllAdapters))

/-! ## The PCIe file parser `parseDPMPCIEFile` -/

/-- The largest `unsigned long` (LP64). -/
def ULONG_MAX : Nat := 2 ^ 64 - 1

/-- What `strtoul(s, &endptr, 10)` leaves behind: the returned value, `endptr`, and whether
`errno` was set to `ERANGE`. -/
structure StrtoulResult where
  value : Nat
  endptr : List Char
  erange : Bool
deriving DecidableEq, Repr

/-- The function `strtoul(s, &endptr, 10)`: the subject sequence is that of `strtol`.
Without one no conversion is performed: the value is 0 and `endptr` is `s`.  A magnitude
beyond `unsigned long` gives `ULONG_MAX` and `ERANGE`; a negative number is negated in
`unsigned long`. -/
def strtoul (s : List Char) : StrtoulResult :=
  match readNumeral s with
  | none => ⟨0, s, false⟩
  | some (v, rest) =>
    if v.natAbs > ULONG_MAX then ⟨ULONG_MAX, rest, true⟩
    else ⟨(v % 2 ^ 64).toNat, rest, false⟩

/-- A `std::ifstream` as `std::getline` sees it: the bytes not yet read and the state bits
`eofbit` and `failbit`. -/
structure IfStream where
  rest : List Char
  eofbit : Bool
  failbit : Bool
deriving DecidableEq

/-- The constructor `std::ifstream ifs(filename, std::ios::binary)`; `none` is a file that
cannot be opened. -/
def openFile : Option (List Char) → IfStream
  | some content => ⟨content, false, false⟩
  | none => ⟨[], false, true⟩

/-- The call `std::getline(ifs, line)` with an empty `line`: the bytes up to the next `'\n'`,
which is taken from the stream and not stored.  At the end of the file `eofbit` is set, and
`failbit` too when no byte was read; on a stream that is not good nothing is read and
`failbit` is set. -/
def getline (ifs : IfStream) : List Char × IfStream :=
  if ifs.eofbit || ifs.failbit then ([], { ifs with failbit := true })
  else
    match strchr ifs.rest '\n' with
    | some after => (upTo ifs.rest '\n', { ifs with rest := after.tail })
    | none => (ifs.rest, ⟨[], true, ifs.rest.isEmpty⟩)

/-- The C string `line.c_str()` as the C library reads it: the bytes before the first NUL. -/
def c_str (line : List Char) : List Char :=
  line.takeWhile (fun c => c ≠ Char.ofNat 0)

/-- The product `d * k` or quotient `d / (1 / k)` of a `double` and a positive constant, rounded
to binary64 (overflow of the product to an infinity is not modelled: the conversion that
follows is undefined for such a value either way). -/
def Double.times (d : Double) (k : ℚ) : Double :=
  match d with
  | Double.finite q => Double.finite (binary64 (q * k))
  | Double.inf negative => Double.inf negative
  | Double.nan => Double.nan

/-- The conversion of a `double` to `unsigned int` in an assignment: the value truncated
towards zero.  C++ leaves the conversion undefined when the truncated value is not an
`unsigned int`, and for an infinity or a NaN; it yields `junk` then. -/
def toUnsigned (junk : Nat) : Double → Nat
  | Double.finite q => if -1 < q ∧ q < 2 ^ 32 then ⌊q⌋.toNat else junk
  | _ => junk

/-- The branches of the unit dispatch of lines 593-608, in source order. -/
inductive UnitBranch where
  | first
  | second
  | third
  | invalid
deriving DecidableEq, Repr

/-- The conditions of the unit dispatch (lines 593, 597, 601): which branch is taken for the
text `p` that follows the bandwidth. -/
def unitBranch (p : List Char) : UnitBranch :=
  if p.head? = some 'G' ∧ p.tail.head? = some 'B' then UnitBranch.first
  else if p.head? = some 'M' ∧ p.tail.head? = some 'B' then UnitBranch.second
  else if p.head? = some 'M' ∧ p.tail.head? = some 'B' then UnitBranch.third
  else UnitBranch.invalid

/-- The bodies of the unit dispatch (lines 595, 599, 603, 607): the new value of `ipcieMB`,
or `none` for the `Error` "Invalid bandwidth specified". -/
def unitValue (junk : Nat) (bandwidth : Double) : UnitBranch → Option Nat
  | UnitBranch.first => some (toUnsigned junk (bandwidth.times 1000))
  | UnitBranch.second => some (toUnsigned junk bandwidth)
  | UnitBranch.third => some (toUnsigned junk (bandwidth.times (1 / 1000)))
  | UnitBranch.invalid => none

/-- How one round of the loop of `parseDPMPCIEFile` ends after a non-empty line: with an
`Error`, with the assignment of the outputs and `break` (lines 623-628), or at the end of the
body, from where the loop goes on. -/
inductive LineResult where
  | thrown (what : String)
  | found (ilanes ipcieMB : Nat)
  | next (ilanes ipcieMB : Nat)
deriving DecidableEq

/-- Lines 563-629, the body of the loop of `parseDPMPCIEFile` for a non-empty line.  The
`Error` carries the text given; its `errno` argument is left out. -/
def parseDPMPCIELine (junk : Nat) (line : List Char) : LineResult :=
  let p := c_str line
  let index := strtoul p
  if index.erange ∨ p = index.endptr then LineResult.thrown "Unable to parse index"
  else
    let p := index.endptr
    if p.head? ≠ some ':' ∨ p.tail.head? ≠ some ' ' then
      LineResult.thrown "Unable to parse next part of line"
    else
      let p := p.drop 2
      let bandwidth := strtod p
      if bandwidth.erange ∨ p = bandwidth.endptr then
        LineResult.thrown "Unable to parse bandwidth"
      else
        let p := bandwidth.endptr
        match unitValue junk bandwidth.value (unitBranch p) with
        | none => LineResult.thrown "Invalid bandwidth specified"
        | some ipcieMB =>
          let p := p.drop 2
          if p.take 3 ≠ ", x".toList then
            LineResult.thrown "Unable to parse next part of line"
          else
            let lanesRead := strtoul p
            let ilanes := lanesRead.value % 2 ^ 32
            if lanesRead.erange ∨ p = lanesRead.endptr then
              LineResult.thrown "Unable to parse lanes"
            else if p.head? = some ' ' ∧ p.tail.head? = some '*' then
              LineResult.found ilanes ipcieMB
            else LineResult.next ilanes ipcieMB

/-- How a call of `parseDPMPCIEFile` ends: it returns with the values its two outputs then
hold, or it throws an `Error`; `outOfFuel` is the model running out of rounds. -/
inductive PcieResult where
  | returned (pcieMB lanes : Nat)
  | thrown (what : String)
  | outOfFuel
deriving DecidableEq

/-- The loop `while (ifs)` of `parseDPMPCIEFile` (lines 554-630) with the local variables
`ilanes`, `ipcieMB` and the outputs `pcieMB`, `lanes`. -/
def parseDPMPCIELoop (junk : Nat) : Nat → IfStream → Nat → Nat → Nat → Nat → PcieResult
  | 0, _, _, _, _, _ => PcieResult.outOfFuel
  | fuel + 1, ifs, _, _, pcieMB, lanes =>
    if ifs.failbit then PcieResult.returned pcieMB lanes
    else
      match getline ifs with
      | (line, ifs) =>
        if line = [] then PcieResult.returned pcieMB lanes
        else
          match parseDPMPCIELine junk line with
          | LineResult.thrown what => PcieResult.thrown what
          | LineResult.found ilanes ipcieMB => PcieResult.returned ipcieMB ilanes
          | LineResult.next ilanes ipcieMB =>
            parseDPMPCIELoop junk fuel ifs ilanes ipcieMB pcieMB lanes

/-- The function `parseDPMPCIEFile(filename, pcieMB, lanes)` (lines 548-633) on a file with
the given content (`none`: the file cannot be opened); `pcieMB` and `lanes` are what the two
outputs hold before the call.  The fuel covers one round per byte of the file. -/
def parseDPMPCIEFile (junk : Nat) (file : Option (List Char)) (pcieMB lanes : Nat) :
    PcieResult :=
  parseDPMPCIELoop junk ((openFile file).rest.length + 2) (openFile file) 0 0 pcieMB lanes

/-! ## Notions used in the statements -/

/-- A directive whose explicit selection holds an index outside `0 ≤ i < N`. -/
def offending (N : Int) (p : OVCParameter) : Bool :=
  !p.allAdapters && p.adapters.any (fun i => decide (i < 0) || decide (i ≥ N))

/-- The state `st'` comes from `st` by printing messages: `failed` is set exactly when a
message was printed. -/
def Check.Ext (st st' : Check) : Prop :=
  ∃ l, st'.err = st.err ++ l ∧ st'.failed = (st.failed || !l.isEmpty)

/-- The legal interval and the message of a range check of the Catalyst engine, in the unit of
the directive: clocks are reported in 10 kHz, the voltage in mV. -/
def rangeOf (od : ADLODParameters) : OVCParamType → Option (ℚ × ℚ × DiagKind)
  | OVCParamType.CORE_CLOCK =>
    some (binary64 ((od.sEngineClock.iMin : ℚ) / 100), binary64 ((od.sEngineClock.iMax : ℚ) / 100),
      DiagKind.coreClock)
  | OVCParamType.MEMORY_CLOCK =>
    some (binary64 ((od.sMemoryClock.iMin : ℚ) / 100), binary64 ((od.sMemoryClock.iMax : ℚ) / 100),
      DiagKind.memoryClock)
  | OVCParamType.VDDC_VOLTAGE =>
    some (binary64 ((od.sVddc.iMin : ℚ) / 1000), binary64 ((od.sVddc.iMax : ℚ) / 1000),
      DiagKind.voltage)
  | _ => none

/-- The six bounds of the parameters of an adapter are values of the type `int` of the fields
of `ADLODParameterRange`. -/
def ADLODParameters.inIntRange (od : ADLODParameters) : Prop :=
  ((INT_MIN ≤ od.sEngineClock.iMin ∧ od.sEngineClock.iMin ≤ INT_MAX) ∧
    (INT_MIN ≤ od.sEngineClock.iMax ∧ od.sEngineClock.iMax ≤ INT_MAX)) ∧
  ((INT_MIN ≤ od.sMemoryClock.iMin ∧ od.sMemoryClock.iMin ≤ INT_MAX) ∧
    (INT_MIN ≤ od.sMemoryClock.iMax ∧ od.sMemoryClock.iMax ≤ INT_MAX)) ∧
  ((INT_MIN ≤ od.sVddc.iMin ∧ od.sVddc.iMin ≤ INT_MAX) ∧
    (INT_MIN ≤ od.sVddc.iMax ∧ od.sVddc.iMax ≤ INT_MAX))

/-- The upper end of the clock envelope of the AMDGPU engines for the base clock `c`: the
product `c * 1.20` as the code computes it, the `double` nearest to 1.20 times `c`, rounded to
binary64. -/
def clockCeiling (c : Nat) : ℚ :=
  binary64 ((c : ℚ) * binary64 (120 / 100))

/-- Some directive other than a fan speed one resolves to device `d`. -/
def touched (params : List OVCParameter) (N : Int) (d : Nat) : Bool :=
  params.any (fun p => decide (p.type ≠ OVCParamType.FAN_SPEED) &&
    (iterate p.adapters p.allAdapters N).contains (d : Int))

/-- The last fan speed directive, in input order, that resolves to device `d`. -/
def lastFan (params : List OVCParameter) (N : Int) (d : Nat) : Option OVCParameter :=
  (params.filter (fun p => decide (p.type = OVCParamType.FAN_SPEED) &&
    (iterate p.adapters p.allAdapters N).contains (d : Int))).getLast?

/-- A call that sets a fan. -/
def ADLCall.isFan : ADLCall → Bool
  | ADLCall.setFanSpeed _ _ _ => true
  | ADLCall.setFanSpeedToDefault _ _ => true
  | ADLCall.setODPerformanceLevels _ _ _ => false

/-- A call that sets a fan. -/
def AMDGPUCall.isFan : AMDGPUCall → Bool
  | AMDGPUCall.setFanSpeed _ _ => true
  | AMDGPUCall.setFanSpeedToDefault _ => true
  | _ => false

/-- An entry of `fanSpeedSetups` that no directive has touched. -/
def FanSpeedSetup.unset : FanSpeedSetup := ⟨0, false, false⟩

/-- The directive of a token the parser accepts (a fan speed directive for no adapter
otherwise). -/
def directive (token : String) : OVCParameter :=
  match parseOVCParameter token.toList 0 with
  | ParseResult.accepted param => param
  | _ => ⟨OVCParamType.FAN_SPEED, [], false, 0, 0, false, []⟩

/-- Example backend: every adapter has two levels, core clock 300-1200 MHz, memory clock
300-1500 MHz, voltage 0.8-1.2 V; the current levels run at 600 MHz and the default ones at
500 MHz. -/
def exampleControl : ADLMainControl where
  getODParameters := fun _ => ⟨2, ⟨30000, 120000, 100⟩, ⟨30000, 150000, 100⟩, ⟨800, 1200, 1⟩⟩
  getODPerformanceLevels := fun _ isDefault level =>
    ⟨if isDefault then 50000 else 60000, 100000, 1000 + level⟩

/-- Example content of memory outside `odParams`. -/
def exampleJunk : ADLODParameters := ⟨0, ⟨0, 0, 0⟩, ⟨0, 0, 0⟩, ⟨0, 0, 0⟩⟩

/-- Lines 1223-1235, the end of the body of the loop of `parseAdaptersList`: stop at the end
of the text, go on after a comma, throw otherwise. -/
def afterTerm (fuel : Nat) (string : List Char) (adapters : List Int) : List Int × Status :=
  match string with
  | [] => (adapters, Status.ok)
  | c :: rest =>
    if c = ',' then parseAdaptersLoop fuel rest adapters
    else (adapters, Status.thrown "Invalid data in adapter list")

/-- One term of a selector as the grammar reads it, a numeral or `numeral-numeral`, with the
text after it: the first and last integer it covers. -/
def readTerm (s : List Char) : Option ((Int × Int) × List Char) :=
  match readNumeral s with
  | none => none
  | some (a, r) =>
    if r.head? = some '-' then
      match readNumeral r.tail with
      | none => none
      | some (b, r1) => some ((a, b), r1)
    else some ((a, a), r)

/-- The terms of a comma-separated selector as the grammar reads them (`fuel` bounds the
number of terms). -/
def specTerms : Nat → List Char → Option (List (Int × Int))
  | 0, _ => none
  | fuel + 1, s =>
    match readTerm s with
    | none => none
    | some (t, []) => some [t]
    | some (t, c :: rest) =>
      if c = ',' then (specTerms fuel rest).map (fun ts => t :: ts) else none

/-- The terms of a selector text, `none` when it is not a comma-separated list of terms. -/
def selectorTerms (s : List Char) : Option (List (Int × Int)) :=
  specTerms (s.length + 1) s

/-- Every bound of every term is an `int`. -/
def fitsInt (ts : List (Int × Int)) : Prop :=
  ∀ t ∈ ts, INT_MIN ≤ t.1 ∧ t.1 ≤ INT_MAX ∧ INT_MIN ≤ t.2 ∧ t.2 ≤ INT_MAX

/-- The number a string of decimal digits denotes. -/
def decVal (ds : List Char) : Nat :=
  ds.foldl (fun a c => a * 10 + digitVal c) 0

/-- The names that take a level, with their kind. -/
def levelCapable : List (List Char × OVCParamType) :=
  [("coreclk".toList, OVCParamType.CORE_CLOCK), ("memclk".toList, OVCParamType.MEMORY_CLOCK),
   ("vcore".toList, OVCParamType.VDDC_VOLTAGE), ("coreod".toList, OVCParamType.CORE_OD),
   ("memod".toList, OVCParamType.MEMORY_OD), ("fanspeed".toList, OVCParamType.FAN_SPEED)]

/-- The characters a selector text accepted by the grammar is made of. -/
def selChar (c : Char) : Bool :=
  isspace c || c == '+' || c == '-' || isdigit c || c == ','

/-- A decimal number as the grammar reads it: an optional sign, digits with an optional
fraction part (at least one digit in all) and an optional exponent, and nothing else.  The value
is the number the text denotes. -/
def decimalNumber (v : List Char) : Option ℚ :=
  match scanNumber 10 (scanSign v).2 with
  | some (m, []) => some (if (scanSign v).1 then -m else m)
  | _ => none

/-- The name of a token: the text before its first `:` or `=`. -/
def tokenName (string : List Char) : List Char :=
  string.takeWhile (fun c => c != ':' && c != '=')

/-- The token has no selector sub-clause (`name=value`) or an empty one (`name:=value`,
`name::level=value`): there is no `:`, or the first `:` is directly followed by `:` or `=`. -/
def noSelector (string : List Char) : Bool :=
  match strchr string ':' with
  | none => true
  | some afterName => afterName.tail.head? == some ':' || afterName.tail.head? == some '='

/-- The token has no level sub-clause: it holds at most one `:`. -/
def noLevel (string : List Char) : Bool :=
  match strchr string ':' with
  | none => true
  | some afterName => (strchr afterName.tail ':').isNone

/-- The level a directive gets when its token has no level sub-clause: the last level for
`coreclk`, `memclk`, `vcore`, `coreod` and `memod`, 0 for every other name. -/
def defaultLevel (name : List Char) : Int :=
  if name ∈ ["coreclk".toList, "memclk".toList, "vcore".toList, "coreod".toList,
      "memod".toList] then LAST_PERFLEVEL
  else 0

/-- The names of the idle level, with the name of the same kind that takes a level. -/
def idleNames : List (List Char × List Char) :=
  [("icoreclk".toList, "coreclk".toList), ("imemclk".toList, "memclk".toList),
   ("ivcore".toList, "vcore".toList)]

/-- The messages the fan speed check prints for one directive. -/
def fanDiags (param : OVCParameter) : List Diag :=
  if param.type = OVCParamType.FAN_SPEED then
    (if param.partId ≠ 0 then [⟨DiagKind.thermalControlIndex, param.argText⟩] else []) ++
      (if param.useDefault = false ∧ (param.value < 0 ∨ 100 < param.value) then
        [⟨DiagKind.fanSpeedRange, param.argText⟩] else [])
  else []

/-- Example backend with adapters of different depth: adapter `i` has `i + 2` levels. -/
def steppedControl : ADLMainControl where
  getODParameters := fun i =>
    ⟨i.toNat + 2, ⟨30000, 120000, 100⟩, ⟨30000, 150000, 100⟩, ⟨800, 1200, 1⟩⟩
  getODPerformanceLevels := fun _ isDefault level =>
    ⟨if isDefault then 50000 else 60000, 100000, 1000 + level⟩

/-- The base clock a clock directive is measured against: the memory clock of the device for
`memclk`, its core clock for `coreclk`. -/
def baseClock (type : OVCParamType) (clocks : PerfClocks) : Nat :=
  if type = OVCParamType.MEMORY_CLOCK then clocks.memoryClock else clocks.coreClock

/-- The message of the range check of a clock directive in the AMDGPU engines. -/
def clockDiag (type : OVCParamType) : DiagKind :=
  if type = OVCParamType.MEMORY_CLOCK then DiagKind.memoryClock else DiagKind.coreClock

/-- The message of the range check of an overdrive directive in the AMDGPU engines. -/
def overdriveDiag (type : OVCParamType) : DiagKind :=
  if type = OVCParamType.MEMORY_OD then DiagKind.memoryOverdrive else DiagKind.coreOverdrive

/-- A call `setOverdriveCoreParam` for device `d`. -/
def AMDGPUCall.isCoreOn (d : Int) : AMDGPUCall → Bool
  | AMDGPUCall.setOverdriveCoreParam i _ => i == d
  | _ => false

/-- A call `setOverdriveMemoryParam` for device `d`. -/
def AMDGPUCall.isMemoryOn (d : Int) : AMDGPUCall → Bool
  | AMDGPUCall.setOverdriveMemoryParam i _ => i == d
  | _ => false

/-- The number of times the directives of the kinds `kinds` of a batch resolve to device `d`,
counted over the directives in input order. -/
def resolutions (kinds : List OVCParamType) (params : List OVCParameter) (N : Int) (d : Int) :
    Nat :=
  ((params.filter (fun p => p.type ∈ kinds)).map
    (fun p => (iterate p.adapters p.allAdapters N).count d)).sum

/-- Example backend whose current levels have no voltage set: two levels per adapter, current
voltage 0, default voltage 1000 mV. -/
def coldControl : ADLMainControl where
  getODParameters := fun _ => ⟨2, ⟨30000, 120000, 100⟩, ⟨30000, 150000, 100⟩, ⟨800, 1200, 1⟩⟩
  getODPerformanceLevels := fun _ isDefault _ =>
    ⟨60000, 100000, if isDefault then 1000 else 0⟩

/-- A backend whose read of the current levels returns what was last written: the backend after
one write call.  After `setODPerformanceLevels a n levels` the current level `l` of adapter `a`
is entry `l` of `levels`; the default levels, the parameters of the adapters and the levels of
the other adapters stay as they are, and a fan call changes none of them. -/
def ADLMainControl.after (mc : ADLMainControl) : ADLCall → ADLMainControl
  | ADLCall.setODPerformanceLevels a _ levels =>
    { mc with
      getODPerformanceLevels := fun i isDefault level =>
        if i = a ∧ isDefault = false then levels.getD level ⟨0, 0, 0⟩
        else mc.getODPerformanceLevels i isDefault level }
  | _ => mc

/-- The backend after a list of write calls, applied in order. -/
def ADLMainControl.afterAll (mc : ADLMainControl) (calls : List ADLCall) : ADLMainControl :=
  calls.foldl ADLMainControl.after mc

/-- A call `setODPerformanceLevels` for adapter `a`. -/
def ADLCall.isLevelsOn (a : Int) : ADLCall → Bool
  | ADLCall.setODPerformanceLevels b _ _ => b == a
  | _ => false

/-- The array of levels of a device after one step of the level merge for a directive that
resolves to level `l` there: `row` is the array before the step, `dfltRow` the array of the
default levels of the device. -/
def mergedRow (param : OVCParameter) (l : Int) (row dfltRow : List ADLODPerformanceLevel) :
    List ADLODPerformanceLevel :=
  writeAt row l (ADL.mergeLevel param (readAt row l ⟨0, 0, 0⟩) (readAt dfltRow l ⟨0, 0, 0⟩))

/-- One directive merged into a level, in the words of the specification: the field of the
kind of the directive (the core clock for `coreclk`, the memory clock for `memclk`, the voltage
for `vcore`) becomes the field of the default level when the directive is `default`, and
otherwise `round(value * 100)` for a clock and, when the current voltage is not 0,
`round(value * 1000)` for the voltage, the products taken in binary64; every other field is
kept. -/
def mergedLevelSpec (p : OVCParameter) (cur dfl : ADLODPerformanceLevel) :
    ADLODPerformanceLevel :=
  ⟨if p.type = OVCParamType.CORE_CLOCK then
      (if p.useDefault then dfl.iEngineClock else cround (binary64 (p.value * 100)))
    else cur.iEngineClock,
   if p.type = OVCParamType.MEMORY_CLOCK then
      (if p.useDefault then dfl.iMemoryClock else cround (binary64 (p.value * 100)))
    else cur.iMemoryClock,
   if p.type = OVCParamType.VDDC_VOLTAGE then
      (if p.useDefault then dfl.iVddc
        else if cur.iVddc = 0 then 0 else cround (binary64 (p.value * 1000)))
    else cur.iVddc⟩

/-- The level array of device `d` after the directives of a batch have been merged into it in
input order: starting from the current array `row`, each directive of the batch other than a
fan speed one that resolves to `d` is merged, one after the other in the order of the batch,
into the level it names, or into the last of the `levels` levels of the device when it names
none; `dfltRow` is the array of the default levels of the device. -/
def mergedArraySpec (params : List OVCParameter) (N : Int) (d : Nat) (levels : Nat)
    (row dfltRow : List ADLODPerformanceLevel) : List ADLODPerformanceLevel :=
  params.foldl (fun row p =>
    if p.type ≠ OVCParamType.FAN_SPEED ∧ (d : Int) ∈ iterate p.adapters p.allAdapters N then
      writeAt row (if p.partId ≠ LAST_PERFLEVEL then p.partId else (levels : Int) - 1)
        (mergedLevelSpec p
          (readAt row (if p.partId ≠ LAST_PERFLEVEL then p.partId else (levels : Int) - 1)
            ⟨0, 0, 0⟩)
          (readAt dfltRow (if p.partId ≠ LAST_PERFLEVEL then p.partId else (levels : Int) - 1)
            ⟨0, 0, 0⟩))
    else row) row

/-- The array of current levels of adapter `a` after the level merge of one directive that
resolves to a device of that adapter: the array read from the backend with one step of the merge
applied, at the level the directive resolves to. -/
def ADLMainControl.rowAfter (mc : ADLMainControl) (param : OVCParameter) (a : Int) :
    List ADLODPerformanceLevel :=
  mergedRow param
    (if param.partId ≠ LAST_PERFLEVEL then param.partId
      else ((mc.getODParameters a).iNumberOfPerformanceLevels : Int) - 1)
    ((List.range (mc.getODParameters a).iNumberOfPerformanceLevels).map
      (mc.getODPerformanceLevels a false))
    ((List.range (mc.getODParameters a).iNumberOfPerformanceLevels).map
      (mc.getODPerformanceLevels a true))

/-- The field of a level that a directive of a kind sets: the core clock for `coreclk`, the
memory clock for `memclk`, the voltage for `vcore`. -/
def field (type : OVCParamType) (level : ADLODPerformanceLevel) : Int :=
  match type with
  | OVCParamType.CORE_CLOCK => level.iEngineClock
  | OVCParamType.MEMORY_CLOCK => level.iMemoryClock
  | OVCParamType.VDDC_VOLTAGE => level.iVddc
  | _ => 0

/-- Some directive of kind `type` in the batch resolves to level `l` of device `d`. -/
def targeted (odParams : List ADLODParameters) (junk : ADLODParameters)
    (params : List OVCParameter) (N : Int) (d l : Nat) (type : OVCParamType) : Bool :=
  params.any (fun p => decide (p.type = type) &&
    (iterate p.adapters p.allAdapters N).contains (d : Int) &&
    decide (ADL.resolveLevel odParams junk p d = (l : Int)))

/-- The positional arguments of an argument list (without the program name): what is left
when the options `--help`, `-?`, `--verbose`, `-v`, `--version`, `--adapters=LIST`, `-aLIST`
and the options `--adapters` and `-a` with the argument that follows them are taken away. -/
def positional : List (List Char) → List (List Char)
  | [] => []
  | arg :: rest =>
    if arg ∈ ["--help".toList, "-?".toList, "--verbose".toList, "-v".toList,
        "--version".toList] then positional rest
    else if arg.take 11 = "--adapters=".toList then positional rest
    else if arg = "--adapters".toList ∨ arg = "-a".toList then
      match rest with
      | _ :: rest1 => positional rest1
      | [] => []
    else if arg.take 2 = "-a".toList then positional rest
    else arg :: positional rest

/-- The positional arguments that `parseOVCParameter` rejects, each with its message, in input
order. -/
def rejectedTokens (value0 : ℚ) (args : List (List Char)) : List (List Char × ParseDiag) :=
  (positional args).filterMap (fun tok =>
    match parseOVCParameter tok value0 with
    | ParseResult.rejected diag => some (tok, diag)
    | _ => none)

/-- The directives of the positional arguments that `parseOVCParameter` accepts, in input
order. -/
def acceptedTokens (value0 : ℚ) (args : List (List Char)) : List OVCParameter :=
  (positional args).filterMap (fun tok =>
    match parseOVCParameter tok value0 with
    | ParseResult.accepted param => some param
    | _ => none)

/-! ## Theorems -/

/-! ### Binary64 rounding -/

theorem log2Loop_spec (fuel n : Nat) (hn : 0 < n) (hf : n ≤ fuel) :
    2 ^ log2Loop fuel n ≤ n ∧ n < 2 ^ (log2Loop fuel n + 1) := by
  induction fuel generalizing n with
  | zero => omega
  | succ fuel ih =>
    rw [log2Loop]
    by_cases h2 : 2 ≤ n
    · rw [if_pos h2]
      obtain ⟨h3, h4⟩ := ih (n / 2) (by omega) (by omega)
      rw [pow_succ] at h4 ⊢
      rw [pow_succ]
      constructor <;> omega
    · rw [if_neg h2]
      have : n = 1 := by omega
      subst this
      simp

/-- The exponent found by `ilogb` brackets the magnitude. -/
theorem ilogb_spec (x : ℚ) (hx : x ≠ 0) :
    (2 : ℚ) ^ ilogb x ≤ |x| ∧ |x| < (2 : ℚ) ^ (ilogb x + 1) := by
  have hnum : 0 < x.num.natAbs := Int.natAbs_pos.mpr (Rat.num_ne_zero.mpr hx)
  have hden : 0 < x.den := x.den_pos
  obtain ⟨a1, a2⟩ := log2Loop_spec _ _ hnum le_rfl
  obtain ⟨b1, b2⟩ := log2Loop_spec _ _ hden le_rfl
  have habs : |x| = (x.num.natAbs : ℚ) / (x.den : ℚ) := by
    conv_lhs => rw [← Rat.num_div_den x]
    rw [abs_div, Nat.abs_cast, Nat.cast_natAbs, Int.cast_abs]
  have hdq : (0 : ℚ) < x.den := by exact_mod_cast hden
  have A1 : ((2 : ℚ) ^ log2Loop x.num.natAbs x.num.natAbs) ≤ (x.num.natAbs : ℚ) := by
    exact_mod_cast a1
  have A2 : (x.num.natAbs : ℚ) < (2 : ℚ) ^ (log2Loop x.num.natAbs x.num.natAbs + 1) := by
    exact_mod_cast a2
  have B1 : ((2 : ℚ) ^ log2Loop x.den x.den) ≤ (x.den : ℚ) := by exact_mod_cast b1
  have B2 : (x.den : ℚ) < (2 : ℚ) ^ (log2Loop x.den x.den + 1) := by exact_mod_cast b2
  unfold ilogb
  generalize log2Loop x.num.natAbs x.num.natAbs = la at *
  generalize log2Loop x.den x.den = lb at *
  have two : (2 : ℚ) ≠ 0 := by norm_num
  have hpa : (0 : ℚ) < 2 ^ la := by positivity
  have hpb : (0 : ℚ) < 2 ^ lb := by positivity
  by_cases h : (2 : ℚ) ^ ((la : Int) - (lb : Int)) ≤ |x|
  · rw [if_pos h]
    refine ⟨h, ?_⟩
    rw [habs, div_lt_iff₀ hdq]
    have e : (2 : ℚ) ^ ((la : Int) - (lb : Int) + 1) = 2 ^ (la + 1) / 2 ^ lb := by
      rw [show (la : Int) - (lb : Int) + 1 = ((la + 1 : Nat) : Int) - (lb : Int) by push_cast; ring,
        zpow_sub₀ two, zpow_natCast, zpow_natCast]
    rw [e, div_mul_eq_mul_div, lt_div_iff₀ hpb]
    calc (x.num.natAbs : ℚ) * 2 ^ lb < 2 ^ (la + 1) * 2 ^ lb :=
          mul_lt_mul_of_pos_right A2 hpb
      _ ≤ 2 ^ (la + 1) * (x.den : ℚ) := mul_le_mul_of_nonneg_left B1 (by positivity)
  · rw [if_neg h]
    rw [not_le] at h
    refine ⟨?_, by rw [sub_add_cancel]; exact h⟩
    rw [habs, le_div_iff₀ hdq]
    have e : (2 : ℚ) ^ ((la : Int) - (lb : Int) - 1) = 2 ^ la / 2 ^ (lb + 1) := by
      rw [show (la : Int) - (lb : Int) - 1 = (la : Int) - ((lb + 1 : Nat) : Int) by push_cast; ring,
        zpow_sub₀ two, zpow_natCast, zpow_natCast]
    rw [e, div_mul_eq_mul_div, div_le_iff₀ (by positivity)]
    calc (2 : ℚ) ^ la * (x.den : ℚ) ≤ 2 ^ la * 2 ^ (lb + 1) :=
          mul_le_mul_of_nonneg_left B2.le (by positivity)
      _ ≤ (x.num.natAbs : ℚ) * 2 ^ (lb + 1) := mul_le_mul_of_nonneg_right A1 (by positivity)

theorem floor_le_roundEven (x : ℚ) : ⌊x⌋ ≤ roundEven x := by
  unfold roundEven
  split_ifs <;> omega

theorem roundEven_le_ceil (x : ℚ) : roundEven x ≤ ⌈x⌉ := by
  unfold roundEven
  by_cases h0 : x - ⌊x⌋ < 1 / 2
  · rw [if_pos h0]
    exact Int.floor_le_ceil x
  · rw [if_neg h0]
    have hlt : (⌊x⌋ : ℚ) < x := by
      have := Int.floor_le x
      rw [not_lt] at h0
      linarith
    have hc : ⌊x⌋ + 1 ≤ ⌈x⌉ := by
      rw [Int.add_one_le_iff, Int.lt_ceil]
      exact hlt
    split_ifs <;> omega

/-- The nearest integer is at most one half away. -/
theorem roundEven_err (x : ℚ) : |(roundEven x : ℚ) - x| ≤ 1 / 2 := by
  have h1 := Int.floor_le x
  have h2 := Int.lt_floor_add_one x
  unfold roundEven
  rw [abs_le]
  split_ifs with a b c
  · constructor <;> linarith
  · push_cast
    constructor <;> linarith
  · rw [not_lt] at a b
    constructor <;> linarith
  · rw [not_lt] at a b
    push_cast
    constructor <;> linarith

theorem le_roundEven (n : Int) (x : ℚ) (h : (n : ℚ) ≤ x) : n ≤ roundEven x :=
  le_trans (Int.le_floor.mpr h) (floor_le_roundEven x)

theorem roundEven_le (n : Int) (x : ℚ) (h : x ≤ (n : ℚ)) : roundEven x ≤ n :=
  le_trans (roundEven_le_ceil x) (Int.ceil_le.mpr h)

/-- The two roundings keep the sign. -/
theorem binary64_nonneg (x : ℚ) (h : 0 ≤ x) : 0 ≤ binary64 x := by
  unfold binary64
  split
  · exact le_rfl
  · apply mul_nonneg
    · have : (0 : Int) ≤ roundEven (x / 2 ^ (max (ilogb x) (-1022) - 52)) :=
        le_roundEven 0 _ (by push_cast; positivity)
      exact_mod_cast this
    · positivity

theorem binary64_nonpos (x : ℚ) (h : x ≤ 0) : binary64 x ≤ 0 := by
  unfold binary64
  split
  · exact le_rfl
  · apply mul_nonpos_of_nonpos_of_nonneg
    · have : roundEven (x / 2 ^ (max (ilogb x) (-1022) - 52)) ≤ (0 : Int) :=
        roundEven_le 0 _ (by
          push_cast
          exact div_nonpos_of_nonpos_of_nonneg h (by positivity))
      exact_mod_cast this
    · positivity

/-- The error of rounding to binary64: at most the relative error `2 ^ -53`, or half the
distance `2 ^ -1074` of the subnormal numbers. -/
theorem binary64_err (x : ℚ) : |binary64 x - x| ≤ |x| / 2 ^ 53 + 1 / 2 ^ 1075 := by
  unfold binary64
  by_cases hx : x = 0
  · rw [if_pos hx, hx]
    simp
  · rw [if_neg hx]
    obtain ⟨h1, -⟩ := ilogb_spec x hx
    generalize ilogb x = e at h1
    have two : (2 : ℚ) ≠ 0 := by norm_num
    have hu : (0 : ℚ) < 2 ^ (max e (-1022) - 52) := by positivity
    have key : |(roundEven (x / 2 ^ (max e (-1022) - 52)) : ℚ) * 2 ^ (max e (-1022) - 52) - x| ≤
        2 ^ (max e (-1022) - 52) / 2 := by
      have := roundEven_err (x / 2 ^ (max e (-1022) - 52))
      have e1 : (roundEven (x / 2 ^ (max e (-1022) - 52)) : ℚ) * 2 ^ (max e (-1022) - 52) - x =
          ((roundEven (x / 2 ^ (max e (-1022) - 52)) : ℚ) - x / 2 ^ (max e (-1022) - 52)) *
            2 ^ (max e (-1022) - 52) := by
        field_simp
      rw [e1, abs_mul, abs_of_pos hu]
      calc _ ≤ 1 / 2 * (2 : ℚ) ^ (max e (-1022) - 52) :=
            mul_le_mul_of_nonneg_right this hu.le
        _ = _ := by ring
    refine le_trans key ?_
    rcases le_total (-1022) e with he | he
    · rw [max_eq_left he]
      have e2 : (2 : ℚ) ^ (e - 52) / 2 = 2 ^ e / 2 ^ 53 := by
        rw [zpow_sub₀ two]
        norm_num
        ring
      rw [e2]
      have : (2 : ℚ) ^ e / 2 ^ 53 ≤ |x| / 2 ^ 53 := by
        apply div_le_div_of_nonneg_right h1 (by positivity)
      have h0 : (0 : ℚ) ≤ 1 / 2 ^ 1075 := by positivity
      linarith
    · rw [max_eq_right he]
      have e2 : (2 : ℚ) ^ ((-1022 : Int) - 52) / 2 = 1 / 2 ^ 1075 := by
        rw [show ((-1022 : Int) - 52) = -((1074 : Nat) : Int) by norm_num, zpow_neg, zpow_natCast]
        norm_num
      rw [e2]
      have : (0 : ℚ) ≤ |x| / 2 ^ 53 := by positivity
      linarith

/-- A magnitude in the range of the normal numbers is rounded as with unbounded exponent, to
a magnitude in that range. -/
theorem binary64_normal (x : ℚ) (h : 1 / 2 ^ 1022 ≤ |x|) :
    binary64 x = roundTo53 x ∧ 1 / 2 ^ 1022 ≤ |roundTo53 x| := by
  have hx : x ≠ 0 := by
    rintro rfl
    rw [abs_zero] at h
    have : (0 : ℚ) < 1 / 2 ^ 1022 := by positivity
    linarith
  obtain ⟨h1, h2⟩ := ilogb_spec x hx
  have two : (2 : ℚ) ≠ 0 := by norm_num
  have he : -1022 ≤ ilogb x := by
    by_contra hc
    rw [not_le] at hc
    have : (2 : ℚ) ^ (ilogb x + 1) ≤ 2 ^ (-1022 : Int) :=
      zpow_le_zpow_right₀ (by norm_num) (by omega)
    rw [show (-1022 : Int) = -((1022 : Nat) : Int) by norm_num, zpow_neg, zpow_natCast] at this
    rw [one_div] at h
    linarith
  constructor
  · unfold binary64 roundTo53
    rw [max_eq_left he]
  · unfold roundTo53
    rw [if_neg hx]
    generalize ilogb x = e at h1 h2 he
    have hu : (0 : ℚ) < 2 ^ (e - 52) := by positivity
    have hmin : (1 : ℚ) / 2 ^ 1022 ≤ 2 ^ e := by
      have : (2 : ℚ) ^ (-1022 : Int) ≤ 2 ^ e := zpow_le_zpow_right₀ (by norm_num) he
      rw [show (-1022 : Int) = -((1022 : Nat) : Int) by norm_num, zpow_neg, zpow_natCast] at this
      rw [one_div]
      exact this
    have hq : (2 : ℚ) ^ e / 2 ^ (e - 52) = ((2 ^ 52 : Int) : ℚ) := by
      rw [← zpow_sub₀ two]
      norm_num
    rw [abs_mul, abs_of_pos hu]
    refine le_trans hmin ?_
    rcases le_or_lt 0 x with hpos | hneg
    · rw [abs_of_nonneg hpos] at h1
      have h3 : ((2 ^ 52 : Int) : ℚ) ≤ x / 2 ^ (e - 52) := by
        rw [← hq]
        exact div_le_div_of_nonneg_right h1 hu.le
      have h4 := le_roundEven _ _ h3
      have h5 : ((2 ^ 52 : Int) : ℚ) ≤ (roundEven (x / 2 ^ (e - 52)) : ℚ) := by exact_mod_cast h4
      have h6 : (2 : ℚ) ^ e = ((2 ^ 52 : Int) : ℚ) * 2 ^ (e - 52) := by
        rw [← hq]
        field_simp
      rw [h6]
      exact mul_le_mul_of_nonneg_right (le_trans h5 (le_abs_self _)) hu.le
    · rw [abs_of_neg hneg] at h1
      have h3 : x / 2 ^ (e - 52) ≤ ((-(2 ^ 52) : Int) : ℚ) := by
        have : x ≤ -(2 : ℚ) ^ e := by linarith
        have h7 := div_le_div_of_nonneg_right this hu.le
        rw [neg_div, hq] at h7
        push_cast at h7 ⊢
        exact h7
      have h4 := roundEven_le _ _ h3
      have h5 : (roundEven (x / 2 ^ (e - 52)) : ℚ) ≤ ((-(2 ^ 52) : Int) : ℚ) := by
        exact_mod_cast h4
      have h6 : (2 : ℚ) ^ e = ((2 ^ 52 : Int) : ℚ) * 2 ^ (e - 52) := by
        rw [← hq]
        field_simp
      rw [h6]
      apply mul_le_mul_of_nonneg_right _ hu.le
      have : -(roundEven (x / 2 ^ (e - 52)) : ℚ) ≤ |(roundEven (x / 2 ^ (e - 52)) : ℚ)| :=
        neg_le_abs _
      push_cast at h5 ⊢
      linarith

theorem run_explicit (ads : List Int) (N : Int) :
    ∀ (fuel p : Nat), ads.length ≤ p + fuel →
      AdapterIterator.run fuel ⟨ads, false, N, (p : Int)⟩ = ads.drop p := by
  intro fuel
  induction fuel with
  | zero =>
    intro p h
    simp only [AdapterIterator.run]
    rw [List.drop_eq_nil_of_le]; omega
  | succ f ih =>
    intro p h
    by_cases hp : p < ads.length
    · have hv : AdapterIterator.valid ⟨ads, false, N, (p : Int)⟩ = true := by
        simp [AdapterIterator.valid, hp]
      have hd : AdapterIterator.deref ⟨ads, false, N, (p : Int)⟩ = ads[p] := by
        simp [AdapterIterator.deref, List.getD_eq_getElem?_getD, List.getElem?_eq_getElem hp]
      have hn : AdapterIterator.next ⟨ads, false, N, (p : Int)⟩ =
          ⟨ads, false, N, ((p + 1 : Nat) : Int)⟩ := by
        simp [AdapterIterator.next]
      rw [AdapterIterator.run, if_pos hv, hd, hn, ih (p + 1) (by omega)]
      exact (List.drop_eq_getElem_cons hp).symm
    · have hv : AdapterIterator.valid ⟨ads, false, N, (p : Int)⟩ = false := by
        simp [AdapterIterator.valid]; omega
      rw [AdapterIterator.run, hv]
      simp only [Bool.false_eq_true, if_false]
      rw [List.drop_eq_nil_of_le]; omega

theorem run_all (ads : List Int) (N : Nat) :
    ∀ (fuel p : Nat), N ≤ p + fuel →
      AdapterIterator.run fuel ⟨ads, true, (N : Int), (p : Int)⟩ =
        (List.range' p (N - p)).map (fun (k : Nat) => (k : Int)) := by
  intro fuel
  induction fuel with
  | zero =>
    intro p h
    have : N - p = 0 := by omega
    simp [AdapterIterator.run, this]
  | succ f ih =>
    intro p h
    by_cases hp : p < N
    · have hv : AdapterIterator.valid ⟨ads, true, (N : Int), (p : Int)⟩ = true := by
        simp [AdapterIterator.valid, hp]
      have hn : AdapterIterator.next ⟨ads, true, (N : Int), (p : Int)⟩ =
          ⟨ads, true, (N : Int), ((p + 1 : Nat) : Int)⟩ := by
        simp [AdapterIterator.next]
      have hNp : N - p = (N - (p + 1)) + 1 := by omega
      rw [AdapterIterator.run, if_pos hv, hn, ih (p + 1) (by omega), hNp, List.range'_succ]
      simp [AdapterIterator.deref]
    · have hv : AdapterIterator.valid ⟨ads, true, (N : Int), (p : Int)⟩ = false := by
        simp [AdapterIterator.valid]; omega
      have : N - p = 0 := by omega
      rw [AdapterIterator.run, hv]
      simp [this]

/-- What the loop over an `AdapterIterator` visits. -/
theorem iterate_eq (ads : List Int) (all : Bool) (N : Nat) :
    iterate ads all (N : Int) =
      if all then (List.range N).map (fun (k : Nat) => (k : Int)) else ads := by
  cases all with
  | false =>
    have := run_explicit ads (N : Int) (ads.length + N) 0 (by omega)
    simpa [iterate] using this
  | true =>
    have := run_all ads N (ads.length + N) 0 (by omega)
    simpa [iterate, List.range_eq_range'] using this

theorem iterate_all (ads : List Int) (N : Nat) :
    iterate ads true (N : Int) = (List.range N).map (fun (k : Nat) => (k : Int)) := by
  rw [iterate_eq]; rfl

theorem iterate_explicit (ads : List Int) (N : Nat) :
    iterate ads false (N : Int) = ads := by
  rw [iterate_eq]; rfl

theorem Check.Ext.refl (st : Check) : Check.Ext st st := ⟨[], by simp, by simp⟩

theorem Check.Ext.trans {a b c : Check} (h1 : Check.Ext a b) (h2 : Check.Ext b c) :
    Check.Ext a c := by
  obtain ⟨l1, e1, f1⟩ := h1
  obtain ⟨l2, e2, f2⟩ := h2
  refine ⟨l1 ++ l2, by rw [e2, e1, List.append_assoc], ?_⟩
  rw [f2, f1]
  cases a.failed <;> cases l1 <;> cases l2 <;> simp

theorem Check.Ext.report (st : Check) (k : DiagKind) (p : OVCParameter) :
    Check.Ext st (st.report k p) :=
  ⟨[⟨k, p.argText⟩], rfl, by simp [Check.report]⟩

theorem Check.Ext.foldl {α : Type} (f : Check → α → Check)
    (hf : ∀ st x, Check.Ext st (f st x)) (xs : List α) (st : Check) :
    Check.Ext st (xs.foldl f st) := by
  induction xs generalizing st with
  | nil => exact Check.Ext.refl st
  | cons x xs ih => exact (hf st x).trans (ih (f st x))

theorem Check.Ext.failed_of {a b : Check} (h : Check.Ext a b) (hb : b.failed = false) :
    a.failed = false ∧ b = a := by
  obtain ⟨l, e, f⟩ := h
  rw [hb] at f
  cases l with
  | nil =>
    simp at f e
    refine ⟨f, ?_⟩
    cases a; cases b; simp_all
  | cons x xs => simp at f

theorem Check.Ext.failed_iff {b : Check} (h : Check.Ext ⟨false, []⟩ b) :
    b.failed = true ↔ b.err ≠ [] := by
  obtain ⟨l, e, f⟩ := h
  simp at e f
  rw [f, e]
  cases l <;> simp

/-- The inner loop of the selector phase: one message at the first index out of range. -/
theorem indexFold_eq (N : Int) (param : OVCParameter) (ads : List Int) (lf : Bool) (st : Check) :
    ads.foldl (fun (acc : Bool × Check) adapterIndex =>
        if !acc.1 && (decide (adapterIndex ≥ N) || decide (adapterIndex < 0)) then
          (true, acc.2.report DiagKind.adapterIndices param)
        else acc) (lf, st) =
      if lf then (true, st)
      else if ads.any (fun i => decide (i < 0) || decide (i ≥ N)) then
        (true, st.report DiagKind.adapterIndices param)
      else (false, st) := by
  induction ads generalizing lf st with
  | nil => cases lf <;> simp
  | cons a as ih =>
    rw [List.foldl_cons]
    cases lf with
    | true =>
      have : (if (!(true, st).1 && (decide (a ≥ N) || decide (a < 0))) = true then
          (true, (true, st).2.report DiagKind.adapterIndices param) else (true, st)) =
          (true, st) := by simp
      rw [this, ih]; simp
    | false =>
      by_cases h : a ≥ N ∨ a < 0
      · have h' : (decide (a < 0) || decide (a ≥ N)) = true := by
          rcases h with h | h <;> simp [h]
        have h'' : (decide (a ≥ N) || decide (a < 0)) = true := by
          rcases h with h | h <;> simp [h]
        simp only [Bool.not_false, Bool.true_and, h'', if_true, ih, List.any_cons, h',
          Bool.true_or, Bool.false_eq_true, if_false]
      · have h' : (decide (a < 0) || decide (a ≥ N)) = false := by
          simp; omega
        have h'' : (decide (a ≥ N) || decide (a < 0)) = false := by
          simp; omega
        simp only [Bool.not_false, Bool.true_and, h'', Bool.false_eq_true, if_false, ih,
          List.any_cons, h', Bool.false_or]

/-- The body of the selector phase for one directive. -/
theorem indexStep_eq (N : Int) (st : Check) (param : OVCParameter) :
    (if !param.allAdapters then
      (param.adapters.foldl (fun (acc : Bool × Check) adapterIndex =>
        if !acc.1 && (decide (adapterIndex ≥ N) || decide (adapterIndex < 0)) then
          (true, acc.2.report DiagKind.adapterIndices param)
        else acc) (false, st)).2
    else st) =
      if offending N param then st.report DiagKind.adapterIndices param else st := by
  rw [indexFold_eq]
  cases hall : param.allAdapters <;>
    cases hany : param.adapters.any (fun i => decide (i < 0) || decide (i ≥ N)) <;>
    simp [offending, hall, hany]

theorem reportFold_eq (N : Int) (params : List OVCParameter) (st : Check) :
    params.foldl (fun st param =>
        if offending N param then st.report DiagKind.adapterIndices param else st) st =
      ⟨st.failed || params.any (offending N),
        st.err ++ (params.filter (offending N)).map
          (fun p => ⟨DiagKind.adapterIndices, p.argText⟩)⟩ := by
  induction params generalizing st with
  | nil => simp
  | cons p ps ih =>
    rw [List.foldl_cons, ih]
    cases ho : offending N p <;> simp [ho, Check.report, List.filter_cons]

/-- The selector phase prints one message for each offending directive, in input order. -/
theorem checkIndices_eq (N : Int) (params : List OVCParameter) (st : Check) :
    ADL.checkIndices params N st =
      ⟨st.failed || params.any (offending N),
        st.err ++ (params.filter (offending N)).map
          (fun p => ⟨DiagKind.adapterIndices, p.argText⟩)⟩ := by
  rw [← reportFold_eq]
  unfold ADL.checkIndices
  congr 1
  funext st param
  exact indexStep_eq N st param

theorem amdgpu_checkIndices_eq_ADL (N : Int) (params : List OVCParameter) (st : Check) :
    AMDGPU.checkIndices params N st = ADL.checkIndices params N st := rfl

theorem proovc_checkAdapterIndicies_eq_ADL (N : Int) (params : List OVCParameter)
    (st : Check) :
    AmdGpuProOvc.checkAdapterIndicies params N st = ADL.checkIndices params N st := rfl

theorem fanStep_ext (st : Check) (param : OVCParameter) :
    Check.Ext st
      (if param.type = OVCParamType.FAN_SPEED then
        let st1 :=
          if param.partId ≠ 0 then st.report DiagKind.thermalControlIndex param else st
        if !param.useDefault && (decide (param.value < 0) || decide (param.value > 100)) then
          st1.report DiagKind.fanSpeedRange param
        else st1
      else st) := by
  split
  · have h1 : Check.Ext st
        (if param.partId ≠ 0 then st.report DiagKind.thermalControlIndex param else st) := by
      split
      · exact Check.Ext.report _ _ _
      · exact Check.Ext.refl _
    dsimp only
    split
    · exact h1.trans (Check.Ext.report _ _ _)
    · exact h1
  · exact Check.Ext.refl _

theorem adl_checkFanSpeed_ext (params : List OVCParameter) (st : Check) :
    Check.Ext st (ADL.checkFanSpeed params st) :=
  Check.Ext.foldl _ fanStep_ext params st

theorem adl_checkOtherAt_ext (odParams : List ADLODParameters) (junk : ADLODParameters)
    (N : Int) (param : OVCParameter) (st : Check) (i : Int) :
    Check.Ext st (ADL.checkOtherAt odParams junk N param st i) := by
  unfold ADL.checkOtherAt
  dsimp only
  repeat' split
  all_goals first
    | exact Check.Ext.refl _
    | exact Check.Ext.report _ _ _

theorem adl_checkOther_ext (odParams : List ADLODParameters) (junk : ADLODParameters)
    (N : Int) (params : List OVCParameter) (st : Check) :
    Check.Ext st (ADL.checkOther odParams junk N params st) := by
  unfold ADL.checkOther
  apply Check.Ext.foldl
  intro st param
  split
  · exact Check.Ext.foldl _ (adl_checkOtherAt_ext odParams junk N param) _ st
  · exact Check.Ext.refl _

theorem amdgpu_checkOtherAt_ext (perfClocks : List PerfClocks) (junk : PerfClocks)
    (N : Int) (param : OVCParameter) (st : Check) (i : Int) :
    Check.Ext st (AMDGPU.checkOtherAt perfClocks junk N param st i) := by
  unfold AMDGPU.checkOtherAt
  dsimp only
  repeat' split
  all_goals first
    | exact Check.Ext.refl _
    | exact Check.Ext.report _ _ _

theorem amdgpu_checkOther_ext (perfClocks : List PerfClocks) (junk : PerfClocks)
    (N : Int) (params : List OVCParameter) (st : Check) :
    Check.Ext st (AMDGPU.checkOther perfClocks junk N params st) := by
  unfold AMDGPU.checkOther
  apply Check.Ext.foldl
  intro st param
  split
  · exact Check.Ext.foldl _ (amdgpu_checkOtherAt_ext perfClocks junk N param) _ st
  · exact Check.Ext.refl _

theorem any_offending_eq (N : Int) (params : List OVCParameter) :
    params.any (offending N) =
      !((params.filter (offending N)).map
        (fun p => (⟨DiagKind.adapterIndices, p.argText⟩ : Diag))).isEmpty := by
  induction params with
  | nil => rfl
  | cons p ps ih =>
    cases ho : offending N p <;> simp [List.filter_cons, ho, ih]

theorem checkIndices_ext (N : Int) (params : List OVCParameter) (st : Check) :
    Check.Ext st (ADL.checkIndices params N st) := by
  rw [checkIndices_eq]
  exact ⟨_, rfl, by rw [any_offending_eq]⟩

theorem adl_validate_ext (mc : ADLMainControl) (active : List Int)
    (params : List OVCParameter) (junk : ADLODParameters) :
    Check.Ext ⟨false, []⟩ (ADL.validate mc active params junk) :=
  ((checkIndices_ext _ params _).trans (adl_checkFanSpeed_ext params _)).trans
    (adl_checkOther_ext _ junk _ params _)

theorem amdgpu_validate_ext (N : Nat) (params : List OVCParameter)
    (perfClocks : List PerfClocks) (junk : PerfClocks) :
    Check.Ext ⟨false, []⟩ (AMDGPU.validate N params perfClocks junk) :=
  ((checkIndices_ext _ params _).trans (adl_checkFanSpeed_ext params _)).trans
    (amdgpu_checkOther_ext _ junk _ params _)

theorem proovc_validate_eq (N : Nat) (params : List OVCParameter)
    (perfClocks : List PerfClocks) (junk : PerfClocks) :
    AmdGpuProOvc.validate N params perfClocks junk =
      AMDGPU.validate N params perfClocks junk := rfl

/-- A batch that passes the selector phase resolves to adapters `0 ≤ i < N` only. -/
theorem inRange_of_not_offending (N : Nat) (params : List OVCParameter)
    (h : params.any (offending (N : Int)) = false) :
    ∀ p ∈ params, ∀ i ∈ iterate p.adapters p.allAdapters (N : Int), 0 ≤ i ∧ i < (N : Int) := by
  intro p hp i hi
  cases hall : p.allAdapters with
  | true =>
    rw [hall, iterate_all, List.mem_map] at hi
    obtain ⟨k, hk, hki⟩ := hi
    rw [List.mem_range] at hk
    rw [← hki]
    exact ⟨Int.ofNat_nonneg k, by exact_mod_cast hk⟩
  | false =>
    rw [hall, iterate_explicit] at hi
    have h1 := List.any_eq_false.mp h p hp
    simp only [offending, hall, Bool.not_false, Bool.true_and] at h1
    have h1' : p.adapters.any (fun i => decide (i < 0) || decide (i ≥ (N : Int))) = false := by
      simpa using h1
    have h2 := List.any_eq_false.mp h1' i hi
    simp only [Bool.or_eq_true, decide_eq_true_eq, not_or, not_lt, ge_iff_le, not_le] at h2
    exact h2

theorem adl_validated_inRange (mc : ADLMainControl) (active : List Int)
    (params : List OVCParameter) (junk : ADLODParameters)
    (h : (ADL.validate mc active params junk).failed = false) :
    ∀ p ∈ params, ∀ i ∈ iterate p.adapters p.allAdapters (active.length : Int),
      0 ≤ i ∧ i < (active.length : Int) := by
  have h1 := (((adl_checkFanSpeed_ext params _).trans
    (adl_checkOther_ext _ junk _ params _)).failed_of h).1
  rw [checkIndices_eq] at h1
  exact inRange_of_not_offending active.length params (by simpa using h1)

theorem amdgpu_validated_inRange (N : Nat) (params : List OVCParameter)
    (perfClocks : List PerfClocks) (junk : PerfClocks)
    (h : (AMDGPU.validate N params perfClocks junk).failed = false) :
    ∀ p ∈ params, ∀ i ∈ iterate p.adapters p.allAdapters (N : Int), 0 ≤ i ∧ i < (N : Int) := by
  have h1 := (((adl_checkFanSpeed_ext params _).trans
    (amdgpu_checkOther_ext _ junk _ params _)).failed_of h).1
  have h2 : (ADL.checkIndices params (N : Int) ⟨false, []⟩).failed = false := h1
  rw [checkIndices_eq] at h2
  exact inRange_of_not_offending N params (by simpa using h2)

/-- C5 (selector phase).  In each engine the selector phase sets `failed` exactly when some
directive is offending (an explicit selection with an index `i < 0` or `i ≥ N`) and prints one
message for each offending directive, in input order, whatever the number of its indices out
of range; a directive for all adapters is never offending. -/
theorem selector_phase (N : Int) (params : List OVCParameter) :
    ADL.checkIndices params N ⟨false, []⟩ =
      ⟨params.any (offending N),
        (params.filter (offending N)).map (fun p => ⟨DiagKind.adapterIndices, p.argText⟩)⟩ ∧
    AMDGPU.checkIndices params N ⟨false, []⟩ =
      ⟨params.any (offending N),
        (params.filter (offending N)).map (fun p => ⟨DiagKind.adapterIndices, p.argText⟩)⟩ ∧
    AmdGpuProOvc.checkAdapterIndicies params N ⟨false, []⟩ =
      ⟨params.any (offending N),
        (params.filter (offending N)).map (fun p => ⟨DiagKind.adapterIndices, p.argText⟩)⟩ ∧
    (∀ p : OVCParameter, offending N p = true ↔
      p.allAdapters = false ∧ ∃ i ∈ p.adapters, i < 0 ∨ i ≥ N) := by
  have h := checkIndices_eq N params ⟨false, []⟩
  simp only [Bool.false_or, List.nil_append] at h
  refine ⟨h, ?_, ?_, ?_⟩
  · rw [amdgpu_checkIndices_eq_ADL]; exact h
  · rw [proovc_checkAdapterIndicies_eq_ADL]; exact h
  · intro p
    simp [offending]

/-- C4 (Catalyst range check).  For a directive of a clock or voltage kind, an adapter
`i < N` and a resolved level in range, the check of that adapter (the body of the loop of
"check other params") prints the range message of the kind and sets `failed` exactly when the
directive is not `default` and its value lies outside the interval `rangeOf` of the adapter:
`[iMin/100, iMax/100]` for the clocks, `[iMin/1000, iMax/1000]` for the voltage, the ends being
the quotients `iMin / 100.0`, `iMax / 100.0` (`/ 1000.0`) as the source computes them, in
binary64; a `default` directive prints nothing. -/
theorem catalyst_range_check (odParams : List ADLODParameters) (junk : ADLODParameters)
    (N : Int) (param : OVCParameter) (st : Check) (i : Int) (lo hi : ℚ) (kind : DiagKind)
    (hiN : i < N)
    (h0 : 0 ≤ ADL.resolveLevel odParams junk param i)
    (h1 : ADL.resolveLevel odParams junk param i <
      ((readAt odParams i junk).iNumberOfPerformanceLevels : Int))
    (hr : rangeOf (readAt odParams i junk) param.type = some (lo, hi, kind)) :
    ADL.checkOtherAt odParams junk N param st i =
      if param.useDefault = false ∧ (param.value < lo ∨ param.value > hi) then
        st.report kind param
      else st := by
  unfold ADL.resolveLevel at h0 h1
  unfold ADL.checkOtherAt
  rw [if_neg (by omega)]
  dsimp only
  rw [if_neg (by simp; omega)]
  cases ht : param.type <;> rw [ht] at hr <;> simp only [rangeOf] at hr
  case FAN_SPEED => exact absurd hr (by simp)
  case CORE_OD => exact absurd hr (by simp)
  case MEMORY_OD => exact absurd hr (by simp)
  all_goals
    simp only [Option.some.injEq, Prod.mk.injEq] at hr
    obtain ⟨rfl, rfl, rfl⟩ := hr
    cases hd : param.useDefault <;> simp

/-- Witness of C4: with a core clock range of 300-1200 MHz the directive `coreclk:0:1=1300`
is out of range, the call throws and no level is written; `coreclk:0:1=1200.00000000000001`,
whose value is the double 1200, passes; and with `iMin = 30001` the directive
`coreclk:0:1=300.01` passes, its value and the bound `30001 / 100.0` being the same double. -/
theorem catalyst_range_check_witness :
    ADL.checkOtherAt [exampleControl.getODParameters 0] exampleJunk 1
        (directive "coreclk:0:1=1300") ⟨false, []⟩ 0 =
      (⟨false, []⟩ : Check).report DiagKind.coreClock (directive "coreclk:0:1=1300") ∧
    (ADL.setOVCParameters exampleControl [0] [directive "coreclk:0:1=1300"]
      exampleJunk).thrown = some "Wrong parameters!" ∧
    (ADL.setOVCParameters exampleControl [0] [directive "coreclk:0:1=1300"]
      exampleJunk).calls = [] ∧
    ADL.checkOtherAt [exampleControl.getODParameters 0] exampleJunk 1
        (directive "coreclk:0:1=1200.00000000000001") ⟨false, []⟩ 0 = ⟨false, []⟩ ∧
    ADL.checkOtherAt [⟨2, ⟨30001, 120000, 100⟩, ⟨30000, 150000, 100⟩, ⟨800, 1200, 1⟩⟩]
        exampleJunk 1 (directive "coreclk:0:1=300.01") ⟨false, []⟩ 0 = ⟨false, []⟩ ∧
    (directive "coreclk:0:1=300.01").value = binary64 (30001 / 100) :=
  ⟨(catalyst_range_check [exampleControl.getODParameters 0] exampleJunk 1
      (directive "coreclk:0:1=1300") ⟨false, []⟩ 0 300 1200 DiagKind.coreClock
      (by decide) (by decide!) (by decide!) (by decide!)).trans (by decide!),
    by decide!, by decide!, by decide!, by decide!, by decide!⟩

theorem writeAt_length {α : Type} (xs : List α) (i : Int) (v : α) :
    (writeAt xs i v).length = xs.length := by
  unfold writeAt; split <;> simp

theorem getD_writeAt {α : Type} (xs : List α) (i : Int) (v dflt : α) (d : Nat)
    (hd : d < xs.length) :
    (writeAt xs i v).getD d dflt = if (d : Int) = i then v else xs.getD d dflt := by
  unfold writeAt
  by_cases hi : 0 ≤ i
  · rw [if_pos hi]
    simp only [List.getD_eq_getElem?_getD, List.getElem?_set]
    by_cases hdi : (d : Int) = i
    · have : i.toNat = d := by omega
      simp [this, hdi, hd]
    · have : ¬ i.toNat = d := by omega
      simp [this, hdi]
  · rw [if_neg hi, if_neg (by omega)]

/-- Writing one value at the indices of a list, read back at an index inside the vector. -/
theorem getD_foldl_writeAt {α : Type} (is : List Int) (v dflt : α) (xs : List α) (d : Nat)
    (hd : d < xs.length) :
    (is.foldl (fun a i => writeAt a i v) xs).getD d dflt =
      if (d : Int) ∈ is then v else xs.getD d dflt := by
  induction is generalizing xs with
  | nil => simp
  | cons i is ih =>
    rw [List.foldl_cons, ih _ (by rw [writeAt_length]; exact hd), getD_writeAt _ _ _ _ _ hd]
    by_cases h1 : (d : Int) ∈ is
    · simp [h1]
    · by_cases h2 : (d : Int) = i
      · simp [h2]
      · simp [h1, h2]

theorem length_foldl_writeAt {α : Type} (is : List Int) (v : α) (xs : List α) :
    (is.foldl (fun a i => writeAt a i v) xs).length = xs.length := by
  induction is generalizing xs with
  | nil => rfl
  | cons i is ih => rw [List.foldl_cons, ih, writeAt_length]

/-! ### Level merge: the devices marked as changed -/

theorem changedDevices_foldl_mergeAt (odParams : List ADLODParameters) (junk : ADLODParameters)
    (dflt : List (List ADLODPerformanceLevel)) (param : OVCParameter) (is : List Int)
    (ls : ADL.LevelState) :
    (is.foldl (ADL.mergeAt odParams junk dflt param) ls).changedDevices =
      is.foldl (fun c i => writeAt c i true) ls.changedDevices := by
  induction is generalizing ls with
  | nil => rfl
  | cons i is ih => rw [List.foldl_cons, ih]; rfl

theorem changedDevices_levelMerge (odParams : List ADLODParameters) (junk : ADLODParameters)
    (dflt : List (List ADLODPerformanceLevel)) (N : Int) (params : List OVCParameter)
    (ls : ADL.LevelState) (d : Nat) (hd : d < ls.changedDevices.length) :
    (ADL.levelMerge odParams junk dflt N params ls).changedDevices.getD d false =
      (ls.changedDevices.getD d false || touched params N d) := by
  unfold ADL.levelMerge
  induction params generalizing ls with
  | nil => simp [touched]
  | cons p ps ih =>
    rw [List.foldl_cons]
    by_cases hp : p.type ≠ OVCParamType.FAN_SPEED
    · rw [if_pos hp, ih _ (by
        rw [changedDevices_foldl_mergeAt, length_foldl_writeAt]; exact hd),
        changedDevices_foldl_mergeAt, getD_foldl_writeAt _ _ _ _ _ hd]
      by_cases hm : (d : Int) ∈ iterate p.adapters p.allAdapters N
      · simp [touched, hp, hm]
      · simp [touched, hp, hm]
    · rw [if_neg hp, ih _ hd]
      have hp' : p.type = OVCParamType.FAN_SPEED := by simpa using hp
      simp [touched, hp']

theorem getD_readODParams (mc : ADLMainControl) (active : List Int) (junk : ADLODParameters)
    (d : Nat) (hd : d < active.length) :
    (ADL.readODParams mc active).getD d junk = mc.getODParameters (active.getD d 0) := by
  simp [ADL.readODParams, List.getD_eq_getElem?_getD, List.getElem?_eq_getElem hd]

theorem filter_not_isFan_commitFan (active : List Int) (setups : List FanSpeedSetup) :
    (ADL.commitFan active setups).filter (fun c => !c.isFan) = [] := by
  rw [List.filter_eq_nil_iff]
  intro c hc
  unfold ADL.commitFan at hc
  rw [List.mem_filterMap] at hc
  obtain ⟨i, -, hi⟩ := hc
  dsimp only at hi
  split at hi
  · split at hi <;> (simp only [Option.some.injEq] at hi; subst hi; simp [ADLCall.isFan])
  · simp at hi

theorem filter_isFan_commitFan (active : List Int) (setups : List FanSpeedSetup) :
    (ADL.commitFan active setups).filter (fun c => c.isFan) = ADL.commitFan active setups := by
  rw [List.filter_eq_self]
  intro c hc
  unfold ADL.commitFan at hc
  rw [List.mem_filterMap] at hc
  obtain ⟨i, -, hi⟩ := hc
  dsimp only at hi
  split at hi
  · split at hi <;> (simp only [Option.some.injEq] at hi; subst hi; simp [ADLCall.isFan])
  · simp at hi

theorem filter_isFan_commitLevels (active : List Int) (od : List ADLODParameters)
    (junk : ADLODParameters) (ls : ADL.LevelState) :
    (ADL.commitLevels active od junk ls).filter (fun c => c.isFan) = [] := by
  rw [List.filter_eq_nil_iff]
  intro c hc
  unfold ADL.commitLevels at hc
  rw [List.mem_filterMap] at hc
  obtain ⟨i, -, hi⟩ := hc
  split at hi
  · simp only [Option.some.injEq] at hi; subst hi; simp [ADLCall.isFan]
  · simp at hi

theorem filter_not_isFan_commitLevels (active : List Int) (od : List ADLODParameters)
    (junk : ADLODParameters) (ls : ADL.LevelState) :
    (ADL.commitLevels active od junk ls).filter (fun c => !c.isFan) =
      ADL.commitLevels active od junk ls := by
  rw [List.filter_eq_self]
  intro c hc
  unfold ADL.commitLevels at hc
  rw [List.mem_filterMap] at hc
  obtain ⟨i, -, hi⟩ := hc
  split at hi
  · simp only [Option.some.injEq] at hi; subst hi; simp [ADLCall.isFan]
  · simp at hi

/-- For a batch that passes validation, the level calls of `setOVCParameters` are, in
ascending device order, one `setODPerformanceLevels` for each device that some directive other
than a fan speed one resolves to, with the array of the device in the state the merge leaves. -/
theorem adl_level_calls (mc : ADLMainControl) (active : List Int) (params : List OVCParameter)
    (junk : ADLODParameters) (hv : (ADL.validate mc active params junk).failed = false) :
    (ADL.setOVCParameters mc active params junk).calls.filter (fun c => !c.isFan) =
      (List.range active.length).filterMap (fun d =>
        if touched params active.length d then
          some (ADLCall.setODPerformanceLevels (active.getD d 0)
            (mc.getODParameters (active.getD d 0)).iNumberOfPerformanceLevels
            ((ADL.merged mc active params junk).perfLevels.getD d []))
        else none) := by
  simp only [ADL.setOVCParameters, hv, Bool.false_eq_true, if_false, List.filter_append,
    filter_not_isFan_commitFan, List.nil_append, filter_not_isFan_commitLevels]
  unfold ADL.commitLevels
  apply List.filterMap_congr
  intro d hd
  rw [List.mem_range] at hd
  have hc : (ADL.merged mc active params junk).changedDevices.getD d false =
      touched params active.length d := by
    unfold ADL.merged
    rw [changedDevices_levelMerge _ _ _ _ _ _ _ (by simpa using hd)]
    simp [List.getD_eq_getElem?_getD, List.getElem?_replicate, hd]
  rw [hc, getD_readODParams mc active junk d hd]

/-! ### Fan speed merge -/

/-- The setup a fan speed directive writes. -/
theorem lastFan_cons (p : OVCParameter) (ps : List OVCParameter) (N : Int) (d : Nat) :
    lastFan (p :: ps) N d =
      match lastFan ps N d with
      | some q => some q
      | none =>
        if p.type = OVCParamType.FAN_SPEED ∧ (d : Int) ∈ iterate p.adapters p.allAdapters N
        then some p else none := by
  unfold lastFan
  rw [List.filter_cons]
  by_cases hc : p.type = OVCParamType.FAN_SPEED ∧ (d : Int) ∈ iterate p.adapters p.allAdapters N
  · have : (decide (p.type = OVCParamType.FAN_SPEED) &&
        (iterate p.adapters p.allAdapters N).contains (d : Int)) = true := by
      simp [hc.1, hc.2]
    rw [if_pos this, List.getLast?_cons, if_pos hc]
    cases (List.filter _ ps).getLast? <;> rfl
  · have : ¬ (decide (p.type = OVCParamType.FAN_SPEED) &&
        (iterate p.adapters p.allAdapters N).contains (d : Int)) = true := by
      simpa using hc
    rw [if_neg this, if_neg hc]
    cases (List.filter _ ps).getLast? <;> rfl

/-- The three copies of the fan speed merge, read back at a device inside the vector. -/
theorem getD_fanFold (N : Int) (params : List OVCParameter) (setups : List FanSpeedSetup)
    (d : Nat) (hd : d < setups.length) :
    (params.foldl (fun fanSpeedSetups param =>
        if param.type = OVCParamType.FAN_SPEED then
          (iterate param.adapters param.allAdapters N).foldl
            (fun fanSpeedSetups i =>
              writeAt fanSpeedSetups i ⟨param.value, param.useDefault, true⟩)
            fanSpeedSetups
        else fanSpeedSetups) setups).getD d FanSpeedSetup.unset =
      match lastFan params N d with
      | some p => ⟨p.value, p.useDefault, true⟩
      | none => setups.getD d FanSpeedSetup.unset := by
  induction params generalizing setups with
  | nil => simp [lastFan]
  | cons p ps ih =>
    rw [List.foldl_cons, lastFan_cons]
    by_cases hp : p.type = OVCParamType.FAN_SPEED
    · rw [if_pos hp, ih _ (by rw [length_foldl_writeAt]; exact hd)]
      cases hl : lastFan ps N d with
      | some q => rfl
      | none =>
        dsimp only
        rw [getD_foldl_writeAt _ _ _ _ _ hd]
        by_cases hm : (d : Int) ∈ iterate p.adapters p.allAdapters N
        · rw [if_pos hm, if_pos ⟨hp, hm⟩]
        · rw [if_neg hm, if_neg (fun h => hm h.2)]
    · rw [if_neg hp, ih _ hd]
      cases hl : lastFan ps N d with
      | some q => rfl
      | none =>
        dsimp only
        rw [if_neg (fun h => hp h.1)]

theorem adl_getD_fanMerge (params : List OVCParameter) (N : Nat) (d : Nat) (hd : d < N) :
    (ADL.fanMerge params N).getD d FanSpeedSetup.unset =
      match lastFan params N d with
      | some p => ⟨p.value, p.useDefault, true⟩
      | none => FanSpeedSetup.unset := by
  unfold ADL.fanMerge
  rw [getD_fanFold (N : Int) params _ d (by simpa using hd)]
  cases lastFan params N d with
  | some q => rfl
  | none =>
    simp [List.getD_eq_getElem?_getD, List.getElem?_replicate, hd, FanSpeedSetup.unset]

theorem amdgpu_fanMerge_eq (params : List OVCParameter) (N : Nat) :
    AMDGPU.fanMerge params N = ADL.fanMerge params N := rfl

theorem proovc_setFanSpeedSetup_eq (params : List OVCParameter) (N : Nat) :
    AmdGpuProOvc.setFanSpeedSetup (List.replicate N ⟨0, false, false⟩) params N =
      ADL.fanMerge params N := by
  unfold AmdGpuProOvc.setFanSpeedSetup ADL.fanMerge
  rw [List.map_replicate]

theorem proovc_setFanSpeeds_eq (N : Nat) (setups : List FanSpeedSetup) :
    AmdGpuProOvc.setFanSpeeds N setups = AMDGPU.commitFan N setups := rfl

theorem amdgpu_filter_isFan_commitFan (N : Nat) (setups : List FanSpeedSetup) :
    (AMDGPU.commitFan N setups).filter (fun c => c.isFan) = AMDGPU.commitFan N setups := by
  rw [List.filter_eq_self]
  intro c hc
  unfold AMDGPU.commitFan at hc
  rw [List.mem_filterMap] at hc
  obtain ⟨i, -, hi⟩ := hc
  dsimp only at hi
  split at hi
  · split at hi <;> (simp only [Option.some.injEq] at hi; subst hi; simp [AMDGPUCall.isFan])
  · simp at hi

theorem amdgpu_isFan_setParamAt (perfClocks : List PerfClocks) (junk : PerfClocks)
    (param : OVCParameter) (i : Int) :
    ∀ c ∈ AMDGPU.setParamAt perfClocks junk param i, c.isFan = false := by
  intro c hc
  unfold AMDGPU.setParamAt at hc
  dsimp only at hc
  split at hc
  all_goals first
    | (split at hc <;> (simp only [List.mem_singleton] at hc; subst hc; rfl))
    | simp at hc

theorem amdgpu_filter_isFan_setParams (params : List OVCParameter) (N : Int)
    (perfClocks : List PerfClocks) (junk : PerfClocks) :
    (AMDGPU.setParams params N perfClocks junk).filter (fun c => c.isFan) = [] := by
  unfold AMDGPU.setParams
  suffices h : ∀ (calls : List AMDGPUCall), calls.filter (fun c => c.isFan) = [] →
      (params.foldl (fun calls param =>
        if param.type ≠ OVCParamType.FAN_SPEED then
          (iterate param.adapters param.allAdapters N).foldl
            (fun calls i => calls ++ AMDGPU.setParamAt perfClocks junk param i) calls
        else calls) calls).filter (fun c => c.isFan) = [] from h [] rfl
  induction params with
  | nil => intro calls h; exact h
  | cons p ps ih =>
    intro calls h
    rw [List.foldl_cons]
    apply ih
    split
    · generalize iterate p.adapters p.allAdapters N = is
      induction is generalizing calls with
      | nil => exact h
      | cons i is ih2 =>
        rw [List.foldl_cons]
        apply ih2
        rw [List.filter_append, h, List.nil_append, List.filter_eq_nil_iff]
        intro c hc
        simp [amdgpu_isFan_setParamAt perfClocks junk p i c hc]
    · exact h

theorem proovc_setParameters_eq (params : List OVCParameter) (N : Int)
    (perfClocks : List PerfClocks) (junk : PerfClocks) :
    AmdGpuProOvc.setParameters params N perfClocks junk =
      AMDGPU.setParams params N perfClocks junk := rfl

/-- The fan calls of the Catalyst commit, from the last fan speed directive of each device. -/
theorem adl_commitFan_fanMerge (active : List Int) (params : List OVCParameter) :
    ADL.commitFan active (ADL.fanMerge params active.length) =
      (List.range active.length).filterMap (fun d =>
        (lastFan params active.length d).map (fun p =>
          if p.useDefault then ADLCall.setFanSpeedToDefault (active.getD d 0) 0
          else ADLCall.setFanSpeed (active.getD d 0) 0 (cround p.value))) := by
  unfold ADL.commitFan
  apply List.filterMap_congr
  intro d hd
  rw [List.mem_range] at hd
  have := adl_getD_fanMerge params active.length d hd
  simp only [FanSpeedSetup.unset] at this
  rw [this]
  cases lastFan params active.length d with
  | none => rfl
  | some p => cases hu : p.useDefault <;> simp [hu]

/-- The fan calls of the AMDGPU commit, from the last fan speed directive of each device. -/
theorem amdgpu_commitFan_fanMerge (N : Nat) (params : List OVCParameter) :
    AMDGPU.commitFan N (ADL.fanMerge params N) =
      (List.range N).filterMap (fun d =>
        (lastFan params N d).map (fun p =>
          if p.useDefault then AMDGPUCall.setFanSpeedToDefault d
          else AMDGPUCall.setFanSpeed d (cround p.value))) := by
  unfold AMDGPU.commitFan
  apply List.filterMap_congr
  intro d hd
  rw [List.mem_range] at hd
  have := adl_getD_fanMerge params N d hd
  simp only [FanSpeedSetup.unset] at this
  rw [this]
  cases lastFan params N d with
  | none => rfl
  | some p => cases hu : p.useDefault <;> simp [hu]

/-- C7 (fan speed merge, last writer wins).  For a batch that passes validation, in each
engine: the entry of `fanSpeedSetups` of a device is that of the last fan speed directive
resolving to it and unset without one, and the fan calls are, in ascending device order, one
call for each device with such a directive (`setFanSpeedToDefault` or `setFanSpeed` with the
rounded value) and none for any other device. -/
theorem fan_last_writer_wins (mc : ADLMainControl) (active : List Int)
    (params : List OVCParameter) (junk : ADLODParameters) (N : Nat)
    (perfClocks : List PerfClocks) (junkClocks : PerfClocks) :
    ((ADL.validate mc active params junk).failed = false →
      (∀ d < active.length,
        (ADL.fanMerge params active.length).getD d FanSpeedSetup.unset =
          match lastFan params active.length d with
          | some p => ⟨p.value, p.useDefault, true⟩
          | none => FanSpeedSetup.unset) ∧
      (ADL.setOVCParameters mc active params junk).calls.filter (fun c => c.isFan) =
        (List.range active.length).filterMap (fun d =>
          (lastFan params active.length d).map (fun p =>
            if p.useDefault then ADLCall.setFanSpeedToDefault (active.getD d 0) 0
            else ADLCall.setFanSpeed (active.getD d 0) 0 (cround p.value)))) ∧
    ((AMDGPU.validate N params perfClocks junkClocks).failed = false →
      (∀ d < N,
        (AMDGPU.fanMerge params N).getD d FanSpeedSetup.unset =
          match lastFan params N d with
          | some p => ⟨p.value, p.useDefault, true⟩
          | none => FanSpeedSetup.unset) ∧
      (AMDGPU.setOVCParameters N params perfClocks junkClocks).calls.filter
          (fun c => c.isFan) =
        (List.range N).filterMap (fun d =>
          (lastFan params N d).map (fun p =>
            if p.useDefault then AMDGPUCall.setFanSpeedToDefault d
            else AMDGPUCall.setFanSpeed d (cround p.value)))) ∧
    ((AmdGpuProOvc.validate N params perfClocks junkClocks).failed = false →
      (∀ d < N,
        (AmdGpuProOvc.setFanSpeedSetup (List.replicate N ⟨0, false, false⟩) params N).getD d
            FanSpeedSetup.unset =
          match lastFan params N d with
          | some p => ⟨p.value, p.useDefault, true⟩
          | none => FanSpeedSetup.unset) ∧
      (AmdGpuProOvc.Set N params perfClocks junkClocks).calls.filter (fun c => c.isFan) =
        (List.range N).filterMap (fun d =>
          (lastFan params N d).map (fun p =>
            if p.useDefault then AMDGPUCall.setFanSpeedToDefault d
            else AMDGPUCall.setFanSpeed d (cround p.value)))) ∧
    (∀ (M : Int) (d : Nat), (lastFan params M d).isSome = true ↔
      ∃ p ∈ params, p.type = OVCParamType.FAN_SPEED ∧
        (d : Int) ∈ iterate p.adapters p.allAdapters M) := by
  refine ⟨fun hv => ⟨fun d hd => adl_getD_fanMerge params _ d hd, ?_⟩,
    fun hv => ⟨fun d hd => adl_getD_fanMerge params _ d hd, ?_⟩,
    fun hv => ⟨fun d hd => ?_, ?_⟩, ?_⟩
  · simp only [ADL.setOVCParameters, hv, Bool.false_eq_true, if_false, List.filter_append,
      filter_isFan_commitFan, filter_isFan_commitLevels, List.append_nil]
    exact adl_commitFan_fanMerge active params
  · simp only [AMDGPU.setOVCParameters, hv, Bool.false_eq_true, if_false, List.filter_append,
      amdgpu_filter_isFan_commitFan, amdgpu_filter_isFan_setParams, List.nil_append]
    exact amdgpu_commitFan_fanMerge N params
  · rw [proovc_setFanSpeedSetup_eq]
    exact adl_getD_fanMerge params _ d hd
  · simp only [AmdGpuProOvc.Set, hv, Bool.false_eq_true, if_false, List.filter_append,
      proovc_setFanSpeedSetup_eq, proovc_setFanSpeeds_eq,
      proovc_setParameters_eq,
      amdgpu_filter_isFan_commitFan, amdgpu_filter_isFan_setParams, List.nil_append]
    exact amdgpu_commitFan_fanMerge N params
  · intro M d
    unfold lastFan
    rw [List.getLast?_isSome, Ne, List.filter_eq_nil_iff]
    simp

/-- Witness of C7: the batch `fanspeed:0=50 fanspeed:0=70` gives the single call
`setFanSpeed` with 70 for device 0, in each engine. -/
theorem fan_last_writer_wins_witness :
    (ADL.setOVCParameters exampleControl [0]
        [directive "fanspeed:0=50", directive "fanspeed:0=70"] exampleJunk).calls =
      [ADLCall.setFanSpeed 0 0 70] ∧
    (AMDGPU.setOVCParameters 1
        [directive "fanspeed:0=50", directive "fanspeed:0=70"] [⟨1000, 2000⟩] ⟨0, 0⟩).calls =
      [AMDGPUCall.setFanSpeed 0 70] ∧
    (AmdGpuProOvc.Set 1
        [directive "fanspeed:0=50", directive "fanspeed:0=70"] [⟨1000, 2000⟩] ⟨0, 0⟩).calls =
      [AMDGPUCall.setFanSpeed 0 70] ∧
    (ADL.setOVCParameters exampleControl [0]
        [directive "fanspeed:0=50", directive "fanspeed:0=70"] exampleJunk).calls.filter
        (fun c => c.isFan) = [ADLCall.setFanSpeed 0 0 70] :=
  ⟨by decide!, by decide!, by decide!,
    (((fan_last_writer_wins exampleControl [0]
      [directive "fanspeed:0=50", directive "fanspeed:0=70"] exampleJunk 1 [⟨1000, 2000⟩]
      ⟨0, 0⟩).1 (by decide!)).2).trans (by decide!)⟩

/-! ### The C library layer -/

theorem skipSpace_length (s : List Char) : (skipSpace s).length ≤ s.length := by
  induction s with
  | nil => simp [skipSpace]
  | cons c cs ih =>
    unfold skipSpace
    split
    · simp only [List.length_cons]; omega
    · exact Nat.le_refl _

theorem scanSign_length (s : List Char) : (scanSign s).2.length ≤ s.length := by
  unfold scanSign
  split
  · simp
  · split
    · simp
    · split <;> simp

theorem scanDigits_length (acc : Nat) (s : List Char) :
    (scanDigits acc s).2.length ≤ s.length := by
  induction s generalizing acc with
  | nil => simp [scanDigits]
  | cons c cs ih =>
    unfold scanDigits
    split
    · have := ih (acc * 10 + digitVal c)
      simp only [List.length_cons]; omega
    · exact Nat.le_refl _

theorem scanDigits_length_lt (acc : Nat) (c : Char) (cs : List Char) (h : isdigit c = true) :
    (scanDigits acc (c :: cs)).2.length < (c :: cs).length := by
  unfold scanDigits
  rw [if_pos h]
  have := scanDigits_length (acc * 10 + digitVal c) cs
  simp only [List.length_cons]; omega

/-- A numeral consumes at least one character. -/
theorem readNumeral_length {s : List Char} {v : Int} {r : List Char}
    (h : readNumeral s = some (v, r)) : r.length < s.length := by
  unfold readNumeral at h
  have h1 := skipSpace_length s
  have h2 := scanSign_length (skipSpace s)
  generalize hsg : scanSign (skipSpace s) = sg at h h2
  obtain ⟨neg, u⟩ := sg
  dsimp only at h h2
  cases u with
  | nil => simp at h
  | cons c cs =>
    dsimp only at h
    by_cases hc : isdigit c = true
    · rw [if_pos hc] at h
      have h3 := scanDigits_length_lt 0 c cs hc
      generalize hsd : scanDigits 0 (c :: cs) = sd at h h3
      obtain ⟨n, rest⟩ := sd
      simp only [Option.some.injEq, Prod.mk.injEq] at h
      obtain ⟨-, rfl⟩ := h
      simp only at h3 
      omega
    · rw [if_neg hc] at h
      simp at h

theorem strtol_none {s : List Char} (h : readNumeral s = none) :
    strtol s = ⟨0, s, false⟩ := by
  unfold strtol; rw [h]

theorem strtol_some {s : List Char} {v : Int} {r : List Char}
    (h : readNumeral s = some (v, r)) :
    (strtol s).endptr = r ∧
      ((strtol s).erange = false ↔ LONG_MIN ≤ v ∧ v ≤ LONG_MAX) ∧
      ((strtol s).erange = false → (strtol s).value = v) := by
  unfold strtol; rw [h]
  dsimp only
  by_cases h1 : v > LONG_MAX
  · rw [if_pos h1]
    refine ⟨rfl, ?_, ?_⟩
    · simp; omega
    · simp
  · rw [if_neg h1]
    by_cases h2 : v < LONG_MIN
    · rw [if_pos h2]
      refine ⟨rfl, ?_, ?_⟩
      · simp; omega
      · simp
    · rw [if_neg h2]
      refine ⟨rfl, ?_, ?_⟩
      · simp; omega
      · simp

/-- The test `errno != 0 || endptr == string` after `strtol`. -/
theorem strtol_failed_iff (s : List Char) :
    ((strtol s).erange || (strtol s).endptr == s) = true ↔
      match readNumeral s with
      | none => True
      | some (v, _) => ¬ (LONG_MIN ≤ v ∧ v ≤ LONG_MAX) := by
  cases h : readNumeral s with
  | none => simp [strtol_none h]
  | some p =>
    obtain ⟨v, r⟩ := p
    obtain ⟨he, hr, -⟩ := strtol_some h
    have hne : r ≠ s := by
      intro heq
      have := readNumeral_length h
      rw [heq] at this
      omega
    dsimp only
    rw [Bool.or_eq_true, he]
    constructor
    · rintro (h1 | h1)
      · intro h2
        rw [hr.mpr h2] at h1
        exact absurd h1 (by simp)
      · exact absurd (by simpa using h1) hne
    · intro h1
      left
      cases hb : (strtol s).erange with
      | true => rfl
      | false => exact absurd (hr.mp hb) h1

theorem toInt32_of_fits {v : Int} (h1 : INT_MIN ≤ v) (h2 : v ≤ INT_MAX) : toInt32 v = v := by
  unfold toInt32
  unfold INT_MIN at h1
  unfold INT_MAX at h2
  omega

/-- One round of the loop of `parseAdaptersList`, in terms of the numerals read. -/
theorem parseAdaptersLoop_succ (fuel : Nat) (s : List Char) (acc : List Int) :
    parseAdaptersLoop (fuel + 1) s acc =
      match readNumeral s with
      | none => (acc, Status.thrown "Unable to parse adapter index")
      | some (a, r) =>
        if ¬ (LONG_MIN ≤ a ∧ a ≤ LONG_MAX) then
          (acc, Status.thrown "Unable to parse adapter index")
        else if r.head? = some '-' then
          match readNumeral r.tail with
          | none => (acc, Status.thrown "Unable to parse adapter index")
          | some (b, r2) =>
            if ¬ (LONG_MIN ≤ b ∧ b ≤ LONG_MAX) then
              (acc, Status.thrown "Unable to parse adapter index")
            else if toInt32 a > toInt32 b then
              (acc, Status.thrown "Wrong range of adapter indices in adapter list")
            else if toInt32 b = INT_MAX then
              (acc ++ intRange (toInt32 a) (toInt32 b), Status.undefined)
            else afterTerm fuel r2 (acc ++ intRange (toInt32 a) (toInt32 b))
        else afterTerm fuel r (acc ++ [toInt32 a]) := by
  rw [parseAdaptersLoop]
  have hf := strtol_failed_iff s
  cases h : readNumeral s with
  | none =>
    rw [h] at hf
    dsimp only at hf ⊢
    rw [if_pos (hf.mpr trivial)]
  | some p =>
    obtain ⟨a, r⟩ := p
    rw [h] at hf
    dsimp only at hf ⊢
    by_cases ha : LONG_MIN ≤ a ∧ a ≤ LONG_MAX
    · rw [if_neg (fun hc => (hf.mp hc) ha), if_neg (not_not.mpr ha)]
      obtain ⟨he, hr, hv⟩ := strtol_some h
      have hva := hv (hr.mpr ha)
      rw [he, hva]
      by_cases hd : r.head? = some '-'
      · rw [if_pos hd, if_pos hd]
        have hf2 := strtol_failed_iff r.tail
        cases h2 : readNumeral r.tail with
        | none =>
          rw [h2] at hf2
          dsimp only at hf2 ⊢
          rw [if_pos (hf2.mpr trivial)]
        | some q =>
          obtain ⟨b, r2⟩ := q
          rw [h2] at hf2
          dsimp only at hf2 ⊢
          by_cases hb : LONG_MIN ≤ b ∧ b ≤ LONG_MAX
          · rw [if_neg (fun hc => (hf2.mp hc) hb), if_neg (not_not.mpr hb)]
            obtain ⟨he2, hr2, hv2⟩ := strtol_some h2
            rw [he2, hv2 (hr2.mpr hb)]
            rfl
          · rw [if_pos (hf2.mpr hb), if_pos hb]
      · rw [if_neg hd, if_neg hd]
        rfl
    · rw [if_pos (hf.mpr ha), if_pos ha]

/-! ### Selector parser -/

theorem mem_intRange (lo hi i : Int) : i ∈ intRange lo hi ↔ lo ≤ i ∧ i ≤ hi := by
  unfold intRange
  rw [List.mem_map]
  constructor
  · rintro ⟨k, hk, rfl⟩
    rw [List.mem_range] at hk
    omega
  · rintro ⟨h1, h2⟩
    refine ⟨(i - lo).toNat, ?_, ?_⟩
    · rw [List.mem_range]; omega
    · omega

theorem intRange_ne_nil {lo hi : Int} (h : lo ≤ hi) : intRange lo hi ≠ [] := by
  intro hn
  have : lo ∈ intRange lo hi := (mem_intRange lo hi lo).mpr ⟨Int.le_refl _, h⟩
  rw [hn] at this
  exact absurd this (List.not_mem_nil _)

theorem mem_unique (i : Int) : ∀ l : List Int, i ∈ unique l ↔ i ∈ l
  | [] => by simp [unique]
  | [a] => by simp [unique]
  | a :: b :: t => by
    have ih := mem_unique i (b :: t)
    unfold unique
    split
    · rename_i hab
      subst hab
      rw [ih]
      simp
    · rw [List.mem_cons, ih, List.mem_cons (a := i) (b := a)]

theorem unique_head (a : Int) (t : List Int) : ∃ t1, unique (a :: t) = a :: t1 := by
  induction t generalizing a with
  | nil => exact ⟨[], rfl⟩
  | cons b t ih =>
    unfold unique
    split
    · rename_i hab
      subst hab
      exact ih a
    · exact ⟨_, rfl⟩

/-- On an ascending vector `std::unique` leaves a strictly ascending one. -/
theorem unique_sorted : ∀ l : List Int, l.Pairwise (· ≤ ·) → (unique l).Pairwise (· < ·)
  | [], _ => by simp [unique]
  | [a], _ => by simp [unique]
  | a :: b :: t, h => by
    have htail : (b :: t).Pairwise (· ≤ ·) := (List.pairwise_cons.mp h).2
    have ih := unique_sorted (b :: t) htail
    unfold unique
    split
    · exact ih
    · rename_i hab
      rw [List.pairwise_cons]
      refine ⟨?_, ih⟩
      intro x hx
      rw [mem_unique] at hx
      have hax := (List.pairwise_cons.mp h).1 x hx
      have hab' := (List.pairwise_cons.mp h).1 b (List.mem_cons_self _ _)
      rcases List.mem_cons.mp hx with rfl | hxt
      · omega
      · have hbx := (List.pairwise_cons.mp htail).1 x hxt
        omega

theorem unique_ne_nil {l : List Int} (h : l ≠ []) : unique l ≠ [] := by
  cases l with
  | nil => exact absurd rfl h
  | cons a t =>
    obtain ⟨t1, ht1⟩ := unique_head a t
    rw [ht1]
    exact List.cons_ne_nil _ _

/-- The loop of `parseAdaptersList` against the grammar: when the loop ends normally the text
is a comma-separated list of terms, something was pushed, and, when every number of the text is
an `int`, every range is ordered and the vector holds the integers of the terms in order. -/
theorem parseAdaptersLoop_ok : ∀ (fuel : Nat) (s : List Char) (acc ads : List Int),
    parseAdaptersLoop fuel s acc = (ads, Status.ok) →
    ∃ ts, specTerms fuel s = some ts ∧ (∃ l, l ≠ [] ∧ ads = acc ++ l) ∧
      (fitsInt ts → (∀ t ∈ ts, t.1 ≤ t.2) ∧
        ads = acc ++ ts.flatMap (fun t => intRange t.1 t.2)) := by
  intro fuel
  induction fuel with
  | zero =>
    intro s acc ads h
    simp [parseAdaptersLoop] at h
  | succ fuel ih =>
    intro s acc ads h
    rw [parseAdaptersLoop_succ] at h
    -- the end of the body, shared by the two kinds of term
    have tail : ∀ (t : Int × Int) (r : List Char) (pushed : List Int),
        pushed ≠ [] →
        (INT_MIN ≤ t.1 ∧ t.1 ≤ INT_MAX ∧ INT_MIN ≤ t.2 ∧ t.2 ≤ INT_MAX →
          t.1 ≤ t.2 ∧ pushed = intRange t.1 t.2) →
        afterTerm fuel r (acc ++ pushed) = (ads, Status.ok) →
        readTerm s = some (t, r) →
        ∃ ts, specTerms (fuel + 1) s = some ts ∧ (∃ l, l ≠ [] ∧ ads = acc ++ l) ∧
          (fitsInt ts → (∀ t ∈ ts, t.1 ≤ t.2) ∧
            ads = acc ++ ts.flatMap (fun t => intRange t.1 t.2)) := by
      intro t r pushed hne hfit hafter hterm
      unfold afterTerm at hafter
      cases r with
      | nil =>
        simp only [Prod.mk.injEq, and_true] at hafter
        refine ⟨[t], by simp [specTerms, hterm], ⟨pushed, hne, hafter.symm⟩, ?_⟩
        intro hf
        have ht := hfit (hf t (List.mem_singleton.mpr rfl))
        refine ⟨?_, ?_⟩
        · intro t1 ht1
          rw [List.mem_singleton.mp ht1]; exact ht.1
        · simp [← hafter, ht.2]
      | cons c rest =>
        dsimp only at hafter
        by_cases hc : c = ','
        · rw [if_pos hc] at hafter
          obtain ⟨ts, hts, ⟨l, hl, hads⟩, hrest⟩ := ih rest (acc ++ pushed) ads hafter
          refine ⟨t :: ts, by simp [specTerms, hterm, hc, hts],
            ⟨pushed ++ l, by simp [hl], by rw [hads, List.append_assoc]⟩, ?_⟩
          intro hf
          have ht := hfit (hf t (List.mem_cons_self _ _))
          have hts' := hrest (fun t1 ht1 => hf t1 (List.mem_cons_of_mem _ ht1))
          refine ⟨?_, ?_⟩
          · intro t1 ht1
            rcases List.mem_cons.mp ht1 with rfl | h1
            · exact ht.1
            · exact hts'.1 t1 h1
          · rw [hts'.2, ht.2, List.flatMap_cons, List.append_assoc]
        · rw [if_neg hc] at hafter
          simp at hafter
    cases hn : readNumeral s with
    | none => rw [hn] at h; simp at h
    | some p =>
      obtain ⟨a, r⟩ := p
      rw [hn] at h
      dsimp only at h
      by_cases ha : LONG_MIN ≤ a ∧ a ≤ LONG_MAX
      · rw [if_neg (not_not.mpr ha)] at h
        by_cases hd : r.head? = some '-'
        · rw [if_pos hd] at h
          cases hn2 : readNumeral r.tail with
          | none => rw [hn2] at h; simp at h
          | some q =>
            obtain ⟨b, r2⟩ := q
            rw [hn2] at h
            dsimp only at h
            by_cases hb : LONG_MIN ≤ b ∧ b ≤ LONG_MAX
            · rw [if_neg (not_not.mpr hb)] at h
              by_cases hab : toInt32 a > toInt32 b
              · rw [if_pos hab] at h; simp at h
              · rw [if_neg hab] at h
                by_cases hmax : toInt32 b = INT_MAX
                · rw [if_pos hmax] at h; simp at h
                · rw [if_neg hmax] at h
                  refine tail (a, b) r2 _ (intRange_ne_nil (by omega)) ?_ h
                    (by simp [readTerm, hn, hd, hn2])
                  intro hf
                  rw [toInt32_of_fits hf.1 hf.2.1, toInt32_of_fits hf.2.2.1 hf.2.2.2] at hab ⊢
                  exact ⟨by simpa using hab, rfl⟩
            · rw [if_pos hb] at h; simp at h
        · rw [if_neg hd] at h
          refine tail (a, a) r _ (List.cons_ne_nil _ _) ?_ h (by simp [readTerm, hn, hd])
          intro hf
          rw [toInt32_of_fits hf.1 hf.2.1]
          refine ⟨Int.le_refl _, ?_⟩
          simp [intRange, List.range_succ]
      · rw [if_pos ha] at h; simp at h

/-- On every selector text other than `all` that the parser accepts, `allAdapters` is false
and the list is non-empty and strictly increasing; the text is a comma-separated list of
terms, and when every number written in it is within the range of `int`, every range is
ordered and the list holds exactly the integers the terms cover. -/
theorem selector_result (s : List Char) (ads : List Int) (all : Bool)
    (hs : s ≠ "all".toList) (h : parseAdaptersList s = ⟨ads, all, Status.ok⟩) :
    all = false ∧ ads ≠ [] ∧ ads.Pairwise (· < ·) ∧
      ∃ ts, selectorTerms s = some ts ∧
        (fitsInt ts → (∀ t ∈ ts, t.1 ≤ t.2) ∧
          ∀ i, i ∈ ads ↔ ∃ t ∈ ts, t.1 ≤ i ∧ i ≤ t.2) := by
  unfold parseAdaptersList at h
  rw [if_neg hs] at h
  generalize hl : parseAdaptersLoop (s.length + 1) s [] = res at h
  obtain ⟨pushed, st⟩ := res
  cases st with
  | ok =>
    simp only [AdaptersResult.mk.injEq, and_true] at h
    obtain ⟨hads, hall⟩ := h
    obtain ⟨ts, hts, ⟨l, hl1, hl2⟩, hfit⟩ := parseAdaptersLoop_ok _ s [] pushed hl
    have hpne : pushed ≠ [] := by rw [hl2]; simpa using hl1
    have hsne : pushed.insertionSort (· ≤ ·) ≠ [] := by
      intro hnil
      have := (List.perm_insertionSort (· ≤ ·) pushed).length_eq
      rw [hnil] at this
      exact hpne (List.length_eq_zero.mp this.symm)
    refine ⟨hall.symm, ?_, ?_, ts, hts, ?_⟩
    · rw [← hads]; exact unique_ne_nil hsne
    · rw [← hads]; exact unique_sorted _ (List.sorted_insertionSort (· ≤ ·) pushed)
    · intro hf
      refine ⟨(hfit hf).1, fun i => ?_⟩
      rw [← hads, mem_unique, List.mem_insertionSort, (hfit hf).2, List.nil_append,
        List.mem_flatMap]
      constructor
      · rintro ⟨t, ht, hi⟩
        exact ⟨t, ht, (mem_intRange _ _ _).mp hi⟩
      · rintro ⟨t, ht, hi⟩
        exact ⟨t, ht, (mem_intRange _ _ _).mpr hi⟩
  | thrown w => simp at h
  | undefined => simp at h
  | outOfFuel => simp at h

/-- C2 at the failing input: the selector `4294967296` is accepted, its only term covers the
integer 4294967296, and the list is `[0]`: the `long` that `strtol` returns is stored in an
`int`, and the range check of `errno` misses the numbers between `int` and `long`.  What does
hold: on every selector text other than `all` that the parser accepts, `allAdapters` is false
and the list is non-empty and strictly increasing, and when every number written in the text
is within the range of `int` the list holds exactly the integers the terms cover; the text
`0,2-4,1` yields `[0, 1, 2, 3, 4]`. -/
theorem selector_wraps :
    parseAdaptersList "4294967296".toList = ⟨[0], false, Status.ok⟩ ∧
    selectorTerms "4294967296".toList = some [(4294967296, 4294967296)] ∧
    (4294967296 : Int) ∉ ([0] : List Int) ∧
    (∀ (s : List Char) (ads : List Int) (all : Bool), s ≠ "all".toList →
      parseAdaptersList s = ⟨ads, all, Status.ok⟩ →
      all = false ∧ ads ≠ [] ∧ ads.Pairwise (· < ·) ∧
        ∃ ts, selectorTerms s = some ts ∧
          (fitsInt ts → (∀ t ∈ ts, t.1 ≤ t.2) ∧
            ∀ i, i ∈ ads ↔ ∃ t ∈ ts, t.1 ≤ i ∧ i ≤ t.2)) ∧
    parseAdaptersList "0,2-4,1".toList = ⟨[0, 1, 2, 3, 4], false, Status.ok⟩ ∧
    selectorTerms "0,2-4,1".toList = some [(0, 0), (2, 4), (1, 1)] := by
  refine ⟨by decide, by decide, by decide, selector_result, by decide, by decide⟩

/-- C9 at the failing input: the range `4294967296-1` starts above its end, and the parser
accepts it as `[0, 1]`; the three texts the claim names are rejected. -/
theorem range_check_wraps :
    parseAdaptersList "4294967296-1".toList = ⟨[0, 1], false, Status.ok⟩ ∧
    selectorTerms "4294967296-1".toList = some [(4294967296, 1)] ∧
    (parseAdaptersList "".toList).status = Status.thrown "Unable to parse adapter index" ∧
    (parseAdaptersList "3-1".toList).status =
      Status.thrown "Wrong range of adapter indices in adapter list" ∧
    (parseAdaptersList "a,b".toList).status = Status.thrown "Unable to parse adapter index" ∧
    (parseAdaptersList "1,".toList).status = Status.thrown "Unable to parse adapter index" ∧
    (parseAdaptersList "1x".toList).status = Status.thrown "Invalid data in adapter list" := by
  refine ⟨by decide, by decide, by decide, by decide, by decide, by decide, by decide⟩

/-- The fuel of `parseAdaptersList` is never used up. -/
theorem parseAdaptersLoop_fuel : ∀ (fuel : Nat) (s : List Char) (acc : List Int),
    s.length < fuel → (parseAdaptersLoop fuel s acc).2 ≠ Status.outOfFuel := by
  intro fuel
  induction fuel with
  | zero => intro s acc h; omega
  | succ fuel ih =>
    intro s acc hlen
    rw [parseAdaptersLoop_succ]
    have tail : ∀ (r : List Char) (pushed : List Int), r.length < s.length →
        (afterTerm fuel r pushed).2 ≠ Status.outOfFuel := by
      intro r pushed hr
      unfold afterTerm
      cases r with
      | nil => simp
      | cons c rest =>
        dsimp only
        split
        · apply ih
          simp only [List.length_cons] at hr
          omega
        · simp
    cases hn : readNumeral s with
    | none => simp
    | some p =>
      obtain ⟨a, r⟩ := p
      have hr := readNumeral_length hn
      dsimp only
      split
      · simp
      · split
        · cases hn2 : readNumeral r.tail with
          | none => simp
          | some q =>
            obtain ⟨b, r2⟩ := q
            have hr2 := readNumeral_length hn2
            have : r.tail.length ≤ r.length := by simp
            dsimp only
            split
            · simp
            · split
              · simp
              · split
                · simp
                · exact tail r2 _ (by omega)
        · exact tail r _ hr

/-! ### Directive parser -/

theorem not_isspace_of_isdigit {c : Char} (h : isdigit c = true) : isspace c = false := by
  cases hs : isspace c with
  | false => rfl
  | true =>
    simp only [isspace, Bool.or_eq_true, beq_iff_eq] at hs
    rcases hs with ((((rfl | rfl) | rfl) | rfl) | rfl) | rfl <;> exact absurd h (by decide)

theorem not_sign_of_isdigit {c : Char} (h : isdigit c = true) : c ≠ '-' ∧ c ≠ '+' := by
  constructor <;> (rintro rfl; exact absurd h (by decide))

theorem scanDigits_append (L rest : List Char) (acc : Nat)
    (hL : ∀ c ∈ L, isdigit c = true) (hrest : ∀ c, rest.head? = some c → isdigit c = false) :
    scanDigits acc (L ++ rest) = (L.foldl (fun a c => a * 10 + digitVal c) acc, rest) := by
  induction L generalizing acc with
  | nil =>
    cases rest with
    | nil => rfl
    | cons c cs =>
      have := hrest c rfl
      simp [scanDigits, this]
  | cons d L ih =>
    have hd := hL d (List.mem_cons_self _ _)
    rw [List.cons_append, scanDigits, if_pos hd,
      ih _ (fun c hc => hL c (List.mem_cons_of_mem _ hc)), List.foldl_cons]

/-- A string of digits followed by something that is not a digit is read as its value. -/
theorem readNumeral_digits (L rest : List Char) (hne : L ≠ [])
    (hL : ∀ c ∈ L, isdigit c = true) (hrest : ∀ c, rest.head? = some c → isdigit c = false) :
    readNumeral (L ++ rest) = some ((decVal L : Int), rest) := by
  cases L with
  | nil => exact absurd rfl hne
  | cons d L =>
    have hd := hL d (List.mem_cons_self _ _)
    have hsp : skipSpace (d :: L ++ rest) = d :: L ++ rest := by
      rw [List.cons_append, skipSpace, not_isspace_of_isdigit hd]; rfl
    have hsg : scanSign (d :: L ++ rest) = (false, d :: L ++ rest) := by
      rw [List.cons_append, scanSign, if_neg (not_sign_of_isdigit hd).1,
        if_neg (not_sign_of_isdigit hd).2]
    unfold readNumeral
    rw [hsp, hsg]
    dsimp only
    rw [List.cons_append]
    dsimp only
    rw [if_pos hd, ← List.cons_append, scanDigits_append _ _ _ hL hrest]
    simp [decVal]

theorem strchr_append (n r : List Char) (c : Char) (hn : c ∉ n) :
    strchr (n ++ c :: r) c = some (c :: r) ∧ upTo (n ++ c :: r) c = n := by
  induction n with
  | nil => simp [strchr, upTo]
  | cons d n ih =>
    have hd : d ≠ c := fun h => hn (h ▸ List.mem_cons_self _ _)
    have := ih (fun h => hn (List.mem_cons_of_mem _ h))
    simp [strchr, upTo, hd, this]

theorem splitName_append (n r : List Char) (hn : ':' ∉ n) :
    splitName (n ++ ':' :: r) = some (n, ':' :: r) := by
  unfold splitName
  rw [(strchr_append n r ':' hn).1, (strchr_append n r ':' hn).2]

/-- What a numeral consumes is made of white space, a sign and digits. -/
theorem readNumeral_chars {s : List Char} {v : Int} {r : List Char}
    (h : readNumeral s = some (v, r)) :
    ∃ pre, s = pre ++ r ∧ ∀ c ∈ pre, selChar c = true := by
  have hsp : ∀ s : List Char, ∃ pre, s = pre ++ skipSpace s ∧ ∀ c ∈ pre, selChar c = true := by
    intro s
    induction s with
    | nil => exact ⟨[], rfl, by simp⟩
    | cons c cs ih =>
      unfold skipSpace
      by_cases hc : isspace c = true
      · rw [if_pos hc]
        obtain ⟨pre, h1, h2⟩ := ih
        refine ⟨c :: pre, by rw [List.cons_append, ← h1], ?_⟩
        intro x hx
        rcases List.mem_cons.mp hx with rfl | hx
        · simp [selChar, hc]
        · exact h2 x hx
      · rw [if_neg hc]; exact ⟨[], rfl, by simp⟩
  have hsg : ∀ s : List Char, ∃ pre, s = pre ++ (scanSign s).2 ∧
      ∀ c ∈ pre, selChar c = true := by
    intro s
    cases s with
    | nil => exact ⟨[], rfl, by simp⟩
    | cons c cs =>
      rw [scanSign]
      by_cases h1 : c = '-'
      · rw [if_pos h1]; exact ⟨[c], rfl, by subst h1; simp; decide⟩
      · rw [if_neg h1]
        by_cases h2 : c = '+'
        · rw [if_pos h2]; exact ⟨[c], rfl, by subst h2; simp; decide⟩
        · rw [if_neg h2]; exact ⟨[], rfl, by simp⟩
  have hdg : ∀ (s : List Char) (acc : Nat), ∃ pre, s = pre ++ (scanDigits acc s).2 ∧
      ∀ c ∈ pre, selChar c = true := by
    intro s
    induction s with
    | nil => intro acc; exact ⟨[], rfl, by simp⟩
    | cons c cs ih =>
      intro acc
      unfold scanDigits
      by_cases hc : isdigit c = true
      · rw [if_pos hc]
        obtain ⟨pre, h1, h2⟩ := ih (acc * 10 + digitVal c)
        refine ⟨c :: pre, by rw [List.cons_append, ← h1], ?_⟩
        intro x hx
        rcases List.mem_cons.mp hx with rfl | hx
        · simp [selChar, hc]
        · exact h2 x hx
      · rw [if_neg hc]; exact ⟨[], rfl, by simp⟩
  unfold readNumeral at h
  obtain ⟨p1, e1, c1⟩ := hsp s
  obtain ⟨p2, e2, c2⟩ := hsg (skipSpace s)
  generalize hg : scanSign (skipSpace s) = sg at h e2
  obtain ⟨neg, u⟩ := sg
  dsimp only at h e2
  cases u with
  | nil => simp at h
  | cons c cs =>
    dsimp only at h
    by_cases hc : isdigit c = true
    · rw [if_pos hc] at h
      obtain ⟨p3, e3, c3⟩ := hdg (c :: cs) 0
      generalize hsd : scanDigits 0 (c :: cs) = sd at h e3
      obtain ⟨n, rest⟩ := sd
      simp only [Option.some.injEq, Prod.mk.injEq] at h
      obtain ⟨-, rfl⟩ := h
      dsimp only at e3
      refine ⟨p1 ++ p2 ++ p3, ?_, ?_⟩
      · rw [List.append_assoc, List.append_assoc, ← e3, ← e2, ← e1]
      · intro x hx
        rcases List.mem_append.mp hx with hx | hx
        · rcases List.mem_append.mp hx with hx | hx
          · exact c1 x hx
          · exact c2 x hx
        · exact c3 x hx
    · rw [if_neg hc] at h; simp at h

theorem specTerms_chars : ∀ (fuel : Nat) (s : List Char) (ts : List (Int × Int)),
    specTerms fuel s = some ts → ∀ c ∈ s, selChar c = true := by
  intro fuel
  induction fuel with
  | zero => intro s ts h; simp [specTerms] at h
  | succ fuel ih =>
    intro s ts h
    unfold specTerms at h
    have hterm : ∀ (t : Int × Int) (r : List Char), readTerm s = some (t, r) →
        ∃ pre, s = pre ++ r ∧ ∀ c ∈ pre, selChar c = true := by
      intro t r ht
      unfold readTerm at ht
      cases hn : readNumeral s with
      | none => rw [hn] at ht; simp at ht
      | some p =>
        obtain ⟨a, r0⟩ := p
        rw [hn] at ht
        dsimp only at ht
        obtain ⟨p1, e1, c1⟩ := readNumeral_chars hn
        by_cases hd : r0.head? = some '-'
        · rw [if_pos hd] at ht
          cases hn2 : readNumeral r0.tail with
          | none => rw [hn2] at ht; simp at ht
          | some q =>
            obtain ⟨b, r2⟩ := q
            rw [hn2] at ht
            simp only [Option.some.injEq, Prod.mk.injEq] at ht
            obtain ⟨-, rfl⟩ := ht
            obtain ⟨p2, e2, c2⟩ := readNumeral_chars hn2
            have hr0 : r0 = '-' :: r0.tail := by
              cases r0 with
              | nil => simp at hd
              | cons x xs => simp at hd; simp [hd]
            refine ⟨p1 ++ '-' :: p2, ?_, ?_⟩
            · rw [List.append_assoc, List.cons_append, ← e2, ← hr0, ← e1]
            · intro x hx
              rcases List.mem_append.mp hx with hx | hx
              · exact c1 x hx
              · rcases List.mem_cons.mp hx with rfl | hx
                · decide
                · exact c2 x hx
        · rw [if_neg hd] at ht
          simp only [Option.some.injEq, Prod.mk.injEq] at ht
          obtain ⟨-, rfl⟩ := ht
          exact ⟨p1, e1, c1⟩
    cases ht : readTerm s with
    | none => rw [ht] at h; simp at h
    | some p =>
      obtain ⟨t, r⟩ := p
      obtain ⟨pre, e, cpre⟩ := hterm t r ht
      rw [ht] at h
      cases r with
      | nil =>
        intro c hc
        rw [e, List.append_nil] at hc
        exact cpre c hc
      | cons x rest =>
        dsimp only at h
        by_cases hx : x = ','
        · rw [if_pos hx] at h
          cases hr : specTerms fuel rest with
          | none => rw [hr] at h; simp at h
          | some ts1 =>
            intro c hc
            rw [e] at hc
            rcases List.mem_append.mp hc with hc | hc
            · exact cpre c hc
            · rcases List.mem_cons.mp hc with rfl | hc
              · subst hx; decide
              · exact ih rest ts1 hr c hc
        · rw [if_neg hx] at h; simp at h

/-- A selector text that `parseAdaptersList` accepts holds neither `:` nor `=`, and is not
empty. -/
theorem accepted_selector_chars (s : List Char)
    (h : (parseAdaptersList s).status = Status.ok) : ':' ∉ s ∧ '=' ∉ s ∧ s ≠ [] := by
  by_cases hall : s = "all".toList
  · subst hall; decide
  · have hne : s ≠ [] := by
      rintro rfl
      revert h; decide
    have key : ∀ c ∈ s, selChar c = true := by
      unfold parseAdaptersList at h
      rw [if_neg hall] at h
      generalize hl : parseAdaptersLoop (s.length + 1) s [] = res at h
      obtain ⟨pushed, st⟩ := res
      cases st with
      | ok =>
        obtain ⟨ts, hts, -, -⟩ := parseAdaptersLoop_ok _ s [] pushed hl
        exact specTerms_chars _ s ts hts
      | thrown w => simp at h
      | undefined => simp at h
      | outOfFuel => simp at h
    refine ⟨fun hc => ?_, fun hc => ?_, hne⟩
    · exact absurd (key _ hc) (by decide)
    · exact absurd (key _ hc) (by decide)

theorem levelCapable_table : ∀ p ∈ levelCapable, ':' ∉ p.1 ∧
    nameTable p.1 =
      some (p.2, if p.2 = OVCParamType.FAN_SPEED then 0 else LAST_PERFLEVEL, false) := by
  decide

theorem skipSpace_append (a b : List Char) (h : skipSpace a ≠ []) :
    skipSpace (a ++ b) = skipSpace a ++ b := by
  induction a with
  | nil => simp [skipSpace] at h
  | cons c cs ih =>
    rw [List.cons_append, skipSpace, skipSpace]
    by_cases hc : isspace c = true
    · rw [if_pos hc, if_pos hc]
      rw [skipSpace, if_pos hc] at h
      exact ih h
    · rw [if_neg hc, if_neg hc]; rfl

theorem scanSign_append (a b : List Char) (h : (scanSign a).2 ≠ []) :
    scanSign (a ++ b) = ((scanSign a).1, (scanSign a).2 ++ b) := by
  cases a with
  | nil => simp [scanSign] at h
  | cons c cs =>
    rw [List.cons_append, scanSign, scanSign]
    by_cases h1 : c = '-'
    · rw [if_pos h1, if_pos h1]
    · rw [if_neg h1, if_neg h1]
      by_cases h2 : c = '+'
      · rw [if_pos h2, if_pos h2]
      · rw [if_neg h2, if_neg h2]; rfl

theorem scanDigits_append_nil (a b : List Char) (acc n : Nat)
    (h : scanDigits acc a = (n, []))
    (hb : ∀ c, b.head? = some c → isdigit c = false) :
    scanDigits acc (a ++ b) = (n, b) := by
  induction a generalizing acc with
  | nil =>
    simp only [scanDigits, Prod.mk.injEq, and_true] at h
    subst h
    cases b with
    | nil => rfl
    | cons c cs => simp [scanDigits, hb c rfl]
  | cons d a ih =>
    rw [scanDigits] at h
    by_cases hd : isdigit d = true
    · rw [if_pos hd] at h
      rw [List.cons_append, scanDigits, if_pos hd]
      exact ih _ h
    · rw [if_neg hd] at h
      simp at h

/-- A text that is a numeral to its end is read the same way in front of anything that does
not start with a digit. -/
theorem readNumeral_append (a b : List Char) (v : Int)
    (h : readNumeral a = some (v, []))
    (hb : ∀ c, b.head? = some c → isdigit c = false) :
    readNumeral (a ++ b) = some (v, b) := by
  unfold readNumeral at h ⊢
  have hsp : skipSpace a ≠ [] := by
    intro hnil
    rw [hnil] at h
    simp [scanSign] at h
  rw [skipSpace_append a b hsp]
  have hsg : (scanSign (skipSpace a)).2 ≠ [] := by
    intro hnil
    generalize scanSign (skipSpace a) = sg at h hnil
    obtain ⟨neg, u⟩ := sg
    dsimp only at hnil
    subst hnil
    simp at h
  rw [scanSign_append _ b hsg]
  generalize scanSign (skipSpace a) = sg at h hsg
  obtain ⟨neg, u⟩ := sg
  dsimp only at h hsg ⊢
  cases u with
  | nil => exact absurd rfl hsg
  | cons c cs =>
    rw [List.cons_append]
    dsimp only at h ⊢
    by_cases hc : isdigit c = true
    · rw [if_pos hc] at h ⊢
      generalize hsd : scanDigits 0 (c :: cs) = sd at h
      obtain ⟨n, rest⟩ := sd
      simp only [Option.some.injEq, Prod.mk.injEq] at h
      obtain ⟨hv, hrest⟩ := h
      subst hrest
      rw [← List.cons_append, scanDigits_append_nil _ b 0 n hsd hb]
      simp [hv]
    · rw [if_neg hc] at h; simp at h

/-- The parser on a token `name:selector:level=value` whose level text is a numeral within
`long`: the token is accepted and the level is stored in an `int`. -/
theorem parse_token_level (n s Lt v : List Char) (type : OVCParamType) (Lv : Int)
    (q value0 : ℚ)
    (hn : (n, type) ∈ levelCapable)
    (hs : (parseAdaptersList s).status = Status.ok)
    (hLt : readNumeral Lt = some (Lv, []))
    (hlong : LONG_MIN ≤ Lv ∧ Lv ≤ LONG_MAX)
    (hv : v ≠ "default".toList ∧ v ≠ [] ∧ strtod v = ⟨Double.finite q, [], false⟩) :
    parseOVCParameter (n ++ ':' :: (s ++ ':' :: (Lt ++ '=' :: v))) value0 =
      ParseResult.accepted
        ⟨type, (parseAdaptersList s).adapters, (parseAdaptersList s).allAdapters,
          toInt32 Lv, q, false, n ++ ':' :: (s ++ ':' :: (Lt ++ '=' :: v))⟩ := by
  obtain ⟨hcolon, htable⟩ := levelCapable_table (n, type) hn
  obtain ⟨hs1, -, hs3⟩ := accepted_selector_chars s hs
  dsimp only at hcolon htable
  -- the level
  have hnum : readNumeral (Lt ++ '=' :: v) = some (Lv, '=' :: v) :=
    readNumeral_append Lt _ Lv hLt (by
      intro c hc
      simp only [List.head?_cons, Option.some.injEq] at hc
      subst hc; decide)
  obtain ⟨hend, her, hval⟩ := strtol_some hnum
  have her : (strtol (Lt ++ '=' :: v)).erange = false := her.mpr hlong
  have hval := hval her
  have hLne : Lt ++ '=' :: v ≠ '=' :: v := by
    intro h
    have := readNumeral_length hnum
    rw [h] at this
    omega
  -- the selector
  have hsne : ':' :: (Lt ++ '=' :: v) ≠ s ++ ':' :: (Lt ++ '=' :: v) := by
    intro h
    have := congrArg List.length h
    simp only [List.length_append, List.length_cons] at this
    have : s.length = 0 := by omega
    exact hs3 (List.length_eq_zero.mp this)
  -- the value
  have hvne : ([] : List Char) ≠ v := fun h => hv.2.1 h.symm
  unfold parseOVCParameter
  rw [splitName_append n _ hcolon]
  simp only [htable]
  rw [parseSelector]
  simp only [if_pos, splitName_append s _ hs1, hsne, ne_eq, not_false_eq_true, hs]
  rw [parseLevel]
  simp only [and_self, if_true, her, hend, hval, Bool.false_eq_true, if_false, hLne,
    ne_eq, not_false_eq_true]
  rw [parseValue]
  have hdef : ¬ v = ['d', 'e', 'f', 'a', 'u', 'l', 't'] := hv.1
  simp [hv.2.2, hvne, hdef, hv.2.1]

/-- C3, amended: for a name that takes a level, a selector text that `parseAdaptersList`
accepts, a level written as a string of digits whose value is at most `INT_MAX`, and a value
text other than `default` that `strtod` reads to its end as a finite number without range
error, `parseOVCParameter` accepts the token `name:selector:level=value` with the kind of the
name, the selection of the selector, that level, that value, `useDefault = false` and the
token as `argText`. -/
theorem parse_full_token (n s L v : List Char) (type : OVCParamType) (q value0 : ℚ)
    (hn : (n, type) ∈ levelCapable)
    (hs : (parseAdaptersList s).status = Status.ok)
    (hL : L ≠ [] ∧ ∀ c ∈ L, isdigit c = true)
    (hLmax : (decVal L : Int) ≤ INT_MAX)
    (hv : v ≠ "default".toList ∧ v ≠ [] ∧ strtod v = ⟨Double.finite q, [], false⟩) :
    parseOVCParameter (n ++ ':' :: (s ++ ':' :: (L ++ '=' :: v))) value0 =
      ParseResult.accepted
        ⟨type, (parseAdaptersList s).adapters, (parseAdaptersList s).allAdapters,
          (decVal L : Int), q, false, n ++ ':' :: (s ++ ':' :: (L ++ '=' :: v))⟩ := by
  have hnum : readNumeral L = some ((decVal L : Int), []) := by
    have := readNumeral_digits L [] hL.1 hL.2 (by simp)
    rwa [List.append_nil] at this
  have hlong : LONG_MIN ≤ (decVal L : Int) ∧ (decVal L : Int) ≤ LONG_MAX := by
    unfold INT_MAX at hLmax
    unfold LONG_MIN LONG_MAX
    constructor <;> omega
  have h32 : toInt32 (decVal L : Int) = (decVal L : Int) :=
    toInt32_of_fits (by unfold INT_MIN; omega) hLmax
  have := parse_token_level n s L v type (decVal L : Int) q value0 hn hs hnum hlong hv
  rw [h32] at this
  exact this

/-- Witness of C3 (amended): the token `coreclk:0-1:1=900`. -/
theorem parse_full_token_witness :
    parseOVCParameter "coreclk:0-1:1=900".toList 0 =
      ParseResult.accepted ⟨OVCParamType.CORE_CLOCK, [0, 1], false, 1, 900, false,
        "coreclk:0-1:1=900".toList⟩ :=
  (parse_full_token "coreclk".toList "0-1".toList "1".toList "900".toList
    OVCParamType.CORE_CLOCK 900 0 (by decide) (by decide) (by decide) (by decide)
    (by decide!)).trans (by decide!)

/-- Counterexample to C3 as stated: the levels 9223372036854775808 and 4294967295 are
non-negative decimal integers, the selector `0` is accepted and the value `900` is a finite
number, yet the first token is rejected (the level does not fit `long`) and the second one is
accepted with `partId = -1`. -/
theorem parse_level_counterexample :
    (parseAdaptersList "0".toList).status = Status.ok ∧
    strtod "900".toList = ⟨Double.finite 900, [], false⟩ ∧
    parseOVCParameter "coreclk:0:9223372036854775808=900".toList 0 =
      ParseResult.rejected ParseDiag.partId ∧
    parseOVCParameter "coreclk:0:4294967295=900".toList 0 =
      ParseResult.accepted ⟨OVCParamType.CORE_CLOCK, [0], false, -1, 900, false,
        "coreclk:0:4294967295=900".toList⟩ := by
  refine ⟨by decide, by decide!, by decide!, by decide!⟩

theorem Check.Ext.mem {a b : Check} (h : Check.Ext a b) {d : Diag} (hd : d ∈ a.err) :
    d ∈ b.err := by
  obtain ⟨l, e, -⟩ := h
  rw [e]
  exact List.mem_append_left _ hd

/-- A message that a step prints whatever the state is printed by the loop over a list that
holds the element of that step. -/
theorem mem_err_foldl {α : Type} (f : Check → α → Check)
    (hf : ∀ st x, Check.Ext st (f st x)) (xs : List α) (x : α) (hx : x ∈ xs) (d : Diag)
    (hd : ∀ st, d ∈ (f st x).err) (st : Check) : d ∈ (xs.foldl f st).err := by
  induction xs generalizing st with
  | nil => exact absurd hx (List.not_mem_nil _)
  | cons y ys ih =>
    rw [List.foldl_cons]
    rcases List.mem_cons.mp hx with rfl | hx1
    · exact (Check.Ext.foldl f hf ys _).mem (hd st)
    · exact ih hx1 _

theorem readAt_readODParams (mc : ADLMainControl) (active : List Int) (junk : ADLODParameters)
    (d : Int) (h0 : 0 ≤ d) (h1 : d < (active.length : Int)) :
    readAt (ADL.readODParams mc active) d junk = mc.getODParameters (active.getD d.toNat 0) := by
  unfold readAt
  rw [if_pos h0]
  exact getD_readODParams mc active junk d.toNat (by omega)

/-- A directive with a written level other than -1 that is out of range on an adapter it
resolves to makes the Catalyst validation print "Performance level out of range". -/
theorem level_message_of_out_of_range (mc : ADLMainControl) (active : List Int)
    (junk : ADLODParameters) (params : List OVCParameter) (p : OVCParameter) (d : Int)
    (hp : p ∈ params) (htype : p.type ≠ OVCParamType.FAN_SPEED)
    (hlast : p.partId ≠ LAST_PERFLEVEL)
    (hd : d ∈ iterate p.adapters p.allAdapters (active.length : Int))
    (h0 : 0 ≤ d) (h1 : d < (active.length : Int))
    (hout : ¬ (0 ≤ p.partId ∧ p.partId <
      ((mc.getODParameters (active.getD d.toNat 0)).iNumberOfPerformanceLevels : Int))) :
    (⟨DiagKind.perfLevel, p.argText⟩ : Diag) ∈ (ADL.validate mc active params junk).err := by
  unfold ADL.validate ADL.checkOther
  dsimp only
  refine mem_err_foldl _ ?_ params p hp _ ?_ _
  · intro st q
    split
    · exact Check.Ext.foldl _ (adl_checkOtherAt_ext _ junk _ q) _ st
    · exact Check.Ext.refl _
  · intro st
    rw [if_pos htype]
    refine mem_err_foldl _ (adl_checkOtherAt_ext _ junk _ p) _ d hd _ ?_ st
    intro st1
    unfold ADL.checkOtherAt
    rw [if_neg (by omega)]
    dsimp only
    rw [readAt_readODParams mc active junk d h0 h1, if_pos hlast,
      if_pos (by rw [Bool.or_eq_true, decide_eq_true_eq, decide_eq_true_eq]; omega)]
    simp [Check.report]

/-- Counterexample to C8 as stated: the level written `-1` is stored as `partId = -1`, which
is `LAST_PERFLEVEL`; with two levels the batch passes validation and the clock of level 1 is
written. -/
theorem explicit_minus_one_level :
    parseOVCParameter "coreclk:0:-1=900".toList 0 =
      ParseResult.accepted ⟨OVCParamType.CORE_CLOCK, [0], false, LAST_PERFLEVEL, 900, false,
        "coreclk:0:-1=900".toList⟩ ∧
    ADL.validate exampleControl [0] [directive "coreclk:0:-1=900"] exampleJunk = ⟨false, []⟩ ∧
    (ADL.setOVCParameters exampleControl [0] [directive "coreclk:0:-1=900"] exampleJunk).calls =
      [ADLCall.setODPerformanceLevels 0 2 [⟨60000, 100000, 1000⟩, ⟨90000, 100000, 1001⟩]] := by
  refine ⟨by decide!, by decide!, by decide!⟩

/-- C10 at the failing input: on `coreclk:0` (and on every token with a `:` after which
neither `:` nor `=` follows) the parser does not return `false`: it computes with a null
pointer.  The other tokens the claim names are rejected. -/
theorem unterminated_selector_undefined :
    parseOVCParameter "coreclk:0".toList 0 = ParseResult.undefined ∧
    (∀ (n rest : List Char) (value0 : ℚ), nameTable n ≠ none → ':' ∉ n →
      ':' ∉ rest → '=' ∉ rest →
      parseOVCParameter (n ++ ':' :: rest) value0 = ParseResult.undefined) ∧
    parseOVCParameter "coreclk:0:1".toList 0 = ParseResult.rejected ParseDiag.unterminated ∧
    parseOVCParameter "coreclk".toList 0 = ParseResult.rejected ParseDiag.notParameter ∧
    parseOVCParameter "clock:0=900".toList 0 = ParseResult.rejected ParseDiag.wrongName ∧
    parseOVCParameter "coreclk:3-1=900".toList 0 =
      ParseResult.rejected
        (ParseDiag.adapterList "Wrong range of adapter indices in adapter list") := by
  refine ⟨by decide!, ?_, by decide!, by decide!, by decide!, by decide!⟩
  intro n rest value0 hn hc hr1 hr2
  have hnone : ∀ (l : List Char) (c : Char), c ∉ l → strchr l c = none := by
    intro l c hl
    induction l with
    | nil => rfl
    | cons d l ih =>
      have hd : d ≠ c := fun h => hl (h ▸ List.mem_cons_self _ _)
      simp [strchr, hd, ih (fun h => hl (List.mem_cons_of_mem _ h))]
  unfold parseOVCParameter
  rw [splitName_append n _ hc]
  dsimp only
  cases ht : nameTable n with
  | none => exact absurd ht hn
  | some p =>
    obtain ⟨type, partId, partIdSet⟩ := p
    dsimp only
    rw [parseSelector]
    simp [splitName, hnone rest ':' hr1, hnone rest '=' hr2]

/-! ### The selector parser as its caller sees it -/

/-- The caller's variables after a call do not depend on what they held before. -/
theorem parseAdaptersListOn_eq (s : List Char) (vars : SelectorVars) :
    parseAdaptersListOn s vars =
      (⟨(parseAdaptersList s).adapters, (parseAdaptersList s).allAdapters⟩,
        (parseAdaptersList s).status) := by
  unfold parseAdaptersListOn parseAdaptersList
  by_cases hs : s = "all".toList
  · simp only [if_pos hs]
  · simp only [if_neg hs]
    generalize parseAdaptersLoop (s.length + 1) s [] = res
    obtain ⟨pushed, st⟩ := res
    cases st <;> rfl

theorem parseAdaptersList_allAdapters (s : List Char) :
    (parseAdaptersList s).allAdapters = true ↔ s = "all".toList := by
  unfold parseAdaptersList
  by_cases hs : s = "all".toList
  · simp [hs]
  · simp only [if_neg hs, hs, iff_false]
    generalize parseAdaptersLoop (s.length + 1) s [] = res
    obtain ⟨pushed, st⟩ := res
    cases st <;> simp

/-- C16: on the text `all` the selector parser returns with `allAdapters = true` and an empty
list; on every other text, whatever the caller's variables held, `allAdapters` is false after
the call.  The texts `ALL`, `All`, `all ` and `all,0` make the parser throw. -/
theorem all_devices_exactly_all :
    parseAdaptersList "all".toList = ⟨[], true, Status.ok⟩ ∧
    (∀ s : List Char, (parseAdaptersList s).allAdapters = true ↔ s = "all".toList) ∧
    (∀ (s : List Char) (vars : SelectorVars),
      (parseAdaptersListOn s vars).1.allAdapters = true ↔ s = "all".toList) ∧
    parseAdaptersList "ALL".toList = ⟨[], false, Status.thrown "Unable to parse adapter index"⟩ ∧
    parseAdaptersList "All".toList = ⟨[], false, Status.thrown "Unable to parse adapter index"⟩ ∧
    parseAdaptersList "all ".toList =
      ⟨[], false, Status.thrown "Unable to parse adapter index"⟩ ∧
    parseAdaptersList "all,0".toList =
      ⟨[], false, Status.thrown "Unable to parse adapter index"⟩ := by
  refine ⟨by decide, parseAdaptersList_allAdapters, ?_, by decide, by decide, by decide,
    by decide⟩
  intro s vars
  rw [parseAdaptersListOn_eq]
  exact parseAdaptersList_allAdapters s

/-- C18, amended: when `parseAdaptersList` throws, the caller's variables hold what the call
wrote before the throw, whatever they held before: `allAdapters` is false and `adapters` is the
list pushed so far.  What they held survives exactly when it was that.  The list is empty after
the texts "", `3-1` and `a,b`, and `[0]` after `0,3-1`. -/
theorem failed_selector_overwrites (s : List Char) (vars : SelectorVars) (w : String)
    (h : (parseAdaptersListOn s vars).2 = Status.thrown w) :
    (parseAdaptersList s).status = Status.thrown w ∧
    (parseAdaptersListOn s vars).1 = ⟨(parseAdaptersList s).adapters, false⟩ ∧
    ((parseAdaptersListOn s vars).1 = vars ↔
      vars = ⟨(parseAdaptersList s).adapters, false⟩) ∧
    (parseAdaptersList "".toList).adapters = [] ∧
    (parseAdaptersList "3-1".toList).adapters = [] ∧
    (parseAdaptersList "a,b".toList).adapters = [] ∧
    (parseAdaptersList "0,3-1".toList).adapters = [0] := by
  rw [parseAdaptersListOn_eq] at h ⊢
  dsimp only at h ⊢
  have hall : (parseAdaptersList s).allAdapters = false := by
    cases hb : (parseAdaptersList s).allAdapters with
    | false => rfl
    | true =>
      have hs := (parseAdaptersList_allAdapters s).mp hb
      subst hs
      have hok : (parseAdaptersList "all".toList).status = Status.ok := by decide
      rw [hok] at h
      exact absurd h (by simp)
  rw [hall]
  refine ⟨h, rfl, ?_, by decide, by decide, by decide, by decide⟩
  constructor
  · intro h1; exact h1.symm
  · intro h1; exact h1.symm

/-- Witness of C18 (amended): the text `0,3-1` with variables that held `[7]` and `true`. -/
theorem failed_selector_overwrites_witness :
    (parseAdaptersListOn "0,3-1".toList ⟨[7], true⟩).2 =
        Status.thrown "Wrong range of adapter indices in adapter list" ∧
    (parseAdaptersListOn "0,3-1".toList ⟨[7], true⟩).1 = ⟨[0], false⟩ :=
  ⟨by decide, (failed_selector_overwrites "0,3-1".toList ⟨[7], true⟩
    "Wrong range of adapter indices in adapter list" (by decide)).2.1.trans
    (by decide)⟩

/-- Counterexample to C18 as stated: the four texts the claim names make the parser throw,
and the caller's variables, which held `[7]` and `true`, hold something else afterwards. -/
theorem failed_selector_state_lost :
    parseAdaptersListOn "".toList ⟨[7], true⟩ =
      (⟨[], false⟩, Status.thrown "Unable to parse adapter index") ∧
    parseAdaptersListOn "3-1".toList ⟨[7], true⟩ =
      (⟨[], false⟩, Status.thrown "Wrong range of adapter indices in adapter list") ∧
    parseAdaptersListOn "a,b".toList ⟨[7], true⟩ =
      (⟨[], false⟩, Status.thrown "Unable to parse adapter index") ∧
    parseAdaptersListOn "0,3-1".toList ⟨[7], true⟩ =
      (⟨[0], false⟩, Status.thrown "Wrong range of adapter indices in adapter list") := by
  refine ⟨by decide, by decide, by decide, by decide⟩

/-! ### Adapter iterator -/

theorem next_iterate (A : List Int) (all : Bool) (N : Int) (p : Int) (k : Nat) :
    AdapterIterator.next^[k] ⟨A, all, N, p⟩ = ⟨A, all, N, p + k⟩ := by
  induction k generalizing p with
  | zero => simp
  | succ k ih =>
    rw [Function.iterate_succ_apply]
    have : AdapterIterator.next ⟨A, all, N, p⟩ = ⟨A, all, N, p + 1⟩ := rfl
    rw [this, ih]
    simp only [AdapterIterator.mk.injEq, true_and]
    push_cast
    omega

/-- C19: a loop `for (AdapterIterator ait(A, allAdapters, N); ait; ++ait)` ends by itself and
sees `0, 1, ..., N-1` when `allAdapters` is true and the elements of `A` in their stored order
when it is false.  In detail, for either mode: after `k` increments, for `k` below the length
of the sequence, the iterator converts to true and dereferences to element `k` of the
sequence; after as many increments as the sequence is long it converts to false; the loop run
with any number of rounds at least `A.size() + N` sees exactly the sequence; and the
increments leave the arguments of the constructor as they were, so that an iterator
constructed again from them sees the same sequence. -/
theorem adapter_enumeration (A : List Int) (N extra : Nat) :
    AdapterIterator.run (A.length + N + extra) ⟨A, true, N, 0⟩ =
        (List.range N).map (fun (k : Nat) => (k : Int)) ∧
    AdapterIterator.run (A.length + N + extra) ⟨A, false, N, 0⟩ = A ∧
    iterate A true N = (List.range N).map (fun (k : Nat) => (k : Int)) ∧
    iterate A false N = A ∧
    (∀ k : Nat, (AdapterIterator.next^[k] ⟨A, true, N, 0⟩).valid = decide (k < N)) ∧
    (∀ k : Nat, (AdapterIterator.next^[k] ⟨A, false, N, 0⟩).valid = decide (k < A.length)) ∧
    (∀ k : Nat, (AdapterIterator.next^[k] ⟨A, true, N, 0⟩).deref = (k : Int)) ∧
    (∀ k : Nat, (AdapterIterator.next^[k] ⟨A, false, N, 0⟩).deref = A.getD k 0) ∧
    (∀ (all : Bool) (k : Nat),
      (AdapterIterator.next^[k] ⟨A, all, N, 0⟩).adapters = A ∧
      (AdapterIterator.next^[k] ⟨A, all, N, 0⟩).allAdapters = all ∧
      (AdapterIterator.next^[k] ⟨A, all, N, 0⟩).allAdaptersNum = N) := by
  refine ⟨?_, ?_, iterate_all A N, iterate_explicit A N, ?_, ?_, ?_, ?_, ?_⟩
  · have := run_all A N (A.length + N + extra) 0 (by omega)
    simpa [List.range_eq_range'] using this
  · have := run_explicit A (N : Int) (A.length + N + extra) 0 (by omega)
    simpa using this
  · intro k
    rw [next_iterate]
    simp [AdapterIterator.valid]
  · intro k
    rw [next_iterate]
    simp [AdapterIterator.valid]
  · intro k
    rw [next_iterate]
    simp [AdapterIterator.deref]
  · intro k
    rw [next_iterate]
    simp [AdapterIterator.deref]
  · intro all k
    rw [next_iterate]
    exact ⟨rfl, rfl, rfl⟩

/-! ### Fan speed check -/

theorem fanStep_eq (st : Check) (param : OVCParameter) :
    (if param.type = OVCParamType.FAN_SPEED then
      let st1 := if param.partId ≠ 0 then st.report DiagKind.thermalControlIndex param else st
      if !param.useDefault && (param.value < 0 || param.value > 100) then
        st1.report DiagKind.fanSpeedRange param
      else st1
    else st) =
      ⟨st.failed || !(fanDiags param).isEmpty, st.err ++ fanDiags param⟩ := by
  unfold fanDiags
  by_cases ht : param.type = OVCParamType.FAN_SPEED
  · rw [if_pos ht, if_pos ht]
    dsimp only
    by_cases hp : param.partId ≠ 0
    · rw [if_pos hp, if_pos hp]
      by_cases hv : param.useDefault = false ∧ (param.value < 0 ∨ 100 < param.value)
      · have hv2 : (!param.useDefault && (decide (param.value < 0) || decide (param.value > 100)))
            = true := by
          obtain ⟨h1, h2⟩ := hv
          simp [h1, h2]
        rw [if_pos hv, if_pos hv2]
        simp [Check.report]
      · have hv2 : ¬ ((!param.useDefault &&
            (decide (param.value < 0) || decide (param.value > 100))) = true) := by
          intro h
          apply hv
          simpa using h
        rw [if_neg hv, if_neg hv2]
        simp [Check.report]
    · rw [if_neg hp, if_neg hp]
      by_cases hv : param.useDefault = false ∧ (param.value < 0 ∨ 100 < param.value)
      · have hv2 : (!param.useDefault && (decide (param.value < 0) || decide (param.value > 100)))
            = true := by
          obtain ⟨h1, h2⟩ := hv
          simp [h1, h2]
        rw [if_pos hv, if_pos hv2]
        simp [Check.report]
      · have hv2 : ¬ ((!param.useDefault &&
            (decide (param.value < 0) || decide (param.value > 100))) = true) := by
          intro h
          apply hv
          simpa using h
        rw [if_neg hv, if_neg hv2]
        simp
  · rw [if_neg ht, if_neg ht]
    simp

theorem fanFold_eq (params : List OVCParameter) (st : Check) :
    params.foldl (fun st param =>
      if param.type = OVCParamType.FAN_SPEED then
        let st1 := if param.partId ≠ 0 then st.report DiagKind.thermalControlIndex param else st
        if !param.useDefault && (param.value < 0 || param.value > 100) then
          st1.report DiagKind.fanSpeedRange param
        else st1
      else st) st =
      ⟨st.failed || !(params.flatMap fanDiags).isEmpty, st.err ++ params.flatMap fanDiags⟩ := by
  induction params generalizing st with
  | nil => simp
  | cons p ps ih =>
    rw [List.foldl_cons, fanStep_eq, ih]
    simp only [List.flatMap_cons, List.append_assoc, Check.mk.injEq, and_true]
    cases st.failed <;> cases h1 : (fanDiags p) <;> simp

theorem fanDiags_ne_nil (p : OVCParameter) :
    fanDiags p ≠ [] ↔ p.type = OVCParamType.FAN_SPEED ∧
      (p.partId ≠ 0 ∨ (p.useDefault = false ∧ (p.value < 0 ∨ 100 < p.value))) := by
  unfold fanDiags
  by_cases ht : p.type = OVCParamType.FAN_SPEED
  · rw [if_pos ht]
    by_cases hp : p.partId ≠ 0
    · rw [if_pos hp]; simp [ht, hp]
    · rw [if_neg hp]
      by_cases hv : p.useDefault = false ∧ (p.value < 0 ∨ 100 < p.value)
      · rw [if_pos hv]; simp [ht, hv]
      · rw [if_neg hv]; simp [ht, hp, hv]
  · rw [if_neg ht]; simp [ht]

/-- A step that leaves the state alone can be dropped from a loop. -/
theorem foldl_skip {α β : Type} (f : β → α → β) (p : α) (hp : ∀ b, f b p = b)
    (l1 l2 : List α) (b : β) : (l1 ++ p :: l2).foldl f b = (l1 ++ l2).foldl f b := by
  rw [List.foldl_append, List.foldl_cons, hp, List.foldl_append]

theorem Check.Ext.failed_mono {a b : Check} (h : Check.Ext a b) (ha : a.failed = true) :
    b.failed = true := by
  obtain ⟨l, -, hf⟩ := h
  rw [hf, ha]
  rfl

theorem adl_checkFanSpeed_eq (params : List OVCParameter) (st : Check) :
    ADL.checkFanSpeed params st =
      ⟨st.failed || !(params.flatMap fanDiags).isEmpty, st.err ++ params.flatMap fanDiags⟩ :=
  fanFold_eq params st

theorem flatMap_fanDiags_ne_nil (params : List OVCParameter) (p : OVCParameter)
    (hp : p ∈ params) (h : fanDiags p ≠ []) : (params.flatMap fanDiags).isEmpty = false := by
  cases hl : params.flatMap fanDiags with
  | nil =>
    have := List.flatMap_eq_nil_iff.mp hl p hp
    exact absurd this h
  | cons d ds => rfl

/-- A fan speed directive that asks for the default, names thermal controller 0 and selects
adapters within range adds nothing to any validation phase. -/
theorem adl_validate_skip (mc : ADLMainControl) (active : List Int) (junk : ADLODParameters)
    (p : OVCParameter) (l1 l2 : List OVCParameter)
    (ht : p.type = OVCParamType.FAN_SPEED) (hd : fanDiags p = [])
    (ho : offending (active.length : Int) p = false) :
    ADL.validate mc active (l1 ++ p :: l2) junk = ADL.validate mc active (l1 ++ l2) junk := by
  unfold ADL.validate ADL.checkIndices ADL.checkFanSpeed ADL.checkOther
  dsimp only
  rw [foldl_skip _ p (fun st => by rw [if_neg (by simp [ht])]),
    foldl_skip _ p (fun st => by rw [fanStep_eq, hd]; simp),
    foldl_skip _ p (fun st => by rw [indexStep_eq, ho]; rfl)]

theorem amdgpu_validate_skip (N : Nat) (perfClocks : List PerfClocks) (junk : PerfClocks)
    (p : OVCParameter) (l1 l2 : List OVCParameter)
    (ht : p.type = OVCParamType.FAN_SPEED) (hd : fanDiags p = [])
    (ho : offending (N : Int) p = false) :
    AMDGPU.validate N (l1 ++ p :: l2) perfClocks junk =
      AMDGPU.validate N (l1 ++ l2) perfClocks junk := by
  unfold AMDGPU.validate AMDGPU.checkIndices AMDGPU.checkFanSpeed AMDGPU.checkOther
  dsimp only
  rw [foldl_skip _ p (fun st => by rw [if_neg (by simp [ht])]),
    foldl_skip _ p (fun st => by rw [fanStep_eq, hd]; simp),
    foldl_skip _ p (fun st => by rw [indexStep_eq, ho]; rfl)]

/-- C20: in the Catalyst engine, the AMDGPU engine of `amdcovc.cpp` and `AmdGpuProOvc`, the
fan speed check prints, for the fan speed directives of the batch in input order, "Thermal
Control Index is not 0" when `partId` is not 0 and "FanSpeed value out of range" when the
directive does not ask for the default and its value is below 0 or above 100, and nothing
else; it sets `failed` exactly when it prints.  So a fan speed directive is reported if and only
if its thermal controller index is not 0 or it is not a default directive with a value outside
`[0, 100]`; a batch that holds such a directive fails validation; and a default fan speed
directive with index 0 whose adapters are within range adds nothing to the validation of any
batch, so that alone it passes. -/
theorem fan_speed_validation (params : List OVCParameter) :
    (∀ st : Check, ADL.checkFanSpeed params st =
      ⟨st.failed || !(params.flatMap fanDiags).isEmpty, st.err ++ params.flatMap fanDiags⟩) ∧
    (∀ st : Check, AMDGPU.checkFanSpeed params st =
      ⟨st.failed || !(params.flatMap fanDiags).isEmpty, st.err ++ params.flatMap fanDiags⟩) ∧
    (∀ st : Check, AmdGpuProOvc.checkFanSpeeds params st =
      ⟨st.failed || !(params.flatMap fanDiags).isEmpty, st.err ++ params.flatMap fanDiags⟩) ∧
    (∀ p : OVCParameter, p.type = OVCParamType.FAN_SPEED →
      (fanDiags p ≠ [] ↔
        p.partId ≠ 0 ∨ (p.useDefault = false ∧ (p.value < 0 ∨ 100 < p.value)))) ∧
    (∀ p : OVCParameter, p.type ≠ OVCParamType.FAN_SPEED → fanDiags p = []) ∧
    (∀ p ∈ params, fanDiags p ≠ [] →
      (∀ (mc : ADLMainControl) (active : List Int) (junk : ADLODParameters),
        (ADL.validate mc active params junk).failed = true) ∧
      (∀ (N : Nat) (perfClocks : List PerfClocks) (junk : PerfClocks),
        (AMDGPU.validate N params perfClocks junk).failed = true ∧
        (AmdGpuProOvc.validate N params perfClocks junk).failed = true)) ∧
    (∀ (p : OVCParameter) (l1 l2 : List OVCParameter),
      p.type = OVCParamType.FAN_SPEED → p.useDefault = true → p.partId = 0 →
      (∀ (mc : ADLMainControl) (active : List Int) (junk : ADLODParameters),
        offending (active.length : Int) p = false →
        ADL.validate mc active (l1 ++ p :: l2) junk = ADL.validate mc active (l1 ++ l2) junk ∧
        ADL.validate mc active [p] junk = ⟨false, []⟩) ∧
      (∀ (N : Nat) (perfClocks : List PerfClocks) (junk : PerfClocks),
        offending (N : Int) p = false →
        AMDGPU.validate N (l1 ++ p :: l2) perfClocks junk =
          AMDGPU.validate N (l1 ++ l2) perfClocks junk ∧
        AmdGpuProOvc.validate N (l1 ++ p :: l2) perfClocks junk =
          AmdGpuProOvc.validate N (l1 ++ l2) perfClocks junk ∧
        AMDGPU.validate N [p] perfClocks junk = ⟨false, []⟩ ∧
        AmdGpuProOvc.validate N [p] perfClocks junk = ⟨false, []⟩)) := by
  refine ⟨fanFold_eq params, fanFold_eq params, fanFold_eq params, ?_, ?_, ?_, ?_⟩
  · intro p ht
    rw [fanDiags_ne_nil]
    simp [ht]
  · intro p ht
    by_contra h
    exact ht ((fanDiags_ne_nil p).mp h).1
  · intro p hp hd
    have hfan : ∀ st : Check, (ADL.checkFanSpeed params st).failed = true := by
      intro st
      rw [adl_checkFanSpeed_eq]
      simp [flatMap_fanDiags_ne_nil params p hp hd]
    refine ⟨fun mc active junk => ?_, fun N perfClocks junk => ⟨?_, ?_⟩⟩
    · exact (adl_checkOther_ext _ junk _ params _).failed_mono (hfan _)
    · exact (amdgpu_checkOther_ext _ junk _ params _).failed_mono (hfan _)
    · exact (amdgpu_checkOther_ext _ junk _ params _).failed_mono (hfan _)
  · intro p l1 l2 ht hu h0
    have hd : fanDiags p = [] := by
      by_contra h
      rcases ((fanDiags_ne_nil p).mp h).2 with h1 | h1
      · exact h1 h0
      · rw [hu] at h1; exact absurd h1.1 (by simp)
    refine ⟨fun mc active junk ho => ⟨adl_validate_skip mc active junk p l1 l2 ht hd ho, ?_⟩,
      fun N perfClocks junk ho => ⟨amdgpu_validate_skip N perfClocks junk p l1 l2 ht hd ho,
        amdgpu_validate_skip N perfClocks junk p l1 l2 ht hd ho, ?_, ?_⟩⟩
    · exact adl_validate_skip mc active junk p [] [] ht hd ho
    · exact amdgpu_validate_skip N perfClocks junk p [] [] ht hd ho
    · exact amdgpu_validate_skip N perfClocks junk p [] [] ht hd ho

/-- Witness of C20: the batch `fanspeed:0=120 fanspeed:0:1=50` is reported twice and fails;
the directive `fanspeed:0=default` passes on one adapter. -/
theorem fan_speed_validation_witness :
    (ADL.validate exampleControl [0] [directive "fanspeed:0=120", directive "fanspeed:0:1=50"]
      exampleJunk).failed = true ∧
    ADL.checkFanSpeed [directive "fanspeed:0=120", directive "fanspeed:0:1=50"] ⟨false, []⟩ =
      ⟨true, [⟨DiagKind.fanSpeedRange, "fanspeed:0=120".toList⟩,
        ⟨DiagKind.thermalControlIndex, "fanspeed:0:1=50".toList⟩]⟩ ∧
    ADL.validate exampleControl [0] [directive "fanspeed:0=default"] exampleJunk = ⟨false, []⟩ ∧
    AmdGpuProOvc.validate 1 [directive "fanspeed:0=default"] [⟨1000, 1500⟩] ⟨0, 0⟩ =
      ⟨false, []⟩ :=
  have h := fan_speed_validation [directive "fanspeed:0=120", directive "fanspeed:0:1=50"]
  have h2 := (fan_speed_validation []).2.2.2.2.2.2 (directive "fanspeed:0=default") [] []
    (by decide!) (by decide!) (by decide!)
  ⟨(h.2.2.2.2.2.1 (directive "fanspeed:0=120") (by simp) (by decide!)).1 exampleControl [0]
      exampleJunk,
    (h.1 ⟨false, []⟩).trans (by decide!),
    (h2.1 exampleControl [0] exampleJunk (by decide!)).2,
    (h2.2 1 [⟨1000, 1500⟩] ⟨0, 0⟩ (by decide!)).2.2.2⟩

/-! ### The directive parser, clause by clause -/

theorem strchr_eq_none {s : List Char} {c : Char} : strchr s c = none ↔ c ∉ s := by
  induction s with
  | nil => simp [strchr]
  | cons d ds ih =>
    unfold strchr
    by_cases hd : d = c
    · simp [hd]
    · rw [if_neg hd, ih]
      simp [hd, Ne.symm hd]

/-- The pointer `strchr` returns points at the character, and the text before it is free of
it. -/
theorem strchr_eq_some {s r : List Char} {c : Char} (h : strchr s c = some r) :
    s = upTo s c ++ r ∧ r.head? = some c ∧ c ∉ upTo s c := by
  induction s with
  | nil => simp [strchr] at h
  | cons d ds ih =>
    unfold strchr at h
    unfold upTo
    by_cases hd : d = c
    · rw [if_pos hd] at h
      rw [if_pos hd]
      simp only [Option.some.injEq] at h
      subst h
      simp [hd]
    · rw [if_neg hd] at h
      rw [if_neg hd]
      obtain ⟨h1, h2, h3⟩ := ih h
      refine ⟨by rw [List.cons_append, ← h1], h2, ?_⟩
      simp [h3, Ne.symm hd]

/-- The names of the table hold neither `:` nor `=`. -/
theorem nameTable_chars {n : List Char} {x : OVCParamType × Int × Bool}
    (h : nameTable n = some x) : ':' ∉ n ∧ '=' ∉ n := by
  unfold nameTable at h
  repeat' split at h
  all_goals first
    | (rename_i hn; subst hn; decide)
    | exact absurd h (by simp)

/-- A token splits into its name and the rest, which starts with `:` or `=`. -/
theorem splitName_eq_some {string name afterName : List Char}
    (h : splitName string = some (name, afterName)) :
    string = name ++ afterName ∧
      ((strchr string ':' = some afterName ∧ afterName.head? = some ':') ∨
        (strchr string ':' = none ∧ afterName.head? = some '=')) := by
  unfold splitName at h
  cases h1 : strchr string ':' with
  | some a =>
    rw [h1] at h
    simp only [Option.some.injEq, Prod.mk.injEq] at h
    obtain ⟨hn, ha⟩ := h
    subst hn ha
    obtain ⟨e, hh, -⟩ := strchr_eq_some h1
    exact ⟨e, Or.inl ⟨rfl, hh⟩⟩
  | none =>
    rw [h1] at h
    dsimp only at h
    cases h2 : strchr string '=' with
    | some a =>
      rw [h2] at h
      simp only [Option.some.injEq, Prod.mk.injEq] at h
      obtain ⟨hn, ha⟩ := h
      subst hn ha
      obtain ⟨e, hh, -⟩ := strchr_eq_some h2
      exact ⟨e, Or.inr ⟨rfl, hh⟩⟩
    | none => rw [h2] at h; simp at h

theorem splitName_eq (n r : List Char) (hn : ':' ∉ n) (hn2 : '=' ∉ n)
    (hr : ':' ∉ r) : splitName (n ++ '=' :: r) = some (n, '=' :: r) := by
  unfold splitName
  have h1 : strchr (n ++ '=' :: r) ':' = none := by
    rw [strchr_eq_none]
    simp [hn, hr]
  rw [h1, (strchr_append n r '=' hn2).1, (strchr_append n r '=' hn2).2]

/-- The value clause accepts exactly the word `default` and the texts that `strtod` reads to
their end as a finite number without range error. -/
theorem parseValue_accepted_iff (v : List Char) (param p : OVCParameter) :
    parseValue ('=' :: v) param = ParseResult.accepted p ↔
      (v = "default".toList ∧ p = { param with useDefault := true }) ∨
      (v ≠ "default".toList ∧ v ≠ [] ∧
        ∃ q, strtod v = ⟨Double.finite q, [], false⟩ ∧ p = { param with value := q }) := by
  rw [parseValue]
  by_cases hd : v = "default".toList
  · rw [if_pos hd]
    simp only [ParseResult.accepted.injEq, hd, true_and, ne_eq, not_true_eq_false, false_and,
      or_false]
    exact eq_comm
  · rw [if_neg hd]
    simp only [hd, false_and, ne_eq, not_false_eq_true, true_and, false_or]
    generalize hr : strtod v = r
    obtain ⟨val, endptr, erange⟩ := r
    have hinj : ∀ q1, (⟨val, endptr, erange⟩ : StrtodResult) = ⟨Double.finite q1, [], false⟩ ↔
        val = Double.finite q1 ∧ endptr = [] ∧ erange = false := by
      intro q1; simp
    simp only [hinj]
    cases erange with
    | true => simp
    | false =>
      simp only [Bool.false_or, beq_iff_eq]
      by_cases he : endptr = v
      · rw [if_pos he]
        subst he
        constructor
        · intro h; exact absurd h (by simp)
        · rintro ⟨hne, q, ⟨-, h2, -⟩, -⟩
          exact absurd h2 hne
      · rw [if_neg he]
        cases val with
        | finite q =>
          dsimp only
          by_cases hn : endptr = []
          · subst hn
            rw [if_neg (by simp)]
            constructor
            · intro h
              exact ⟨fun hv => he hv.symm, q, ⟨rfl, rfl, trivial⟩, (ParseResult.accepted.inj h).symm⟩
            · rintro ⟨-, q1, ⟨hq1, -, -⟩, hp⟩
              rw [hp, Double.finite.inj hq1]
          · rw [if_pos (by simpa using hn)]
            constructor
            · intro h; exact absurd h (by simp)
            · rintro ⟨-, q1, ⟨-, h2, -⟩, -⟩
              exact absurd h2 hn
        | inf neg =>
          constructor
          · intro h; exact absurd h (by simp)
          · rintro ⟨-, q1, ⟨h1, -, -⟩, -⟩
            exact absurd h1 (by simp)
        | nan =>
          constructor
          · intro h; exact absurd h (by simp)
          · rintro ⟨-, q1, ⟨h1, -, -⟩, -⟩
            exact absurd h1 (by simp)

theorem parseValue_accepted_head {a : List Char} {param p : OVCParameter}
    (h : parseValue a param = ParseResult.accepted p) : ∃ v, a = '=' :: v := by
  unfold parseValue at h
  split at h
  · exact ⟨_, rfl⟩
  · exact absurd h (by simp)

/-- What the value clause leaves alone. -/
theorem parseValue_accepted_fields {a : List Char} {param p : OVCParameter}
    (h : parseValue a param = ParseResult.accepted p) :
    p.type = param.type ∧ p.adapters = param.adapters ∧ p.allAdapters = param.allAdapters ∧
      p.partId = param.partId ∧ p.argText = param.argText := by
  obtain ⟨v, rfl⟩ := parseValue_accepted_head h
  rcases (parseValue_accepted_iff v param p).mp h with ⟨-, rfl⟩ | ⟨-, -, q, -, rfl⟩ <;>
    exact ⟨rfl, rfl, rfl, rfl, rfl⟩

/-- An accepted level clause ends in an accepted value clause; only `partId` may differ, and
it does not when the name takes no level or no `:` leads the clause. -/
theorem parseLevel_accepted {a : List Char} {b : Bool} {param p : OVCParameter}
    (h : parseLevel a b param = ParseResult.accepted p) :
    ∃ a1 param1, parseValue a1 param1 = ParseResult.accepted p ∧ (∃ pre, a = pre ++ a1) ∧
      param1.type = param.type ∧ param1.adapters = param.adapters ∧
      param1.allAdapters = param.allAdapters ∧ param1.value = param.value ∧
      param1.useDefault = param.useDefault ∧ param1.argText = param.argText ∧
      ((b = true ∨ a.head? ≠ some ':') → param1.partId = param.partId) := by
  unfold parseLevel at h
  cases a with
  | nil => simp at h
  | cons c a1 =>
    dsimp only at h
    by_cases hc : c = ':' ∧ b = false
    · rw [if_pos hc] at h
      have hb : ¬ (b = true ∨ (c :: a1).head? ≠ some ':') := by
        simp [hc.1, hc.2]
      have hsuffix : ∃ pre, c :: a1 = pre ++ (strtol a1).endptr := by
        cases hn : readNumeral a1 with
        | none => rw [strtol_none hn]; exact ⟨[c], rfl⟩
        | some x =>
          obtain ⟨v, r⟩ := x
          obtain ⟨pre, e, -⟩ := readNumeral_chars hn
          rw [(strtol_some hn).1]
          exact ⟨c :: pre, by rw [List.cons_append, ← e]⟩
      split at h
      · exact absurd h (by simp)
      · split at h
        · exact ⟨_, _, h, hsuffix, rfl, rfl, rfl, rfl, rfl, rfl, fun hx => absurd hx hb⟩
        · exact ⟨_, _, h, hsuffix, rfl, rfl, rfl, rfl, rfl, rfl, fun _ => rfl⟩
    · rw [if_neg hc] at h
      exact ⟨_, _, h, ⟨[], rfl⟩, rfl, rfl, rfl, rfl, rfl, rfl, fun _ => rfl⟩

/-- The level clause without a leading `:`, or for a name that takes no level, is the value
clause. -/
theorem parseLevel_eq_parseValue {a : List Char} {b : Bool} (param : OVCParameter)
    (h : b = true ∨ a.head? ≠ some ':') (hne : a ≠ []) :
    parseLevel a b param = parseValue a param := by
  unfold parseLevel
  cases a with
  | nil => exact absurd rfl hne
  | cons c a1 =>
    dsimp only
    rw [if_neg]
    rintro ⟨h1, h2⟩
    rcases h with h | h
    · rw [h2] at h; exact absurd h (by simp)
    · exact h (by simp [h1])

/-- An accepted token: the selector clause ends in an accepted value clause.  The kind, the
initial value and `useDefault`, and the text are those the clause started with; `partId` is
too when the name takes no level or no second `:` follows; the selection is too when there is
no selector or an empty one. -/
theorem parseSelector_accepted {a : List Char} {b : Bool} {param p : OVCParameter}
    (h : parseSelector a b param = ParseResult.accepted p) :
    ∃ a1 param1, parseValue a1 param1 = ParseResult.accepted p ∧ (∃ pre, a = pre ++ a1) ∧
      param1.type = param.type ∧ param1.value = param.value ∧
      param1.useDefault = param.useDefault ∧ param1.argText = param.argText ∧
      ((b = true ∨ a.head? ≠ some ':' ∨ strchr a.tail ':' = none) →
        param1.partId = param.partId) ∧
      ((a.head? ≠ some ':' ∨ a.tail.head? = some ':' ∨ a.tail.head? = some '=') →
        param1.adapters = param.adapters ∧ param1.allAdapters = param.allAdapters) := by
  unfold parseSelector at h
  cases a with
  | nil => simp at h
  | cons c a1 =>
    dsimp only at h
    by_cases hc : c = ':'
    · rw [if_pos hc] at h
      subst hc
      cases hsp : splitName a1 with
      | none => rw [hsp] at h; simp at h
      | some x =>
        obtain ⟨listString, afterList⟩ := x
        rw [hsp] at h
        dsimp only at h
        obtain ⟨hcat, hkind⟩ := splitName_eq_some hsp
        by_cases hne : afterList ≠ a1
        · rw [if_pos hne] at h
          cases hst : (parseAdaptersList listString).status with
          | ok =>
            rw [hst] at h
            dsimp only at h
            obtain ⟨a2, param1, hv, ⟨pre, hpre⟩, h1, h2, h3, h4, h5, h6, h7⟩ :=
              parseLevel_accepted h
            refine ⟨a2, param1, hv, ⟨':' :: (listString ++ pre), ?_⟩, h1, h4, h5, h6, ?_, ?_⟩
            · rw [List.cons_append, List.append_assoc, ← hpre, ← hcat]
            · intro hx
              apply h7
              rcases hx with hx | hx | hx
              · exact Or.inl hx
              · exact absurd rfl hx
              · right
                rcases hkind with ⟨hk, -⟩ | ⟨-, hk⟩
                · rw [List.tail_cons, hk] at hx; exact absurd hx (by simp)
                · rw [hk]; simp
            · intro hx
              exfalso
              rcases hx with hx | hx | hx
              · exact hx rfl
              · rw [List.tail_cons] at hx
                rcases hkind with ⟨hk, -⟩ | ⟨hk, -⟩
                · apply hne
                  cases a1 with
                  | nil => simp at hx
                  | cons d ds =>
                    simp only [List.head?_cons, Option.some.injEq] at hx
                    subst hx
                    simpa [strchr] using hk.symm
                · cases a1 with
                  | nil => simp at hx
                  | cons d ds =>
                    simp only [List.head?_cons, Option.some.injEq] at hx
                    subst hx
                    simp [strchr] at hk
              · rw [List.tail_cons] at hx
                cases a1 with
                | nil => simp at hx
                | cons d ds =>
                  simp only [List.head?_cons, Option.some.injEq] at hx
                  subst hx
                  rcases hkind with ⟨hk, hh⟩ | ⟨hk1, -⟩
                  · -- the selector text starts with `=`: the list parser throws
                    have hls : listString = upTo ('=' :: ds) ':' := by
                      unfold splitName at hsp
                      rw [hk] at hsp
                      simp only [Option.some.injEq, Prod.mk.injEq] at hsp
                      exact hsp.1.symm
                    have hup : ∃ t, upTo ('=' :: ds) ':' = '=' :: t := by
                      unfold upTo
                      rw [if_neg (by decide)]
                      exact ⟨_, rfl⟩
                    obtain ⟨t, ht⟩ := hup
                    rw [hls, ht] at hst
                    have hthrow : (parseAdaptersList ('=' :: t)).status =
                        Status.thrown "Unable to parse adapter index" := by
                      have hnum : readNumeral ('=' :: t) = none := by
                        simp [readNumeral, skipSpace, scanSign, isspace, isdigit]
                      have hnall : ('=' :: t) ≠ "all".toList := by
                        intro hx
                        have := congrArg List.head? hx
                        simp at this
                      unfold parseAdaptersList
                      rw [if_neg hnall, parseAdaptersLoop_succ, hnum]
                    rw [hthrow] at hst
                    exact absurd hst (by simp)
                  · apply hne
                    unfold splitName at hsp
                    rw [hk1] at hsp
                    simp only [strchr, if_true, Option.some.injEq, Prod.mk.injEq] at hsp
                    exact hsp.2.symm
          | thrown w => rw [hst] at h; simp at h
          | undefined => rw [hst] at h; simp at h
          | outOfFuel => rw [hst] at h; simp at h
        · rw [if_neg hne] at h
          have hal : afterList = a1 := not_not.mp hne
          obtain ⟨a2, param1, hv, ⟨pre, hpre⟩, h1, h2, h3, h4, h5, h6, h7⟩ :=
            parseLevel_accepted h
          refine ⟨a2, param1, hv, ⟨':' :: pre, by rw [List.cons_append, ← hpre]⟩, h1, h4, h5,
            h6, ?_, fun _ => ⟨h2, h3⟩⟩
          intro hx
          apply h7
          rcases hx with hx | hx | hx
          · exact Or.inl hx
          · exact absurd rfl hx
          · right
            rw [List.tail_cons] at hx
            rcases hkind with ⟨hk, -⟩ | ⟨-, hk⟩
            · rw [hk] at hx; exact absurd hx (by simp)
            · rw [← hal, hk]; simp
    · rw [if_neg hc] at h
      obtain ⟨a2, param1, hv, hpre, h1, h2, h3, h4, h5, h6, h7⟩ := parseLevel_accepted h
      have hhead : (c :: a1).head? ≠ some ':' := by simp [hc]
      exact ⟨a2, param1, hv, hpre, h1, h4, h5, h6, fun _ => h7 (Or.inr hhead),
        fun _ => ⟨h2, h3⟩⟩

/-- An accepted token has a name of the table, and its selector clause is accepted. -/
theorem parseOVCParameter_accepted {string : List Char} {value0 : ℚ} {p : OVCParameter}
    (h : parseOVCParameter string value0 = ParseResult.accepted p) :
    ∃ name afterName type partId partIdSet,
      splitName string = some (name, afterName) ∧
      nameTable name = some (type, partId, partIdSet) ∧
      parseSelector afterName partIdSet
        ⟨type, [0], false, partId, value0, false, string⟩ = ParseResult.accepted p := by
  unfold parseOVCParameter at h
  cases hs : splitName string with
  | none => rw [hs] at h; simp at h
  | some x =>
    obtain ⟨name, afterName⟩ := x
    rw [hs] at h
    dsimp only at h
    cases hn : nameTable name with
    | none => rw [hn] at h; simp at h
    | some y =>
      obtain ⟨type, partId, partIdSet⟩ := y
      rw [hn] at h
      exact ⟨name, afterName, type, partId, partIdSet, rfl, hn, h⟩

theorem takeWhile_name (n r : List Char) (c : Char) (hc : c = ':' ∨ c = '=')
    (h1 : ':' ∉ n) (h2 : '=' ∉ n) :
    (n ++ c :: r).takeWhile (fun c => c != ':' && c != '=') = n := by
  induction n with
  | nil =>
    rcases hc with rfl | rfl <;> rfl
  | cons d n ih =>
    have hd1 : d ≠ ':' := fun h => h1 (h ▸ List.mem_cons_self _ _)
    have hd2 : d ≠ '=' := fun h => h2 (h ▸ List.mem_cons_self _ _)
    have hp : (d != ':' && d != '=') = true := by simp [hd1, hd2]
    rw [List.cons_append, List.takeWhile_cons, hp]
    simp only [if_true, List.cons.injEq, true_and]
    exact ih (fun h => h1 (List.mem_cons_of_mem _ h)) (fun h => h2 (List.mem_cons_of_mem _ h))

/-- The name the parser looks up is the text before the first `:` or `=`. -/
theorem tokenName_eq {string name afterName : List Char} {x : OVCParamType × Int × Bool}
    (hs : splitName string = some (name, afterName)) (hn : nameTable name = some x) :
    tokenName string = name := by
  obtain ⟨hcat, hkind⟩ := splitName_eq_some hs
  obtain ⟨h1, h2⟩ := nameTable_chars hn
  have hhead : ∃ c r, afterName = c :: r ∧ (c = ':' ∨ c = '=') := by
    cases afterName with
    | nil => rcases hkind with ⟨-, hk⟩ | ⟨-, hk⟩ <;> simp at hk
    | cons c r =>
      refine ⟨c, r, rfl, ?_⟩
      rcases hkind with ⟨-, hk⟩ | ⟨-, hk⟩
      · left; simpa using hk
      · right; simpa using hk
  obtain ⟨c, r, hcr, hc⟩ := hhead
  unfold tokenName
  rw [hcat, hcr]
  exact takeWhile_name name r c hc h1 h2

/-- C13: a token that `parseOVCParameter` accepts and that has no selector sub-clause, or an
empty one, yields a directive with `allAdapters = false` and `adapters = [0]`.  So
`fanspeed=default` yields a fan speed directive for adapter 0 with `useDefault = true`, and
`vcore::0=0.81` a voltage directive for adapter 0 at level 0 with the value 0.81. -/
theorem default_selection (string : List Char) (value0 : ℚ) (p : OVCParameter)
    (h : parseOVCParameter string value0 = ParseResult.accepted p)
    (hs : noSelector string = true) :
    p.adapters = [0] ∧ p.allAdapters = false := by
  obtain ⟨name, afterName, type, partId, partIdSet, hsplit, -, hsel⟩ :=
    parseOVCParameter_accepted h
  obtain ⟨a1, param1, hv, -, -, -, -, -, -, hads⟩ := parseSelector_accepted hsel
  obtain ⟨-, h2, h3, -, -⟩ := parseValue_accepted_fields hv
  have hcond : afterName.head? ≠ some ':' ∨ afterName.tail.head? = some ':' ∨
      afterName.tail.head? = some '=' := by
    obtain ⟨-, hkind⟩ := splitName_eq_some hsplit
    rcases hkind with ⟨hk, -⟩ | ⟨-, hk⟩
    · unfold noSelector at hs
      rw [hk] at hs
      simp only [Bool.or_eq_true, beq_iff_eq] at hs
      exact Or.inr hs
    · left; rw [hk]; simp
  obtain ⟨h4, h5⟩ := hads hcond
  exact ⟨h2.trans h4, h3.trans h5⟩

/-- Witness of C13: the tokens `fanspeed=default`, `vcore::0=0.81` and `coreclk:=900`. -/
theorem default_selection_witness :
    parseOVCParameter "fanspeed=default".toList 0 =
      ParseResult.accepted ⟨OVCParamType.FAN_SPEED, [0], false, 0, 0, true,
        "fanspeed=default".toList⟩ ∧
    parseOVCParameter "vcore::0=0.81".toList 0 =
      ParseResult.accepted ⟨OVCParamType.VDDC_VOLTAGE, [0], false, 0, binary64 (81 / 100), false,
        "vcore::0=0.81".toList⟩ ∧
    parseOVCParameter "coreclk:=900".toList 0 =
      ParseResult.accepted ⟨OVCParamType.CORE_CLOCK, [0], false, LAST_PERFLEVEL, 900, false,
        "coreclk:=900".toList⟩ ∧
    noSelector "fanspeed=default".toList = true ∧ noSelector "vcore::0=0.81".toList = true ∧
    noSelector "coreclk:=900".toList = true ∧ noSelector "coreclk:1=900".toList = false ∧
    (⟨OVCParamType.VDDC_VOLTAGE, [0], false, 0, binary64 (81 / 100), false,
        "vcore::0=0.81".toList⟩ : OVCParameter).adapters = [0] :=
  ⟨by decide!, by decide!, by decide!, by decide, by decide, by decide, by decide,
    (default_selection "vcore::0=0.81".toList 0 _ (by decide!) (by decide)).1⟩

theorem parseValue_rejected_of_head {a : List Char} (param : OVCParameter)
    (h : a.head? ≠ some '=') :
    parseValue a param = ParseResult.rejected ParseDiag.unterminated := by
  unfold parseValue
  split
  · exact absurd rfl h
  · rfl

/-- The list parser never runs out of fuel. -/
theorem parseAdaptersList_fuel (s : List Char) :
    (parseAdaptersList s).status ≠ Status.outOfFuel := by
  unfold parseAdaptersList
  split
  · simp
  · have h := parseAdaptersLoop_fuel (s.length + 1) s [] (Nat.lt_succ_self _)
    generalize parseAdaptersLoop (s.length + 1) s [] = res at h
    obtain ⟨pushed, st⟩ := res
    cases st with
    | ok => simp
    | thrown w => simp
    | undefined => simp
    | outOfFuel => exact absurd rfl h

/-- The parser on a token with two `:` after a name of the table: an empty selector text is
skipped, any other is handed to the list parser, and the level clause starts at the second
`:`. -/
theorem parse_two_colons (n s rest : List Char) (type : OVCParamType) (partId : Int)
    (partIdSet : Bool) (value0 : ℚ) (hn : nameTable n = some (type, partId, partIdSet))
    (hs : ':' ∉ s) :
    parseOVCParameter (n ++ ':' :: (s ++ ':' :: rest)) value0 =
      if s = [] then
        parseLevel (':' :: rest) partIdSet
          ⟨type, [0], false, partId, value0, false, n ++ ':' :: (s ++ ':' :: rest)⟩
      else
        match (parseAdaptersList s).status with
        | Status.ok =>
          parseLevel (':' :: rest) partIdSet
            ⟨type, (parseAdaptersList s).adapters, (parseAdaptersList s).allAdapters, partId,
              value0, false, n ++ ':' :: (s ++ ':' :: rest)⟩
        | Status.thrown what => ParseResult.rejected (ParseDiag.adapterList what)
        | _ => ParseResult.undefined := by
  unfold parseOVCParameter
  rw [splitName_append n _ (nameTable_chars hn).1]
  simp only [hn]
  rw [parseSelector]
  simp only [if_true, splitName_append s rest hs]
  by_cases he : s = []
  · subst he
    simp
  · have hne : ':' :: rest ≠ s ++ ':' :: rest := by
      intro h
      have := congrArg List.length h
      simp only [List.length_append, List.length_cons] at this
      exact he (List.length_eq_zero.mp (by omega))
    rw [if_pos hne, if_neg he]

theorem skipSpace_append_nil (a b : List Char) (h : skipSpace a = []) :
    skipSpace (a ++ b) = skipSpace b := by
  induction a with
  | nil => rfl
  | cons c cs ih =>
    rw [skipSpace] at h
    by_cases hc : isspace c = true
    · rw [if_pos hc] at h
      rw [List.cons_append, skipSpace, if_pos hc]
      exact ih h
    · rw [if_neg hc] at h
      exact absurd h (by simp)

theorem scanDigits_append_rest (a b : List Char) (acc n : Nat) (r : List Char)
    (h : scanDigits acc a = (n, r)) (hr : r ≠ []) :
    scanDigits acc (a ++ b) = (n, r ++ b) := by
  induction a generalizing acc with
  | nil =>
    simp only [scanDigits, Prod.mk.injEq] at h
    exact absurd h.2.symm hr
  | cons d a ih =>
    rw [scanDigits] at h
    rw [List.cons_append, scanDigits]
    by_cases hd : isdigit d = true
    · rw [if_pos hd] at h ⊢
      exact ih _ h
    · rw [if_neg hd] at h ⊢
      simp only [Prod.mk.injEq] at h
      obtain ⟨h1, h2⟩ := h
      rw [h1, ← h2]
      rfl

/-- A text that is no numeral is none in front of a character that is neither white space
nor a sign nor a digit. -/
theorem readNumeral_none_append (a b : List Char) (h : readNumeral a = none)
    (hb : ∀ c, b.head? = some c →
      isdigit c = false ∧ isspace c = false ∧ c ≠ '-' ∧ c ≠ '+') :
    readNumeral (a ++ b) = none := by
  have hbsp : skipSpace b = b := by
    cases b with
    | nil => rfl
    | cons c cs => rw [skipSpace, (hb c rfl).2.1]; rfl
  have hbsg : scanSign b = (false, b) := by
    cases b with
    | nil => rfl
    | cons c cs => rw [scanSign, if_neg (hb c rfl).2.2.1, if_neg (hb c rfl).2.2.2]
  have hbnum : ∀ neg : Bool, (match b with
      | [] => (none : Option (Int × List Char))
      | c :: _ =>
        if isdigit c then
          let (n, rest) := scanDigits 0 b
          some (if neg then -(n : Int) else (n : Int), rest)
        else none) = none := by
    intro neg
    cases b with
    | nil => rfl
    | cons c cs => simp [(hb c rfl).1]
  unfold readNumeral at h ⊢
  by_cases hsp : skipSpace a = []
  · rw [skipSpace_append_nil a b hsp, hbsp, hbsg]
    exact hbnum false
  · rw [skipSpace_append a b hsp]
    by_cases hsg : (scanSign (skipSpace a)).2 = []
    · have : scanSign (skipSpace a ++ b) = ((scanSign (skipSpace a)).1, b) := by
        generalize skipSpace a = u at hsp hsg
        cases u with
        | nil => exact absurd rfl hsp
        | cons c cs =>
          rw [scanSign] at hsg ⊢
          rw [List.cons_append, scanSign]
          by_cases h1 : c = '-'
          · rw [if_pos h1] at hsg ⊢
            dsimp only at hsg
            subst hsg
            rw [if_pos h1]
            rfl
          · rw [if_neg h1] at hsg ⊢
            by_cases h2 : c = '+'
            · rw [if_pos h2] at hsg ⊢
              dsimp only at hsg
              subst hsg
              rw [if_neg h1, if_pos h2]
              rfl
            · rw [if_neg h2] at hsg
              exact absurd hsg (by simp)
      rw [this]
      exact hbnum _
    · rw [scanSign_append _ b hsg]
      generalize scanSign (skipSpace a) = sg at h hsg
      obtain ⟨neg, u⟩ := sg
      dsimp only at h hsg ⊢
      cases u with
      | nil => exact absurd rfl hsg
      | cons c cs =>
        rw [List.cons_append]
        dsimp only at h ⊢
        by_cases hc : isdigit c = true
        · rw [if_pos hc] at h
          generalize scanDigits 0 (c :: cs) = sd at h
          obtain ⟨n, rest⟩ := sd
          simp at h
        · rw [if_neg hc]

/-- A numeral followed by more text within `a` is read the same way in front of anything. -/
theorem readNumeral_append_rest (a b : List Char) (v : Int) (r : List Char)
    (h : readNumeral a = some (v, r)) (hr : r ≠ []) :
    readNumeral (a ++ b) = some (v, r ++ b) := by
  unfold readNumeral at h ⊢
  have hsp : skipSpace a ≠ [] := by
    intro hnil
    rw [hnil] at h
    simp [scanSign] at h
  rw [skipSpace_append a b hsp]
  have hsg : (scanSign (skipSpace a)).2 ≠ [] := by
    intro hnil
    generalize scanSign (skipSpace a) = sg at h hnil
    obtain ⟨neg, u⟩ := sg
    dsimp only at hnil
    subst hnil
    simp at h
  rw [scanSign_append _ b hsg]
  generalize scanSign (skipSpace a) = sg at h hsg
  obtain ⟨neg, u⟩ := sg
  dsimp only at h hsg ⊢
  cases u with
  | nil => exact absurd rfl hsg
  | cons c cs =>
    rw [List.cons_append]
    dsimp only at h ⊢
    by_cases hc : isdigit c = true
    · rw [if_pos hc] at h ⊢
      generalize hsd : scanDigits 0 (c :: cs) = sd at h
      obtain ⟨n, rest⟩ := sd
      simp only [Option.some.injEq, Prod.mk.injEq] at h
      obtain ⟨hv, hrest⟩ := h
      subst hrest
      rw [← List.cons_append, scanDigits_append_rest _ b 0 n rest hsd hr]
      simp [hv]
    · rw [if_neg hc] at h; simp at h

/-- The level clause on a level text that is not empty, holds no `=` and is not a numeral:
the parser returns `false`. -/
theorem parseLevel_malformed (L v : List Char) (param : OVCParameter) (hL : L ≠ [])
    (heq : '=' ∉ L) (hnum : ∀ Lv, readNumeral L ≠ some (Lv, [])) :
    ∃ d, parseLevel (':' :: (L ++ '=' :: v)) false param = ParseResult.rejected d := by
  have hbad : ∀ c, ('=' :: v).head? = some c →
      isdigit c = false ∧ isspace c = false ∧ c ≠ '-' ∧ c ≠ '+' := by
    intro c hc
    simp only [List.head?_cons, Option.some.injEq] at hc
    subst hc
    decide
  rw [parseLevel]
  rw [if_pos ⟨rfl, rfl⟩]
  cases hrn : readNumeral L with
  | none =>
    have h1 := readNumeral_none_append L ('=' :: v) hrn hbad
    rw [strtol_none h1]
    dsimp only
    have hhead : (L ++ '=' :: v).head? ≠ some '=' := by
      cases L with
      | nil => exact absurd rfl hL
      | cons c cs =>
        simp only [List.cons_append, List.head?_cons, ne_eq, Option.some.injEq]
        intro hc
        exact heq (hc ▸ List.mem_cons_self _ _)
    simp only [Bool.false_eq_true, if_false, ne_eq, not_true_eq_false]
    exact ⟨_, parseValue_rejected_of_head param hhead⟩
  | some x =>
    obtain ⟨Lv, r⟩ := x
    have hr : r ≠ [] := by
      rintro rfl
      exact hnum Lv hrn
    have h1 := readNumeral_append_rest L ('=' :: v) Lv r hrn hr
    obtain ⟨pre, hpre, -⟩ := readNumeral_chars hrn
    have hhead : (r ++ '=' :: v).head? ≠ some '=' := by
      cases r with
      | nil => exact absurd rfl hr
      | cons c cs =>
        simp only [List.cons_append, List.head?_cons, ne_eq, Option.some.injEq]
        intro hc
        apply heq
        rw [hpre, hc]
        simp
    obtain ⟨hend, -, -⟩ := strtol_some h1
    dsimp only
    rw [hend]
    split
    · exact ⟨_, rfl⟩
    · split
      · exact ⟨_, parseValue_rejected_of_head _ hhead⟩
      · exact ⟨_, parseValue_rejected_of_head _ hhead⟩

/-- The level clause on an empty level text: nothing is read, `partId` stays, and the value
clause follows. -/
theorem parseLevel_empty (v : List Char) (param : OVCParameter) :
    parseLevel (':' :: '=' :: v) false param = parseValue ('=' :: v) param := by
  have hnum : readNumeral ('=' :: v) = none := by
    simp [readNumeral, skipSpace, scanSign, isspace, isdigit]
  rw [parseLevel, if_pos ⟨rfl, rfl⟩, strtol_none hnum]
  simp

/-- C12, amended: for a name of the table that takes a level (or a thermal controller
index), a selector text without `:` on which the list parser returns or throws, and a level
text that is not empty, holds no `=` and is not a numeral (optional white space, an optional
sign, digits), `parseOVCParameter` returns `false` on `name:selector:LEVEL=value`.  An empty
level text is skipped: after an accepted selector the token `name:selector:=value` is handed to
the value clause with the `partId` of the name table. -/
theorem malformed_level_rejected (n s L v : List Char) (type : OVCParamType) (partId : Int)
    (value0 : ℚ) (hn : nameTable n = some (type, partId, false)) (hs : ':' ∉ s)
    (hsel : (parseAdaptersList s).status ≠ Status.undefined) :
    (L ≠ [] → '=' ∉ L → (∀ Lv, readNumeral L ≠ some (Lv, [])) →
      ∃ d, parseOVCParameter (n ++ ':' :: (s ++ ':' :: (L ++ '=' :: v))) value0 =
        ParseResult.rejected d) ∧
    ((parseAdaptersList s).status = Status.ok →
      parseOVCParameter (n ++ ':' :: (s ++ ':' :: '=' :: v)) value0 =
        parseValue ('=' :: v)
          ⟨type, (parseAdaptersList s).adapters, (parseAdaptersList s).allAdapters, partId,
            value0, false, n ++ ':' :: (s ++ ':' :: '=' :: v)⟩) := by
  constructor
  · intro hL heq hnum
    rw [parse_two_colons n s _ type partId false value0 hn hs]
    by_cases he : s = []
    · rw [if_pos he]
      exact parseLevel_malformed L v _ hL heq hnum
    · rw [if_neg he]
      cases hst : (parseAdaptersList s).status with
      | ok => exact parseLevel_malformed L v _ hL heq hnum
      | thrown w => exact ⟨_, rfl⟩
      | undefined => exact absurd hst hsel
      | outOfFuel => exact absurd hst (parseAdaptersList_fuel s)
  · intro hok
    rw [parse_two_colons n s _ type partId false value0 hn hs]
    have he : s ≠ [] := (accepted_selector_chars s hok).2.2
    rw [if_neg he, hok]
    exact parseLevel_empty v _

/-- Witness of C12 (amended): the tokens `coreclk:0:x=900` and `coreclk:0:1x=900`. -/
theorem malformed_level_rejected_witness :
    parseOVCParameter "coreclk:0:x=900".toList 0 =
      ParseResult.rejected ParseDiag.unterminated ∧
    parseOVCParameter "coreclk:0:1x=900".toList 0 =
      ParseResult.rejected ParseDiag.unterminated ∧
    ∃ d, parseOVCParameter ("coreclk".toList ++ ':' :: ("0".toList ++ ':' ::
      ("x".toList ++ '=' :: "900".toList))) 0 = ParseResult.rejected d :=
  ⟨by decide!, by decide!,
    (malformed_level_rejected "coreclk".toList "0".toList "x".toList "900".toList
      OVCParamType.CORE_CLOCK LAST_PERFLEVEL 0 (by decide) (by decide) (by decide)).1
      (by decide) (by decide)
      (fun Lv => by rw [show readNumeral "x".toList = none by decide]; simp)⟩

/-- Counterexample to C12 as stated: the level text of `coreclk:0:=900` is empty, and the
token is accepted, with the level the name table gives.  The level texts ` 1` and `+1`, which
`strtol` reads as numerals, are accepted as level 1. -/
theorem empty_level_accepted :
    parseOVCParameter "coreclk:0:=900".toList 0 =
      ParseResult.accepted ⟨OVCParamType.CORE_CLOCK, [0], false, LAST_PERFLEVEL, 900, false,
        "coreclk:0:=900".toList⟩ ∧
    readNumeral "".toList = none ∧
    parseOVCParameter "coreclk:0: 1=900".toList 0 =
      ParseResult.accepted ⟨OVCParamType.CORE_CLOCK, [0], false, 1, 900, false,
        "coreclk:0: 1=900".toList⟩ ∧
    parseOVCParameter "coreclk:0:+1=900".toList 0 =
      ParseResult.accepted ⟨OVCParamType.CORE_CLOCK, [0], false, 1, 900, false,
        "coreclk:0:+1=900".toList⟩ := by
  refine ⟨by decide!, by decide, by decide!, by decide!⟩

/-- The initial `partId` of the name table is the default level of the name, and it is 0 for
the names that take no level. -/
theorem nameTable_default {n : List Char} {type : OVCParamType} {partId : Int}
    {partIdSet : Bool} (h : nameTable n = some (type, partId, partIdSet)) :
    partId = defaultLevel n ∧ (partIdSet = true → partId = 0) := by
  unfold nameTable at h
  split_ifs at h with h1 h2 h3 h4 h5 h6 h7 h8 h9
  all_goals
    simp only [Option.some.injEq, Prod.mk.injEq] at h
    obtain ⟨-, hp, hb⟩ := h
    subst hp hb
    first
      | (subst h1; exact ⟨by decide, by decide⟩)
      | (subst h2; exact ⟨by decide, by decide⟩)
      | (subst h3; exact ⟨by decide, by decide⟩)
      | (subst h4; exact ⟨by decide, by decide⟩)
      | (subst h5; exact ⟨by decide, by decide⟩)
      | (subst h6; exact ⟨by decide, by decide⟩)
      | (subst h7; exact ⟨by decide, by decide⟩)
      | (subst h8; exact ⟨by decide, by decide⟩)
      | (subst h9; exact ⟨by decide, by decide⟩)

/-- In the Catalyst engine a directive with `partId = LAST_PERFLEVEL` is checked and merged
on an adapter as the directive with the last level of that adapter written out. -/
theorem adl_last_level (q : OVCParameter) (hq : q.partId = LAST_PERFLEVEL)
    (odParams : List ADLODParameters) (junk : ADLODParameters) (i : Int) :
    ADL.resolveLevel odParams junk q i =
        ((readAt odParams i junk).iNumberOfPerformanceLevels : Int) - 1 ∧
    (∀ (N : Int) (st : Check),
      ADL.checkOtherAt odParams junk N q st i =
        ADL.checkOtherAt odParams junk N
          { q with partId := ((readAt odParams i junk).iNumberOfPerformanceLevels : Int) - 1 }
          st i) ∧
    (∀ (defaultPerfLevels : List (List ADLODPerformanceLevel)) (ls : ADL.LevelState),
      ADL.mergeAt odParams junk defaultPerfLevels q ls i =
        ADL.mergeAt odParams junk defaultPerfLevels
          { q with partId := ((readAt odParams i junk).iNumberOfPerformanceLevels : Int) - 1 }
          ls i) := by
  have hres : ∀ q1 : OVCParameter,
      q1.partId = ((readAt odParams i junk).iNumberOfPerformanceLevels : Int) - 1 →
      ADL.resolveLevel odParams junk q1 i =
        ((readAt odParams i junk).iNumberOfPerformanceLevels : Int) - 1 := by
    intro q1 h1
    unfold ADL.resolveLevel
    split
    · exact h1
    · rfl
  have hres0 : ADL.resolveLevel odParams junk q i =
      ((readAt odParams i junk).iNumberOfPerformanceLevels : Int) - 1 := by
    unfold ADL.resolveLevel
    rw [if_neg (not_not.mpr hq)]
  refine ⟨hres0, ?_, ?_⟩
  · intro N st
    unfold ADL.checkOtherAt
    by_cases hi : i ≥ N
    · rw [if_pos hi, if_pos hi]
    · rw [if_neg hi, if_neg hi]
      dsimp only
      rw [if_neg (not_not.mpr hq), ite_self]
      rfl
  · intro dpl ls
    unfold ADL.mergeAt
    rw [hres0, hres _ rfl]
    rfl

/-- C14: a token that `parseOVCParameter` accepts and that has no level sub-clause yields a
directive whose `partId` is `LAST_PERFLEVEL` for the names `coreclk`, `memclk`, `vcore`,
`coreod` and `memod` and 0 for `fanspeed`, `icoreclk`, `imemclk` and `ivcore`; and in the
validation and the merge of the Catalyst engine a directive with `partId = LAST_PERFLEVEL` is
treated on each adapter `d` it resolves to as the directive with level
`numberOfLevels(d) - 1`. -/
theorem default_level_policy (string : List Char) (value0 : ℚ) (p : OVCParameter)
    (h : parseOVCParameter string value0 = ParseResult.accepted p)
    (hl : noLevel string = true) :
    p.partId = defaultLevel (tokenName string) ∧
    tokenName string ∈ ["coreclk".toList, "memclk".toList, "vcore".toList, "coreod".toList,
      "memod".toList, "fanspeed".toList, "icoreclk".toList, "imemclk".toList,
      "ivcore".toList] ∧
    ∀ q : OVCParameter, q.partId = LAST_PERFLEVEL →
      ∀ (mc : ADLMainControl) (active : List Int) (junk : ADLODParameters) (d : Int),
        0 ≤ d → d < (active.length : Int) →
        ADL.resolveLevel (ADL.readODParams mc active) junk q d =
          ((mc.getODParameters (active.getD d.toNat 0)).iNumberOfPerformanceLevels : Int) - 1 ∧
        (∀ st : Check,
          ADL.checkOtherAt (ADL.readODParams mc active) junk (active.length : Int) q st d =
            ADL.checkOtherAt (ADL.readODParams mc active) junk (active.length : Int)
              { q with partId :=
                ((mc.getODParameters (active.getD d.toNat 0)).iNumberOfPerformanceLevels : Int)
                  - 1 } st d) ∧
        (∀ ls : ADL.LevelState,
          ADL.mergeAt (ADL.readODParams mc active) junk (ADL.readPerfLevels mc active true) q
              ls d =
            ADL.mergeAt (ADL.readODParams mc active) junk (ADL.readPerfLevels mc active true)
              { q with partId :=
                ((mc.getODParameters (active.getD d.toNat 0)).iNumberOfPerformanceLevels : Int)
                  - 1 } ls d) := by
  obtain ⟨name, afterName, type, partId, partIdSet, hsplit, htable, hsel⟩ :=
    parseOVCParameter_accepted h
  obtain ⟨a1, param1, hv, -, -, -, -, -, hpid, -⟩ := parseSelector_accepted hsel
  obtain ⟨-, -, -, h4, -⟩ := parseValue_accepted_fields hv
  have hcond : partIdSet = true ∨ afterName.head? ≠ some ':' ∨
      strchr afterName.tail ':' = none := by
    obtain ⟨-, hkind⟩ := splitName_eq_some hsplit
    rcases hkind with ⟨hk, -⟩ | ⟨-, hk⟩
    · unfold noLevel at hl
      rw [hk] at hl
      right; right
      simpa using hl
    · right; left; rw [hk]; simp
  have hname := tokenName_eq hsplit htable
  refine ⟨?_, ?_, ?_⟩
  · rw [hname, h4, hpid hcond]
    exact (nameTable_default htable).1
  · rw [hname]
    unfold nameTable at htable
    split_ifs at htable with h1 h2 h3 h4 h5 h6 h7 h8 h9
    all_goals first
      | (subst h1; decide)
      | (subst h2; decide)
      | (subst h3; decide)
      | (subst h4; decide)
      | (subst h5; decide)
      | (subst h6; decide)
      | (subst h7; decide)
      | (subst h8; decide)
      | (subst h9; decide)
  · intro q hq mc active junk d h0 h1
    have := adl_last_level q hq (ADL.readODParams mc active) junk d
    rw [readAt_readODParams mc active junk d h0 h1] at this
    exact ⟨this.1, fun st => this.2.1 _ st, fun ls => this.2.2 _ ls⟩

/-- Witness of C14: the tokens without a level get the level of their name, and with two
adapters of two and three levels the directive `coreclk:0,1=900` changes level 1 of the first
and level 2 of the second. -/
theorem default_level_policy_witness :
    (directive "coreclk:0,1=900").partId = LAST_PERFLEVEL ∧
    (directive "memclk=900").partId = LAST_PERFLEVEL ∧
    (directive "vcore:all=1").partId = LAST_PERFLEVEL ∧
    (directive "coreod:1=5").partId = LAST_PERFLEVEL ∧
    (directive "memod=5").partId = LAST_PERFLEVEL ∧
    (directive "fanspeed:1=50").partId = 0 ∧
    (directive "icoreclk:1=300").partId = 0 ∧
    (directive "imemclk=300").partId = 0 ∧
    (directive "ivcore:0=1").partId = 0 ∧
    ADL.resolveLevel (ADL.readODParams steppedControl [0, 1]) exampleJunk
      (directive "coreclk:0,1=900") 0 = 1 ∧
    ADL.resolveLevel (ADL.readODParams steppedControl [0, 1]) exampleJunk
      (directive "coreclk:0,1=900") 1 = 2 ∧
    (ADL.setOVCParameters steppedControl [0, 1] [directive "coreclk:0,1=900"] exampleJunk).calls =
      [ADLCall.setODPerformanceLevels 0 2 [⟨60000, 100000, 1000⟩, ⟨90000, 100000, 1001⟩],
       ADLCall.setODPerformanceLevels 1 3
        [⟨60000, 100000, 1000⟩, ⟨60000, 100000, 1001⟩, ⟨90000, 100000, 1002⟩]] :=
  have hd : parseOVCParameter "coreclk:0,1=900".toList 0 =
      ParseResult.accepted (directive "coreclk:0,1=900") := by decide!
  have h := default_level_policy "coreclk:0,1=900".toList 0 (directive "coreclk:0,1=900") hd
    (by decide)
  ⟨h.1.trans (by decide), by decide!, by decide!, by decide!, by decide!, by decide!,
    by decide!, by decide!, by decide!,
    ((h.2.2 (directive "coreclk:0,1=900") (by decide!) steppedControl [0, 1] exampleJunk 0
      (by decide) (by decide)).1).trans (by decide),
    ((h.2.2 (directive "coreclk:0,1=900") (by decide!) steppedControl [0, 1] exampleJunk 1
      (by decide) (by decide)).1).trans (by decide),
    by decide!⟩

/-- The names of the idle level take no level, start at `partId = 0` and have the kind of the
name they stand beside. -/
theorem idleNames_table {i c : List Char} (h : (i, c) ∈ idleNames) :
    ∃ type, nameTable i = some (type, 0, true) ∧
      nameTable c = some (type, LAST_PERFLEVEL, false) := by
  simp only [idleNames, List.mem_cons, Prod.mk.injEq, List.mem_singleton, List.not_mem_nil,
    or_false] at h
  rcases h with ⟨rfl, rfl⟩ | ⟨rfl, rfl⟩ | ⟨rfl, rfl⟩
  · exact ⟨OVCParamType.CORE_CLOCK, by decide, by decide⟩
  · exact ⟨OVCParamType.MEMORY_CLOCK, by decide, by decide⟩
  · exact ⟨OVCParamType.VDDC_VOLTAGE, by decide, by decide⟩

/-- A token with two `:` after a name that takes no level is not accepted: the parser
returns `false`, unless the list parser runs into undefined behaviour on the selector text. -/
theorem parse_idle_level (n s rest : List Char) (type : OVCParamType) (partId : Int)
    (value0 : ℚ) (hn : nameTable n = some (type, partId, true)) (hs : ':' ∉ s) :
    (∃ d, parseOVCParameter (n ++ ':' :: (s ++ ':' :: rest)) value0 = ParseResult.rejected d) ∨
    (parseOVCParameter (n ++ ':' :: (s ++ ':' :: rest)) value0 = ParseResult.undefined ∧
      (parseAdaptersList s).status = Status.undefined) := by
  have hlevel : ∀ param : OVCParameter,
      parseLevel (':' :: rest) true param = ParseResult.rejected ParseDiag.unterminated := by
    intro param
    rw [parseLevel_eq_parseValue param (Or.inl rfl) (by simp)]
    exact parseValue_rejected_of_head param (by simp)
  rw [parse_two_colons n s rest type partId true value0 hn hs]
  by_cases he : s = []
  · rw [if_pos he]
    exact Or.inl ⟨_, hlevel _⟩
  · rw [if_neg he]
    cases hst : (parseAdaptersList s).status with
    | ok => exact Or.inl ⟨_, hlevel _⟩
    | thrown w => exact Or.inl ⟨_, rfl⟩
    | undefined => exact Or.inr ⟨rfl, rfl⟩
    | outOfFuel => exact absurd hst (parseAdaptersList_fuel s)

/-- C15 at the failing input: on `icoreclk:2147483647-2147483647:0=300` the parser does not
return `false`: the loop of the list parser over the range runs its counter past `INT_MAX`.
For every selector, level and value text a token `name:s:L=v` of an idle name is not accepted,
and the parser returns `false` on it unless the list parser runs into undefined behaviour on
the selector; every accepted token of an idle name has `partId = 0` and the kind of `coreclk`,
`memclk` or `vcore` respectively. -/
theorem idle_level_overflow :
    parseOVCParameter "icoreclk:2147483647-2147483647:0=300".toList 0 =
      ParseResult.undefined ∧
    (∀ (i c s L v : List Char) (value0 : ℚ), (i, c) ∈ idleNames →
      (∀ p, parseOVCParameter (i ++ ':' :: (s ++ ':' :: (L ++ '=' :: v))) value0 ≠
        ParseResult.accepted p) ∧
      (':' ∉ s → (parseAdaptersList s).status ≠ Status.undefined →
        ∃ d, parseOVCParameter (i ++ ':' :: (s ++ ':' :: (L ++ '=' :: v))) value0 =
          ParseResult.rejected d)) ∧
    (∀ (string : List Char) (value0 : ℚ) (p : OVCParameter) (i c : List Char),
      parseOVCParameter string value0 = ParseResult.accepted p → (i, c) ∈ idleNames →
      tokenName string = i →
      p.partId = 0 ∧ nameTable c = some (p.type, LAST_PERFLEVEL, false)) := by
  refine ⟨by decide!, ?_, ?_⟩
  · intro i c s L v value0 hmem
    obtain ⟨type, hi, -⟩ := idleNames_table hmem
    constructor
    · intro p hp
      -- split the text after the name at its first colon
      have hin : ':' ∈ s ++ ':' :: (L ++ '=' :: v) := by simp
      cases hr : strchr (s ++ ':' :: (L ++ '=' :: v)) ':' with
      | none => exact absurd hin (strchr_eq_none.mp hr)
      | some r =>
        obtain ⟨hcat, hhead, hfree⟩ := strchr_eq_some hr
        cases r with
        | nil => simp at hhead
        | cons x rest =>
          simp only [List.head?_cons, Option.some.injEq] at hhead
          subst hhead
          rw [hcat] at hp
          rcases parse_idle_level i _ rest type 0 value0 hi hfree with ⟨d, hd⟩ | ⟨hu, -⟩
          · rw [hd] at hp; exact absurd hp (by simp)
          · rw [hu] at hp; exact absurd hp (by simp)
    · intro hs hst
      rcases parse_idle_level i s (L ++ '=' :: v) type 0 value0 hi hs with h | ⟨-, hu⟩
      · exact h
      · exact absurd hu hst
  · intro string value0 p i c hp hmem hname
    obtain ⟨type, hi, hc⟩ := idleNames_table hmem
    obtain ⟨name, afterName, type1, partId, partIdSet, hsplit, htable, hsel⟩ :=
      parseOVCParameter_accepted hp
    have hn := tokenName_eq hsplit htable
    rw [hname] at hn
    subst hn
    rw [hi] at htable
    simp only [Option.some.injEq, Prod.mk.injEq] at htable
    obtain ⟨h1, h2, h3⟩ := htable
    subst h1 h2 h3
    obtain ⟨a1, param1, hv, -, ht, -, -, -, hpid, -⟩ := parseSelector_accepted hsel
    obtain ⟨h5, -, -, h6, -⟩ := parseValue_accepted_fields hv
    refine ⟨?_, ?_⟩
    · rw [h6, hpid (Or.inl rfl)]
    · rw [h5, ht]
      exact hc

theorem isdigit_toNat {c : Char} (h : isdigit c = true) : 48 ≤ c.toNat ∧ c.toNat ≤ 57 := by
  simp only [isdigit, Bool.and_eq_true, decide_eq_true_eq] at h
  obtain ⟨h1, h2⟩ := h
  rw [Char.le_def] at h1 h2
  exact ⟨h1, h2⟩

theorem tolower_of_le {c : Char} (h : c.toNat ≤ 57) : tolower c = c := by
  unfold tolower
  rw [if_neg]
  rintro ⟨h1, -⟩
  rw [Char.le_def] at h1
  have : (65 : Nat) ≤ c.toNat := h1
  omega

/-- A character that starts a decimal mantissa is its own lower case and no letter. -/
theorem tolower_mantissa_head {c : Char} (h : isdigit c = true ∨ c = '.') :
    tolower c = c ∧ c.toNat ≤ 57 := by
  rcases h with h | rfl
  · exact ⟨tolower_of_le (isdigit_toNat h).2, (isdigit_toNat h).2⟩
  · exact ⟨by decide, by decide⟩

theorem scanMantissa_stop (acc count : Nat) (c : Char) (cs : List Char)
    (h : isdigit c = false) : scanMantissa 10 acc count (c :: cs) = (acc, count, c :: cs) := by
  rw [scanMantissa, if_neg (by decide), if_neg (by simp [h])]

theorem scale_nonneg (m b : ℚ) (e : Int) (hm : 0 ≤ m) (hb : 0 ≤ b) : 0 ≤ scale m b e := by
  unfold scale
  split
  · exact mul_nonneg hm (pow_nonneg hb _)
  · exact div_nonneg hm (pow_nonneg hb _)

/-- A decimal mantissa starts with a digit or the point. -/
theorem scanNumber_head {u : List Char} {m : ℚ} {r : List Char}
    (h : scanNumber 10 u = some (m, r)) :
    ∃ c cs, u = c :: cs ∧ (isdigit c = true ∨ c = '.') := by
  cases u with
  | nil => simp [scanNumber, scanMantissa] at h
  | cons c cs =>
    refine ⟨c, cs, rfl, ?_⟩
    by_contra hc
    simp only [not_or, Bool.not_eq_true] at hc
    unfold scanNumber at h
    rw [scanMantissa_stop 0 0 c cs hc.1] at h
    dsimp only at h
    split at h
    · simp at h
    · rename_i hne
      split at hne
      · rename_i heq
        simp only [List.cons.injEq] at heq
        exact hc.2 heq.1
      · simp at hne

theorem scanNumber_nonneg {base : Nat} {u : List Char} {m : ℚ} {r : List Char}
    (h : scanNumber base u = some (m, r)) : 0 ≤ m := by
  unfold scanNumber at h
  dsimp only at h
  split at h
  · simp at h
  · simp only [Option.some.injEq, Prod.mk.injEq] at h
    obtain ⟨hm, -⟩ := h
    rw [← hm]
    apply scale_nonneg
    · exact div_nonneg (Nat.cast_nonneg _) (pow_nonneg (Nat.cast_nonneg _) _)
    · split <;> norm_num

theorem stripWord_head_ne (w : Char) (ws : List Char) (c : Char) (cs : List Char)
    (h : tolower c ≠ w) : stripWord (w :: ws) (c :: cs) = none := by
  rw [stripWord, if_neg h]

/-- A text that starts with `0x` is no decimal number to its end. -/
theorem scanNumber_hex_start {u h : List Char} (hx : stripWord "0x".toList u = some h)
    {m : ℚ} {r : List Char} (hn : scanNumber 10 u = some (m, r)) : r ≠ [] := by
  obtain ⟨c, cs, rfl, hc⟩ := scanNumber_head hn
  have hx1 : stripWord ['0', 'x'] (c :: cs) = some h := hx
  rw [stripWord] at hx1
  by_cases h0 : tolower c = '0'
  · rw [if_pos h0] at hx1
    rw [(tolower_mantissa_head hc).1] at h0
    subst h0
    cases cs with
    | nil => simp [stripWord] at hx1
    | cons c1 t =>
      rw [stripWord] at hx1
      by_cases h1 : tolower c1 = 'x'
      · have hd1 : isdigit c1 = false := by
          cases hd : isdigit c1 with
          | false => rfl
          | true =>
            rw [tolower_of_le (isdigit_toNat hd).2] at h1
            subst h1
            exact absurd hd (by decide)
        have hp1 : c1 ≠ '.' := by
          rintro rfl
          exact absurd h1 (by decide)
        have he1 : tolower c1 ≠ 'e' := by
          rw [h1]; decide
        unfold scanNumber at hn
        rw [scanMantissa, if_neg (by decide), if_pos (by decide),
          scanMantissa_stop _ _ c1 t hd1] at hn
        dsimp only at hn
        split at hn
        · simp at hn
        · simp only [Option.some.injEq, Prod.mk.injEq] at hn
          obtain ⟨-, hr⟩ := hn
          rw [← hr]
          rw [if_neg (show ¬ (10 = 16) by decide)]
          split
          · rename_i heq
            simp only [List.cons.injEq] at heq
            exact absurd heq.1 hp1
          · unfold scanExponent
            dsimp only
            rw [if_neg he1]
            simp
      · rw [if_neg h1] at hx1
        simp at hx1
  · rw [if_neg h0] at hx1
    simp at hx1

/-- The function `strtod` on a decimal number whose magnitude is 0 or in the range of the
normal `double`s: the whole text is read, without range error, as the `double` nearest to that
number. -/
theorem strtod_decimal (v : List Char) (q : ℚ) (h : decimalNumber v = some q)
    (hmax : |q| < overflowBound) (hmin : q = 0 ∨ minNormal ≤ |q|) :
    strtod v = ⟨Double.finite (binary64 q), [], false⟩ ∧ v ≠ [] ∧ v ≠ "default".toList := by
  unfold decimalNumber at h
  cases hnum : scanNumber 10 (scanSign v).2 with
  | none => rw [hnum] at h; simp at h
  | some x =>
    obtain ⟨m, r⟩ := x
    rw [hnum] at h
    cases r with
    | cons y ys => simp at h
    | nil =>
      simp only [Option.some.injEq] at h
      obtain ⟨c, cs, hu, hc⟩ := scanNumber_head hnum
      have hm0 : 0 ≤ m := scanNumber_nonneg hnum
      have habs : |q| = m := by
        rw [← h]
        split
        · rw [abs_neg, abs_of_nonneg hm0]
        · exact abs_of_nonneg hm0
      have hne : v ≠ [] := by
        rintro rfl
        simp [scanSign] at hu
      have hdef : v ≠ "default".toList := by
        rintro rfl
        have : (scanSign "default".toList).2 = "default".toList := by decide
        rw [this] at hu
        have h1 : c = 'd' := by
          have := congrArg List.head? hu
          simpa using this.symm
        subst h1
        rcases hc with hc | hc
        · exact absurd hc (by decide)
        · exact absurd hc (by decide)
      have hsp : skipSpace v = v := by
        cases v with
        | nil => rfl
        | cons d ds =>
          have hd : isspace d = false := by
            rw [scanSign] at hu
            by_cases h1 : d = '-'
            · subst h1; decide
            · by_cases h2 : d = '+'
              · subst h2; decide
              · rw [if_neg h1, if_neg h2] at hu
                simp only [List.cons.injEq] at hu
                rw [hu.1]
                rcases hc with hc | hc
                · exact not_isspace_of_isdigit hc
                · subst hc; decide
          rw [skipSpace, hd]
          rfl
      obtain ⟨hlow, hle⟩ := tolower_mantissa_head hc
      have hword : ∀ (w : Char) (ws : List Char), 97 ≤ w.toNat →
          stripWord (w :: ws) (c :: cs) = none := by
        intro w ws hw
        apply stripWord_head_ne
        rw [hlow]
        rintro rfl
        omega
      have hhex : stripWord "0x".toList (c :: cs) = none := by
        cases hx : stripWord "0x".toList (c :: cs) with
        | none => rfl
        | some hrest =>
          rw [← hu] at hx
          exact absurd rfl (scanNumber_hex_start hx hnum)
      unfold strtod
      rw [hsp]
      generalize hsg : scanSign v = sg at hu h hnum
      obtain ⟨neg, u⟩ := sg
      dsimp only at hu h hnum ⊢
      subst hu
      have hinf1 : stripWord "infinity".toList (c :: cs) = none := hword 'i' _ (by decide)
      have hinf2 : stripWord "inf".toList (c :: cs) = none := hword 'i' _ (by decide)
      have hnan : stripWord "nan".toList (c :: cs) = none := hword 'n' _ (by decide)
      rw [hinf1]
      dsimp only
      rw [hinf2]
      dsimp only
      rw [hnan]
      dsimp only
      rw [hhex]
      dsimp only
      rw [hnum]
      dsimp only
      refine ⟨?_, hne, hdef⟩
      unfold finishStrtod
      dsimp only
      have hq0 : q = 0 → m = 0 := by
        intro h3
        rw [← habs, h3]
        simp
      rw [habs] at hmax
      rw [if_neg (not_le.mpr hmax), h, if_neg]
      rintro ⟨h1, h2⟩
      rcases hmin with h3 | h3
      · rw [h3] at h1
        exact h1 (by decide)
      · unfold minNormal at h2 h3
        exact absurd h2 (not_lt.mpr (binary64_normal q h3).2)

/-- Every accepted token ends in `=` and a value text: the word `default`, with
`useDefault = true` and the value untouched, or a text that `strtod` reads to its end as the
finite value of the directive, with `useDefault = false`. -/
theorem parseOVCParameter_value {string : List Char} {value0 : ℚ} {p : OVCParameter}
    (h : parseOVCParameter string value0 = ParseResult.accepted p) :
    ∃ pre w, string = pre ++ '=' :: w ∧
      ((w = "default".toList ∧ p.useDefault = true ∧ p.value = value0) ∨
       (w ≠ "default".toList ∧ p.useDefault = false ∧ w ≠ [] ∧
         strtod w = ⟨Double.finite p.value, [], false⟩)) := by
  obtain ⟨name, afterName, type, partId, partIdSet, hsplit, -, hsel⟩ :=
    parseOVCParameter_accepted h
  obtain ⟨a1, param1, hv, ⟨pre, hpre⟩, -, hval, hud, -, -, -⟩ := parseSelector_accepted hsel
  obtain ⟨w, rfl⟩ := parseValue_accepted_head hv
  obtain ⟨hcat, -⟩ := splitName_eq_some hsplit
  refine ⟨name ++ pre, w, by rw [hcat, hpre, List.append_assoc], ?_⟩
  rcases (parseValue_accepted_iff w param1 p).mp hv with ⟨hw, hp⟩ | ⟨hw, hne, q, hq, hp⟩
  · left
    subst hp
    exact ⟨hw, rfl, hval⟩
  · right
    subst hp
    exact ⟨hw, hud, hne, hq⟩

/-- C11, amended: in the value clause of `parseOVCParameter` the text `default` gives
`useDefault = true`; any other text is accepted if and only if it is not empty and `strtod`
reads it to its end, without range error, as a finite value, which becomes `value` while
`useDefault` stays false.  Every decimal number (an optional sign, digits with an optional
fraction, an optional exponent) whose magnitude is 0 or within the range of the normal
`double`s is such a text and is stored as the `double` nearest to the number it denotes.
The texts `Default`, `defaultx`, `default `, `900x`, the empty text, `inf` and `nan` are
rejected. -/
theorem value_clause :
    (∀ (v : List Char) (param : OVCParameter),
      (v = "default".toList →
        parseValue ('=' :: v) param =
          ParseResult.accepted { param with useDefault := true }) ∧
      (v ≠ "default".toList → ∀ p,
        (parseValue ('=' :: v) param = ParseResult.accepted p ↔
          v ≠ [] ∧
            ∃ q, strtod v = ⟨Double.finite q, [], false⟩ ∧ p = { param with value := q })) ∧
      (∀ q, decimalNumber v = some q → |q| < overflowBound → (q = 0 ∨ minNormal ≤ |q|) →
        parseValue ('=' :: v) param =
          ParseResult.accepted { param with value := binary64 q })) ∧
    (∀ (string : List Char) (value0 : ℚ) (p : OVCParameter),
      parseOVCParameter string value0 = ParseResult.accepted p →
      ∃ pre w, string = pre ++ '=' :: w ∧
        ((w = "default".toList ∧ p.useDefault = true ∧ p.value = value0) ∨
         (w ≠ "default".toList ∧ p.useDefault = false ∧ w ≠ [] ∧
           strtod w = ⟨Double.finite p.value, [], false⟩))) ∧
    parseOVCParameter "coreclk=Default".toList 0 = ParseResult.rejected ParseDiag.value ∧
    parseOVCParameter "coreclk=defaultx".toList 0 = ParseResult.rejected ParseDiag.value ∧
    parseOVCParameter "coreclk=default ".toList 0 = ParseResult.rejected ParseDiag.value ∧
    parseOVCParameter "coreclk=900x".toList 0 = ParseResult.rejected ParseDiag.garbage ∧
    parseOVCParameter "coreclk=".toList 0 = ParseResult.rejected ParseDiag.value ∧
    parseOVCParameter "coreclk=inf".toList 0 = ParseResult.rejected ParseDiag.notFinite ∧
    parseOVCParameter "coreclk=nan".toList 0 = ParseResult.rejected ParseDiag.notFinite := by
  refine ⟨?_, fun string value0 p h => parseOVCParameter_value h, by decide!, by decide!,
    by decide!, by decide!, by decide!, by decide!, by decide!⟩
  intro v param
  refine ⟨?_, ?_, ?_⟩
  · intro hv
    exact (parseValue_accepted_iff v param _).mpr (Or.inl ⟨hv, rfl⟩)
  · intro hv p
    rw [parseValue_accepted_iff]
    constructor
    · rintro (⟨h1, -⟩ | ⟨-, h2, h3⟩)
      · exact absurd h1 hv
      · exact ⟨h2, h3⟩
    · rintro ⟨h2, h3⟩
      exact Or.inr ⟨hv, h2, h3⟩
  · intro q hq hmax hmin
    obtain ⟨h1, h2, h3⟩ := strtod_decimal v q hq hmax hmin
    exact (parseValue_accepted_iff v param _).mpr (Or.inr ⟨h3, h2, binary64 q, h1, rfl⟩)

/-- Witness of C11 (amended): the tokens `fanspeed=default` and `vcore=1.111`. -/
theorem value_clause_witness :
    parseValue "=default".toList (directive "fanspeed=50") =
      ParseResult.accepted { directive "fanspeed=50" with useDefault := true } ∧
    parseValue "=1.111".toList (directive "vcore=1") =
      ParseResult.accepted { directive "vcore=1" with value := binary64 (1111 / 1000) } ∧
    parseOVCParameter "vcore=1.111".toList 0 =
      ParseResult.accepted ⟨OVCParamType.VDDC_VOLTAGE, [0], false, LAST_PERFLEVEL,
        binary64 (1111 / 1000), false, "vcore=1.111".toList⟩ ∧
    binary64 (1111 / 1000) = 5003499186008621 / 4503599627370496 ∧
    ∃ pre w, "vcore=1.111".toList = pre ++ '=' :: w ∧
      ((w = "default".toList ∧ (directive "vcore=1.111").useDefault = true ∧
          (directive "vcore=1.111").value = 0) ∨
       (w ≠ "default".toList ∧ (directive "vcore=1.111").useDefault = false ∧ w ≠ [] ∧
         strtod w = ⟨Double.finite (directive "vcore=1.111").value, [], false⟩)) :=
  ⟨(value_clause.1 "default".toList (directive "fanspeed=50")).1 rfl,
    (value_clause.1 "1.111".toList (directive "vcore=1")).2.2 (1111 / 1000) (by decide!)
      (by rw [abs_of_nonneg (by norm_num)]; norm_num [overflowBound])
      (Or.inr (by rw [abs_of_nonneg (by norm_num)]; norm_num [minNormal])),
    by decide!, by decide!,
    value_clause.2.1 "vcore=1.111".toList 0 (directive "vcore=1.111") (by decide!)⟩

/-- Counterexample to C11 as stated: `0x10` is no decimal number and is accepted, as 16, and
so is ` 900` with its leading blank; `1e-400` is a decimal number and is rejected, because
`strtod` reports a range error. -/
theorem hex_value_accepted :
    parseOVCParameter "coreclk=0x10".toList 0 =
      ParseResult.accepted ⟨OVCParamType.CORE_CLOCK, [0], false, LAST_PERFLEVEL, 16, false,
        "coreclk=0x10".toList⟩ ∧
    decimalNumber "0x10".toList = none ∧
    parseOVCParameter "coreclk= 900".toList 0 =
      ParseResult.accepted ⟨OVCParamType.CORE_CLOCK, [0], false, LAST_PERFLEVEL, 900, false,
        "coreclk= 900".toList⟩ ∧
    decimalNumber " 900".toList = none ∧
    parseOVCParameter "coreclk=1e-400".toList 0 = ParseResult.rejected ParseDiag.value ∧
    decimalNumber "1e-400".toList = some (1 / 10 ^ 400) := by
  refine ⟨by decide!, by decide!, by decide!, by decide!, by decide!, by decide!⟩

/-- An explicit selection the list parser returns, against the terms of the text: when every
number written is an `int`, the selection holds exactly the integers the terms cover. -/
theorem parseAdaptersList_terms (s : List Char) (ads : List Int)
    (h : parseAdaptersList s = ⟨ads, false, Status.ok⟩) :
    ∃ ts, selectorTerms s = some ts ∧
      (fitsInt ts → (∀ t ∈ ts, t.1 ≤ t.2) ∧
        ∀ i, i ∈ ads ↔ ∃ t ∈ ts, t.1 ≤ i ∧ i ≤ t.2) := by
  have hs : s ≠ "all".toList := by
    rintro rfl
    have h1 : (parseAdaptersList "all".toList).allAdapters = false := by rw [h]
    exact absurd h1 (by decide)
  unfold parseAdaptersList at h
  rw [if_neg hs] at h
  generalize hl : parseAdaptersLoop (s.length + 1) s [] = res at h
  obtain ⟨pushed, st⟩ := res
  cases st with
  | ok =>
    simp only [AdaptersResult.mk.injEq, and_true] at h
    obtain ⟨ts, hts, -, hfit⟩ := parseAdaptersLoop_ok _ s [] pushed hl
    refine ⟨ts, hts, fun hf => ⟨(hfit hf).1, fun i => ?_⟩⟩
    rw [← h, mem_unique, List.mem_insertionSort, (hfit hf).2, List.nil_append,
      List.mem_flatMap]
    constructor
    · rintro ⟨t, ht, hi⟩
      exact ⟨t, ht, (mem_intRange _ _ _).mp hi⟩
    · rintro ⟨t, ht, hi⟩
      exact ⟨t, ht, (mem_intRange _ _ _).mpr hi⟩
  | thrown w => simp at h
  | undefined => simp at h
  | outOfFuel => simp at h

/-- C17, amended: the list parser accepts terms with a sign.  For an explicit selection it
returns on a text whose numbers are all within `int`, every index is non-negative if and only
if no term of the text starts with a negative number. -/
theorem selection_sign (s : List Char) (ads : List Int)
    (h : parseAdaptersList s = ⟨ads, false, Status.ok⟩) :
    ∃ ts, selectorTerms s = some ts ∧
      (fitsInt ts → ((∀ i ∈ ads, 0 ≤ i) ↔ ∀ t ∈ ts, 0 ≤ t.1)) := by
  obtain ⟨ts, hts, hfit⟩ := parseAdaptersList_terms s ads h
  refine ⟨ts, hts, fun hf => ?_⟩
  obtain ⟨hord, hmem⟩ := hfit hf
  constructor
  · intro hall t ht
    exact hall t.1 ((hmem t.1).mpr ⟨t, ht, Int.le_refl _, hord t ht⟩)
  · intro hall i hi
    obtain ⟨t, ht, h1, -⟩ := (hmem i).mp hi
    exact Int.le_trans (hall t ht) h1

/-- Witness of C17 (amended): the text `0,2-4,1`. -/
theorem selection_sign_witness :
    parseAdaptersList "0,2-4,1".toList = ⟨[0, 1, 2, 3, 4], false, Status.ok⟩ ∧
    ∃ ts, selectorTerms "0,2-4,1".toList = some ts ∧
      (fitsInt ts → ((∀ i ∈ ([0, 1, 2, 3, 4] : List Int), 0 ≤ i) ↔ ∀ t ∈ ts, 0 ≤ t.1)) :=
  ⟨by decide, selection_sign "0,2-4,1".toList [0, 1, 2, 3, 4] (by decide)⟩

/-- Counterexample to C17 as stated: the texts `-1` and `-3--1` are accepted and yield
negative indices. -/
theorem negative_index_accepted :
    parseAdaptersList "-1".toList = ⟨[-1], false, Status.ok⟩ ∧
    parseAdaptersList "-3--1".toList = ⟨[-3, -2, -1], false, Status.ok⟩ ∧
    parseAdaptersList "0,-2".toList = ⟨[-2, 0], false, Status.ok⟩ ∧
    selectorTerms "-1".toList = some [(-1, -1)] ∧
    parseOVCParameter "coreclk:-1=900".toList 0 =
      ParseResult.accepted ⟨OVCParamType.CORE_CLOCK, [-1], false, LAST_PERFLEVEL, 900, false,
        "coreclk:-1=900".toList⟩ := by
  refine ⟨by decide, by decide, by decide, by decide, by decide!⟩

/-- A loop whose step prints one message of a fixed kind for the elements that satisfy a test
prints one message per such element and sets `failed` when there is one. -/
theorem foldl_flag (p : OVCParameter) (f : Check → Int → Check) (P : Int → Bool)
    (k : DiagKind) :
    ∀ (is : List Int) (st : Check),
      (∀ (st : Check), ∀ d ∈ is, f st d = if P d then st.report k p else st) →
      is.foldl f st = ⟨st.failed || is.any P,
        st.err ++ (is.filter P).map (fun _ => ⟨k, p.argText⟩)⟩ := by
  intro is
  induction is with
  | nil => intro st _; simp
  | cons d ds ih =>
    intro st hf
    rw [List.foldl_cons, hf st d (List.mem_cons_self _ _),
      ih _ (fun st x hx => hf st x (List.mem_cons_of_mem _ hx))]
    cases hv : P d with
    | false => simp [List.filter_cons, hv]
    | true => simp [List.filter_cons, hv, Check.report]

/-- The validation of a batch of one directive that is not a fan speed directive and whose
adapters are within range is the loop of "check other params" over its adapters. -/
theorem amdgpu_validate_single (N : Nat) (p : OVCParameter) (perfClocks : List PerfClocks)
    (junk : PerfClocks) (ht : p.type ≠ OVCParamType.FAN_SPEED)
    (ho : offending (N : Int) p = false) :
    AMDGPU.validate N [p] perfClocks junk =
      (iterate p.adapters p.allAdapters (N : Int)).foldl
        (AMDGPU.checkOtherAt perfClocks junk N p) ⟨false, []⟩ := by
  unfold AMDGPU.validate AMDGPU.checkIndices AMDGPU.checkFanSpeed AMDGPU.checkOther
  simp only [List.foldl_cons, List.foldl_nil]
  rw [indexStep_eq, ho, if_neg ht, if_pos ht]
  rfl

/-- A message that the check of one adapter of a directive prints whatever the state is printed
by the validation of every batch that holds the directive, which then fails. -/
theorem amdgpu_failed_of_step (N : Nat) (params : List OVCParameter)
    (perfClocks : List PerfClocks) (junk : PerfClocks) (p : OVCParameter) (hp : p ∈ params)
    (ht : p.type ≠ OVCParamType.FAN_SPEED) (d : Int)
    (hd : d ∈ iterate p.adapters p.allAdapters (N : Int)) (k : DiagKind)
    (hstep : ∀ st, AMDGPU.checkOtherAt perfClocks junk N p st d = st.report k p) :
    (AMDGPU.validate N params perfClocks junk).failed = true ∧
      (⟨k, p.argText⟩ : Diag) ∈ (AMDGPU.validate N params perfClocks junk).err := by
  have hm : (⟨k, p.argText⟩ : Diag) ∈ (AMDGPU.validate N params perfClocks junk).err := by
    unfold AMDGPU.validate AMDGPU.checkOther
    dsimp only
    refine mem_err_foldl _ ?_ params p hp _ ?_ _
    · intro st q
      split
      · exact Check.Ext.foldl _ (amdgpu_checkOtherAt_ext _ junk _ q) _ st
      · exact Check.Ext.refl _
    · intro st
      rw [if_pos ht]
      refine mem_err_foldl _ (amdgpu_checkOtherAt_ext _ junk _ p) _ d hd _ ?_ st
      intro st1
      rw [hstep]
      simp [Check.report]
  refine ⟨?_, hm⟩
  rw [(amdgpu_validate_ext N params perfClocks junk).failed_iff]
  exact List.ne_nil_of_mem hm

/-- The check of one adapter within range for a clock directive of the AMDGPU engines. -/
theorem amdgpu_clock_step (perfClocks : List PerfClocks) (junk : PerfClocks) (N : Int)
    (param : OVCParameter) (st : Check) (d : Int)
    (ht : param.type = OVCParamType.CORE_CLOCK ∨ param.type = OVCParamType.MEMORY_CLOCK)
    (hl : param.partId = 0 ∨ param.partId = LAST_PERFLEVEL) (hN : d < N) :
    AMDGPU.checkOtherAt perfClocks junk N param st d =
      if param.useDefault = false ∧
          (param.value < (baseClock param.type (readAt perfClocks d junk) : ℚ) ∨
            param.value > clockCeiling (baseClock param.type (readAt perfClocks d junk)))
      then st.report (clockDiag param.type) param else st := by
  unfold AMDGPU.checkOtherAt
  rw [if_neg (by omega)]
  have hp : (if param.partId ≠ LAST_PERFLEVEL then param.partId else 0) = 0 := by
    rcases hl with h | h
    · rw [h]; simp
    · rw [h]; simp
  dsimp only
  rw [hp, if_neg (by simp)]
  rcases ht with h | h
  · simp only [h, baseClock, clockDiag, clockCeiling]
    simp
  · simp only [h, baseClock, clockDiag, clockCeiling]
    simp

/-- The check of one adapter within range for an overdrive directive of the AMDGPU engines. -/
theorem amdgpu_overdrive_step (perfClocks : List PerfClocks) (junk : PerfClocks) (N : Int)
    (param : OVCParameter) (st : Check) (d : Int)
    (ht : param.type = OVCParamType.CORE_OD ∨ param.type = OVCParamType.MEMORY_OD)
    (hl : param.partId = 0 ∨ param.partId = LAST_PERFLEVEL) (hN : d < N) :
    AMDGPU.checkOtherAt perfClocks junk N param st d =
      if param.useDefault = false ∧ (param.value < 0 ∨ param.value > 20)
      then st.report (overdriveDiag param.type) param else st := by
  unfold AMDGPU.checkOtherAt
  rw [if_neg (by omega)]
  have hp : (if param.partId ≠ LAST_PERFLEVEL then param.partId else 0) = 0 := by
    rcases hl with h | h
    · rw [h]; simp
    · rw [h]; simp
  dsimp only
  rw [hp, if_neg (by simp)]
  rcases ht with h | h
  · simp only [h, overdriveDiag]
    simp
  · simp only [h, overdriveDiag]
    simp

theorem proovc_checkParameterAt_eq (perfClocks : List PerfClocks) (junk : PerfClocks) (N : Int)
    (param : OVCParameter) (st : Check) (d : Int) :
    AmdGpuProOvc.checkParameterAt perfClocks junk N param st d =
      AMDGPU.checkOtherAt perfClocks junk N param st d := rfl

/-- The validation of a batch of one directive whose check of an adapter within range prints
one message of a fixed kind when a test holds: it fails exactly when the test holds on an adapter
the directive resolves to. -/
theorem amdgpu_single_failed_iff (N : Nat) (p : OVCParameter) (perfClocks : List PerfClocks)
    (junk : PerfClocks) (ht : p.type ≠ OVCParamType.FAN_SPEED)
    (ho : offending (N : Int) p = false) (P : Int → Bool) (k : DiagKind)
    (hstep : ∀ (st : Check) (d : Int), d < (N : Int) →
      AMDGPU.checkOtherAt perfClocks junk N p st d = if P d then st.report k p else st) :
    ((AMDGPU.validate N [p] perfClocks junk).failed = true ↔
      ∃ d ∈ iterate p.adapters p.allAdapters (N : Int), P d = true) := by
  rw [amdgpu_validate_single N p perfClocks junk ht ho,
    foldl_flag p _ P k _ _ (fun st d hd => hstep st d
      (inRange_of_not_offending N [p] (by simp [ho]) p (List.mem_singleton.mpr rfl) d hd).2)]
  simp

/-- C21: in the AMDGPU engine of `amdcovc.cpp` and in `AmdGpuProOvc` alike, for a `coreclk` or
`memclk` directive with a value (not `default`) whose level is 0 or not written, and a device
`d < N` with base clock `c` (the core clock for `coreclk`, the memory clock for `memclk`), the
check of device `d` prints the range message of the kind and sets `failed` if and only if
`value < c` or `value > 1.20 * c`, the product being `clockCeiling c`, the product `c * 1.20` as
the source computes it, in binary64; in every batch that holds the directive such a device it
resolves to makes validation fail with that message; and the batch of the directive alone, with
its adapters within range, fails validation if and only if the value is outside the envelope of
some device the directive resolves to. -/
theorem amdgpu_clock_envelope (perfClocks : List PerfClocks) (junk : PerfClocks) (N : Nat)
    (param : OVCParameter)
    (ht : param.type = OVCParamType.CORE_CLOCK ∨ param.type = OVCParamType.MEMORY_CLOCK)
    (hu : param.useDefault = false)
    (hl : param.partId = 0 ∨ param.partId = LAST_PERFLEVEL) :
    (∀ (d : Int) (st : Check), d < (N : Int) →
      AMDGPU.checkOtherAt perfClocks junk N param st d =
          (if param.value < (baseClock param.type (readAt perfClocks d junk) : ℚ) ∨
              param.value > clockCeiling (baseClock param.type (readAt perfClocks d junk))
            then st.report (clockDiag param.type) param else st) ∧
        AmdGpuProOvc.checkParameterAt perfClocks junk N param st d =
          (if param.value < (baseClock param.type (readAt perfClocks d junk) : ℚ) ∨
              param.value > clockCeiling (baseClock param.type (readAt perfClocks d junk))
            then st.report (clockDiag param.type) param else st)) ∧
    (∀ (params : List OVCParameter) (d : Int), param ∈ params →
      d ∈ iterate param.adapters param.allAdapters (N : Int) → d < (N : Int) →
      (param.value < (baseClock param.type (readAt perfClocks d junk) : ℚ) ∨
        param.value > clockCeiling (baseClock param.type (readAt perfClocks d junk))) →
      ((AMDGPU.validate N params perfClocks junk).failed = true ∧
        (⟨clockDiag param.type, param.argText⟩ : Diag) ∈
          (AMDGPU.validate N params perfClocks junk).err) ∧
      ((AmdGpuProOvc.validate N params perfClocks junk).failed = true ∧
        (⟨clockDiag param.type, param.argText⟩ : Diag) ∈
          (AmdGpuProOvc.validate N params perfClocks junk).err)) ∧
    (offending (N : Int) param = false →
      ((AMDGPU.validate N [param] perfClocks junk).failed = true ↔
        ∃ d ∈ iterate param.adapters param.allAdapters (N : Int),
          param.value < (baseClock param.type (readAt perfClocks d junk) : ℚ) ∨
            param.value > clockCeiling (baseClock param.type (readAt perfClocks d junk))) ∧
      ((AmdGpuProOvc.validate N [param] perfClocks junk).failed = true ↔
        ∃ d ∈ iterate param.adapters param.allAdapters (N : Int),
          param.value < (baseClock param.type (readAt perfClocks d junk) : ℚ) ∨
            param.value > clockCeiling (baseClock param.type (readAt perfClocks d junk)))) := by
  have hfan : param.type ≠ OVCParamType.FAN_SPEED := by
    rcases ht with h | h <;> rw [h] <;> decide
  have hstep : ∀ (st : Check) (d : Int), d < (N : Int) →
      AMDGPU.checkOtherAt perfClocks junk N param st d =
        (if param.value < (baseClock param.type (readAt perfClocks d junk) : ℚ) ∨
            param.value > clockCeiling (baseClock param.type (readAt perfClocks d junk))
          then st.report (clockDiag param.type) param else st) := by
    intro st d hN
    rw [amdgpu_clock_step perfClocks junk N param st d ht hl hN]
    simp only [hu, true_and]
  have hsingle : offending (N : Int) param = false →
      ((AMDGPU.validate N [param] perfClocks junk).failed = true ↔
        ∃ d ∈ iterate param.adapters param.allAdapters (N : Int),
          param.value < (baseClock param.type (readAt perfClocks d junk) : ℚ) ∨
            param.value > clockCeiling (baseClock param.type (readAt perfClocks d junk))) := by
    intro ho
    rw [amdgpu_single_failed_iff N param perfClocks junk hfan ho
      (fun d => decide (param.value < (baseClock param.type (readAt perfClocks d junk) : ℚ) ∨
        param.value > clockCeiling (baseClock param.type (readAt perfClocks d junk))))
      (clockDiag param.type)
      (fun st d hN => by rw [hstep st d hN]; simp only [decide_eq_true_eq])]
    simp only [decide_eq_true_eq]
  refine ⟨fun d st hN => ⟨hstep st d hN, hstep st d hN⟩, ?_, fun ho => ⟨hsingle ho, hsingle ho⟩⟩
  intro params d hp hd hN hout
  have h := amdgpu_failed_of_step N params perfClocks junk param hp hfan d hd
    (clockDiag param.type) (fun st => by rw [hstep st d hN, if_pos hout])
  exact ⟨h, h⟩

/-- Witness of C21: with base clocks 1000 (core) and 1500 (memory) on the one device,
`coreclk:0=1250` is reported and `coreclk:0=1200` passes; with base core clock 1002 the product
`1002 * 1.20` is a double below 1202.4 and `coreclk:0=1202.4` is reported. -/
theorem amdgpu_clock_envelope_witness :
    (AMDGPU.validate 1 [directive "coreclk:0=1250"] [⟨1000, 1500⟩] ⟨0, 0⟩).failed = true ∧
    (⟨DiagKind.coreClock, "coreclk:0=1250".toList⟩ : Diag) ∈
      (AMDGPU.validate 1 [directive "coreclk:0=1250"] [⟨1000, 1500⟩] ⟨0, 0⟩).err ∧
    AMDGPU.validate 1 [directive "coreclk:0=1200"] [⟨1000, 1500⟩] ⟨0, 0⟩ = ⟨false, []⟩ ∧
    (AMDGPU.validate 1 [directive "coreclk:0=1202.4"] [⟨1002, 1500⟩] ⟨0, 0⟩).failed = true ∧
    (AmdGpuProOvc.validate 1 [directive "coreclk:0=1202.4"] [⟨1002, 1500⟩] ⟨0, 0⟩).failed =
      true ∧
    clockCeiling 1002 < 12024 / 10 := by
  have h := ((amdgpu_clock_envelope [⟨1000, 1500⟩] ⟨0, 0⟩ 1 (directive "coreclk:0=1250")
    (Or.inl (by decide!)) (by decide!) (Or.inr (by decide!))).2.1
      [directive "coreclk:0=1250"] 0 (List.mem_singleton.mpr rfl) (by decide!) (by decide)
      (Or.inr (by decide!))).1
  have e : (⟨clockDiag (directive "coreclk:0=1250").type,
      (directive "coreclk:0=1250").argText⟩ : Diag) =
      ⟨DiagKind.coreClock, "coreclk:0=1250".toList⟩ := by decide!
  rw [e] at h
  exact ⟨h.1, h.2, by decide!, by decide!, by decide!, by decide!⟩

/-- C22: in the AMDGPU engine of `amdcovc.cpp` and in `AmdGpuProOvc` alike, for a `coreod` or
`memod` directive with a value (not `default`) whose level is 0 or not written, the check of a
device `d < N` prints the range message of the kind and sets `failed` if and only if the value
is below 0 or above 20; in every batch that holds the directive a device within range it
resolves to then makes validation fail with that message; and the batch of the directive alone,
with its adapters within range and at least one of them, fails validation if and only if the
value is outside `[0, 20]`. -/
theorem amdgpu_overdrive_range (perfClocks : List PerfClocks) (junk : PerfClocks) (N : Nat)
    (param : OVCParameter)
    (ht : param.type = OVCParamType.CORE_OD ∨ param.type = OVCParamType.MEMORY_OD)
    (hu : param.useDefault = false)
    (hl : param.partId = 0 ∨ param.partId = LAST_PERFLEVEL) :
    (∀ (d : Int) (st : Check), d < (N : Int) →
      AMDGPU.checkOtherAt perfClocks junk N param st d =
          (if param.value < 0 ∨ param.value > 20
            then st.report (overdriveDiag param.type) param else st) ∧
        AmdGpuProOvc.checkParameterAt perfClocks junk N param st d =
          (if param.value < 0 ∨ param.value > 20
            then st.report (overdriveDiag param.type) param else st)) ∧
    (∀ (params : List OVCParameter) (d : Int), param ∈ params →
      d ∈ iterate param.adapters param.allAdapters (N : Int) → d < (N : Int) →
      (param.value < 0 ∨ param.value > 20) →
      ((AMDGPU.validate N params perfClocks junk).failed = true ∧
        (⟨overdriveDiag param.type, param.argText⟩ : Diag) ∈
          (AMDGPU.validate N params perfClocks junk).err) ∧
      ((AmdGpuProOvc.validate N params perfClocks junk).failed = true ∧
        (⟨overdriveDiag param.type, param.argText⟩ : Diag) ∈
          (AmdGpuProOvc.validate N params perfClocks junk).err)) ∧
    (offending (N : Int) param = false →
      iterate param.adapters param.allAdapters (N : Int) ≠ [] →
      ((AMDGPU.validate N [param] perfClocks junk).failed = true ↔
        (param.value < 0 ∨ param.value > 20)) ∧
      ((AmdGpuProOvc.validate N [param] perfClocks junk).failed = true ↔
        (param.value < 0 ∨ param.value > 20))) := by
  have hfan : param.type ≠ OVCParamType.FAN_SPEED := by
    rcases ht with h | h <;> rw [h] <;> decide
  have hstep : ∀ (st : Check) (d : Int), d < (N : Int) →
      AMDGPU.checkOtherAt perfClocks junk N param st d =
        (if param.value < 0 ∨ param.value > 20
          then st.report (overdriveDiag param.type) param else st) := by
    intro st d hN
    rw [amdgpu_overdrive_step perfClocks junk N param st d ht hl hN]
    simp only [hu, true_and]
  have hsingle : offending (N : Int) param = false →
      iterate param.adapters param.allAdapters (N : Int) ≠ [] →
      ((AMDGPU.validate N [param] perfClocks junk).failed = true ↔
        (param.value < 0 ∨ param.value > 20)) := by
    intro ho hne
    rw [amdgpu_single_failed_iff N param perfClocks junk hfan ho
      (fun _ => decide (param.value < 0 ∨ param.value > 20))
      (overdriveDiag param.type)
      (fun st d hN => by rw [hstep st d hN]; simp only [decide_eq_true_eq])]
    simp only [decide_eq_true_eq]
    constructor
    · rintro ⟨_, _, h⟩; exact h
    · intro h
      obtain ⟨d, hd⟩ := List.exists_mem_of_ne_nil _ hne
      exact ⟨d, hd, h⟩
  refine ⟨fun d st hN => ⟨hstep st d hN, hstep st d hN⟩, ?_,
    fun ho hne => ⟨hsingle ho hne, hsingle ho hne⟩⟩
  intro params d hp hd hN hout
  have h := amdgpu_failed_of_step N params perfClocks junk param hp hfan d hd
    (overdriveDiag param.type) (fun st => by rw [hstep st d hN, if_pos hout])
  exact ⟨h, h⟩

/-- Witness of C22: on one device `memod:0=21` fails validation with the message of the memory
overdrive range, `memod:0=20` and `coreod:0=0` pass, and `coreod:0=-1` fails. -/
theorem amdgpu_overdrive_range_witness :
    ((AMDGPU.validate 1 [directive "memod:0=21"] [⟨1000, 1500⟩] ⟨0, 0⟩).failed = true ↔
      ((directive "memod:0=21").value < 0 ∨ (directive "memod:0=21").value > 20)) ∧
    AMDGPU.validate 1 [directive "memod:0=21"] [⟨1000, 1500⟩] ⟨0, 0⟩ =
      ⟨true, [⟨DiagKind.memoryOverdrive, "memod:0=21".toList⟩]⟩ ∧
    AMDGPU.validate 1 [directive "memod:0=20", directive "coreod:0=0"] [⟨1000, 1500⟩] ⟨0, 0⟩ =
      ⟨false, []⟩ ∧
    AMDGPU.validate 1 [directive "coreod:0=-1"] [⟨1000, 1500⟩] ⟨0, 0⟩ =
      ⟨true, [⟨DiagKind.coreOverdrive, "coreod:0=-1".toList⟩]⟩ :=
  ⟨((amdgpu_overdrive_range [⟨1000, 1500⟩] ⟨0, 0⟩ 1 (directive "memod:0=21")
      (Or.inr (by decide!)) (by decide!) (Or.inr (by decide!))).2.2
        (by decide!) (by decide!)).1,
    by decide!, by decide!, by decide!⟩

/-- Replacing an element of a list by one on which every step agrees does not change a fold. -/
theorem foldl_replace {α β : Type} (f : β → α → β) (p q : α) (h : ∀ b, f b p = f b q)
    (l1 l2 : List α) (b : β) : (l1 ++ p :: l2).foldl f b = (l1 ++ q :: l2).foldl f b := by
  simp only [List.foldl_append, List.foldl_cons, h]

/-- The Catalyst engine leaves a level as it is for an overdrive directive. -/
theorem adl_mergeLevel_overdrive (p : OVCParameter)
    (ht : p.type = OVCParamType.CORE_OD ∨ p.type = OVCParamType.MEMORY_OD)
    (lvl dflt : ADLODPerformanceLevel) : ADL.mergeLevel p lvl dflt = lvl := by
  unfold ADL.mergeLevel
  rcases ht with h | h <;> rw [h]

/-- The check of one adapter in the Catalyst engine does not read the value of an overdrive
directive. -/
theorem adl_checkOtherAt_overdrive (odParams : List ADLODParameters) (junk : ADLODParameters)
    (N : Int) (p : OVCParameter)
    (ht : p.type = OVCParamType.CORE_OD ∨ p.type = OVCParamType.MEMORY_OD) (st : Check)
    (i : Int) :
    ADL.checkOtherAt odParams junk N p st i =
      if i ≥ N then st
      else if ADL.resolveLevel odParams junk p i ≥
          ((readAt odParams i junk).iNumberOfPerformanceLevels : Int) ∨
          ADL.resolveLevel odParams junk p i < 0 then st.report DiagKind.perfLevel p
      else st := by
  unfold ADL.checkOtherAt ADL.resolveLevel
  dsimp only
  rcases ht with h | h <;> simp only [h, Bool.or_eq_true, decide_eq_true_eq]

theorem adl_validate_overdrive (mc : ADLMainControl) (active : List Int)
    (junk : ADLODParameters) (p : OVCParameter)
    (ht : p.type = OVCParamType.CORE_OD ∨ p.type = OVCParamType.MEMORY_OD) (v : ℚ) (u : Bool)
    (l1 l2 : List OVCParameter) :
    ADL.validate mc active (l1 ++ p :: l2) junk =
      ADL.validate mc active (l1 ++ { p with value := v, useDefault := u } :: l2) junk := by
  have hfan : p.type ≠ OVCParamType.FAN_SPEED := by
    rcases ht with h | h <;> rw [h] <;> decide
  unfold ADL.validate ADL.checkIndices ADL.checkFanSpeed ADL.checkOther
  dsimp only
  rw [foldl_replace _ p { p with value := v, useDefault := u } (fun st => ?_) l1 l2,
    foldl_replace _ p { p with value := v, useDefault := u } (fun st => ?_) l1 l2,
    foldl_replace _ p { p with value := v, useDefault := u } (fun st => ?_) l1 l2]
  · rfl
  · dsimp only
    rw [if_neg hfan, if_neg hfan]
  · dsimp only
    rw [if_pos hfan, if_pos hfan]
    congr 1
    funext st i
    rw [adl_checkOtherAt_overdrive _ _ _ p ht,
      adl_checkOtherAt_overdrive _ _ _ { p with value := v, useDefault := u } ht]
    rfl

theorem adl_setOVCParameters_overdrive (mc : ADLMainControl) (active : List Int)
    (junk : ADLODParameters) (p : OVCParameter)
    (ht : p.type = OVCParamType.CORE_OD ∨ p.type = OVCParamType.MEMORY_OD) (v : ℚ) (u : Bool)
    (l1 l2 : List OVCParameter) :
    ADL.setOVCParameters mc active (l1 ++ p :: l2) junk =
      ADL.setOVCParameters mc active (l1 ++ { p with value := v, useDefault := u } :: l2)
        junk := by
  have hfan : p.type ≠ OVCParamType.FAN_SPEED := by
    rcases ht with h | h <;> rw [h] <;> decide
  have hf : ADL.fanMerge (l1 ++ p :: l2) active.length =
      ADL.fanMerge (l1 ++ { p with value := v, useDefault := u } :: l2) active.length := by
    unfold ADL.fanMerge
    rw [foldl_replace _ p { p with value := v, useDefault := u } (fun st => ?_) l1 l2]
    dsimp only
    rw [if_neg hfan, if_neg hfan]
  have hm : ADL.merged mc active (l1 ++ p :: l2) junk =
      ADL.merged mc active (l1 ++ { p with value := v, useDefault := u } :: l2) junk := by
    unfold ADL.merged ADL.levelMerge
    rw [foldl_replace _ p { p with value := v, useDefault := u } (fun st => ?_) l1 l2]
    dsimp only
    rw [if_pos hfan, if_pos hfan]
    congr 1
    funext ls i
    unfold ADL.mergeAt
    dsimp only
    rw [adl_mergeLevel_overdrive p ht,
      adl_mergeLevel_overdrive { p with value := v, useDefault := u } ht]
    rfl
  have hi : ADL.checkOtherIndices (active.length : Int) (l1 ++ p :: l2) =
      ADL.checkOtherIndices (active.length : Int)
        (l1 ++ { p with value := v, useDefault := u } :: l2) := by
    unfold ADL.checkOtherIndices
    simp only [List.flatMap_append, List.flatMap_cons]
  unfold ADL.setOVCParameters
  rw [adl_validate_overdrive mc active junk p ht v u l1 l2, hf, hm, hi]

/-- C23, amended: the Catalyst engine has no range check for `coreod` and `memod`.  For such a
directive the check of an adapter within range is the level check alone, the merge leaves every
level as it is, and neither the validation nor the outcome of `setOVCParameters` (messages,
write calls, `Error`) of a batch that holds the directive depends on its value or on whether it
is `default`. -/
theorem catalyst_overdrive_unchecked (mc : ADLMainControl) (active : List Int)
    (junk : ADLODParameters) (p : OVCParameter)
    (ht : p.type = OVCParamType.CORE_OD ∨ p.type = OVCParamType.MEMORY_OD) :
    (∀ (odParams : List ADLODParameters) (N : Int) (st : Check) (i : Int),
      ADL.checkOtherAt odParams junk N p st i =
        if i ≥ N then st
        else if ADL.resolveLevel odParams junk p i ≥
            ((readAt odParams i junk).iNumberOfPerformanceLevels : Int) ∨
            ADL.resolveLevel odParams junk p i < 0 then st.report DiagKind.perfLevel p
        else st) ∧
    (∀ (lvl dflt : ADLODPerformanceLevel), ADL.mergeLevel p lvl dflt = lvl) ∧
    (∀ (v : ℚ) (u : Bool) (l1 l2 : List OVCParameter),
      ADL.validate mc active (l1 ++ p :: l2) junk =
        ADL.validate mc active (l1 ++ { p with value := v, useDefault := u } :: l2) junk ∧
      ADL.setOVCParameters mc active (l1 ++ p :: l2) junk =
        ADL.setOVCParameters mc active (l1 ++ { p with value := v, useDefault := u } :: l2)
          junk) :=
  ⟨fun odParams N st i => adl_checkOtherAt_overdrive odParams junk N p ht st i,
    adl_mergeLevel_overdrive p ht,
    fun v u l1 l2 => ⟨adl_validate_overdrive mc active junk p ht v u l1 l2,
      adl_setOVCParameters_overdrive mc active junk p ht v u l1 l2⟩⟩

/-- Witness of C23: the batch of `coreod:0=50` has the outcome of the batch of the same
directive with the value 5. -/
theorem catalyst_overdrive_unchecked_witness :
    (directive "coreod:0=50").type = OVCParamType.CORE_OD ∧
    ADL.setOVCParameters exampleControl [0] [directive "coreod:0=50"] exampleJunk =
      ADL.setOVCParameters exampleControl [0]
        [{ directive "coreod:0=50" with value := 5, useDefault := false }] exampleJunk :=
  ⟨by decide!,
    ((catalyst_overdrive_unchecked exampleControl [0] exampleJunk (directive "coreod:0=50")
      (Or.inl (by decide!))).2.2 5 false [] []).2⟩

/-- Counterexample to C23 as stated: `coreod:0=50` is not `default` and its value is outside
`[0, 20]`, yet the Catalyst validation passes without a message, nothing is thrown, and a write
call is issued (the unchanged levels of adapter 0). -/
theorem overdrive_passes_catalyst :
    (directive "coreod:0=50").type = OVCParamType.CORE_OD ∧
    (directive "coreod:0=50").useDefault = false ∧
    (directive "coreod:0=50").value = 50 ∧
    ADL.validate exampleControl [0] [directive "coreod:0=50"] exampleJunk = ⟨false, []⟩ ∧
    (ADL.setOVCParameters exampleControl [0] [directive "coreod:0=50"] exampleJunk).thrown =
      none ∧
    (ADL.setOVCParameters exampleControl [0] [directive "coreod:0=50"] exampleJunk).calls =
      [ADLCall.setODPerformanceLevels 0 2 [⟨60000, 100000, 1000⟩, ⟨60000, 100000, 1001⟩]] := by
  decide!

/-- The function `round`: the result is within 1/2 of the argument, and at distance exactly 1/2
it is the integer farther from zero. -/
theorem cround_spec (q : ℚ) :
    |(cround q : ℚ) - q| ≤ 1 / 2 ∧
      (|(cround q : ℚ) - q| = 1 / 2 → |q| < |(cround q : ℚ)|) := by
  unfold cround
  split
  · rename_i h
    have h1 := Int.floor_le (q + 1 / 2)
    have h2 := Int.lt_floor_add_one (q + 1 / 2)
    constructor
    · rw [abs_le]; constructor <;> linarith
    · intro he
      rcases abs_cases ((⌊q + 1 / 2⌋ : ℚ) - q) with ⟨e1, _⟩ | ⟨e1, _⟩
      · rw [abs_of_nonneg h, abs_of_nonneg (by linarith)]
        linarith
      · linarith
  · rename_i h
    have h1 := Int.le_ceil (q - 1 / 2)
    have h2 := Int.ceil_lt_add_one (q - 1 / 2)
    constructor
    · rw [abs_le]; constructor <;> linarith
    · intro he
      rcases abs_cases ((⌈q - 1 / 2⌉ : ℚ) - q) with ⟨e1, _⟩ | ⟨e1, _⟩
      · linarith
      · rw [abs_of_neg (by linarith), abs_of_neg (by linarith)]
        linarith

/-- A write into a vector read back at another index. -/
theorem getD_writeAt_ne {α : Type} (xs : List α) (i : Int) (v dflt : α) (d : Nat)
    (h : (d : Int) ≠ i) : (writeAt xs i v).getD d dflt = xs.getD d dflt := by
  unfold writeAt
  split
  · have : ¬ i.toNat = d := by omega
    simp [List.getD_eq_getElem?_getD, List.getElem?_set, this]
  · rfl

/-- A write into a vector read back at the index written. -/
theorem readAt_writeAt {α : Type} (xs : List α) (i : Int) (v dflt : α) (h0 : 0 ≤ i)
    (h1 : i < (xs.length : Int)) : readAt (writeAt xs i v) i dflt = v := by
  unfold readAt writeAt
  rw [if_pos h0, if_pos h0]
  have : i.toNat < xs.length := by omega
  simp [List.getD_eq_getElem?_getD, List.getElem?_set, this]

/-- The level a step of the merge addresses, after the step. -/
theorem adl_mergeAt_target (odParams : List ADLODParameters) (junk : ADLODParameters)
    (dflt : List (List ADLODPerformanceLevel)) (param : OVCParameter) (ls : ADL.LevelState)
    (i : Int) (h0 : 0 ≤ i) (h1 : i < (ls.perfLevels.length : Int))
    (hp0 : 0 ≤ ADL.resolveLevel odParams junk param i)
    (hp1 : ADL.resolveLevel odParams junk param i < ((readAt ls.perfLevels i []).length : Int)) :
    readAt (readAt (ADL.mergeAt odParams junk dflt param ls i).perfLevels i [])
        (ADL.resolveLevel odParams junk param i) ⟨0, 0, 0⟩ =
      ADL.mergeLevel param
        (readAt (readAt ls.perfLevels i []) (ADL.resolveLevel odParams junk param i) ⟨0, 0, 0⟩)
        (readAt (readAt dflt i []) (ADL.resolveLevel odParams junk param i) ⟨0, 0, 0⟩) := by
  unfold ADL.mergeAt
  dsimp only
  rw [readAt_writeAt _ _ _ _ h0 h1, readAt_writeAt _ _ _ _ hp0 hp1]

/-- C24: in the level merge of the Catalyst engine, the step of a directive on an adapter `i`
inside the vectors, for the level it resolves to there, replaces that level by one that differs
from the current one in one field at most: for `coreclk` the core clock becomes the default core
clock of that level when the directive is `default` and `round(value * 100)` otherwise; for
`memclk` the same with the memory clock; for `vcore` the voltage becomes the default voltage when
the directive is `default` and, when it is not and the current voltage is not 0,
`round(value * 1000)`.  The products are `value * 100.0` and `value * 1000.0` as the source
computes them, in binary64.  `round` yields an integer within 1/2 of its argument, and at
distance exactly 1/2 the one farther from zero. -/
theorem catalyst_level_merge (odParams : List ADLODParameters) (junk : ADLODParameters)
    (dflt : List (List ADLODPerformanceLevel)) (param : OVCParameter) (ls : ADL.LevelState)
    (i : Int) (h0 : 0 ≤ i) (h1 : i < (ls.perfLevels.length : Int))
    (hp0 : 0 ≤ ADL.resolveLevel odParams junk param i)
    (hp1 : ADL.resolveLevel odParams junk param i < ((readAt ls.perfLevels i []).length : Int)) :
    let l := ADL.resolveLevel odParams junk param i
    let cur := readAt (readAt ls.perfLevels i []) l ⟨0, 0, 0⟩
    let dfl := readAt (readAt dflt i []) l ⟨0, 0, 0⟩
    let new := readAt (readAt (ADL.mergeAt odParams junk dflt param ls i).perfLevels i []) l
      ⟨0, 0, 0⟩
    (param.type = OVCParamType.CORE_CLOCK →
      new = { cur with iEngineClock :=
        if param.useDefault then dfl.iEngineClock else cround (binary64 (param.value * 100)) }) ∧
    (param.type = OVCParamType.MEMORY_CLOCK →
      new = { cur with iMemoryClock :=
        if param.useDefault then dfl.iMemoryClock else cround (binary64 (param.value * 100)) }) ∧
    (param.type = OVCParamType.VDDC_VOLTAGE →
      (param.useDefault = true → new = { cur with iVddc := dfl.iVddc }) ∧
      (param.useDefault = false → cur.iVddc ≠ 0 →
        new = { cur with iVddc := cround (binary64 (param.value * 1000)) })) ∧
    (∀ q : ℚ, |(cround q : ℚ) - q| ≤ 1 / 2 ∧
      (|(cround q : ℚ) - q| = 1 / 2 → |q| < |(cround q : ℚ)|)) := by
  intro l cur dfl new
  have hn : new = ADL.mergeLevel param cur dfl :=
    adl_mergeAt_target odParams junk dflt param ls i h0 h1 hp0 hp1
  refine ⟨fun ht => ?_, fun ht => ?_, fun ht => ⟨fun hu => ?_, fun hu hz => ?_⟩, cround_spec⟩
  · rw [hn]; unfold ADL.mergeLevel; rw [ht]; dsimp only; split <;> rfl
  · rw [hn]; unfold ADL.mergeLevel; rw [ht]; dsimp only; split <;> rfl
  · rw [hn]; unfold ADL.mergeLevel; rw [ht]; dsimp only; rw [if_pos hu]
  · rw [hn]; unfold ADL.mergeLevel; rw [ht]; dsimp only
    rw [if_neg (by rw [hu]; decide), if_neg hz]

/-- Witness of C24: on the example backend `coreclk:0:1=900.555` turns the core clock of
level 1 of adapter 0 into 90056 (`round(90055.5)`), and the engine writes that array; for
`coreclk:0:1=300.025` the product is a double below 30002.5 and the engine writes 30002. -/
theorem catalyst_level_merge_witness :
    readAt (readAt (ADL.mergeAt (ADL.readODParams exampleControl [0]) exampleJunk
        (ADL.readPerfLevels exampleControl [0] true) (directive "coreclk:0:1=900.555")
        ⟨ADL.readPerfLevels exampleControl [0] false, [false]⟩ 0).perfLevels 0 [])
      (ADL.resolveLevel (ADL.readODParams exampleControl [0]) exampleJunk
        (directive "coreclk:0:1=900.555") 0) ⟨0, 0, 0⟩ = ⟨90056, 100000, 1001⟩ ∧
    (ADL.setOVCParameters exampleControl [0] [directive "coreclk:0:1=900.555"]
      exampleJunk).calls =
      [ADLCall.setODPerformanceLevels 0 2 [⟨60000, 100000, 1000⟩, ⟨90056, 100000, 1001⟩]] ∧
    (ADL.setOVCParameters exampleControl [0] [directive "coreclk:0:1=300.025"]
      exampleJunk).calls =
      [ADLCall.setODPerformanceLevels 0 2 [⟨60000, 100000, 1000⟩, ⟨30002, 100000, 1001⟩]] ∧
    binary64 ((directive "coreclk:0:1=300.025").value * 100) < 300025 / 10 :=
  ⟨((catalyst_level_merge (ADL.readODParams exampleControl [0]) exampleJunk
      (ADL.readPerfLevels exampleControl [0] true) (directive "coreclk:0:1=900.555")
      ⟨ADL.readPerfLevels exampleControl [0] false, [false]⟩ 0
      (by decide) (by decide!) (by decide!) (by decide!)).1 (by decide!)).trans (by decide!),
    by decide!, by decide!, by decide!⟩

/-- A loop that appends what a function yields for each element. -/
theorem foldl_append_flatMap {α β : Type} (g : α → List β) (l : List α) (acc : List β) :
    l.foldl (fun a x => a ++ g x) acc = acc ++ l.flatMap g := by
  induction l generalizing acc with
  | nil => simp
  | cons x xs ih => rw [List.foldl_cons, ih, List.flatMap_cons, List.append_assoc]

/-- The overdrive calls of a batch: for each directive other than a fan speed one, in input
order, and for each adapter it resolves to, in order, the calls of that pair. -/
theorem amdgpu_setParams_eq (params : List OVCParameter) (N : Int)
    (perfClocks : List PerfClocks) (junk : PerfClocks) :
    AMDGPU.setParams params N perfClocks junk =
      params.flatMap (fun p =>
        if p.type ≠ OVCParamType.FAN_SPEED then
          (iterate p.adapters p.allAdapters N).flatMap (AMDGPU.setParamAt perfClocks junk p)
        else []) := by
  unfold AMDGPU.setParams
  have h : (fun (calls : List AMDGPUCall) (param : OVCParameter) =>
      if param.type ≠ OVCParamType.FAN_SPEED then
        (iterate param.adapters param.allAdapters N).foldl
          (fun calls i => calls ++ AMDGPU.setParamAt perfClocks junk param i) calls
      else calls) =
      (fun calls param => calls ++ (if param.type ≠ OVCParamType.FAN_SPEED then
          (iterate param.adapters param.allAdapters N).flatMap
            (AMDGPU.setParamAt perfClocks junk param)
        else [])) := by
    funext calls param
    split
    · exact foldl_append_flatMap _ _ _
    · simp
  rw [h, foldl_append_flatMap, List.nil_append]

theorem amdgpu_filter_not_isFan_commitFan (N : Nat) (setups : List FanSpeedSetup) :
    (AMDGPU.commitFan N setups).filter (fun c => !c.isFan) = [] := by
  rw [List.filter_eq_nil_iff]
  intro c hc
  have h := amdgpu_filter_isFan_commitFan N setups
  rw [List.filter_eq_self] at h
  simp [h c hc]

/-- The overdrive calls of a validated batch in the AMDGPU engine. -/
theorem amdgpu_overdrive_calls (N : Nat) (params : List OVCParameter)
    (perfClocks : List PerfClocks) (junk : PerfClocks)
    (hv : (AMDGPU.validate N params perfClocks junk).failed = false) :
    (AMDGPU.setOVCParameters N params perfClocks junk).calls.filter (fun c => !c.isFan) =
      params.flatMap (fun p =>
        if p.type ≠ OVCParamType.FAN_SPEED then
          (iterate p.adapters p.allAdapters (N : Int)).flatMap
            (AMDGPU.setParamAt perfClocks junk p)
        else []) := by
  have h : (AMDGPU.setParams params N perfClocks junk).filter (fun c => !c.isFan) =
      AMDGPU.setParams params N perfClocks junk := by
    rw [List.filter_eq_self]
    intro c hc
    have := amdgpu_filter_isFan_setParams params N perfClocks junk
    rw [List.filter_eq_nil_iff] at this
    simpa using this c hc
  simp only [AMDGPU.setOVCParameters, hv, Bool.false_eq_true, if_false, List.filter_append,
    amdgpu_filter_not_isFan_commitFan, List.append_nil, h]
  exact amdgpu_setParams_eq params N perfClocks junk

theorem proovc_checkParametersIndices_eq (N : Int) (params : List OVCParameter) :
    AmdGpuProOvc.checkParametersIndices N params = AMDGPU.checkOtherIndices N params := rfl

theorem proovc_Set_eq (N : Nat) (params : List OVCParameter)
    (perfClocks : List PerfClocks) (junk : PerfClocks) :
    AmdGpuProOvc.Set N params perfClocks junk =
      AMDGPU.setOVCParameters N params perfClocks junk := by
  unfold AmdGpuProOvc.Set AMDGPU.setOVCParameters
  simp only [proovc_validate_eq, proovc_setParameters_eq, proovc_setFanSpeedSetup_eq,
    proovc_setFanSpeeds_eq, amdgpu_fanMerge_eq, proovc_checkParametersIndices_eq]

/-- C25: in the AMDGPU engine of `amdcovc.cpp` and in `AmdGpuProOvc::setParameters` alike, the
calls a directive issues for a device `d` it resolves to are: for `coreclk` one
`setOverdriveCoreParam` for `d` whose percentage is 0 when the directive is `default` and the
value of `round((value - c) / c * 100)` otherwise, `c` being the base core clock of `d`; for
`memclk` the same with `setOverdriveMemoryParam` and the base memory clock; for `coreod` and
`memod` one call of the same two operations with 0 when `default` and `round(value)` otherwise;
for `vcore` no call.  The expression of the percentage has the value
`round((value - c) / c * 100)` whenever `c` is not 0, the difference, the quotient and the
product being those of the source, each in binary64.  The overdrive calls of a validated batch
are exactly the calls of its directives other than fan speed ones on the devices they resolve
to. -/
theorem amdgpu_encoding (perfClocks : List PerfClocks) (junk : PerfClocks)
    (param : OVCParameter) (d : Int) :
    (param.type = OVCParamType.CORE_CLOCK →
      AMDGPU.setParamAt perfClocks junk param d =
        [AMDGPUCall.setOverdriveCoreParam d (if param.useDefault then some 0
          else clockPercent param.value (readAt perfClocks d junk).coreClock)]) ∧
    (param.type = OVCParamType.MEMORY_CLOCK →
      AMDGPU.setParamAt perfClocks junk param d =
        [AMDGPUCall.setOverdriveMemoryParam d (if param.useDefault then some 0
          else clockPercent param.value (readAt perfClocks d junk).memoryClock)]) ∧
    (param.type = OVCParamType.CORE_OD →
      AMDGPU.setParamAt perfClocks junk param d =
        [AMDGPUCall.setOverdriveCoreParam d
          (some (if param.useDefault then 0 else cround param.value))]) ∧
    (param.type = OVCParamType.MEMORY_OD →
      AMDGPU.setParamAt perfClocks junk param d =
        [AMDGPUCall.setOverdriveMemoryParam d
          (some (if param.useDefault then 0 else cround param.value))]) ∧
    (param.type = OVCParamType.VDDC_VOLTAGE → AMDGPU.setParamAt perfClocks junk param d = []) ∧
    (∀ (value : ℚ) (c : Nat), c ≠ 0 →
      clockPercent value c =
        some (cround (binary64 (binary64 (binary64 (value - (c : ℚ)) / (c : ℚ)) * 100)))) ∧
    AmdGpuProOvc.setParameterAt perfClocks junk param d =
      AMDGPU.setParamAt perfClocks junk param d ∧
    (∀ (N : Nat) (params : List OVCParameter),
      (AMDGPU.validate N params perfClocks junk).failed = false →
      ∀ c : AMDGPUCall,
        ((c ∈ (AMDGPU.setOVCParameters N params perfClocks junk).calls ∧ c.isFan = false) ↔
          ∃ p ∈ params, p.type ≠ OVCParamType.FAN_SPEED ∧
            ∃ i ∈ iterate p.adapters p.allAdapters (N : Int),
              c ∈ AMDGPU.setParamAt perfClocks junk p i) ∧
        ((c ∈ (AmdGpuProOvc.Set N params perfClocks junk).calls ∧ c.isFan = false) ↔
          ∃ p ∈ params, p.type ≠ OVCParamType.FAN_SPEED ∧
            ∃ i ∈ iterate p.adapters p.allAdapters (N : Int),
              c ∈ AmdGpuProOvc.setParameterAt perfClocks junk p i)) := by
  have hcalls : ∀ (N : Nat) (params : List OVCParameter),
      (AMDGPU.validate N params perfClocks junk).failed = false →
      ∀ c : AMDGPUCall,
        ((c ∈ (AMDGPU.setOVCParameters N params perfClocks junk).calls ∧ c.isFan = false) ↔
          ∃ p ∈ params, p.type ≠ OVCParamType.FAN_SPEED ∧
            ∃ i ∈ iterate p.adapters p.allAdapters (N : Int),
              c ∈ AMDGPU.setParamAt perfClocks junk p i) := by
    intro N params hv c
    have h := amdgpu_overdrive_calls N params perfClocks junk hv
    have hm : (c ∈ (AMDGPU.setOVCParameters N params perfClocks junk).calls ∧
        c.isFan = false) ↔
        c ∈ (AMDGPU.setOVCParameters N params perfClocks junk).calls.filter
          (fun c => !c.isFan) := by
      rw [List.mem_filter]; simp
    rw [hm, h, List.mem_flatMap]
    constructor
    · rintro ⟨p, hp, hc⟩
      split at hc
      · rename_i ht
        rw [List.mem_flatMap] at hc
        exact ⟨p, hp, ht, hc⟩
      · simp at hc
    · rintro ⟨p, hp, ht, hc⟩
      refine ⟨p, hp, ?_⟩
      rw [if_pos ht, List.mem_flatMap]
      exact hc
  refine ⟨fun ht => ?_, fun ht => ?_, fun ht => ?_, fun ht => ?_, fun ht => ?_, ?_, rfl, ?_⟩
  · unfold AMDGPU.setParamAt; rw [ht]; dsimp only; split <;> rfl
  · unfold AMDGPU.setParamAt; rw [ht]; dsimp only; split <;> rfl
  · unfold AMDGPU.setParamAt; rw [ht]; dsimp only; split <;> rfl
  · unfold AMDGPU.setParamAt; rw [ht]; dsimp only; split <;> rfl
  · unfold AMDGPU.setParamAt; rw [ht]
  · intro value c hc
    unfold clockPercent
    rw [if_neg hc]
  · intro N params hv c
    refine ⟨hcalls N params hv c, ?_⟩
    rw [proovc_Set_eq]
    exact hcalls N params hv c

/-- Witness of C25: with base clocks 1000 and 1500, `coreclk:0=1055` is passed on as 6 per cent
(`round(5.5)`), `memod:0=7.5` as 8, `memclk:0=default` as 0, and `vcore:0=1.1` issues no call;
the batch of the first directive issues that one call; for `coreclk:0=1145` the quotient 0.145
is no double, the product is a double below 14.5 and the percentage is 14. -/
theorem amdgpu_encoding_witness :
    AMDGPU.setParamAt [⟨1000, 1500⟩] ⟨0, 0⟩ (directive "coreclk:0=1055") 0 =
      [AMDGPUCall.setOverdriveCoreParam 0 (some 6)] ∧
    AMDGPU.setParamAt [⟨1000, 1500⟩] ⟨0, 0⟩ (directive "memod:0=7.5") 0 =
      [AMDGPUCall.setOverdriveMemoryParam 0 (some 8)] ∧
    AMDGPU.setParamAt [⟨1000, 1500⟩] ⟨0, 0⟩ (directive "memclk:0=default") 0 =
      [AMDGPUCall.setOverdriveMemoryParam 0 (some 0)] ∧
    AMDGPU.setParamAt [⟨1000, 1500⟩] ⟨0, 0⟩ (directive "vcore:0=1.1") 0 = [] ∧
    clockPercent 1055 1000 = some 6 ∧
    (AMDGPU.setOVCParameters 1 [directive "coreclk:0=1055"] [⟨1000, 1500⟩] ⟨0, 0⟩).calls =
      [AMDGPUCall.setOverdriveCoreParam 0 (some 6)] ∧
    AMDGPU.setParamAt [⟨1000, 1500⟩] ⟨0, 0⟩ (directive "coreclk:0=1145") 0 =
      [AMDGPUCall.setOverdriveCoreParam 0 (some 14)] ∧
    AmdGpuProOvc.setParameterAt [⟨1000, 1500⟩] ⟨0, 0⟩ (directive "coreclk:0=1145") 0 =
      [AMDGPUCall.setOverdriveCoreParam 0 (some 14)] ∧
    binary64 (binary64 (binary64 (1145 - 1000) / 1000) * 100) < 145 / 10 :=
  ⟨((amdgpu_encoding [⟨1000, 1500⟩] ⟨0, 0⟩ (directive "coreclk:0=1055") 0).1
      (by decide!)).trans (by decide!),
    by decide!, by decide!, by decide!, by decide!, by decide!, by decide!, by decide!,
    by decide!⟩

theorem length_filter_flatMap {α β : Type} (q : β → Bool) (f : α → List β) (l : List α) :
    ((l.flatMap f).filter q).length = (l.map (fun x => ((f x).filter q).length)).sum := by
  induction l with
  | nil => simp
  | cons x xs ih =>
    rw [List.flatMap_cons, List.filter_append, List.length_append, ih, List.map_cons,
      List.sum_cons]

theorem sum_map_filter {α : Type} (P : α → Bool) (g : α → Nat) (l : List α) :
    ((l.filter P).map g).sum = (l.map (fun x => if P x then g x else 0)).sum := by
  induction l with
  | nil => simp
  | cons x xs ih =>
    cases h : P x <;> simp [List.filter_cons, h, ih]

theorem sum_map_indicator (d : Int) (is : List Int) :
    (is.map (fun i => if i = d then 1 else 0)).sum = is.count d := by
  induction is with
  | nil => simp
  | cons i is ih =>
    rw [List.map_cons, List.sum_cons, ih, List.count_cons]
    by_cases h : i = d
    · simp [h]; omega
    · simp [h]

/-- The calls `setOverdriveCoreParam` for device `d` among the calls of one directive on one
adapter. -/
theorem amdgpu_core_calls_at (perfClocks : List PerfClocks) (junk : PerfClocks)
    (p : OVCParameter) (i d : Int) :
    ((AMDGPU.setParamAt perfClocks junk p i).filter (AMDGPUCall.isCoreOn d)).length =
      if p.type ∈ [OVCParamType.CORE_CLOCK, OVCParamType.CORE_OD] then
        (if i = d then 1 else 0) else 0 := by
  unfold AMDGPU.setParamAt
  cases ht : p.type <;> cases hu : p.useDefault <;>
    by_cases h : i = d <;> simp [AMDGPUCall.isCoreOn, h]

/-- The calls `setOverdriveMemoryParam` for device `d` among the calls of one directive on one
adapter. -/
theorem amdgpu_memory_calls_at (perfClocks : List PerfClocks) (junk : PerfClocks)
    (p : OVCParameter) (i d : Int) :
    ((AMDGPU.setParamAt perfClocks junk p i).filter (AMDGPUCall.isMemoryOn d)).length =
      if p.type ∈ [OVCParamType.MEMORY_CLOCK, OVCParamType.MEMORY_OD] then
        (if i = d then 1 else 0) else 0 := by
  unfold AMDGPU.setParamAt
  cases ht : p.type <;> cases hu : p.useDefault <;>
    by_cases h : i = d <;> simp [AMDGPUCall.isMemoryOn, h]

/-- Counting the calls of one operation for a device in the overdrive calls of a batch. -/
theorem amdgpu_count_calls (perfClocks : List PerfClocks) (junk : PerfClocks)
    (params : List OVCParameter) (N : Int) (d : Int) (q : AMDGPUCall → Bool)
    (kinds : List OVCParamType) (hk : OVCParamType.FAN_SPEED ∉ kinds)
    (hq : ∀ (p : OVCParameter) (i : Int),
      ((AMDGPU.setParamAt perfClocks junk p i).filter q).length =
        if p.type ∈ kinds then (if i = d then 1 else 0) else 0) :
    ((params.flatMap (fun p =>
        if p.type ≠ OVCParamType.FAN_SPEED then
          (iterate p.adapters p.allAdapters N).flatMap (AMDGPU.setParamAt perfClocks junk p)
        else [])).filter q).length = resolutions kinds params N d := by
  unfold resolutions
  rw [length_filter_flatMap, sum_map_filter]
  congr 1
  apply List.map_congr_left
  intro p _
  by_cases hp : p.type ∈ kinds
  · have hf : p.type ≠ OVCParamType.FAN_SPEED := fun h => hk (h ▸ hp)
    rw [if_pos hf, length_filter_flatMap]
    simp only [hq, hp, if_true, decide_True]
    exact sum_map_indicator d _
  · simp only [hp, decide_False, Bool.false_eq_true, if_false]
    split
    · rw [length_filter_flatMap]
      simp [hq, hp]
    · rfl

theorem filter_isCoreOn_not_isFan (d : Int) (calls : List AMDGPUCall) :
    (calls.filter (fun c => !c.isFan)).filter (AMDGPUCall.isCoreOn d) =
      calls.filter (AMDGPUCall.isCoreOn d) := by
  rw [List.filter_filter]
  congr 1
  funext c
  cases c <;> simp [AMDGPUCall.isCoreOn, AMDGPUCall.isFan]

theorem filter_isMemoryOn_not_isFan (d : Int) (calls : List AMDGPUCall) :
    (calls.filter (fun c => !c.isFan)).filter (AMDGPUCall.isMemoryOn d) =
      calls.filter (AMDGPUCall.isMemoryOn d) := by
  rw [List.filter_filter]
  congr 1
  funext c
  cases c <;> simp [AMDGPUCall.isMemoryOn, AMDGPUCall.isFan]

/-- C27, amended: the AMDGPU engines issue one overdrive call per directive and device.  For a
batch that passes validation, the overdrive calls of `setOVCParameters` of `amdcovc.cpp` and of
`AmdGpuProOvc::Set` are, for each directive other than a fan speed one in input order and each
adapter it resolves to in order, the calls of that pair (one for `coreclk`, `memclk`, `coreod`,
`memod`, none for `vcore`); so a device gets as many `setOverdriveCoreParam` calls as there are
`coreclk` and `coreod` directives resolving to it, and as many `setOverdriveMemoryParam` calls
as there are `memclk` and `memod` directives resolving to it. -/
theorem amdgpu_call_per_directive (N : Nat) (params : List OVCParameter)
    (perfClocks : List PerfClocks) (junk : PerfClocks)
    (hv : (AMDGPU.validate N params perfClocks junk).failed = false) :
    (AMDGPU.setOVCParameters N params perfClocks junk).calls.filter (fun c => !c.isFan) =
      params.flatMap (fun p =>
        if p.type ≠ OVCParamType.FAN_SPEED then
          (iterate p.adapters p.allAdapters (N : Int)).flatMap
            (AMDGPU.setParamAt perfClocks junk p)
        else []) ∧
    AmdGpuProOvc.Set N params perfClocks junk =
      AMDGPU.setOVCParameters N params perfClocks junk ∧
    (∀ d : Int,
      ((AMDGPU.setOVCParameters N params perfClocks junk).calls.filter
          (AMDGPUCall.isCoreOn d)).length =
        resolutions [OVCParamType.CORE_CLOCK, OVCParamType.CORE_OD] params N d ∧
      ((AMDGPU.setOVCParameters N params perfClocks junk).calls.filter
          (AMDGPUCall.isMemoryOn d)).length =
        resolutions [OVCParamType.MEMORY_CLOCK, OVCParamType.MEMORY_OD] params N d) := by
  have h := amdgpu_overdrive_calls N params perfClocks junk hv
  refine ⟨h, proovc_Set_eq N params perfClocks junk, fun d => ⟨?_, ?_⟩⟩
  · rw [← filter_isCoreOn_not_isFan, h]
    exact amdgpu_count_calls perfClocks junk params N d _ _ (by decide)
      (fun p i => amdgpu_core_calls_at perfClocks junk p i d)
  · rw [← filter_isMemoryOn_not_isFan, h]
    exact amdgpu_count_calls perfClocks junk params N d _ _ (by decide)
      (fun p i => amdgpu_memory_calls_at perfClocks junk p i d)

/-- Witness of C27: the batch `coreclk:0=1050 memclk:0=1575 coreod:0=7` on one device with
base clocks 1000 and 1500 passes validation; device 0 gets two `setOverdriveCoreParam` calls
and one `setOverdriveMemoryParam` call. -/
theorem amdgpu_call_per_directive_witness :
    ((AMDGPU.setOVCParameters 1
        [directive "coreclk:0=1050", directive "memclk:0=1575", directive "coreod:0=7"]
        [⟨1000, 1500⟩] ⟨0, 0⟩).calls.filter (AMDGPUCall.isCoreOn 0)).length = 2 ∧
    (AMDGPU.setOVCParameters 1
        [directive "coreclk:0=1050", directive "memclk:0=1575", directive "coreod:0=7"]
        [⟨1000, 1500⟩] ⟨0, 0⟩).calls =
      [AMDGPUCall.setOverdriveCoreParam 0 (some 5), AMDGPUCall.setOverdriveMemoryParam 0 (some 5),
        AMDGPUCall.setOverdriveCoreParam 0 (some 7)] :=
  ⟨(((amdgpu_call_per_directive 1
      [directive "coreclk:0=1050", directive "memclk:0=1575", directive "coreod:0=7"]
      [⟨1000, 1500⟩] ⟨0, 0⟩ (by decide!)).2.2 0).1).trans (by decide!),
    by decide!⟩

/-- Counterexample to C27 as stated: the batch `coreclk:0=1050 coreod:0=5` passes validation
and device 0 receives two `setOverdriveCoreParam` calls, one per directive, in both engines. -/
theorem two_core_calls_one_device :
    (AMDGPU.validate 1 [directive "coreclk:0=1050", directive "coreod:0=5"]
      [⟨1000, 1500⟩] ⟨0, 0⟩).failed = false ∧
    (AMDGPU.setOVCParameters 1 [directive "coreclk:0=1050", directive "coreod:0=5"]
      [⟨1000, 1500⟩] ⟨0, 0⟩).calls =
      [AMDGPUCall.setOverdriveCoreParam 0 (some 5),
        AMDGPUCall.setOverdriveCoreParam 0 (some 5)] ∧
    (AmdGpuProOvc.Set 1 [directive "coreclk:0=1050", directive "coreod:0=5"]
      [⟨1000, 1500⟩] ⟨0, 0⟩).calls =
      [AMDGPUCall.setOverdriveCoreParam 0 (some 5),
        AMDGPUCall.setOverdriveCoreParam 0 (some 5)] := by
  decide!

/-- The level merge with its notes has the state of the level merge. -/
theorem levelMergeNotes_fst (odParams : List ADLODParameters) (junk : ADLODParameters)
    (dflt : List (List ADLODPerformanceLevel)) (N : Int) (params : List OVCParameter)
    (ls : ADL.LevelState) :
    (ADL.levelMergeNotes odParams junk dflt N params ls).1 =
      ADL.levelMerge odParams junk dflt N params ls := by
  unfold ADL.levelMergeNotes ADL.levelMerge
  suffices h : ∀ (notes : List Int),
      (params.foldl (fun (acc : ADL.LevelState × List Int) param =>
        if param.type ≠ OVCParamType.FAN_SPEED then
          (iterate param.adapters param.allAdapters N).foldl
            (fun (acc : ADL.LevelState × List Int) i =>
              (ADL.mergeAt odParams junk dflt param acc.1 i,
                acc.2 ++ ADL.mergeNoteAt odParams junk param acc.1 i)) acc
        else acc) (ls, notes)).1 =
      params.foldl (fun ls param =>
        if param.type ≠ OVCParamType.FAN_SPEED then
          (iterate param.adapters param.allAdapters N).foldl
            (ADL.mergeAt odParams junk dflt param) ls
        else ls) ls from h []
  induction params generalizing ls with
  | nil => intro notes; rfl
  | cons p ps ih =>
    intro notes
    rw [List.foldl_cons, List.foldl_cons]
    have hin : ∀ (is : List Int) (ls : ADL.LevelState) (notes : List Int),
        ∃ notes1, is.foldl (fun (acc : ADL.LevelState × List Int) i =>
            (ADL.mergeAt odParams junk dflt p acc.1 i,
              acc.2 ++ ADL.mergeNoteAt odParams junk p acc.1 i)) (ls, notes) =
          (is.foldl (ADL.mergeAt odParams junk dflt p) ls, notes1) := by
      intro is
      induction is with
      | nil => intro ls notes; exact ⟨notes, rfl⟩
      | cons i is ih2 =>
        intro ls notes
        rw [List.foldl_cons, List.foldl_cons]
        exact ih2 _ _
    split
    · obtain ⟨notes1, h1⟩ := hin (iterate p.adapters p.allAdapters N) ls notes
      rw [h1]
      exact ih _ notes1
    · exact ih _ notes

/-- C26: in the level merge of the Catalyst engine, for a voltage directive (`vcore`,
`ivcore`), an adapter `i` inside the vectors and the level the directive resolves to there: when
the directive has a value and the current voltage of the level is 0, the level stays as it is
(its voltage stays 0) and the line "Voltage for adapter i is not set!" is written; when the
directive has a value and the current voltage is not 0, the voltage becomes
`round(value * 1000)`, the product being `value * 1000.0` as the source computes it, in
binary64, and no line is written; when the directive is `default`, the voltage
becomes the default voltage of the level whatever the current one is, and no line is written.
The merge cannot make the call fail: a batch that passes validation throws nothing. -/
theorem zero_voltage_skip (odParams : List ADLODParameters) (junk : ADLODParameters)
    (dflt : List (List ADLODPerformanceLevel)) (param : OVCParameter) (ls : ADL.LevelState)
    (i : Int) (ht : param.type = OVCParamType.VDDC_VOLTAGE)
    (h0 : 0 ≤ i) (h1 : i < (ls.perfLevels.length : Int))
    (hp0 : 0 ≤ ADL.resolveLevel odParams junk param i)
    (hp1 : ADL.resolveLevel odParams junk param i < ((readAt ls.perfLevels i []).length : Int)) :
    let l := ADL.resolveLevel odParams junk param i
    let cur := readAt (readAt ls.perfLevels i []) l ⟨0, 0, 0⟩
    let dfl := readAt (readAt dflt i []) l ⟨0, 0, 0⟩
    let new := readAt (readAt (ADL.mergeAt odParams junk dflt param ls i).perfLevels i []) l
      ⟨0, 0, 0⟩
    (param.useDefault = false → cur.iVddc = 0 →
      new = cur ∧ new.iVddc = 0 ∧ ADL.mergeNoteAt odParams junk param ls i = [i]) ∧
    (param.useDefault = false → cur.iVddc ≠ 0 →
      new = { cur with iVddc := cround (binary64 (param.value * 1000)) } ∧
        ADL.mergeNoteAt odParams junk param ls i = []) ∧
    (param.useDefault = true →
      new = { cur with iVddc := dfl.iVddc } ∧
        ADL.mergeNoteAt odParams junk param ls i = []) ∧
    (∀ (mc : ADLMainControl) (active : List Int) (params : List OVCParameter),
      (ADL.validate mc active params junk).failed = false →
      (ADL.setOVCParameters mc active params junk).thrown = none) ∧
    (∀ (N : Int) (params : List OVCParameter),
      (ADL.levelMergeNotes odParams junk dflt N params ls).1 =
        ADL.levelMerge odParams junk dflt N params ls) := by
  intro l cur dfl new
  have hn : new = ADL.mergeLevel param cur dfl :=
    adl_mergeAt_target odParams junk dflt param ls i h0 h1 hp0 hp1
  have hnote : ADL.mergeNoteAt odParams junk param ls i =
      if param.useDefault then [] else if cur.iVddc = 0 then [i] else [] := by
    unfold ADL.mergeNoteAt
    rw [ht]
  have hm : ADL.mergeLevel param cur dfl =
      if param.useDefault then { cur with iVddc := dfl.iVddc }
      else if cur.iVddc = 0 then cur
      else { cur with iVddc := cround (binary64 (param.value * 1000)) } := by
    unfold ADL.mergeLevel
    rw [ht]
  refine ⟨fun hu hz => ?_, fun hu hz => ?_, fun hu => ?_, fun mc active params hv => ?_,
    fun N params => levelMergeNotes_fst odParams junk dflt N params ls⟩
  · have e : new = cur := by rw [hn, hm, hu, if_neg (by decide), if_pos hz]
    refine ⟨e, by rw [e]; exact hz, ?_⟩
    rw [hnote, hu, if_neg (by decide), if_pos hz]
  · refine ⟨by rw [hn, hm, hu, if_neg (by decide), if_neg hz], ?_⟩
    rw [hnote, hu, if_neg (by decide), if_neg hz]
  · refine ⟨by rw [hn, hm, hu, if_pos rfl], ?_⟩
    rw [hnote, hu, if_pos rfl]
  · unfold ADL.setOVCParameters
    simp only [hv, Bool.false_eq_true, if_false]

/-- Witness of C26: on a backend whose current voltages are 0, `vcore:0:1=1.1` leaves level 1
of adapter 0 as it is and the line for adapter 0 is written; the batch passes, throws nothing
and writes the unchanged array; `vcore:0:1=default` writes the default voltage 1000; on the
example backend `vcore:0:1=1.1` writes 1100, and a value 0.5005 merged into a level with a
voltage writes 500, the product being a double below 500.5. -/
theorem zero_voltage_skip_witness :
    ADL.mergeNoteAt (ADL.readODParams coldControl [0]) exampleJunk (directive "vcore:0:1=1.1")
      ⟨ADL.readPerfLevels coldControl [0] false, [false]⟩ 0 = [0] ∧
    ADL.mergeNotes coldControl [0] [directive "vcore:0:1=1.1"] exampleJunk = [0] ∧
    (ADL.setOVCParameters coldControl [0] [directive "vcore:0:1=1.1"] exampleJunk).thrown =
      none ∧
    (ADL.setOVCParameters coldControl [0] [directive "vcore:0:1=1.1"] exampleJunk).calls =
      [ADLCall.setODPerformanceLevels 0 2 [⟨60000, 100000, 0⟩, ⟨60000, 100000, 0⟩]] ∧
    (ADL.setOVCParameters coldControl [0] [directive "vcore:0:1=default"] exampleJunk).calls =
      [ADLCall.setODPerformanceLevels 0 2 [⟨60000, 100000, 0⟩, ⟨60000, 100000, 1000⟩]] ∧
    ADL.mergeNotes coldControl [0] [directive "vcore:0:1=default"] exampleJunk = [] ∧
    (ADL.setOVCParameters exampleControl [0] [directive "vcore:0:1=1.1"] exampleJunk).calls =
      [ADLCall.setODPerformanceLevels 0 2 [⟨60000, 100000, 1000⟩, ⟨60000, 100000, 1100⟩]] ∧
    ADL.mergeLevel (directive "vcore:0:1=0.5005") ⟨60000, 100000, 1001⟩ ⟨50000, 100000, 1001⟩ =
      ⟨60000, 100000, 500⟩ ∧
    binary64 ((directive "vcore:0:1=0.5005").value * 1000) < 5005 / 10 :=
  ⟨((zero_voltage_skip (ADL.readODParams coldControl [0]) exampleJunk
      (ADL.readPerfLevels coldControl [0] true) (directive "vcore:0:1=1.1")
      ⟨ADL.readPerfLevels coldControl [0] false, [false]⟩ 0
      (by decide!) (by decide) (by decide!) (by decide!) (by decide!)).1
        (by decide!) (by decide!)).2.2,
    by decide!, by decide!, by decide!, by decide!, by decide!, by decide!, by decide!,
    by decide!⟩

/-- A selector option after which the loop runs to its end: the selector was accepted, and
the rest of the loop started from a state with the same messages, directives and flags. -/
theorem adaptersOption_done (list : List Char) (st : ArgState) (next : ArgState → LoopResult)
    (st1 : ArgState) (h : adaptersOption list st next = LoopResult.done st1) :
    (parseAdaptersList list).status = Status.ok ∧
      ∃ st2 : ArgState, next st2 = LoopResult.done st1 ∧ st2.err = st.err ∧
        st2.ovcParameters = st.ovcParameters ∧ st2.failed = st.failed ∧
        st2.printHelp = st.printHelp := by
  unfold adaptersOption at h
  rw [parseAdaptersListOn_eq] at h
  cases hs : (parseAdaptersList list).status with
  | ok =>
    rw [hs] at h
    exact ⟨rfl, _, h, rfl, rfl, rfl, rfl⟩
  | thrown what => rw [hs] at h; exact absurd h (by simp)
  | undefined => rw [hs] at h; exact absurd h (by simp)
  | outOfFuel => rw [hs] at h; exact absurd h (by simp)

theorem positional_skip (arg : List Char) (rest : List (List Char))
    (h : arg ∈ ["--help".toList, "-?".toList, "--verbose".toList, "-v".toList,
      "--version".toList]) : positional (arg :: rest) = positional rest := by
  rw [positional.eq_def]
  dsimp only
  rw [if_pos h]

theorem special_take_two (arg : List Char)
    (h : arg ∈ ["--help".toList, "-?".toList, "--verbose".toList, "-v".toList,
      "--version".toList]) :
    arg.take 2 ≠ "-a".toList ∧ arg.take 11 ≠ "--adapters=".toList ∧
      arg ≠ "--adapters".toList := by
  simp only [List.mem_cons, List.mem_singleton, List.not_mem_nil, or_false] at h
  rcases h with h | h | h | h | h <;> subst h <;> decide

theorem positional_list (arg : List Char) (rest : List (List Char))
    (h : arg.take 11 = "--adapters=".toList) : positional (arg :: rest) = positional rest := by
  rw [positional.eq_def]
  dsimp only
  rw [if_neg (fun hm => (special_take_two arg hm).2.1 h), if_pos h]

theorem positional_short (arg : List Char) (rest : List (List Char))
    (h3 : arg.take 11 ≠ "--adapters=".toList) (h5 : arg.take 2 = "-a".toList)
    (h6 : arg.drop 2 ≠ []) : positional (arg :: rest) = positional rest := by
  rw [positional.eq_def]
  dsimp only
  rw [if_neg (fun hm => (special_take_two arg hm).1 h5), if_neg h3, if_neg, if_pos h5]
  rintro (h | h)
  · rw [h] at h5; exact absurd h5 (by decide)
  · rw [h] at h6; exact h6 (by decide)

theorem positional_next (arg list : List Char) (rest1 : List (List Char))
    (h : arg = "--adapters".toList ∨ arg = "-a".toList) :
    positional (arg :: list :: rest1) = positional rest1 := by
  rw [positional.eq_def]
  dsimp only
  rw [if_neg, if_neg, if_pos h]
  · rcases h with h | h <;> subst h <;> decide
  · rcases h with h | h <;> subst h <;> decide

theorem positional_token (arg : List Char) (rest : List (List Char))
    (h1 : ¬ (arg = "--help".toList ∨ arg = "-?".toList))
    (h2 : ¬ (arg = "--verbose".toList ∨ arg = "-v".toList))
    (h3 : arg.take 11 ≠ "--adapters=".toList) (h4 : arg ≠ "--adapters".toList)
    (h5 : arg.take 2 ≠ "-a".toList) (h6 : arg ≠ "--version".toList) :
    positional (arg :: rest) = arg :: positional rest := by
  rw [positional.eq_def]
  dsimp only
  rw [if_neg, if_neg h3, if_neg, if_neg h5]
  · rintro (h | h)
    · exact h4 h
    · rw [h] at h5; exact h5 (by decide)
  · simp only [List.mem_cons, List.mem_singleton, List.not_mem_nil, or_false]
    rintro (h | h | h | h | h)
    · exact h1 (Or.inl h)
    · exact h1 (Or.inr h)
    · exact h2 (Or.inl h)
    · exact h2 (Or.inr h)
    · exact h6 h

theorem help_not_selector (list : List Char)
    (h : (parseAdaptersList list).status = Status.ok) :
    list ≠ "--help".toList ∧ list ≠ "-?".toList := by
  constructor
  · intro e; rw [e] at h; exact absurd h (by decide)
  · intro e; rw [e] at h; exact absurd h (by decide)

theorem helpIn_cons (arg : List Char) (l : List (List Char)) :
    ("--help".toList ∈ arg :: l ∨ "-?".toList ∈ arg :: l) ↔
      ((arg = "--help".toList ∨ arg = "-?".toList) ∨ "--help".toList ∈ l ∨ "-?".toList ∈ l) := by
  rw [List.mem_cons, List.mem_cons]
  constructor
  · rintro ((h | h) | (h | h))
    · exact Or.inl (Or.inl h.symm)
    · exact Or.inr (Or.inl h)
    · exact Or.inl (Or.inr h.symm)
    · exact Or.inr (Or.inr h)
  · rintro ((h | h) | (h | h))
    · exact Or.inl (Or.inl h.symm)
    · exact Or.inr (Or.inl h.symm)
    · exact Or.inl (Or.inr h)
    · exact Or.inr (Or.inr h)

theorem rejectedTokens_of_positional (value0 : ℚ) (args args1 : List (List Char))
    (h : positional args = positional args1) :
    rejectedTokens value0 args = [] ++ rejectedTokens value0 args1 ∧
      acceptedTokens value0 args = [] ++ acceptedTokens value0 args1 := by
  unfold rejectedTokens acceptedTokens
  rw [h]
  exact ⟨rfl, rfl⟩

/-- The state in which the argument loop runs to its end. -/
theorem argLoop_done (value0 : ℚ) : ∀ (n : Nat) (args : List (List Char)) (st0 st : ArgState),
    args.length ≤ n → argLoop value0 args st0 = LoopResult.done st →
    st.err = st0.err ++ rejectedTokens value0 args ∧
    st.ovcParameters = st0.ovcParameters ++ acceptedTokens value0 args ∧
    (st.failed = true ↔ st0.failed = true ∨ rejectedTokens value0 args ≠ []) ∧
    (st.printHelp = true ↔
      st0.printHelp = true ∨ "--help".toList ∈ args ∨ "-?".toList ∈ args) := by
  intro n
  induction n with
  | zero =>
    intro args st0 st hn h
    have : args = [] := List.length_eq_zero.mp (by omega)
    subst this
    rw [argLoop.eq_def] at h
    simp only [LoopResult.done.injEq] at h
    subst h
    simp [rejectedTokens, acceptedTokens, positional]
  | succ n ih =>
    intro args st0 st hn h
    cases args with
    | nil =>
      rw [argLoop.eq_def] at h
      simp only [LoopResult.done.injEq] at h
      subst h
      simp [rejectedTokens, acceptedTokens, positional]
    | cons arg rest =>
      have hrest : rest.length ≤ n := by simp only [List.length_cons] at hn; omega
      rw [argLoop.eq_def] at h
      dsimp only at h
      have key : ∀ (args1 : List (List Char)) (st2 : ArgState)
          (e : List (List Char × ParseDiag)) (a : List OVCParameter),
          args1.length ≤ n → argLoop value0 args1 st2 = LoopResult.done st →
          st2.err = st0.err ++ e → st2.ovcParameters = st0.ovcParameters ++ a →
          (st2.failed = true ↔ st0.failed = true ∨ e ≠ []) →
          (st2.printHelp = true ↔
            st0.printHelp = true ∨ arg = "--help".toList ∨ arg = "-?".toList) →
          rejectedTokens value0 (arg :: rest) = e ++ rejectedTokens value0 args1 →
          acceptedTokens value0 (arg :: rest) = a ++ acceptedTokens value0 args1 →
          (("--help".toList ∈ arg :: rest ∨ "-?".toList ∈ arg :: rest) ↔
            ((arg = "--help".toList ∨ arg = "-?".toList) ∨
              "--help".toList ∈ args1 ∨ "-?".toList ∈ args1)) →
          st.err = st0.err ++ rejectedTokens value0 (arg :: rest) ∧
          st.ovcParameters = st0.ovcParameters ++ acceptedTokens value0 (arg :: rest) ∧
          (st.failed = true ↔ st0.failed = true ∨ rejectedTokens value0 (arg :: rest) ≠ []) ∧
          (st.printHelp = true ↔
            st0.printHelp = true ∨ "--help".toList ∈ arg :: rest ∨
              "-?".toList ∈ arg :: rest) := by
        intro args1 st2 e a hl hd he ha hf hp hr hac hh
        obtain ⟨i1, i2, i3, i4⟩ := ih args1 st2 st hl hd
        refine ⟨by rw [i1, he, hr, List.append_assoc], by rw [i2, ha, hac, List.append_assoc],
          ?_, ?_⟩
        · rw [i3, hf, hr, or_assoc]
          refine or_congr Iff.rfl ?_
          rw [Ne, Ne, Ne, List.append_eq_nil, not_and_or]
        · rw [i4, hp, hh, or_assoc]
      split_ifs at h with h1 h2 h3 h4 h5 h6 h7
      · have hs : arg ∈ ["--help".toList, "-?".toList, "--verbose".toList, "-v".toList,
            "--version".toList] := by
          rcases h1 with h1 | h1
          · rw [h1]; exact List.mem_cons_self _ _
          · rw [h1]; exact List.mem_cons_of_mem _ (List.mem_cons_self _ _)
        have hpos := rejectedTokens_of_positional value0 _ _ (positional_skip arg rest hs)
        exact key rest _ [] [] hrest h (List.append_nil _).symm (List.append_nil _).symm
          ⟨fun hf => Or.inl hf, fun hf => hf.elim id (fun hf => absurd rfl hf)⟩
          ⟨fun _ => Or.inr h1, fun _ => rfl⟩ hpos.1 hpos.2 (helpIn_cons arg rest)
      · have hs : arg ∈ ["--help".toList, "-?".toList, "--verbose".toList, "-v".toList,
            "--version".toList] := by
          rcases h2 with h2 | h2
          · rw [h2]; exact List.mem_cons_of_mem _ (List.mem_cons_of_mem _ (List.mem_cons_self _ _))
          · rw [h2]
            exact List.mem_cons_of_mem _ (List.mem_cons_of_mem _
              (List.mem_cons_of_mem _ (List.mem_cons_self _ _)))
        have hpos := rejectedTokens_of_positional value0 _ _ (positional_skip arg rest hs)
        exact key rest _ [] [] hrest h (List.append_nil _).symm (List.append_nil _).symm
          ⟨fun hf => Or.inl hf, fun hf => hf.elim id (fun hf => absurd rfl hf)⟩
          ⟨fun hf => Or.inl hf, fun hf => hf.elim id (fun hx => absurd hx h1)⟩
          hpos.1 hpos.2 (helpIn_cons arg rest)
      · obtain ⟨-, st2, hnext, e1, e2, e3, e4⟩ := adaptersOption_done _ _ _ _ h
        have hpos := rejectedTokens_of_positional value0 _ _ (positional_list arg rest h3)
        exact key rest st2 [] [] hrest hnext (by rw [e1, List.append_nil])
          (by rw [e2, List.append_nil])
          (by rw [e3]; exact ⟨fun hf => Or.inl hf, fun hf => hf.elim id (fun hf => absurd rfl hf)⟩)
          (by rw [e4]; exact ⟨fun hf => Or.inl hf, fun hf => hf.elim id (fun hx => absurd hx h1)⟩)
          hpos.1 hpos.2 (helpIn_cons arg rest)
      · cases rest with
        | nil => exact absurd h (by simp)
        | cons list rest1 =>
          dsimp only at h
          obtain ⟨hok, st2, hnext, e1, e2, e3, e4⟩ := adaptersOption_done _ _ _ _ h
          have hpos := rejectedTokens_of_positional value0 _ _
            (positional_next arg list rest1 (Or.inl h4))
          have hl1 : rest1.length ≤ n := by
            simp only [List.length_cons] at hrest; omega
          refine key rest1 st2 [] [] hl1 hnext (by rw [e1, List.append_nil])
            (by rw [e2, List.append_nil])
            (by rw [e3]; exact ⟨fun hf => Or.inl hf,
              fun hf => hf.elim id (fun hf => absurd rfl hf)⟩)
            (by rw [e4]; exact ⟨fun hf => Or.inl hf,
              fun hf => hf.elim id (fun hx => absurd hx h1)⟩)
            hpos.1 hpos.2 ?_
          rw [helpIn_cons, helpIn_cons]
          have hnot := help_not_selector list hok
          constructor
          · rintro (hx | (hx | hx))
            · exact Or.inl hx
            · exact absurd hx (fun hx => hx.elim hnot.1 hnot.2)
            · exact Or.inr hx
          · rintro (hx | hx)
            · exact Or.inl hx
            · exact Or.inr (Or.inr hx)
      · obtain ⟨-, st2, hnext, e1, e2, e3, e4⟩ := adaptersOption_done _ _ _ _ h
        have hpos := rejectedTokens_of_positional value0 _ _
          (positional_short arg rest h3 h5 h6)
        exact key rest st2 [] [] hrest hnext (by rw [e1, List.append_nil])
          (by rw [e2, List.append_nil])
          (by rw [e3]; exact ⟨fun hf => Or.inl hf, fun hf => hf.elim id (fun hf => absurd rfl hf)⟩)
          (by rw [e4]; exact ⟨fun hf => Or.inl hf, fun hf => hf.elim id (fun hx => absurd hx h1)⟩)
          hpos.1 hpos.2 (helpIn_cons arg rest)
      · have harg : arg = "-a".toList := by
          have h8 : arg.drop 2 = [] := by
            by_contra h9; exact h6 h9
          rw [← List.take_append_drop 2 arg, h5, h8, List.append_nil]
        cases rest with
        | nil => exact absurd h (by simp)
        | cons list rest1 =>
          dsimp only at h
          obtain ⟨hok, st2, hnext, e1, e2, e3, e4⟩ := adaptersOption_done _ _ _ _ h
          have hpos := rejectedTokens_of_positional value0 _ _
            (positional_next arg list rest1 (Or.inr harg))
          have hl1 : rest1.length ≤ n := by
            simp only [List.length_cons] at hrest; omega
          refine key rest1 st2 [] [] hl1 hnext (by rw [e1, List.append_nil])
            (by rw [e2, List.append_nil])
            (by rw [e3]; exact ⟨fun hf => Or.inl hf,
              fun hf => hf.elim id (fun hf => absurd rfl hf)⟩)
            (by rw [e4]; exact ⟨fun hf => Or.inl hf,
              fun hf => hf.elim id (fun hx => absurd hx h1)⟩)
            hpos.1 hpos.2 ?_
          rw [helpIn_cons, helpIn_cons]
          have hnot := help_not_selector list hok
          constructor
          · rintro (hx | (hx | hx))
            · exact Or.inl hx
            · exact absurd hx (fun hx => hx.elim hnot.1 hnot.2)
            · exact Or.inr hx
          · rintro (hx | hx)
            · exact Or.inl hx
            · exact Or.inr (Or.inr hx)
      · have hpos := positional_token arg rest h1 h2 h3 h4 h5 h7
        cases hparse : parseOVCParameter arg value0 with
        | accepted param =>
          rw [hparse] at h
          dsimp only at h
          refine key rest _ [] [param] hrest h (List.append_nil _).symm rfl
            ⟨fun hf => Or.inl hf, fun hf => hf.elim id (fun hf => absurd rfl hf)⟩
            ⟨fun hf => Or.inl hf, fun hf => hf.elim id (fun hx => absurd hx h1)⟩
            ?_ ?_ (helpIn_cons arg rest)
          · unfold rejectedTokens
            rw [hpos, List.filterMap_cons, hparse]
            rfl
          · unfold acceptedTokens
            rw [hpos, List.filterMap_cons, hparse]
            rfl
        | rejected diag =>
          rw [hparse] at h
          dsimp only at h
          refine key rest _ [(arg, diag)] [] hrest h rfl (List.append_nil _).symm
            ⟨fun _ => Or.inr (List.cons_ne_nil _ _), fun _ => rfl⟩
            ⟨fun hf => Or.inl hf, fun hf => hf.elim id (fun hx => absurd hx h1)⟩
            ?_ ?_ (helpIn_cons arg rest)
          · unfold rejectedTokens
            rw [hpos, List.filterMap_cons, hparse]
            rfl
          · unfold acceptedTokens
            rw [hpos, List.filterMap_cons, hparse]
            rfl
        | undefined =>
          rw [hparse] at h
          exact absurd h (by simp)

/-- C30, amended: when the argument loop of `main` runs to its end (no `--version`, every
adapter list accepted, no token on which the parser runs into undefined behaviour), every
positional argument has been handed to `parseOVCParameter`: the messages are those of the
rejected ones, each with its token, in input order, and the batch holds the accepted ones.  If
then at least one was rejected, `main` returns without calling `setOVCParameters`: with exit code
0 after the help text when `--help` or `-?` is among the arguments, and with exit code 1 after
the `Error` "Unable to parse parameters" otherwise.  Whatever the arguments are,
`setOVCParameters` is called only when no positional argument was rejected, and then with the
accepted directives. -/
theorem parse_failure_exit (value0 : ℚ) (argv : List (List Char)) :
    (∀ st : ArgState, argLoop value0 argv.tail ArgState.init = LoopResult.done st →
      st.err = rejectedTokens value0 argv.tail ∧
      st.ovcParameters = acceptedTokens value0 argv.tail ∧
      (rejectedTokens value0 argv.tail ≠ [] →
        (("--help".toList ∈ argv.tail ∨ "-?".toList ∈ argv.tail) →
          main value0 argv = MainResult.exit 0 none st) ∧
        (¬ ("--help".toList ∈ argv.tail ∨ "-?".toList ∈ argv.tail) →
          main value0 argv = MainResult.exit 1 (some "Unable to parse parameters") st))) ∧
    (∀ params : List OVCParameter, (main value0 argv).batch = some params →
      rejectedTokens value0 argv.tail = [] ∧ params = acceptedTokens value0 argv.tail) := by
  constructor
  · intro st hd
    obtain ⟨i1, i2, i3, i4⟩ := argLoop_done value0 _ argv.tail ArgState.init st (le_refl _) hd
    have hf : st.failed = true ↔ rejectedTokens value0 argv.tail ≠ [] := by
      rw [i3]
      exact ⟨fun h => h.elim (fun h => absurd h (by decide)) id, fun h => Or.inr h⟩
    have hp : st.printHelp = true ↔
        ("--help".toList ∈ argv.tail ∨ "-?".toList ∈ argv.tail) := by
      rw [i4]
      exact ⟨fun h => h.elim (fun h => absurd h (by decide)) id, fun h => Or.inr h⟩
    refine ⟨by rw [i1]; rfl, by rw [i2]; rfl, fun hr => ⟨fun hh => ?_, fun hh => ?_⟩⟩
    · unfold main
      rw [hd]
      dsimp only
      rw [if_pos (hp.mpr hh)]
    · unfold main
      rw [hd]
      dsimp only
      rw [if_neg (fun h => hh (hp.mp h)), if_pos (hf.mpr hr)]
  · intro params hb
    unfold main at hb
    cases hl : argLoop value0 argv.tail ArgState.init with
    | done st =>
      rw [hl] at hb
      dsimp only at hb
      obtain ⟨-, i2, i3, -⟩ :=
        argLoop_done value0 _ argv.tail ArgState.init st (le_refl _) hl
      split_ifs at hb with h1 h2
      · simp [MainResult.batch] at hb
      · simp [MainResult.batch] at hb
      · simp only [MainResult.batch] at hb
        split_ifs at hb with h3
        simp only [Option.some.injEq] at hb
        constructor
        · by_contra hr
          exact h2 (i3.mpr (Or.inr hr))
        · rw [← hb, i2]; rfl
    | returned code st => rw [hl] at hb; simp [MainResult.batch] at hb
    | thrown what st => rw [hl] at hb; simp [MainResult.batch] at hb
    | undefined => rw [hl] at hb; simp [MainResult.batch] at hb

/-- Witness of C30: `amdcovc bogus coreclk:0=900 x=1` reports both malformed tokens and
returns 1 without a call of `setOVCParameters`. -/
theorem parse_failure_exit_witness :
    rejectedTokens 0 ["bogus".toList, "coreclk:0=900".toList, "x=1".toList] =
      [("bogus".toList, ParseDiag.notParameter), ("x=1".toList, ParseDiag.wrongName)] ∧
    main 0 ["amdcovc".toList, "bogus".toList, "coreclk:0=900".toList, "x=1".toList] =
      MainResult.exit 1 (some "Unable to parse parameters")
        ⟨false, false, [directive "coreclk:0=900"], [], false, false, true,
          [("bogus".toList, ParseDiag.notParameter), ("x=1".toList, ParseDiag.wrongName)]⟩ ∧
    (main 0 ["amdcovc".toList, "bogus".toList, "coreclk:0=900".toList,
      "x=1".toList]).batch = none :=
  ⟨by decide!,
    ((((parse_failure_exit 0
      ["amdcovc".toList, "bogus".toList, "coreclk:0=900".toList, "x=1".toList]).1
        ⟨false, false, [directive "coreclk:0=900"], [], false, false, true,
          [("bogus".toList, ParseDiag.notParameter), ("x=1".toList, ParseDiag.wrongName)]⟩
        (by decide!)).2.2 (by decide!)).2 (by decide!)),
    by decide!⟩

/-- Counterexamples to C30 as stated: with `--help` after a rejected token `main` returns 0;
with `--version` after a rejected token `main` returns 0 and the token after it is never parsed;
with a malformed adapter list after a rejected token `main` returns 1 with the `Error` of the
list and the token after it is never parsed. -/
theorem parse_failure_exit_zero :
    main 0 ["amdcovc".toList, "bogus".toList, "--help".toList] =
      MainResult.exit 0 none
        ⟨true, false, [], [], false, false, true,
          [("bogus".toList, ParseDiag.notParameter)]⟩ ∧
    main 0 ["amdcovc".toList, "bogus".toList, "--version".toList, "bogus2".toList] =
      MainResult.exit 0 none
        ⟨false, false, [], [], false, false, true,
          [("bogus".toList, ParseDiag.notParameter)]⟩ ∧
    main 0 ["amdcovc".toList, "bogus".toList, "-ax".toList, "bogus2".toList] =
      MainResult.exit 1 (some "Unable to parse adapter index")
        ⟨false, false, [], [], false, false, true,
          [("bogus".toList, ParseDiag.notParameter)]⟩ ∧
    parseOVCParameter "bogus2".toList 0 = ParseResult.rejected ParseDiag.notParameter := by
  decide!

/-- A write into a vector read back at any index: the old entry, or the value written when the
index is the one written and lies inside the vector. -/
theorem getD_writeAt_or {α : Type} (xs : List α) (i : Int) (v dflt : α) (d : Nat) :
    (writeAt xs i v).getD d dflt = xs.getD d dflt ∨
      ((d : Int) = i ∧ d < xs.length ∧ (writeAt xs i v).getD d dflt = v) := by
  by_cases hd : (d : Int) = i
  · by_cases hl : d < xs.length
    · right
      refine ⟨hd, hl, ?_⟩
      rw [getD_writeAt _ _ _ _ _ hl, if_pos hd]
    · left
      have h1 : xs.length ≤ d := by omega
      rw [List.getD_eq_default _ _ (by rw [writeAt_length]; exact h1),
        List.getD_eq_default _ _ h1]
  · left
    exact getD_writeAt_ne xs i v dflt d hd

/-- A directive changes no field of a level but the one of its kind. -/
theorem field_mergeLevel (p : OVCParameter) (t : OVCParamType) (h : p.type ≠ t)
    (lvl dflt : ADLODPerformanceLevel) :
    field t (ADL.mergeLevel p lvl dflt) = field t lvl := by
  unfold ADL.mergeLevel
  cases hp : p.type <;> cases t <;> simp only [hp] at h ⊢ <;>
    first
    | exact absurd rfl h
    | rfl
    | (split <;> rfl)
    | (split
       · rfl
       · split <;> rfl)

/-- A step of the level merge changes no entry but the field of the kind of the directive in
the level it resolves to on the adapter of the step. -/
theorem adl_mergeAt_frame (odParams : List ADLODParameters) (junk : ADLODParameters)
    (dflt : List (List ADLODPerformanceLevel)) (p : OVCParameter) (ls : ADL.LevelState)
    (i : Int) (d l : Nat) (t : OVCParamType)
    (h : ¬ ((d : Int) = i ∧ ADL.resolveLevel odParams junk p i = (l : Int) ∧ p.type = t)) :
    field t (((ADL.mergeAt odParams junk dflt p ls i).perfLevels.getD d []).getD l ⟨0, 0, 0⟩) =
      field t ((ls.perfLevels.getD d []).getD l ⟨0, 0, 0⟩) := by
  unfold ADL.mergeAt
  dsimp only
  rcases getD_writeAt_or ls.perfLevels i
    (writeAt (readAt ls.perfLevels i []) (ADL.resolveLevel odParams junk p i)
      (ADL.mergeLevel p
        (readAt (readAt ls.perfLevels i []) (ADL.resolveLevel odParams junk p i) ⟨0, 0, 0⟩)
        (readAt (readAt dflt i []) (ADL.resolveLevel odParams junk p i) ⟨0, 0, 0⟩))) [] d
    with h1 | ⟨hdi, hdl, h1⟩
  · rw [h1]
  · rw [h1]
    have hrow : readAt ls.perfLevels i [] = ls.perfLevels.getD d [] := by
      unfold readAt
      rw [if_pos (by omega)]
      congr 1
      omega
    rw [hrow]
    rcases getD_writeAt_or (ls.perfLevels.getD d []) (ADL.resolveLevel odParams junk p i)
      (ADL.mergeLevel p
        (readAt (ls.perfLevels.getD d []) (ADL.resolveLevel odParams junk p i) ⟨0, 0, 0⟩)
        (readAt (readAt dflt i []) (ADL.resolveLevel odParams junk p i) ⟨0, 0, 0⟩)) ⟨0, 0, 0⟩ l
      with h2 | ⟨hlp, hll, h2⟩
    · rw [h2]
    · rw [h2, field_mergeLevel p t (fun ht => h ⟨hdi, hlp.symm, ht⟩)]
      unfold readAt
      rw [if_pos (by omega)]
      congr 2
      omega

/-- A step of the level merge keeps the length of every array. -/
theorem adl_mergeAt_length (odParams : List ADLODParameters) (junk : ADLODParameters)
    (dflt : List (List ADLODPerformanceLevel)) (p : OVCParameter) (ls : ADL.LevelState)
    (i : Int) (d : Nat) :
    ((ADL.mergeAt odParams junk dflt p ls i).perfLevels.getD d []).length =
      (ls.perfLevels.getD d []).length := by
  unfold ADL.mergeAt
  dsimp only
  rcases getD_writeAt_or ls.perfLevels i
    (writeAt (readAt ls.perfLevels i []) (ADL.resolveLevel odParams junk p i)
      (ADL.mergeLevel p
        (readAt (readAt ls.perfLevels i []) (ADL.resolveLevel odParams junk p i) ⟨0, 0, 0⟩)
        (readAt (readAt dflt i []) (ADL.resolveLevel odParams junk p i) ⟨0, 0, 0⟩))) [] d
    with h1 | ⟨hdi, hdl, h1⟩
  · rw [h1]
  · rw [h1, writeAt_length]
    unfold readAt
    rw [if_pos (by omega)]
    congr 2
    omega

theorem adl_mergeFold_frame (odParams : List ADLODParameters) (junk : ADLODParameters)
    (dflt : List (List ADLODPerformanceLevel)) (p : OVCParameter) (d l : Nat)
    (t : OVCParamType) (is : List Int)
    (h : ∀ i ∈ is, ¬ ((d : Int) = i ∧ ADL.resolveLevel odParams junk p i = (l : Int) ∧
      p.type = t)) (ls : ADL.LevelState) :
    field t (((is.foldl (ADL.mergeAt odParams junk dflt p) ls).perfLevels.getD d []).getD l
        ⟨0, 0, 0⟩) =
      field t ((ls.perfLevels.getD d []).getD l ⟨0, 0, 0⟩) := by
  induction is generalizing ls with
  | nil => rfl
  | cons i is ih =>
    rw [List.foldl_cons, ih (fun j hj => h j (List.mem_cons_of_mem _ hj)),
      adl_mergeAt_frame _ _ _ _ _ _ _ _ _ (h i (List.mem_cons_self _ _))]

theorem adl_mergeFold_length (odParams : List ADLODParameters) (junk : ADLODParameters)
    (dflt : List (List ADLODPerformanceLevel)) (p : OVCParameter) (d : Nat)
    (is : List Int) (ls : ADL.LevelState) :
    ((is.foldl (ADL.mergeAt odParams junk dflt p) ls).perfLevels.getD d []).length =
      (ls.perfLevels.getD d []).length := by
  induction is generalizing ls with
  | nil => rfl
  | cons i is ih => rw [List.foldl_cons, ih, adl_mergeAt_length]

/-- The level merge of a batch changes no entry that no directive of the batch resolves to. -/
theorem adl_levelMerge_frame (odParams : List ADLODParameters) (junk : ADLODParameters)
    (dflt : List (List ADLODPerformanceLevel)) (N : Int) (params : List OVCParameter)
    (d l : Nat) (t : OVCParamType)
    (h : targeted odParams junk params N d l t = false) (ls : ADL.LevelState) :
    field t (((ADL.levelMerge odParams junk dflt N params ls).perfLevels.getD d []).getD l
        ⟨0, 0, 0⟩) =
      field t ((ls.perfLevels.getD d []).getD l ⟨0, 0, 0⟩) := by
  unfold ADL.levelMerge
  induction params generalizing ls with
  | nil => rfl
  | cons p ps ih =>
    unfold targeted at h
    rw [List.any_cons, Bool.or_eq_false_iff] at h
    rw [List.foldl_cons, ih h.2]
    split
    · apply adl_mergeFold_frame
      rintro i hi ⟨hdi, hl, ht⟩
      have h1 := h.1
      rw [← hdi] at hi hl
      simp [ht, hl, hi] at h1
    · rfl

/-- The level merge of a batch keeps the length of every array. -/
theorem adl_levelMerge_length (odParams : List ADLODParameters) (junk : ADLODParameters)
    (dflt : List (List ADLODPerformanceLevel)) (N : Int) (params : List OVCParameter)
    (d : Nat) (ls : ADL.LevelState) :
    ((ADL.levelMerge odParams junk dflt N params ls).perfLevels.getD d []).length =
      (ls.perfLevels.getD d []).length := by
  unfold ADL.levelMerge
  induction params generalizing ls with
  | nil => rfl
  | cons p ps ih =>
    rw [List.foldl_cons, ih]
    split
    · exact adl_mergeFold_length _ _ _ _ _ _ _
    · rfl

/-- The array of current levels read for device `d`. -/
theorem getD_readPerfLevels (mc : ADLMainControl) (active : List Int) (isDefault : Bool)
    (d : Nat) (hd : d < active.length) :
    (ADL.readPerfLevels mc active isDefault).getD d [] =
      (List.range (mc.getODParameters (active.getD d 0)).iNumberOfPerformanceLevels).map
        (mc.getODPerformanceLevels (active.getD d 0) isDefault) := by
  unfold ADL.readPerfLevels
  simp [List.getD_eq_getElem?_getD, List.getElem?_map, List.getElem?_eq_getElem hd]

/-- The level calls of the Catalyst engine: the device of a call, the count and the array. -/
theorem adl_level_call (mc : ADLMainControl) (active : List Int) (params : List OVCParameter)
    (junk : ADLODParameters) (a : Int) (n : Nat) (levels : List ADLODPerformanceLevel)
    (h : ADLCall.setODPerformanceLevels a n levels ∈
      (ADL.setOVCParameters mc active params junk).calls) :
    (ADL.validate mc active params junk).failed = false ∧
    ∃ d, d < active.length ∧ a = active.getD d 0 ∧
      touched params active.length d = true ∧
      n = (mc.getODParameters a).iNumberOfPerformanceLevels ∧
      levels = (ADL.merged mc active params junk).perfLevels.getD d [] := by
  unfold ADL.setOVCParameters at h
  cases hv : (ADL.validate mc active params junk).failed with
  | true => simp [hv] at h
  | false =>
    refine ⟨rfl, ?_⟩
    simp only [hv, Bool.false_eq_true, if_false, List.mem_append] at h
    rcases h with h | h
    · unfold ADL.commitFan at h
      rw [List.mem_filterMap] at h
      obtain ⟨i, -, hi⟩ := h
      dsimp only at hi
      split at hi
      · split at hi <;> simp at hi
      · simp at hi
    · unfold ADL.commitLevels at h
      rw [List.mem_filterMap] at h
      obtain ⟨d, hd, hi⟩ := h
      rw [List.mem_range] at hd
      split at hi
      · rename_i hc
        simp only [Option.some.injEq, ADLCall.setODPerformanceLevels.injEq] at hi
        obtain ⟨ha, hn, hl⟩ := hi
        refine ⟨d, hd, ha.symm, ?_, ?_, hl.symm⟩
        · unfold ADL.merged at hc
          rw [changedDevices_levelMerge _ _ _ _ _ _ _ (by simpa using hd)] at hc
          simpa [List.getD_eq_getElem?_getD, List.getElem?_replicate, hd] using hc
        · rw [← hn, getD_readODParams mc active junk d hd, ha]
      · simp at hi

/-- C29: every array of levels the Catalyst engine hands to the backend (only a batch that
passes validation issues a call) is the array of a device `d` among the active ones, is passed
with the number of levels read from the backend for that adapter and has that length, and every
field (core clock, memory clock, voltage) of every level of it to which no directive of that
kind in the batch resolves on `d` holds the value read from the backend at the start of the
call.  The parameters of the adapters and the default levels are read-only inputs of the merge
(`ADL.levelMerge` returns the current levels and the flags of the changed devices only). -/
theorem catalyst_frame (mc : ADLMainControl) (active : List Int) (params : List OVCParameter)
    (junk : ADLODParameters) (a : Int) (n : Nat) (levels : List ADLODPerformanceLevel)
    (h : ADLCall.setODPerformanceLevels a n levels ∈
      (ADL.setOVCParameters mc active params junk).calls) :
    (ADL.validate mc active params junk).failed = false ∧
    ∃ d, d < active.length ∧ a = active.getD d 0 ∧
      n = (mc.getODParameters a).iNumberOfPerformanceLevels ∧ levels.length = n ∧
      ∀ (l : Nat) (t : OVCParamType), l < n →
        targeted (ADL.readODParams mc active) junk params active.length d l t = false →
        field t (levels.getD l ⟨0, 0, 0⟩) = field t (mc.getODPerformanceLevels a false l) := by
  obtain ⟨hv, d, hd, ha, -, hn, hl⟩ := adl_level_call mc active params junk a n levels h
  refine ⟨hv, d, hd, ha, hn, ?_, ?_⟩
  · rw [hl]
    unfold ADL.merged
    rw [adl_levelMerge_length, getD_readPerfLevels mc active false d hd, List.length_map,
      List.length_range, hn, ha]
  · intro l t hln ht
    rw [hl]
    unfold ADL.merged
    rw [adl_levelMerge_frame _ _ _ _ _ _ _ _ ht, getD_readPerfLevels mc active false d hd]
    rw [hn, ha] at hln
    rw [ha, List.getD_eq_getElem?_getD, List.getElem?_map, List.getElem?_range hln]
    rfl

/-- Witness of C29: in the batch `coreclk:0:1=1100` on the example backend with the adapters
7 and 8, the one call is for adapter 7; the core clock of level 0 and the memory clock and the
voltage of both levels are as read from the backend. -/
theorem catalyst_frame_witness :
    (ADL.setOVCParameters exampleControl [7, 8] [directive "coreclk:0:1=1100"]
      exampleJunk).calls =
      [ADLCall.setODPerformanceLevels 7 2 [⟨60000, 100000, 1000⟩, ⟨110000, 100000, 1001⟩]] ∧
    ∃ d, d < 2 ∧ (7 : Int) = [7, 8].getD d 0 ∧
      2 = (exampleControl.getODParameters 7).iNumberOfPerformanceLevels ∧
      ([⟨60000, 100000, 1000⟩, ⟨110000, 100000, 1001⟩] :
        List ADLODPerformanceLevel).length = 2 ∧
      ∀ (l : Nat) (t : OVCParamType), l < 2 →
        targeted (ADL.readODParams exampleControl [7, 8]) exampleJunk
          [directive "coreclk:0:1=1100"] ([7, 8] : List Int).length d l t = false →
        field t (([⟨60000, 100000, 1000⟩, ⟨110000, 100000, 1001⟩] :
            List ADLODPerformanceLevel).getD l ⟨0, 0, 0⟩) =
          field t (exampleControl.getODPerformanceLevels 7 false l) :=
  ⟨by decide!,
    (catalyst_frame exampleControl [7, 8] [directive "coreclk:0:1=1100"] exampleJunk 7 2
      [⟨60000, 100000, 1000⟩, ⟨110000, 100000, 1001⟩] (by decide!)).2⟩

/-- A write outside a vector changes nothing. -/
theorem writeAt_outside {α : Type} (xs : List α) (i : Int) (v : α)
    (h : ¬ (0 ≤ i ∧ i < (xs.length : Int))) : writeAt xs i v = xs := by
  unfold writeAt
  split
  · rename_i h0
    apply List.set_eq_of_length_le
    by_contra hc
    exact h ⟨h0, by omega⟩
  · rfl

/-- Writing the same value twice at one index is writing it once. -/
theorem writeAt_writeAt {α : Type} (xs : List α) (i : Int) (v w : α) :
    writeAt (writeAt xs i v) i w = writeAt xs i w := by
  unfold writeAt
  split
  · rw [List.set_set]
  · rfl

/-- Merging a directive into a level twice is merging it once. -/
theorem mergeLevel_idem (p : OVCParameter) (lvl dflt : ADLODPerformanceLevel) :
    ADL.mergeLevel p (ADL.mergeLevel p lvl dflt) dflt = ADL.mergeLevel p lvl dflt := by
  unfold ADL.mergeLevel
  cases hp : p.type <;> cases hu : p.useDefault <;>
    simp only [Bool.false_eq_true, if_true, if_false]
  by_cases hz : lvl.iVddc = 0
  · simp only [hz, if_true]
  · simp only [hz, if_false]
    by_cases hr : cround (binary64 (p.value * 1000)) = 0
    · simp only [hr, if_true]
    · simp only [hr, if_false]

/-- One step of the level merge on an array, twice, is the step once. -/
theorem mergedRow_idem (p : OVCParameter) (l : Int) (row dfltRow : List ADLODPerformanceLevel) :
    mergedRow p l (mergedRow p l row dfltRow) dfltRow = mergedRow p l row dfltRow := by
  by_cases h : 0 ≤ l ∧ l < (row.length : Int)
  · unfold mergedRow
    rw [readAt_writeAt _ _ _ _ h.1 h.2, mergeLevel_idem, writeAt_writeAt]
  · have h1 : mergedRow p l row dfltRow = row := writeAt_outside _ _ _ h
    rw [h1, h1]

theorem mergedRow_length (p : OVCParameter) (l : Int) (row dfltRow : List ADLODPerformanceLevel) :
    (mergedRow p l row dfltRow).length = row.length := by
  unfold mergedRow
  rw [writeAt_length]

theorem mergedRow_nil (p : OVCParameter) (l : Int) (dfltRow : List ADLODPerformanceLevel) :
    mergedRow p l [] dfltRow = [] := by
  have h := mergedRow_length p l [] dfltRow
  exact List.length_eq_zero.mp h

/-- The array of a device after one step of the level merge. -/
theorem adl_mergeAt_row (odParams : List ADLODParameters) (junk : ADLODParameters)
    (dflt : List (List ADLODPerformanceLevel)) (p : OVCParameter) (ls : ADL.LevelState)
    (i : Int) (d : Nat) :
    (ADL.mergeAt odParams junk dflt p ls i).perfLevels.getD d [] =
      if (d : Int) = i then
        mergedRow p (ADL.resolveLevel odParams junk p d) (ls.perfLevels.getD d [])
          (readAt dflt d [])
      else ls.perfLevels.getD d [] := by
  have hm : (ADL.mergeAt odParams junk dflt p ls i).perfLevels =
      writeAt ls.perfLevels i (mergedRow p (ADL.resolveLevel odParams junk p i)
        (readAt ls.perfLevels i []) (readAt dflt i [])) := rfl
  rw [hm]
  by_cases hdi : (d : Int) = i
  · rw [if_pos hdi, ← hdi]
    have hrow : readAt ls.perfLevels (d : Int) [] = ls.perfLevels.getD d [] := by
      unfold readAt
      rw [if_pos (by omega)]
      rfl
    rw [hrow]
    by_cases hl : d < ls.perfLevels.length
    · rw [getD_writeAt _ _ _ _ _ hl, if_pos rfl]
    · have h1 : ls.perfLevels.length ≤ d := by omega
      rw [List.getD_eq_default _ _ (by rw [writeAt_length]; exact h1),
        List.getD_eq_default _ _ h1, mergedRow_nil]
  · rw [if_neg hdi, getD_writeAt_ne _ _ _ _ _ hdi]

/-- The array of a device after the steps of one directive. -/
theorem adl_mergeFold_row (odParams : List ADLODParameters) (junk : ADLODParameters)
    (dflt : List (List ADLODPerformanceLevel)) (p : OVCParameter) (d : Nat) (is : List Int)
    (ls : ADL.LevelState) :
    (is.foldl (ADL.mergeAt odParams junk dflt p) ls).perfLevels.getD d [] =
      if (d : Int) ∈ is then
        mergedRow p (ADL.resolveLevel odParams junk p d) (ls.perfLevels.getD d [])
          (readAt dflt d [])
      else ls.perfLevels.getD d [] := by
  induction is generalizing ls with
  | nil => simp
  | cons i is ih =>
    rw [List.foldl_cons, ih, adl_mergeAt_row]
    by_cases hdi : (d : Int) = i
    · have hmem : (d : Int) ∈ i :: is := by rw [hdi]; exact List.mem_cons_self _ _
      rw [if_pos hdi, if_pos hmem]
      split
      · rw [mergedRow_idem]
      · rfl
    · rw [if_neg hdi]
      by_cases hm : (d : Int) ∈ is
      · rw [if_pos hm, if_pos (List.mem_cons_of_mem _ hm)]
      · rw [if_neg hm, if_neg (by
          intro h
          rcases List.mem_cons.mp h with h | h
          · exact hdi h
          · exact hm h)]

theorem after_getODParameters (mc : ADLMainControl) (c : ADLCall) :
    (mc.after c).getODParameters = mc.getODParameters := by
  cases c <;> rfl

theorem afterAll_getODParameters (calls : List ADLCall) (mc : ADLMainControl) :
    (mc.afterAll calls).getODParameters = mc.getODParameters := by
  unfold ADLMainControl.afterAll
  induction calls generalizing mc with
  | nil => rfl
  | cons c cs ih => rw [List.foldl_cons, ih, after_getODParameters]

theorem after_default (mc : ADLMainControl) (c : ADLCall) (a : Int) (l : Nat) :
    (mc.after c).getODPerformanceLevels a true l = mc.getODPerformanceLevels a true l := by
  cases c with
  | setODPerformanceLevels b n levels =>
    show (if a = b ∧ true = false then _ else _) = _
    rw [if_neg (by simp)]
  | setFanSpeed _ _ _ => rfl
  | setFanSpeedToDefault _ _ => rfl

theorem afterAll_default (calls : List ADLCall) (mc : ADLMainControl) (a : Int) (l : Nat) :
    (mc.afterAll calls).getODPerformanceLevels a true l =
      mc.getODPerformanceLevels a true l := by
  unfold ADLMainControl.afterAll
  induction calls generalizing mc with
  | nil => rfl
  | cons c cs ih => rw [List.foldl_cons, ih, after_default]

/-- The current levels of a backend after a list of write calls in which every array written
for an adapter `a` is `F a`. -/
theorem afterAll_current (F : Int → List ADLODPerformanceLevel) (calls : List ADLCall)
    (hF : ∀ (a : Int) (n : Nat) (levels : List ADLODPerformanceLevel),
      ADLCall.setODPerformanceLevels a n levels ∈ calls → levels = F a)
    (mc : ADLMainControl) (a : Int) (l : Nat) :
    (mc.afterAll calls).getODPerformanceLevels a false l =
      if calls.any (ADLCall.isLevelsOn a) then (F a).getD l ⟨0, 0, 0⟩
      else mc.getODPerformanceLevels a false l := by
  unfold ADLMainControl.afterAll
  induction calls generalizing mc with
  | nil => rfl
  | cons c cs ih =>
    rw [List.foldl_cons, ih (fun b n lv h => hF b n lv (List.mem_cons_of_mem _ h)),
      List.any_cons]
    cases c with
    | setODPerformanceLevels b n levels =>
      have hb := hF b n levels (List.mem_cons_self _ _)
      show (if cs.any (ADLCall.isLevelsOn a) = true then _
        else (if a = b ∧ false = false then levels.getD l ⟨0, 0, 0⟩ else _)) = _
      by_cases hab : a = b
      · subst hab
        simp [ADLCall.isLevelsOn, hb]
      · have hba : ¬ b = a := fun h => hab h.symm
        simp [ADLCall.isLevelsOn, hab, hba]
    | setFanSpeed _ _ _ =>
      show (if _ then _ else mc.getODPerformanceLevels a false l) = _
      simp [ADLCall.isLevelsOn]
    | setFanSpeedToDefault _ _ =>
      show (if _ then _ else mc.getODPerformanceLevels a false l) = _
      simp [ADLCall.isLevelsOn]

theorem map_getD_range {α : Type} (xs : List α) (z : α) (n : Nat) (h : xs.length = n) :
    (List.range n).map (fun l => xs.getD l z) = xs := by
  apply List.ext_getElem
  · rw [List.length_map, List.length_range, h]
  · intro i h1 h2
    rw [List.getElem_map, List.getElem_range, List.getD_eq_getElem _ _ h2]

theorem rowAfter_length (mc : ADLMainControl) (p : OVCParameter) (a : Int) :
    (mc.rowAfter p a).length = (mc.getODParameters a).iNumberOfPerformanceLevels := by
  unfold ADLMainControl.rowAfter
  rw [mergedRow_length, List.length_map, List.length_range]

theorem readODParams_afterAll (mc : ADLMainControl) (calls : List ADLCall)
    (active : List Int) :
    ADL.readODParams (mc.afterAll calls) active = ADL.readODParams mc active := by
  unfold ADL.readODParams
  rw [afterAll_getODParameters]

theorem validate_afterAll (mc : ADLMainControl) (calls : List ADLCall) (active : List Int)
    (params : List OVCParameter) (junk : ADLODParameters) :
    ADL.validate (mc.afterAll calls) active params junk = ADL.validate mc active params junk := by
  unfold ADL.validate
  rw [readODParams_afterAll]

theorem touched_single (p : OVCParameter) (N : Int) (d : Nat) :
    touched [p] N d = true ↔
      p.type ≠ OVCParamType.FAN_SPEED ∧ (d : Int) ∈ iterate p.adapters p.allAdapters N := by
  unfold touched
  simp

/-- The array of a device after the level merge of a batch of one directive. -/
theorem adl_merged_single_row (mc : ADLMainControl) (active : List Int) (p : OVCParameter)
    (junk : ADLODParameters) (d : Nat) (hd : d < active.length)
    (ht : touched [p] active.length d = true) :
    (ADL.merged mc active [p] junk).perfLevels.getD d [] = mc.rowAfter p (active.getD d 0) := by
  obtain ⟨hfan, hmem⟩ := (touched_single p _ d).mp ht
  unfold ADL.merged ADL.levelMerge
  rw [List.foldl_cons, List.foldl_nil, if_pos hfan, adl_mergeFold_row, if_pos hmem]
  unfold ADLMainControl.rowAfter ADL.resolveLevel
  dsimp only
  have h1 : readAt (ADL.readODParams mc active) (d : Int) junk =
      mc.getODParameters (active.getD d 0) := by
    rw [readAt_readODParams mc active junk d (by omega) (by exact_mod_cast hd)]
    rfl
  have h2 : readAt (ADL.readPerfLevels mc active true) (d : Int) [] =
      (ADL.readPerfLevels mc active true).getD d [] := by
    unfold readAt
    rw [if_pos (by omega)]
    rfl
  rw [h1, h2, getD_readPerfLevels mc active true d hd,
    getD_readPerfLevels mc active false d hd]

/-- Every array the engine writes for a batch of one directive is the array of its adapter
after the merge of the directive. -/
theorem adl_single_calls_rows (mc : ADLMainControl) (active : List Int) (p : OVCParameter)
    (junk : ADLODParameters) (a : Int) (n : Nat) (levels : List ADLODPerformanceLevel)
    (h : ADLCall.setODPerformanceLevels a n levels ∈
      (ADL.setOVCParameters mc active [p] junk).calls) :
    levels = mc.rowAfter p a := by
  obtain ⟨-, d, hd, ha, ht, -, hl⟩ := adl_level_call mc active [p] junk a n levels h
  rw [hl, ha]
  exact adl_merged_single_row mc active p junk d hd ht

/-- The engine writes the array of every device a directive other than a fan speed one
resolves to. -/
theorem adl_touched_written (mc : ADLMainControl) (active : List Int)
    (params : List OVCParameter) (junk : ADLODParameters)
    (hv : (ADL.validate mc active params junk).failed = false) (d : Nat)
    (hd : d < active.length) (ht : touched params active.length d = true) :
    (ADL.setOVCParameters mc active params junk).calls.any
      (ADLCall.isLevelsOn (active.getD d 0)) = true := by
  rw [List.any_eq_true]
  refine ⟨ADLCall.setODPerformanceLevels (active.getD d 0)
    ((ADL.readODParams mc active).getD d junk).iNumberOfPerformanceLevels
    ((ADL.merged mc active params junk).perfLevels.getD d []), ?_, by simp [ADLCall.isLevelsOn]⟩
  unfold ADL.setOVCParameters
  simp only [hv, Bool.false_eq_true, if_false]
  apply List.mem_append_right
  unfold ADL.commitLevels
  rw [List.mem_filterMap]
  refine ⟨d, List.mem_range.mpr hd, ?_⟩
  have hc : (ADL.merged mc active params junk).changedDevices.getD d false = true := by
    unfold ADL.merged
    rw [changedDevices_levelMerge _ _ _ _ _ _ _ (by simpa using hd), ht, Bool.or_true]
  rw [if_pos hc]

/-- The array of current levels the backend reports, after the write calls of a batch of one
directive, for an adapter of a device the directive resolves to. -/
theorem adl_single_reread (mc : ADLMainControl) (active : List Int) (p : OVCParameter)
    (junk : ADLODParameters)
    (hv : (ADL.validate mc active [p] junk).failed = false) (d : Nat)
    (hd : d < active.length) (ht : touched [p] active.length d = true) :
    (mc.afterAll (ADL.setOVCParameters mc active [p] junk).calls).rowAfter p
      (active.getD d 0) = mc.rowAfter p (active.getD d 0) := by
  have hcur : ∀ l : Nat,
      (mc.afterAll (ADL.setOVCParameters mc active [p] junk).calls).getODPerformanceLevels
        (active.getD d 0) false l = (mc.rowAfter p (active.getD d 0)).getD l ⟨0, 0, 0⟩ := by
    intro l
    rw [afterAll_current (mc.rowAfter p) _ (adl_single_calls_rows mc active p junk) mc,
      adl_touched_written mc active [p] junk hv d hd ht, if_pos rfl]
  have hdef : (mc.afterAll (ADL.setOVCParameters mc active [p] junk).calls).getODPerformanceLevels
      (active.getD d 0) true = mc.getODPerformanceLevels (active.getD d 0) true := by
    funext l
    exact afterAll_default _ mc _ l
  have hfun : (mc.afterAll (ADL.setOVCParameters mc active [p] junk).calls).getODPerformanceLevels
      (active.getD d 0) false =
      fun l => (mc.rowAfter p (active.getD d 0)).getD l ⟨0, 0, 0⟩ := funext hcur
  have hrow := map_getD_range (mc.rowAfter p (active.getD d 0)) ⟨0, 0, 0⟩ _
    (rowAfter_length mc p (active.getD d 0))
  conv_lhs => unfold ADLMainControl.rowAfter
  rw [afterAll_getODParameters, hdef, hfun, hrow]
  conv_lhs => rw [ADLMainControl.rowAfter]
  exact mergedRow_idem _ _ _ _

/-- Applying a batch of one directive to the backend as the first application left it issues
the calls of the first application. -/
theorem adl_single_calls_again (mc : ADLMainControl) (active : List Int) (p : OVCParameter)
    (junk : ADLODParameters) :
    (ADL.setOVCParameters (mc.afterAll (ADL.setOVCParameters mc active [p] junk).calls)
      active [p] junk).calls = (ADL.setOVCParameters mc active [p] junk).calls := by
  cases hv : (ADL.validate mc active [p] junk).failed with
  | true =>
    unfold ADL.setOVCParameters
    simp only [validate_afterAll, hv, if_true]
  | false =>
    have hrows : ∀ d, d < active.length → touched [p] active.length d = true →
        (ADL.merged (mc.afterAll (ADL.setOVCParameters mc active [p] junk).calls)
          active [p] junk).perfLevels.getD d [] =
        (ADL.merged mc active [p] junk).perfLevels.getD d [] := by
      intro d hd ht
      rw [adl_merged_single_row _ active p junk d hd ht,
        adl_merged_single_row mc active p junk d hd ht,
        adl_single_reread mc active p junk hv d hd ht]
    have hchanged : ∀ (m : ADLMainControl) (d : Nat), d < active.length →
        (ADL.merged m active [p] junk).changedDevices.getD d false =
          touched [p] active.length d := by
      intro m d hd
      unfold ADL.merged
      rw [changedDevices_levelMerge _ _ _ _ _ _ _ (by simpa using hd)]
      simp [List.getD_eq_getElem?_getD, List.getElem?_replicate, hd]
    have key : ∀ m1 : ADLMainControl,
        ADL.validate m1 active [p] junk = ADL.validate mc active [p] junk →
        ADL.readODParams m1 active = ADL.readODParams mc active →
        (∀ d, d < active.length → touched [p] active.length d = true →
          (ADL.merged m1 active [p] junk).perfLevels.getD d [] =
            (ADL.merged mc active [p] junk).perfLevels.getD d []) →
        (ADL.setOVCParameters m1 active [p] junk).calls =
          (ADL.setOVCParameters mc active [p] junk).calls := by
      intro m1 h1 h2 h3
      unfold ADL.setOVCParameters
      simp only [h1, hv, Bool.false_eq_true, if_false]
      congr 1
      unfold ADL.commitLevels
      apply List.filterMap_congr
      intro d hd
      rw [List.mem_range] at hd
      rw [hchanged m1 d hd, hchanged mc d hd, h2]
      cases ht : touched [p] active.length d with
      | false => rfl
      | true => rw [h3 d hd ht]
    exact key _ (validate_afterAll _ _ _ _ _) (readODParams_afterAll _ _ _) hrows

theorem ADLMainControl.eq_of_fields (m1 m2 : ADLMainControl)
    (h1 : m1.getODParameters = m2.getODParameters)
    (h2 : m1.getODPerformanceLevels = m2.getODPerformanceLevels) : m1 = m2 := by
  cases m1
  cases m2
  simp only at h1 h2
  rw [h1, h2]

/-- Writing the calls of a batch of one directive to the backend they were already written to
changes nothing. -/
theorem adl_single_write_again (mc : ADLMainControl) (active : List Int) (p : OVCParameter)
    (junk : ADLODParameters) :
    (mc.afterAll (ADL.setOVCParameters mc active [p] junk).calls).afterAll
        (ADL.setOVCParameters mc active [p] junk).calls =
      mc.afterAll (ADL.setOVCParameters mc active [p] junk).calls := by
  apply ADLMainControl.eq_of_fields
  · rw [afterAll_getODParameters]
  · funext a isDefault l
    cases isDefault with
    | true => rw [afterAll_default]
    | false =>
      rw [afterAll_current (mc.rowAfter p) _ (adl_single_calls_rows mc active p junk),
        afterAll_current (mc.rowAfter p) _ (adl_single_calls_rows mc active p junk) mc]
      split <;> rfl

/-- C28: with a backend whose read of the current levels returns the array last written and
whose default levels and adapter parameters never change, applying a batch of one directive to
the backend that the first application of the batch left issues the same write calls as the
first application and leaves the backend as the first application left it.  This holds for every
directive, in particular for `coreclk:0=default` and every other `default` directive of kind
`coreclk`, `memclk` or `vcore`. -/
theorem default_idempotent (mc : ADLMainControl) (active : List Int) (p : OVCParameter)
    (junk : ADLODParameters) :
    (ADL.setOVCParameters (mc.afterAll (ADL.setOVCParameters mc active [p] junk).calls)
      active [p] junk).calls = (ADL.setOVCParameters mc active [p] junk).calls ∧
    (mc.afterAll (ADL.setOVCParameters mc active [p] junk).calls).afterAll
        (ADL.setOVCParameters (mc.afterAll (ADL.setOVCParameters mc active [p] junk).calls)
          active [p] junk).calls =
      mc.afterAll (ADL.setOVCParameters mc active [p] junk).calls := by
  refine ⟨adl_single_calls_again mc active p junk, ?_⟩
  rw [adl_single_calls_again]
  exact adl_single_write_again mc active p junk

/-- Witness of C28: on the example backend `coreclk:0=default` writes the default core clock
50000 into the last level of adapter 0; the backend then reports that level, and the second
application issues the same call and leaves the backend as it is. -/
theorem default_idempotent_witness :
    (ADL.setOVCParameters exampleControl [0] [directive "coreclk:0=default"]
      exampleJunk).calls =
      [ADLCall.setODPerformanceLevels 0 2 [⟨60000, 100000, 1000⟩, ⟨50000, 100000, 1001⟩]] ∧
    (exampleControl.afterAll (ADL.setOVCParameters exampleControl [0]
      [directive "coreclk:0=default"] exampleJunk).calls).getODPerformanceLevels 0 false 1 =
      ⟨50000, 100000, 1001⟩ ∧
    (ADL.setOVCParameters (exampleControl.afterAll (ADL.setOVCParameters exampleControl [0]
        [directive "coreclk:0=default"] exampleJunk).calls)
      [0] [directive "coreclk:0=default"] exampleJunk).calls =
      (ADL.setOVCParameters exampleControl [0] [directive "coreclk:0=default"]
        exampleJunk).calls :=
  ⟨by decide!, by decide!,
    (default_idempotent exampleControl [0] (directive "coreclk:0=default") exampleJunk).1⟩

theorem two_chars_iff (p : List Char) (a b : Char) :
    (p.head? = some a ∧ p.tail.head? = some b) ↔ ∃ r, p = a :: b :: r := by
  constructor
  · rintro ⟨h1, h2⟩
    cases p with
    | nil => simp at h1
    | cons c cs =>
      cases cs with
      | nil => simp at h2
      | cons d ds =>
        simp only [List.head?_cons, Option.some.injEq, List.tail_cons] at h1 h2
        exact ⟨ds, by rw [h1, h2]⟩
  · rintro ⟨r, rfl⟩
    exact ⟨rfl, rfl⟩

/-- C38: in the unit dispatch of `parseDPMPCIEFile` the third branch is never taken, for no
text: its condition is that of the second branch.  The first branch is taken exactly for a text
that starts with `GB` and stores `bandwidth * 1000`, the second exactly for a text that starts
with `MB` and stores the bandwidth as it is, and every other text ends in the `Error` "Invalid
bandwidth specified". -/
theorem unit_dispatch (p : List Char) :
    unitBranch p ≠ UnitBranch.third ∧
    (unitBranch p = UnitBranch.first ↔ ∃ r, p = 'G' :: 'B' :: r) ∧
    (unitBranch p = UnitBranch.second ↔ ∃ r, p = 'M' :: 'B' :: r) ∧
    (unitBranch p = UnitBranch.invalid ↔
      ¬ (∃ r, p = 'G' :: 'B' :: r) ∧ ¬ (∃ r, p = 'M' :: 'B' :: r)) ∧
    (∀ (junk : Nat) (bandwidth : Double),
      unitValue junk bandwidth (unitBranch p) =
        if p.take 2 = "GB".toList then some (toUnsigned junk (bandwidth.times 1000))
        else if p.take 2 = "MB".toList then some (toUnsigned junk bandwidth)
        else none) := by
  have hG := two_chars_iff p 'G' 'B'
  have hM := two_chars_iff p 'M' 'B'
  have tG : p.take 2 = "GB".toList ↔ ∃ r, p = 'G' :: 'B' :: r := by
    constructor
    · intro h
      refine ⟨p.drop 2, ?_⟩
      have := List.take_append_drop 2 p
      rw [h] at this
      exact this.symm
    · rintro ⟨r, rfl⟩; rfl
  have tM : p.take 2 = "MB".toList ↔ ∃ r, p = 'M' :: 'B' :: r := by
    constructor
    · intro h
      refine ⟨p.drop 2, ?_⟩
      have := List.take_append_drop 2 p
      rw [h] at this
      exact this.symm
    · rintro ⟨r, rfl⟩; rfl
  have hGM : (∃ r, p = 'G' :: 'B' :: r) → ¬ (∃ r, p = 'M' :: 'B' :: r) := by
    rintro ⟨r, rfl⟩ ⟨s, hs⟩
    simp at hs
  unfold unitBranch
  by_cases h1 : p.head? = some 'G' ∧ p.tail.head? = some 'B'
  · rw [if_pos h1]
    have e1 := hG.mp h1
    refine ⟨by decide, ⟨fun _ => e1, fun _ => rfl⟩, ⟨fun h => absurd h (by decide),
      fun h => absurd h (hGM e1)⟩, ⟨fun h => absurd h (by decide), fun h => absurd e1 h.1⟩, ?_⟩
    intro junk bandwidth
    rw [if_pos (tG.mpr e1)]
    rfl
  · rw [if_neg h1]
    have n1 : ¬ ∃ r, p = 'G' :: 'B' :: r := fun h => h1 (hG.mpr h)
    by_cases h2 : p.head? = some 'M' ∧ p.tail.head? = some 'B'
    · rw [if_pos h2]
      have e2 := hM.mp h2
      refine ⟨by decide, ⟨fun h => absurd h (by decide), fun h => absurd h n1⟩,
        ⟨fun _ => e2, fun _ => rfl⟩, ⟨fun h => absurd h (by decide), fun h => absurd e2 h.2⟩, ?_⟩
      intro junk bandwidth
      rw [if_neg (fun h => n1 (tG.mp h)), if_pos (tM.mpr e2)]
      rfl
    · rw [if_neg h2, if_neg h2]
      have n2 : ¬ ∃ r, p = 'M' :: 'B' :: r := fun h => h2 (hM.mpr h)
      refine ⟨by decide, ⟨fun h => absurd h (by decide), fun h => absurd h n1⟩,
        ⟨fun h => absurd h (by decide), fun h => absurd h n2⟩, ⟨fun _ => ⟨n1, n2⟩, fun _ => rfl⟩,
        ?_⟩
      intro junk bandwidth
      rw [if_neg (fun h => n1 (tG.mp h)), if_neg (fun h => n2 (tM.mp h))]
      rfl

/-- The lane count is read at the separator: `strtoul` performs no conversion on a text that
starts with `, x`. -/
theorem strtoul_separator (p : List Char) (h : p.take 3 = ", x".toList) :
    strtoul p = ⟨0, p, false⟩ := by
  have hp : p = ',' :: ' ' :: 'x' :: p.drop 3 := by
    have := List.take_append_drop 3 p
    rw [h] at this
    exact this.symm
  rw [hp]
  rfl

/-- Every non-empty line makes the body of the loop throw. -/
theorem parseDPMPCIELine_thrown (junk : Nat) (line : List Char) :
    ∃ what, parseDPMPCIELine junk line = LineResult.thrown what := by
  unfold parseDPMPCIELine
  dsimp only
  by_cases h1 : (strtoul (c_str line)).erange = true ∨ c_str line = (strtoul (c_str line)).endptr
  · rw [if_pos h1]; exact ⟨_, rfl⟩
  rw [if_neg h1]
  by_cases h2 : (strtoul (c_str line)).endptr.head? ≠ some ':' ∨
      (strtoul (c_str line)).endptr.tail.head? ≠ some ' '
  · rw [if_pos h2]; exact ⟨_, rfl⟩
  rw [if_neg h2]
  generalize (strtoul (c_str line)).endptr.drop 2 = p
  by_cases h3 : (strtod p).erange = true ∨ p = (strtod p).endptr
  · rw [if_pos h3]; exact ⟨_, rfl⟩
  rw [if_neg h3]
  cases unitValue junk (strtod p).value (unitBranch (strtod p).endptr) with
  | none => exact ⟨_, rfl⟩
  | some ipcieMB =>
    dsimp only
    generalize (strtod p).endptr.drop 2 = q
    by_cases h4 : q.take 3 ≠ ", x".toList
    · rw [if_pos h4]; exact ⟨_, rfl⟩
    · rw [if_neg h4, strtoul_separator q (not_not.mp h4)]
      dsimp only
      rw [if_pos (Or.inr rfl)]
      exact ⟨_, rfl⟩

theorem upTo_of_strchr_none (s : List Char) (c : Char) (h : strchr s c = none) :
    upTo s c = s := by
  induction s with
  | nil => rfl
  | cons d ds ih =>
    unfold strchr at h
    unfold upTo
    by_cases hd : d = c
    · rw [if_pos hd] at h; exact absurd h (by simp)
    · rw [if_neg hd] at h
      rw [if_neg hd, ih h]

/-- The first line that `getline` reads from a file just opened. -/
theorem getline_openFile (content : List Char) :
    (getline (openFile (some content))).1 = upTo content '\n' := by
  unfold getline openFile
  dsimp only
  rw [if_neg (by simp)]
  cases h : strchr content '\n' with
  | none => exact (upTo_of_strchr_none content '\n' h).symm
  | some after => rfl

/-- A round of the loop of `parseDPMPCIEFile` on a stream that has failed or whose next line
is empty ends the call with the outputs as they are. -/
theorem parseDPMPCIELoop_stop (junk fuel : Nat) (ifs : IfStream)
    (ilanes ipcieMB pcieMB lanes : Nat) (h : ifs.failbit = true ∨ (getline ifs).1 = []) :
    parseDPMPCIELoop junk (fuel + 1) ifs ilanes ipcieMB pcieMB lanes =
      PcieResult.returned pcieMB lanes := by
  rw [parseDPMPCIELoop]
  by_cases hf : ifs.failbit = true
  · rw [if_pos hf]
  · rw [if_neg hf]
    dsimp only
    rw [if_pos (h.resolve_left hf)]

/-- A round of the loop of `parseDPMPCIEFile` on a non-empty line throws what the body
throws. -/
theorem parseDPMPCIELoop_throw (junk fuel : Nat) (ifs : IfStream)
    (ilanes ipcieMB pcieMB lanes : Nat) (hf : ifs.failbit = false)
    (hl : (getline ifs).1 ≠ []) (what : String)
    (hw : parseDPMPCIELine junk (getline ifs).1 = LineResult.thrown what) :
    parseDPMPCIELoop junk (fuel + 1) ifs ilanes ipcieMB pcieMB lanes =
      PcieResult.thrown what := by
  rw [parseDPMPCIELoop, if_neg (by rw [hf]; decide)]
  dsimp only
  rw [if_neg hl, hw]

/-- C39: `parseDPMPCIEFile` never assigns its outputs.  For every file, whatever the outputs
hold before the call, the call returns with both unchanged or throws an `Error`: it returns
when the file cannot be opened or its first line is empty, and it throws, with the `Error` of
the body of the loop for that line, when the first line is not empty.  The body throws on every
line, because `strtoul` is handed the text at the separator `, x`, where it performs no
conversion.  The value of a `double` to `unsigned int` conversion outside the range of the
target is left arbitrary (`junk`). -/
theorem pcie_never_produces (junk : Nat) (file : Option (List Char)) (pcieMB lanes : Nat) :
    (parseDPMPCIEFile junk file pcieMB lanes = PcieResult.returned pcieMB lanes ∨
      ∃ what, parseDPMPCIEFile junk file pcieMB lanes = PcieResult.thrown what) ∧
    (parseDPMPCIEFile junk none pcieMB lanes = PcieResult.returned pcieMB lanes) ∧
    (∀ content : List Char, upTo content '\n' = [] →
      parseDPMPCIEFile junk (some content) pcieMB lanes = PcieResult.returned pcieMB lanes) ∧
    (∀ content : List Char, upTo content '\n' ≠ [] →
      ∃ what, parseDPMPCIELine junk (upTo content '\n') = LineResult.thrown what ∧
        parseDPMPCIEFile junk (some content) pcieMB lanes = PcieResult.thrown what) ∧
    (∀ line : List Char, ∃ what, parseDPMPCIELine junk line = LineResult.thrown what) ∧
    (∀ p : List Char, p.take 3 = ", x".toList → strtoul p = ⟨0, p, false⟩) := by
  have hnone : parseDPMPCIEFile junk none pcieMB lanes = PcieResult.returned pcieMB lanes := by
    unfold parseDPMPCIEFile
    exact parseDPMPCIELoop_stop junk _ _ 0 0 pcieMB lanes (Or.inl rfl)
  have hempty : ∀ content : List Char, upTo content '\n' = [] →
      parseDPMPCIEFile junk (some content) pcieMB lanes =
        PcieResult.returned pcieMB lanes := by
    intro content h
    unfold parseDPMPCIEFile
    exact parseDPMPCIELoop_stop junk _ _ 0 0 pcieMB lanes
      (Or.inr (by rw [getline_openFile, h]))
  have hline : ∀ content : List Char, upTo content '\n' ≠ [] →
      ∃ what, parseDPMPCIELine junk (upTo content '\n') = LineResult.thrown what ∧
        parseDPMPCIEFile junk (some content) pcieMB lanes = PcieResult.thrown what := by
    intro content h
    obtain ⟨what, hw⟩ := parseDPMPCIELine_thrown junk (upTo content '\n')
    refine ⟨what, hw, ?_⟩
    unfold parseDPMPCIEFile
    exact parseDPMPCIELoop_throw junk _ _ 0 0 pcieMB lanes rfl
      (by rw [getline_openFile]; exact h) what (by rw [getline_openFile]; exact hw)
  refine ⟨?_, hnone, hempty, hline, parseDPMPCIELine_thrown junk, strtoul_separator⟩
  cases file with
  | none => exact Or.inl hnone
  | some content =>
    by_cases h : upTo content '\n' = []
    · exact Or.inl (hempty content h)
    · obtain ⟨what, -, hw⟩ := hline content h
      exact Or.inr ⟨what, hw⟩

/-- Examples for C38 and C39: a line of the sysfs file as the kernel writes it is rejected
for its unit, a line with the unit `GB` or `MB` at the lane count, and an empty file leaves the
outputs as they are. -/
theorem pcie_examples :
    parseDPMPCIEFile 0 (some "0: 2.5GT/s, x8\n1: 8GT/s, x16 *\n".toList) 1 2 =
      PcieResult.thrown "Invalid bandwidth specified" ∧
    parseDPMPCIEFile 0 (some "0: 8GB, x16 *\n".toList) 1 2 =
      PcieResult.thrown "Unable to parse lanes" ∧
    parseDPMPCIEFile 0 (some "0: 8MB, x16 *\n".toList) 1 2 =
      PcieResult.thrown "Unable to parse lanes" ∧
    parseDPMPCIEFile 0 (some "0: 8KB, x16 *\n".toList) 1 2 =
      PcieResult.thrown "Invalid bandwidth specified" ∧
    parseDPMPCIEFile 0 (some []) 1 2 = PcieResult.returned 1 2 := by
  decide!

/-- The loop of the print functions without a chosen list reports every round. -/
theorem printAdaptersLoop_all (rounds : Nat) (ai i : Int) (iter : List Int) :
    printAdaptersLoop false rounds ai i iter =
      (List.range rounds).map (fun (k : Nat) => (i + (k : Int), ai + (k : Int))) := by
  induction rounds generalizing ai i with
  | zero => rfl
  | succ n ih =>
    rw [printAdaptersLoop]
    simp only [Bool.false_and, Bool.false_eq_true, if_false]
    rw [ih, List.range_succ_eq_map, List.map_cons, List.map_map]
    refine congrArg₂ _ (by simp) ?_
    apply List.map_congr_left
    intro k _
    simp only [Function.comp, Nat.cast_succ]
    rw [Prod.mk.injEq]
    constructor <;> ring

/-- The loop of the print functions with a chosen list that is strictly increasing and lies
within the rounds that are left reports the chosen adapters. -/
theorem printAdaptersLoop_chosen (rounds : Nat) (i : Int) (iter : List Int)
    (hs : iter.Pairwise (· < ·)) (hr : ∀ a ∈ iter, i ≤ a ∧ a < i + (rounds : Int)) :
    printAdaptersLoop true rounds i i iter = iter.map (fun a => (a, a)) := by
  induction rounds generalizing i iter with
  | zero =>
    cases iter with
    | nil => rfl
    | cons c cs =>
      have := hr c (List.mem_cons_self _ _)
      simp at this
      omega
  | succ n ih =>
    rw [printAdaptersLoop]
    cases iter with
    | nil =>
      simp only [Bool.true_and, List.head?_nil, ne_eq, reduceCtorEq, not_false_eq_true,
        decide_True, Bool.or_true, if_true, decide_eq_true_eq, Bool.or_self]
      exact ih (i + 1) [] List.Pairwise.nil (fun a ha => absurd ha (List.not_mem_nil _))
    | cons c cs =>
      have hc := hr c (List.mem_cons_self _ _)
      rw [List.pairwise_cons] at hs
      by_cases hci : c = i
      · subst hci
        simp only [Bool.true_and, List.head?_cons, ne_eq, not_true_eq_false, decide_False,
          Bool.or_false, if_true, List.tail_cons, List.map_cons, reduceCtorEq,
          decide_eq_true_eq, Bool.false_eq_true, if_false]
        rw [ih (c + 1) cs hs.2 (fun a ha => by
          have h1 := hs.1 a ha
          have h2 := hr a (List.mem_cons_of_mem _ ha)
          push_cast at h2
          omega)]
      · have hlt : i < c := by omega
        have hcond : (true && (decide (c :: cs = []) || decide ((c :: cs).head? ≠ some i))) =
            true := by
          simp [hci]
        rw [if_pos hcond]
        exact ih (i + 1) (c :: cs) (List.pairwise_cons.mpr hs) (fun a ha => by
          have h2 := hr a ha
          push_cast at h2
          rcases List.mem_cons.mp ha with h | h
          · omega
          · have h1 := hs.1 a h
            omega)

/-- The list the selector parser returns is strictly increasing. -/
theorem parseAdaptersList_increasing (s : List Char)
    (h : (parseAdaptersList s).status = Status.ok) :
    (parseAdaptersList s).adapters.Pairwise (· < ·) := by
  unfold parseAdaptersList at h ⊢
  by_cases hs : s = "all".toList
  · rw [if_pos hs]; exact List.Pairwise.nil
  · rw [if_neg hs] at h ⊢
    generalize parseAdaptersLoop (s.length + 1) s [] = res at h ⊢
    obtain ⟨pushed, st⟩ := res
    cases st with
    | ok => exact unique_sorted _ (List.sorted_insertionSort (· ≤ ·) pushed)
    | thrown w => simp at h
    | undefined => simp at h
    | outOfFuel => simp at h

/-- C37: for a chosen list that is strictly increasing and whose entries lie in `[0, N)`,
`printAdaptersInfo` and `printAdaptersInfoVerbose` of the AMDGPU backend with `useChoosen = true`
report exactly the adapters of the list, each once, in the order of the list, each under its own
index; with `useChoosen = false` they report the adapters `0, ..., N - 1`.  The read-only mode of
`main` passes `useChoosen = useAdaptersList && !chooseAllAdapters` and throws nothing for such a
list, and every list the selector parser returns is strictly increasing. -/
theorem adapter_filter (N : Nat) (choosen : List Int) (hs : choosen.Pairwise (· < ·))
    (hr : ∀ a ∈ choosen, 0 ≤ a ∧ a < (N : Int)) :
    printAdaptersInfo N choosen true = choosen.map (fun a => (a, a)) ∧
    printAdaptersInfoVerbose N choosen true = choosen.map (fun a => (a, a)) ∧
    printAdaptersInfo N choosen false =
      (List.range N).map (fun (k : Nat) => ((k : Int), (k : Int))) ∧
    printAdaptersInfoVerbose N choosen false =
      (List.range N).map (fun (k : Nat) => ((k : Int), (k : Int))) ∧
    (∀ st : ArgState, st.choosenAdapters = choosen →
      amdgpuReadOnly N st =
        Except.ok (if st.useAdaptersList = true ∧ st.chooseAllAdapters = false then
          choosen.map (fun a => (a, a))
        else (List.range N).map (fun (k : Nat) => ((k : Int), (k : Int))))) ∧
    (∀ s : List Char, (parseAdaptersList s).status = Status.ok →
      (parseAdaptersList s).adapters.Pairwise (· < ·)) := by
  have h1 : printAdaptersLoop true N 0 0 choosen = choosen.map (fun a => (a, a)) :=
    printAdaptersLoop_chosen N 0 choosen hs (fun a ha => by
      have := hr a ha
      omega)
  have h2 : ∀ iter : List Int, printAdaptersLoop false N 0 0 iter =
      (List.range N).map (fun (k : Nat) => ((k : Int), (k : Int))) := by
    intro iter
    rw [printAdaptersLoop_all]
    apply List.map_congr_left
    intro k _
    simp
  refine ⟨h1, h1, h2 choosen, h2 choosen, ?_, parseAdaptersList_increasing⟩
  intro st hst
  unfold amdgpuReadOnly
  have hany : st.choosenAdapters.any (fun adapterIndex =>
      decide (adapterIndex ≥ (N : Int)) || decide (adapterIndex < 0)) = false := by
    rw [hst, List.any_eq_false]
    intro a ha
    have := hr a ha
    simp only [Bool.or_eq_true, decide_eq_true_eq, not_or, not_le, not_lt, ge_iff_le]
    omega
  rw [if_neg (by rw [hany]; simp)]
  unfold printAdaptersInfoVerbose printAdaptersInfo
  rw [hst]
  cases hu : st.useAdaptersList <;> cases hc : st.chooseAllAdapters <;>
    cases hv : st.printVerbose <;>
    simp [h1, h2]

/-- Witness of C37: of five adapters the list `1,3` shows the adapters 1 and 3; `main` with
`-a 1,3` does so too. -/
theorem adapter_filter_witness :
    printAdaptersInfo 5 [1, 3] true = [(1, 1), (3, 3)] ∧
    printAdaptersInfoVerbose 5 [1, 3] true = [(1, 1), (3, 3)] ∧
    printAdaptersInfo 5 [1, 3] false = [(0, 0), (1, 1), (2, 2), (3, 3), (4, 4)] ∧
    main 0 ["amdcovc".toList, "-a".toList, "1,3".toList] =
      MainResult.proceed ⟨false, false, [], [1, 3], true, false, false, []⟩ ∧
    amdgpuReadOnly 5 ⟨false, false, [], [1, 3], true, false, false, []⟩ =
      Except.ok [(1, 1), (3, 3)] :=
  ⟨(adapter_filter 5 [1, 3] (by decide) (by decide)).1,
    by decide, by decide, by decide, by rfl⟩

/-- A batch that passes validation in an AMDGPU engine holds no directive whose check of an
adapter it resolves to prints a message whatever the state. -/
theorem amdgpu_validated_step (N : Nat) (params : List OVCParameter)
    (perfClocks : List PerfClocks) (junk : PerfClocks)
    (hv : (AMDGPU.validate N params perfClocks junk).failed = false)
    (p : OVCParameter) (hp : p ∈ params) (ht : p.type ≠ OVCParamType.FAN_SPEED) (d : Int)
    (hd : d ∈ iterate p.adapters p.allAdapters (N : Int)) (k : DiagKind) :
    ¬ (∀ st, AMDGPU.checkOtherAt perfClocks junk N p st d = st.report k p) := by
  intro h
  have := (amdgpu_failed_of_step N params perfClocks junk p hp ht d hd k h).1
  rw [hv] at this
  exact absurd this (by decide)

/-- In a batch that passes validation in an AMDGPU engine every directive other than a fan
speed one that resolves to an adapter has level 0 or no level. -/
theorem amdgpu_validated_level (N : Nat) (params : List OVCParameter)
    (perfClocks : List PerfClocks) (junk : PerfClocks)
    (hv : (AMDGPU.validate N params perfClocks junk).failed = false)
    (p : OVCParameter) (hp : p ∈ params) (ht : p.type ≠ OVCParamType.FAN_SPEED) (d : Int)
    (hd : d ∈ iterate p.adapters p.allAdapters (N : Int)) :
    p.partId = 0 ∨ p.partId = LAST_PERFLEVEL := by
  by_contra hl
  rw [not_or] at hl
  have hN := (amdgpu_validated_inRange N params perfClocks junk hv p hp d hd).2
  refine amdgpu_validated_step N params perfClocks junk hv p hp ht d hd DiagKind.perfLevel ?_
  intro st
  unfold AMDGPU.checkOtherAt
  rw [if_neg (by omega)]
  dsimp only
  rw [if_pos hl.2, if_pos hl.1]

/-- In a batch that passes validation in an AMDGPU engine the value of a clock directive lies
within the envelope of every adapter it resolves to. -/
theorem amdgpu_validated_clock (N : Nat) (params : List OVCParameter)
    (perfClocks : List PerfClocks) (junk : PerfClocks)
    (hv : (AMDGPU.validate N params perfClocks junk).failed = false)
    (p : OVCParameter) (hp : p ∈ params)
    (ht : p.type = OVCParamType.CORE_CLOCK ∨ p.type = OVCParamType.MEMORY_CLOCK)
    (hu : p.useDefault = false) (d : Int)
    (hd : d ∈ iterate p.adapters p.allAdapters (N : Int)) :
    (baseClock p.type (readAt perfClocks d junk) : ℚ) ≤ p.value ∧
      p.value ≤ clockCeiling (baseClock p.type (readAt perfClocks d junk)) := by
  have hfan : p.type ≠ OVCParamType.FAN_SPEED := by
    rcases ht with h | h <;> rw [h] <;> decide
  have hN := (amdgpu_validated_inRange N params perfClocks junk hv p hp d hd).2
  have hl := amdgpu_validated_level N params perfClocks junk hv p hp hfan d hd
  by_contra hc
  refine amdgpu_validated_step N params perfClocks junk hv p hp hfan d hd (clockDiag p.type) ?_
  intro st
  rw [amdgpu_clock_step perfClocks junk N p st d ht hl hN, if_pos]
  refine ⟨hu, ?_⟩
  by_contra hn
  rw [not_or, not_lt, not_lt] at hn
  exact hc hn

/-- In a batch that passes validation in an AMDGPU engine the value of an overdrive directive
that resolves to some adapter lies in `[0, 20]`. -/
theorem amdgpu_validated_overdrive (N : Nat) (params : List OVCParameter)
    (perfClocks : List PerfClocks) (junk : PerfClocks)
    (hv : (AMDGPU.validate N params perfClocks junk).failed = false)
    (p : OVCParameter) (hp : p ∈ params)
    (ht : p.type = OVCParamType.CORE_OD ∨ p.type = OVCParamType.MEMORY_OD)
    (hu : p.useDefault = false) (d : Int)
    (hd : d ∈ iterate p.adapters p.allAdapters (N : Int)) :
    0 ≤ p.value ∧ p.value ≤ 20 := by
  have hfan : p.type ≠ OVCParamType.FAN_SPEED := by
    rcases ht with h | h <;> rw [h] <;> decide
  have hN := (amdgpu_validated_inRange N params perfClocks junk hv p hp d hd).2
  have hl := amdgpu_validated_level N params perfClocks junk hv p hp hfan d hd
  by_contra hc
  refine amdgpu_validated_step N params perfClocks junk hv p hp hfan d hd
    (overdriveDiag p.type) ?_
  intro st
  rw [amdgpu_overdrive_step perfClocks junk N p st d ht hl hN, if_pos]
  refine ⟨hu, ?_⟩
  by_contra hn
  rw [not_or, not_lt, not_lt] at hn
  exact hc hn

/-- The function `round` keeps a value between two integers between them. -/
theorem cround_bounds (q : ℚ) (lo hi : Int) (h1 : (lo : ℚ) ≤ q) (h2 : q ≤ (hi : ℚ)) :
    lo ≤ cround q ∧ cround q ≤ hi := by
  unfold cround
  split
  · constructor
    · rw [Int.le_floor]; linarith
    · have : ⌊q + 1 / 2⌋ < hi + 1 := by
        rw [Int.floor_lt]; push_cast; linarith
      omega
  · constructor
    · have : lo - 1 < ⌈q - 1 / 2⌉ := by
        rw [Int.lt_ceil]; push_cast; linarith
      omega
    · rw [Int.ceil_le]; linarith

/-- The function `round` of a value less than 1/2 below an integer is at least that integer. -/
theorem cround_lower (q : ℚ) (lo : Int) (h : (lo : ℚ) - 1 / 2 < q) : lo ≤ cround q := by
  unfold cround
  split
  · rw [Int.le_floor]; linarith
  · have : lo - 1 < ⌈q - 1 / 2⌉ := by
      rw [Int.lt_ceil]; push_cast; linarith
    omega

/-- The function `round` of a value less than 1/2 above an integer is at most that integer. -/
theorem cround_upper (q : ℚ) (hi : Int) (h : q < (hi : ℚ) + 1 / 2) : cround q ≤ hi := by
  unfold cround
  split
  · have : ⌊q + 1 / 2⌋ < hi + 1 := by
      rw [Int.floor_lt]; push_cast; linarith
    omega
  · rw [Int.ceil_le]; linarith

/-- Rounding to binary64 moves a number of magnitude at most `B` by at most
`B / 2 ^ 53 + 2 ^ -1075`. -/
theorem binary64_bounds (x B : ℚ) (h : |x| ≤ B) :
    x - B / 2 ^ 53 - 1 / 2 ^ 1075 ≤ binary64 x ∧ binary64 x ≤ x + B / 2 ^ 53 + 1 / 2 ^ 1075 := by
  have h1 := abs_le.mp (binary64_err x)
  have h2 : |x| / 2 ^ 53 ≤ B / 2 ^ 53 := div_le_div_of_nonneg_right h (by positivity)
  constructor <;> linarith [h1.1, h1.2]

/-- The `double` nearest to 1.20 lies below 1.20. -/
theorem binary64_120 : 0 ≤ binary64 (120 / 100) ∧ binary64 (120 / 100) ≤ 120 / 100 := by
  decide!

/-- The percentage of a clock value within the envelope of a base clock that is not 0, as
the code computes it in binary64, lies in `[0, 20]`. -/
theorem clockPercent_bounds (value : ℚ) (c : Nat) (hc : 0 < c) (h1 : (c : ℚ) ≤ value)
    (h2 : value ≤ clockCeiling c) :
    clockPercent value c =
        some (cround (binary64 (binary64 (binary64 (value - (c : ℚ)) / (c : ℚ)) * 100))) ∧
      0 ≤ cround (binary64 (binary64 (binary64 (value - (c : ℚ)) / (c : ℚ)) * 100)) ∧
      cround (binary64 (binary64 (binary64 (value - (c : ℚ)) / (c : ℚ)) * 100)) ≤ 20 := by
  have hcq : (1 : ℚ) ≤ (c : ℚ) := by exact_mod_cast hc
  have hc0 : (0 : ℚ) < (c : ℚ) := by linarith
  refine ⟨?_, ?_⟩
  · unfold clockPercent
    rw [if_neg (by omega)]
  · have hη : (1 : ℚ) / 2 ^ 1075 ≤ 1 / 2 ^ 53 := by norm_num
    -- the ceiling
    have hk := binary64_120
    have hck0 : 0 ≤ (c : ℚ) * binary64 (120 / 100) := mul_nonneg hc0.le hk.1
    have hck : (c : ℚ) * binary64 (120 / 100) ≤ (c : ℚ) * (120 / 100) :=
      mul_le_mul_of_nonneg_left hk.2 hc0.le
    have hU := (binary64_bounds _ _ (le_of_eq (abs_of_nonneg hck0))).2
    unfold clockCeiling at h2
    -- the difference
    have ha0 : 0 ≤ value - (c : ℚ) := by linarith
    have ht1 := (binary64_bounds _ _ (le_of_eq (abs_of_nonneg ha0))).2
    have ht1' := binary64_nonneg _ ha0
    -- the quotient
    have hq0 : 0 ≤ binary64 (value - (c : ℚ)) / (c : ℚ) := div_nonneg ht1' hc0.le
    have hq : binary64 (value - (c : ℚ)) / (c : ℚ) ≤ 20 / 100 + 4 / 2 ^ 53 := by
      rw [div_le_iff₀ hc0]
      have e : (20 / 100 + 4 / 2 ^ 53 : ℚ) * c =
          (c : ℚ) * (20 / 100) + (c : ℚ) * (4 / 2 ^ 53) := by ring
      rw [e]
      have h4 : (4 : ℚ) / 2 ^ 53 ≤ (c : ℚ) * (4 / 2 ^ 53) := by
        have := mul_le_mul_of_nonneg_right hcq (show (0 : ℚ) ≤ 4 / 2 ^ 53 by positivity)
        linarith
      have h5 : (value - (c : ℚ)) / 2 ^ 53 ≤ ((c : ℚ) * (21 / 100)) / 2 ^ 53 := by
        apply div_le_div_of_nonneg_right _ (by positivity)
        have : (c : ℚ) * binary64 (120 / 100) / 2 ^ 53 ≤ (c : ℚ) * (120 / 100) / 2 ^ 53 :=
          div_le_div_of_nonneg_right hck (by positivity)
        have h6 : (c : ℚ) * (120 / 100) / 2 ^ 53 ≤ (c : ℚ) * (1 / 200) := by
          have : (0 : ℚ) ≤ (c : ℚ) := hc0.le
          have e2 : (c : ℚ) * (120 / 100) / 2 ^ 53 = (c : ℚ) * (120 / 100 / 2 ^ 53) := by ring
          rw [e2]
          exact mul_le_mul_of_nonneg_left (by norm_num) this
        have h7 : (1 : ℚ) / 2 ^ 1075 ≤ (c : ℚ) * (1 / 200) := by
          have := mul_le_mul_of_nonneg_right hcq (show (0 : ℚ) ≤ 1 / 200 by norm_num)
          have h8 : (1 : ℚ) / 2 ^ 1075 ≤ 1 / 200 := by norm_num
          linarith
        linarith
      have h9 : (c : ℚ) * (120 / 100) / 2 ^ 53 + (c : ℚ) * (21 / 100) / 2 ^ 53 ≤
          (c : ℚ) * (2 / 2 ^ 53) := by
        have e3 : (c : ℚ) * (120 / 100) / 2 ^ 53 + (c : ℚ) * (21 / 100) / 2 ^ 53 =
            (c : ℚ) * (141 / 100 / 2 ^ 53) := by ring
        rw [e3]
        exact mul_le_mul_of_nonneg_left (by norm_num) hc0.le
      have h10 : (c : ℚ) * binary64 (120 / 100) / 2 ^ 53 ≤ (c : ℚ) * (120 / 100) / 2 ^ 53 :=
        div_le_div_of_nonneg_right hck (by positivity)
      have h11 : (2 : ℚ) / 2 ^ 1075 ≤ (c : ℚ) * (2 / 2 ^ 53) := by
        have := mul_le_mul_of_nonneg_right hcq (show (0 : ℚ) ≤ 2 / 2 ^ 53 by positivity)
        have h12 : (2 : ℚ) / 2 ^ 1075 ≤ 2 / 2 ^ 53 := by norm_num
        linarith
      have e4 : (c : ℚ) * (4 / 2 ^ 53) = (c : ℚ) * (2 / 2 ^ 53) + (c : ℚ) * (2 / 2 ^ 53) := by
        ring
      have e5 : (2 : ℚ) / 2 ^ 1075 = 1 / 2 ^ 1075 + 1 / 2 ^ 1075 := by ring
      linarith
    have ht2 := (binary64_bounds _ _ (le_of_eq (abs_of_nonneg hq0))).2
    have ht2' := binary64_nonneg _ hq0
    -- the product
    have hp0 : 0 ≤ binary64 (binary64 (value - (c : ℚ)) / (c : ℚ)) * 100 :=
      mul_nonneg ht2' (by norm_num)
    have ht3 := (binary64_bounds _ _ (le_of_eq (abs_of_nonneg hp0))).2
    have ht3' := binary64_nonneg _ hp0
    have hq53 : binary64 (value - (c : ℚ)) / (c : ℚ) / 2 ^ 53 ≤ (20 / 100 + 4 / 2 ^ 53) / 2 ^ 53 :=
      div_le_div_of_nonneg_right hq (by positivity)
    have ht2b : binary64 (binary64 (value - (c : ℚ)) / (c : ℚ)) ≤ 20 / 100 + 6 / 2 ^ 53 := by
      have : ((20 : ℚ) / 100 + 4 / 2 ^ 53) / 2 ^ 53 ≤ 1 / 2 ^ 53 := by norm_num
      have e6 : (6 : ℚ) / 2 ^ 53 = 4 / 2 ^ 53 + 1 / 2 ^ 53 + 1 / 2 ^ 53 := by ring
      linarith
    have hp53 : binary64 (binary64 (value - (c : ℚ)) / (c : ℚ)) * 100 / 2 ^ 53 ≤
        (20 / 100 + 6 / 2 ^ 53) * 100 / 2 ^ 53 := by
      apply div_le_div_of_nonneg_right _ (by positivity)
      linarith
    have hfin : binary64 (binary64 (binary64 (value - (c : ℚ)) / (c : ℚ)) * 100) <
        ((20 : Int) : ℚ) + 1 / 2 := by
      have : ((20 : ℚ) / 100 + 6 / 2 ^ 53) * 100 + (20 / 100 + 6 / 2 ^ 53) * 100 / 2 ^ 53 +
          1 / 2 ^ 1075 < 20 + 1 / 2 := by norm_num
      push_cast
      linarith
    exact ⟨cround_lower _ 0 (by push_cast; linarith), cround_upper _ 20 hfin⟩

/-- The calls of one directive of a validated batch on one adapter it resolves to carry a
percentage in `[0, 20]`, provided the base clock a clock directive with a value is measured
against is not 0. -/
theorem amdgpu_pair_percentage (N : Nat) (params : List OVCParameter)
    (perfClocks : List PerfClocks) (junk : PerfClocks)
    (hv : (AMDGPU.validate N params perfClocks junk).failed = false)
    (p : OVCParameter) (hp : p ∈ params) (d : Int)
    (hd : d ∈ iterate p.adapters p.allAdapters (N : Int))
    (hc : p.type = OVCParamType.CORE_CLOCK ∨ p.type = OVCParamType.MEMORY_CLOCK →
      p.useDefault = false → 0 < baseClock p.type (readAt perfClocks d junk))
    (call : AMDGPUCall) (hcall : call ∈ AMDGPU.setParamAt perfClocks junk p d) :
    ∃ v : Int, (call = AMDGPUCall.setOverdriveCoreParam d (some v) ∨
      call = AMDGPUCall.setOverdriveMemoryParam d (some v)) ∧ 0 ≤ v ∧ v ≤ 20 := by
  unfold AMDGPU.setParamAt at hcall
  dsimp only at hcall
  cases ht : p.type <;> rw [ht] at hcall <;> dsimp only at hcall
  case VDDC_VOLTAGE => exact absurd hcall (List.not_mem_nil _)
  case FAN_SPEED => exact absurd hcall (List.not_mem_nil _)
  case CORE_CLOCK =>
    cases hu : p.useDefault
    · rw [hu] at hcall
      simp only [Bool.false_eq_true, if_false, List.mem_singleton] at hcall
      have hb := amdgpu_validated_clock N params perfClocks junk hv p hp (Or.inl ht) hu d hd
      have h0 := hc (Or.inl ht) hu
      rw [ht] at hb h0
      simp only [baseClock, reduceCtorEq, if_false] at hb h0
      obtain ⟨e, b1, b2⟩ := clockPercent_bounds p.value _ h0 hb.1 hb.2
      rw [e] at hcall
      exact ⟨_, Or.inl hcall, b1, b2⟩
    · rw [hu] at hcall
      simp only [if_true, List.mem_singleton] at hcall
      exact ⟨0, Or.inl hcall, by decide, by decide⟩
  case MEMORY_CLOCK =>
    cases hu : p.useDefault
    · rw [hu] at hcall
      simp only [Bool.false_eq_true, if_false, List.mem_singleton] at hcall
      have hb := amdgpu_validated_clock N params perfClocks junk hv p hp (Or.inr ht) hu d hd
      have h0 := hc (Or.inr ht) hu
      rw [ht] at hb h0
      simp only [baseClock, if_true] at hb h0
      obtain ⟨e, b1, b2⟩ := clockPercent_bounds p.value _ h0 hb.1 hb.2
      rw [e] at hcall
      exact ⟨_, Or.inr hcall, b1, b2⟩
    · rw [hu] at hcall
      simp only [if_true, List.mem_singleton] at hcall
      exact ⟨0, Or.inr hcall, by decide, by decide⟩
  case CORE_OD =>
    cases hu : p.useDefault
    · rw [hu] at hcall
      simp only [Bool.false_eq_true, if_false, List.mem_singleton] at hcall
      have hb := amdgpu_validated_overdrive N params perfClocks junk hv p hp (Or.inl ht) hu d hd
      have hr := cround_bounds p.value 0 20 (by push_cast; exact hb.1) (by push_cast; exact hb.2)
      exact ⟨_, Or.inl hcall, hr.1, hr.2⟩
    · rw [hu] at hcall
      simp only [if_true, List.mem_singleton] at hcall
      exact ⟨0, Or.inl hcall, by decide, by decide⟩
  case MEMORY_OD =>
    cases hu : p.useDefault
    · rw [hu] at hcall
      simp only [Bool.false_eq_true, if_false, List.mem_singleton] at hcall
      have hb := amdgpu_validated_overdrive N params perfClocks junk hv p hp (Or.inr ht) hu d hd
      have hr := cround_bounds p.value 0 20 (by push_cast; exact hb.1) (by push_cast; exact hb.2)
      exact ⟨_, Or.inr hcall, hr.1, hr.2⟩
    · rw [hu] at hcall
      simp only [if_true, List.mem_singleton] at hcall
      exact ⟨0, Or.inr hcall, by decide, by decide⟩

/-- The overdrive calls of a validated batch come from a directive and an adapter it resolves
to. -/
theorem amdgpu_overdrive_call_origin (N : Nat) (params : List OVCParameter)
    (perfClocks : List PerfClocks) (junk : PerfClocks)
    (hv : (AMDGPU.validate N params perfClocks junk).failed = false)
    (call : AMDGPUCall) (hcall : call ∈ (AMDGPU.setOVCParameters N params perfClocks junk).calls)
    (hfan : call.isFan = false) :
    ∃ p ∈ params, ∃ d ∈ iterate p.adapters p.allAdapters (N : Int),
      call ∈ AMDGPU.setParamAt perfClocks junk p d := by
  have h := amdgpu_overdrive_calls N params perfClocks junk hv
  have hm : call ∈ (AMDGPU.setOVCParameters N params perfClocks junk).calls.filter
      (fun c => !c.isFan) := by
    rw [List.mem_filter]
    exact ⟨hcall, by rw [hfan]; rfl⟩
  rw [h, List.mem_flatMap] at hm
  obtain ⟨p, hp, hc⟩ := hm
  split at hc
  · rw [List.mem_flatMap] at hc
    obtain ⟨d, hd, hc⟩ := hc
    exact ⟨p, hp, d, hd, hc⟩
  · exact absurd hc (List.not_mem_nil _)

/-- C34: for a batch that passes validation in the AMDGPU engine of `amdcovc.cpp` or in
`AmdGpuProOvc::Set`, a directive of it and an adapter `d` it resolves to: a `coreclk` or `memclk`
directive with a value lies within `[c, 1.20 * c]` of the base clock `c` of `d`, and when `c` is
not 0 its percentage `round((value - c) / c * 100)` lies in `[0, 20]`; a `coreod` or `memod`
directive with a value lies in `[0, 20]` and so does its percentage `round(value)`; every
overdrive call issued for the pair carries a percentage in `[0, 20]`.  When every base clock is
positive, every overdrive call of the batch carries a percentage in `[0, 20]`.  The ceiling
`1.20 * c` is `clockCeiling c` and the difference, the quotient and the product of the percentage
are those of the source, each in binary64. -/
theorem amdgpu_percentage_envelope (N : Nat) (params : List OVCParameter)
    (perfClocks : List PerfClocks) (junk : PerfClocks)
    (hv : (AMDGPU.validate N params perfClocks junk).failed = false) :
    (∀ p ∈ params, ∀ d ∈ iterate p.adapters p.allAdapters (N : Int),
      (p.type = OVCParamType.CORE_CLOCK ∨ p.type = OVCParamType.MEMORY_CLOCK →
        p.useDefault = false → 0 < baseClock p.type (readAt perfClocks d junk) →
        ((baseClock p.type (readAt perfClocks d junk) : ℚ) ≤ p.value ∧
          p.value ≤ clockCeiling (baseClock p.type (readAt perfClocks d junk))) ∧
        clockPercent p.value (baseClock p.type (readAt perfClocks d junk)) =
          some (cround (binary64 (binary64
            (binary64 (p.value - (baseClock p.type (readAt perfClocks d junk) : ℚ)) /
              (baseClock p.type (readAt perfClocks d junk) : ℚ)) * 100))) ∧
        0 ≤ cround (binary64 (binary64
            (binary64 (p.value - (baseClock p.type (readAt perfClocks d junk) : ℚ)) /
              (baseClock p.type (readAt perfClocks d junk) : ℚ)) * 100)) ∧
        cround (binary64 (binary64
            (binary64 (p.value - (baseClock p.type (readAt perfClocks d junk) : ℚ)) /
              (baseClock p.type (readAt perfClocks d junk) : ℚ)) * 100)) ≤ 20) ∧
      (p.type = OVCParamType.CORE_OD ∨ p.type = OVCParamType.MEMORY_OD →
        p.useDefault = false →
        (0 ≤ p.value ∧ p.value ≤ 20) ∧ 0 ≤ cround p.value ∧ cround p.value ≤ 20) ∧
      ((p.type = OVCParamType.CORE_CLOCK ∨ p.type = OVCParamType.MEMORY_CLOCK →
          p.useDefault = false → 0 < baseClock p.type (readAt perfClocks d junk)) →
        ∀ call ∈ AMDGPU.setParamAt perfClocks junk p d,
          ∃ v : Int, (call = AMDGPUCall.setOverdriveCoreParam d (some v) ∨
            call = AMDGPUCall.setOverdriveMemoryParam d (some v)) ∧ 0 ≤ v ∧ v ≤ 20)) ∧
    ((∀ d : Int, 0 ≤ d → d < (N : Int) →
        0 < (readAt perfClocks d junk).coreClock ∧ 0 < (readAt perfClocks d junk).memoryClock) →
      (∀ call ∈ (AMDGPU.setOVCParameters N params perfClocks junk).calls, call.isFan = false →
        ∃ (i v : Int), (call = AMDGPUCall.setOverdriveCoreParam i (some v) ∨
          call = AMDGPUCall.setOverdriveMemoryParam i (some v)) ∧ 0 ≤ v ∧ v ≤ 20) ∧
      (∀ call ∈ (AmdGpuProOvc.Set N params perfClocks junk).calls, call.isFan = false →
        ∃ (i v : Int), (call = AMDGPUCall.setOverdriveCoreParam i (some v) ∨
          call = AMDGPUCall.setOverdriveMemoryParam i (some v)) ∧ 0 ≤ v ∧ v ≤ 20)) := by
  have hall : (∀ d : Int, 0 ≤ d → d < (N : Int) →
        0 < (readAt perfClocks d junk).coreClock ∧ 0 < (readAt perfClocks d junk).memoryClock) →
      ∀ call ∈ (AMDGPU.setOVCParameters N params perfClocks junk).calls, call.isFan = false →
        ∃ (i v : Int), (call = AMDGPUCall.setOverdriveCoreParam i (some v) ∨
          call = AMDGPUCall.setOverdriveMemoryParam i (some v)) ∧ 0 ≤ v ∧ v ≤ 20 := by
    intro hpos call hcall hfan
    obtain ⟨p, hp, d, hd, hc⟩ :=
      amdgpu_overdrive_call_origin N params perfClocks junk hv call hcall hfan
    have hr := amdgpu_validated_inRange N params perfClocks junk hv p hp d hd
    obtain ⟨v, h1, h2⟩ := amdgpu_pair_percentage N params perfClocks junk hv p hp d hd
      (fun _ _ => by
        unfold baseClock
        split
        · exact (hpos d hr.1 hr.2).2
        · exact (hpos d hr.1 hr.2).1) call hc
    exact ⟨d, v, h1, h2⟩
  refine ⟨fun p hp d hd => ⟨fun ht hu hc => ?_, fun ht hu => ?_, fun hc call hcall =>
    amdgpu_pair_percentage N params perfClocks junk hv p hp d hd hc call hcall⟩,
    fun hpos => ⟨hall hpos, by rw [proovc_Set_eq]; exact hall hpos⟩⟩
  · have hb := amdgpu_validated_clock N params perfClocks junk hv p hp ht hu d hd
    exact ⟨hb, clockPercent_bounds p.value _ hc hb.1 hb.2⟩
  · have hb := amdgpu_validated_overdrive N params perfClocks junk hv p hp ht hu d hd
    exact ⟨hb, cround_bounds p.value 0 20 (by push_cast; exact hb.1)
      (by push_cast; exact hb.2)⟩

/-- Witness of C34: with base clocks 1000 and 1500, `coreclk:0=1200` is sent as 20 per cent,
`memclk:0=1500` as 0 and `coreod:0=19.5` as 20; with base core clock 1002 the value
1202.3999999999999, the double `1002 * 1.20`, passes and is sent as 20. -/
theorem amdgpu_percentage_envelope_witness :
    (AMDGPU.setOVCParameters 1
        [directive "coreclk:0=1200", directive "memclk:0=1500", directive "coreod:0=19.5"]
        [⟨1000, 1500⟩] ⟨0, 0⟩).calls =
      [AMDGPUCall.setOverdriveCoreParam 0 (some 20),
        AMDGPUCall.setOverdriveMemoryParam 0 (some 0),
        AMDGPUCall.setOverdriveCoreParam 0 (some 20)] ∧
    (directive "coreclk:0=1202.3999999999999").value = clockCeiling 1002 ∧
    (AMDGPU.setOVCParameters 1 [directive "coreclk:0=1202.3999999999999"]
        [⟨1002, 1500⟩] ⟨0, 0⟩).calls = [AMDGPUCall.setOverdriveCoreParam 0 (some 20)] ∧
    ∀ call ∈ (AMDGPU.setOVCParameters 1
        [directive "coreclk:0=1200", directive "memclk:0=1500", directive "coreod:0=19.5"]
        [⟨1000, 1500⟩] ⟨0, 0⟩).calls, call.isFan = false →
      ∃ (i v : Int), (call = AMDGPUCall.setOverdriveCoreParam i (some v) ∨
        call = AMDGPUCall.setOverdriveMemoryParam i (some v)) ∧ 0 ≤ v ∧ v ≤ 20 :=
  ⟨by decide!, by decide!, by decide!,
    ((amdgpu_percentage_envelope 1
      [directive "coreclk:0=1200", directive "memclk:0=1500", directive "coreod:0=19.5"]
      [⟨1000, 1500⟩] ⟨0, 0⟩ (by decide!)).2 (fun d h0 h1 => by
        have hd : d = 0 := by omega
        subst hd
        decide)).1⟩

/-- C35 at the failing input: on a device whose base core clock is 0 the directive
`coreclk:0=0`, which is not `default`, passes validation in both AMDGPU engines, and the call
issued for it computes `(0 - 0) / 0`: the percentage has no value.  In general, for a batch that
passes validation, a clock directive with a value and an adapter it resolves to: when the base
clock is 0 the value is 0 and the percentage has no value; when the base clock is not 0 the
percentage has one. -/
theorem zero_base_clock_division :
    (directive "coreclk:0=0").useDefault = false ∧
    (AMDGPU.validate 1 [directive "coreclk:0=0"] [⟨0, 0⟩] ⟨0, 0⟩).failed = false ∧
    (AMDGPU.setOVCParameters 1 [directive "coreclk:0=0"] [⟨0, 0⟩] ⟨0, 0⟩).thrown = none ∧
    (AMDGPU.setOVCParameters 1 [directive "coreclk:0=0"] [⟨0, 0⟩] ⟨0, 0⟩).calls =
      [AMDGPUCall.setOverdriveCoreParam 0 none] ∧
    (AmdGpuProOvc.Set 1 [directive "coreclk:0=0"] [⟨0, 0⟩] ⟨0, 0⟩).calls =
      [AMDGPUCall.setOverdriveCoreParam 0 none] ∧
    (AmdGpuProOvc.Set 1 [directive "memclk:0=0"] [⟨1000, 0⟩] ⟨0, 0⟩).calls =
      [AMDGPUCall.setOverdriveMemoryParam 0 none] ∧
    (∀ (N : Nat) (params : List OVCParameter) (perfClocks : List PerfClocks)
      (junk : PerfClocks), (AMDGPU.validate N params perfClocks junk).failed = false →
      ∀ p ∈ params, ∀ d ∈ iterate p.adapters p.allAdapters (N : Int),
        p.type = OVCParamType.CORE_CLOCK ∨ p.type = OVCParamType.MEMORY_CLOCK →
        p.useDefault = false →
        (baseClock p.type (readAt perfClocks d junk) = 0 →
          p.value = 0 ∧
            clockPercent p.value (baseClock p.type (readAt perfClocks d junk)) = none) ∧
        (baseClock p.type (readAt perfClocks d junk) ≠ 0 →
          ∃ v, clockPercent p.value (baseClock p.type (readAt perfClocks d junk)) =
            some v)) := by
  refine ⟨by decide!, by decide!, by decide!, by decide!, by decide!, by decide!, ?_⟩
  intro N params perfClocks junk hv p hp d hd ht hu
  have hb := amdgpu_validated_clock N params perfClocks junk hv p hp ht hu d hd
  constructor
  · intro h0
    rw [h0] at hb ⊢
    refine ⟨?_, rfl⟩
    have h1 := hb.1
    have h2 := hb.2
    have e0 : clockCeiling 0 = 0 := by decide!
    rw [e0] at h2
    push_cast at h1
    linarith
  · intro hne
    exact ⟨_, (clockPercent_bounds p.value _ (Nat.pos_of_ne_zero hne) hb.1 hb.2).1⟩

/-- A message that the check of one adapter of a directive prints whatever the state is printed
by the Catalyst validation of every batch that holds the directive, which then fails. -/
theorem adl_failed_of_step (mc : ADLMainControl) (active : List Int)
    (params : List OVCParameter) (junk : ADLODParameters) (p : OVCParameter) (hp : p ∈ params)
    (ht : p.type ≠ OVCParamType.FAN_SPEED) (d : Int)
    (hd : d ∈ iterate p.adapters p.allAdapters (active.length : Int)) (k : DiagKind)
    (hstep : ∀ st, ADL.checkOtherAt (ADL.readODParams mc active) junk active.length p st d =
      st.report k p) :
    (ADL.validate mc active params junk).failed = true := by
  have hm : (⟨k, p.argText⟩ : Diag) ∈ (ADL.validate mc active params junk).err := by
    unfold ADL.validate ADL.checkOther
    dsimp only
    refine mem_err_foldl _ ?_ params p hp _ ?_ _
    · intro st q
      split
      · exact Check.Ext.foldl _ (adl_checkOtherAt_ext _ junk _ q) _ st
      · exact Check.Ext.refl _
    · intro st
      rw [if_pos ht]
      refine mem_err_foldl _ (adl_checkOtherAt_ext _ junk _ p) _ d hd _ ?_ st
      intro st1
      rw [hstep]
      simp [Check.report]
  rw [(adl_validate_ext mc active params junk).failed_iff]
  exact List.ne_nil_of_mem hm

/-- The check of an adapter `i < N` for a directive whose level is out of range there. -/
theorem adl_level_step (odParams : List ADLODParameters) (junk : ADLODParameters) (N : Int)
    (p : OVCParameter) (st : Check) (i : Int) (hN : i < N)
    (h : ¬ (0 ≤ ADL.resolveLevel odParams junk p i ∧ ADL.resolveLevel odParams junk p i <
      ((readAt odParams i junk).iNumberOfPerformanceLevels : Int))) :
    ADL.checkOtherAt odParams junk N p st i = st.report DiagKind.perfLevel p := by
  unfold ADL.resolveLevel at h
  unfold ADL.checkOtherAt
  rw [if_neg (by omega)]
  dsimp only
  rw [if_pos (by
    rw [Bool.or_eq_true, decide_eq_true_eq, decide_eq_true_eq]
    by_contra hc
    rw [not_or, not_le, not_lt] at hc
    exact h ⟨hc.2, hc.1⟩)]

/-- The range check of an adapter `i < N` for a directive whose level is in range there. -/
theorem adl_range_step (odParams : List ADLODParameters) (junk : ADLODParameters)
    (N : Int) (param : OVCParameter) (st : Check) (i : Int) (lo hi : ℚ) (kind : DiagKind)
    (hiN : i < N)
    (h0 : 0 ≤ ADL.resolveLevel odParams junk param i)
    (h1 : ADL.resolveLevel odParams junk param i <
      ((readAt odParams i junk).iNumberOfPerformanceLevels : Int))
    (hr : rangeOf (readAt odParams i junk) param.type = some (lo, hi, kind)) :
    ADL.checkOtherAt odParams junk N param st i =
      if param.useDefault = false ∧ (param.value < lo ∨ param.value > hi) then
        st.report kind param
      else st := by
  unfold ADL.resolveLevel at h0 h1
  unfold ADL.checkOtherAt
  rw [if_neg (by omega)]
  dsimp only
  rw [if_neg (by simp; omega)]
  cases ht : param.type <;> rw [ht] at hr <;> simp only [rangeOf] at hr
  case FAN_SPEED => exact absurd hr (by simp)
  case CORE_OD => exact absurd hr (by simp)
  case MEMORY_OD => exact absurd hr (by simp)
  all_goals
    simp only [Option.some.injEq, Prod.mk.injEq] at hr
    obtain ⟨rfl, rfl, rfl⟩ := hr
    cases hd : param.useDefault <;> simp

/-- In a batch that passes the Catalyst validation the level of every directive other than a
fan speed one is in range on every adapter it resolves to. -/
theorem adl_validated_level (mc : ADLMainControl) (active : List Int)
    (params : List OVCParameter) (junk : ADLODParameters)
    (hv : (ADL.validate mc active params junk).failed = false)
    (p : OVCParameter) (hp : p ∈ params) (ht : p.type ≠ OVCParamType.FAN_SPEED) (d : Int)
    (hd : d ∈ iterate p.adapters p.allAdapters (active.length : Int)) :
    0 ≤ ADL.resolveLevel (ADL.readODParams mc active) junk p d ∧
      ADL.resolveLevel (ADL.readODParams mc active) junk p d <
        ((readAt (ADL.readODParams mc active) d junk).iNumberOfPerformanceLevels : Int) := by
  by_contra hc
  have hN := (adl_validated_inRange mc active params junk hv p hp d hd).2
  have := adl_failed_of_step mc active params junk p hp ht d hd DiagKind.perfLevel
    (fun st => adl_level_step _ junk _ p st d hN hc)
  rw [hv] at this
  exact absurd this (by decide)

/-- In a batch that passes the Catalyst validation the value of a clock or voltage directive
lies within the interval of every adapter it resolves to. -/
theorem adl_validated_range (mc : ADLMainControl) (active : List Int)
    (params : List OVCParameter) (junk : ADLODParameters)
    (hv : (ADL.validate mc active params junk).failed = false)
    (p : OVCParameter) (hp : p ∈ params) (hu : p.useDefault = false) (d : Int)
    (hd : d ∈ iterate p.adapters p.allAdapters (active.length : Int))
    (lo hi : ℚ) (kind : DiagKind)
    (hr : rangeOf (readAt (ADL.readODParams mc active) d junk) p.type = some (lo, hi, kind)) :
    lo ≤ p.value ∧ p.value ≤ hi := by
  have ht : p.type ≠ OVCParamType.FAN_SPEED := by
    intro h
    rw [h] at hr
    simp [rangeOf] at hr
  have hN := (adl_validated_inRange mc active params junk hv p hp d hd).2
  have hl := adl_validated_level mc active params junk hv p hp ht d hd
  by_contra hc
  have := adl_failed_of_step mc active params junk p hp ht d hd kind (fun st => by
    rw [adl_range_step _ junk _ p st d lo hi kind hN hl.1 hl.2 hr, if_pos]
    refine ⟨hu, ?_⟩
    by_contra hn
    rw [not_or, not_lt, not_lt] at hn
    exact hc hn)
  rw [hv] at this
  exact absurd this (by decide)

/-- In a batch that passes the Catalyst validation every fan speed directive names thermal
controller 0 and, when it has a value, one in `[0, 100]`. -/
theorem adl_validated_fan (mc : ADLMainControl) (active : List Int)
    (params : List OVCParameter) (junk : ADLODParameters)
    (hv : (ADL.validate mc active params junk).failed = false)
    (p : OVCParameter) (hp : p ∈ params) (ht : p.type = OVCParamType.FAN_SPEED) :
    p.partId = 0 ∧ (p.useDefault = false → 0 ≤ p.value ∧ p.value ≤ 100) := by
  have hd : fanDiags p = [] := by
    by_contra h
    have hfan : (ADL.checkFanSpeed params
        (ADL.checkIndices params active.length ⟨false, []⟩)).failed = true := by
      rw [adl_checkFanSpeed_eq]
      simp [flatMap_fanDiags_ne_nil params p hp h]
    have := (adl_checkOther_ext (ADL.readODParams mc active) junk active.length params
      _).failed_mono hfan
    have hv1 : (ADL.validate mc active params junk).failed = true := this
    rw [hv] at hv1
    exact absurd hv1 (by decide)
  have h1 := (not_congr (fanDiags_ne_nil p)).mp (by rw [hd]; simp)
  rw [not_and_or] at h1
  rcases h1 with h1 | h1
  · exact absurd ht h1
  · rw [not_or] at h1
    refine ⟨not_not.mp h1.1, fun hu => ?_⟩
    have h2 := h1.2
    rw [not_and_or] at h2
    rcases h2 with h2 | h2
    · exact absurd hu h2
    · rw [not_or, not_lt, not_lt] at h2
      exact h2

theorem lastFan_mem (params : List OVCParameter) (N : Int) (d : Nat) (p : OVCParameter)
    (h : lastFan params N d = some p) : p ∈ params ∧ p.type = OVCParamType.FAN_SPEED := by
  unfold lastFan at h
  have hm := List.mem_of_getLast?_eq_some h
  rw [List.mem_filter] at hm
  refine ⟨hm.1, ?_⟩
  have := hm.2
  simp only [Bool.and_eq_true, decide_eq_true_eq] at this
  exact this.1

/-- A value that lies between the binary64 quotients `lo / k` and `hi / k` of two `int`
bounds, multiplied by `k` (100 or 1000) in binary64 and rounded by `round`, lies between the
bounds. -/
theorem scaled_round_bounds (v : ℚ) (lo hi : Int) (k : ℚ) (hk : k = 100 ∨ k = 1000)
    (hlo : INT_MIN ≤ lo ∧ lo ≤ INT_MAX) (hhi : INT_MIN ≤ hi ∧ hi ≤ INT_MAX)
    (h1 : binary64 ((lo : ℚ) / k) ≤ v) (h2 : v ≤ binary64 ((hi : ℚ) / k)) :
    lo ≤ cround (binary64 (v * k)) ∧ cround (binary64 (v * k)) ≤ hi := by
  have hlo1 : (-(2 : ℚ) ^ 31) ≤ (lo : ℚ) := by
    have := hlo.1
    unfold INT_MIN at this
    exact_mod_cast this
  have hlo2 : (lo : ℚ) ≤ 2 ^ 31 := by
    have := hlo.2
    unfold INT_MAX at this
    have h3 : (lo : ℚ) ≤ ((2 ^ 31 - 1 : Int) : ℚ) := by exact_mod_cast this
    push_cast at h3
    linarith
  have hhi1 : (-(2 : ℚ) ^ 31) ≤ (hi : ℚ) := by
    have := hhi.1
    unfold INT_MIN at this
    exact_mod_cast this
  have hhi2 : (hi : ℚ) ≤ 2 ^ 31 := by
    have := hhi.2
    unfold INT_MAX at this
    have h3 : (hi : ℚ) ≤ ((2 ^ 31 - 1 : Int) : ℚ) := by exact_mod_cast this
    push_cast at h3
    linarith
  have hk0 : (0 : ℚ) < k := by rcases hk with h | h <;> norm_num [h]
  have hk1 : (100 : ℚ) ≤ k := by rcases hk with h | h <;> norm_num [h]
  have hk2 : k ≤ 1000 := by rcases hk with h | h <;> norm_num [h]
  -- the quotients
  have hql : |(lo : ℚ) / k| ≤ 2 ^ 31 / 100 := by
    rw [abs_div, abs_of_pos hk0, div_le_div_iff₀ hk0 (by norm_num)]
    have : |(lo : ℚ)| ≤ 2 ^ 31 := abs_le.mpr ⟨by linarith, hlo2⟩
    calc |(lo : ℚ)| * 100 ≤ 2 ^ 31 * 100 := mul_le_mul_of_nonneg_right this (by norm_num)
      _ ≤ 2 ^ 31 * k := mul_le_mul_of_nonneg_left hk1 (by norm_num)
  have hqh : |(hi : ℚ) / k| ≤ 2 ^ 31 / 100 := by
    rw [abs_div, abs_of_pos hk0, div_le_div_iff₀ hk0 (by norm_num)]
    have : |(hi : ℚ)| ≤ 2 ^ 31 := abs_le.mpr ⟨by linarith, hhi2⟩
    calc |(hi : ℚ)| * 100 ≤ 2 ^ 31 * 100 := mul_le_mul_of_nonneg_right this (by norm_num)
      _ ≤ 2 ^ 31 * k := mul_le_mul_of_nonneg_left hk1 (by norm_num)
  have hL := (binary64_bounds _ _ hql).1
  have hU := (binary64_bounds _ _ hqh).2
  have hε : (2 : ℚ) ^ 31 / 100 / 2 ^ 53 + 1 / 2 ^ 1075 ≤ 1 / 2 ^ 28 := by norm_num
  -- the value times k
  have hvl : (lo : ℚ) - k * (1 / 2 ^ 28) ≤ v * k := by
    have : (lo : ℚ) / k - 1 / 2 ^ 28 ≤ v := by linarith
    have h3 := mul_le_mul_of_nonneg_right this hk0.le
    have e : ((lo : ℚ) / k - 1 / 2 ^ 28) * k = (lo : ℚ) - k * (1 / 2 ^ 28) := by
      field_simp
      ring
    linarith
  have hvh : v * k ≤ (hi : ℚ) + k * (1 / 2 ^ 28) := by
    have : v ≤ (hi : ℚ) / k + 1 / 2 ^ 28 := by linarith
    have h3 := mul_le_mul_of_nonneg_right this hk0.le
    have e : ((hi : ℚ) / k + 1 / 2 ^ 28) * k = (hi : ℚ) + k * (1 / 2 ^ 28) := by
      field_simp
      ring
    linarith
  have hkε : k * (1 / 2 ^ 28) ≤ 1 / 2 ^ 18 := by
    calc k * (1 / 2 ^ 28) ≤ 1000 * (1 / 2 ^ 28) :=
          mul_le_mul_of_nonneg_right hk2 (by positivity)
      _ ≤ 1 / 2 ^ 18 := by norm_num
  have hB : |v * k| ≤ 2 ^ 32 := by
    rw [abs_le]
    constructor
    · have : (-(2 : ℚ) ^ 32) ≤ -(2 : ℚ) ^ 31 - 1 / 2 ^ 18 := by norm_num
      linarith
    · have : (2 : ℚ) ^ 31 + 1 / 2 ^ 18 ≤ 2 ^ 32 := by norm_num
      linarith
  have hb := binary64_bounds _ _ hB
  have hδ : (2 : ℚ) ^ 32 / 2 ^ 53 + 1 / 2 ^ 1075 ≤ 1 / 2 ^ 20 := by norm_num
  have h18 : (1 : ℚ) / 2 ^ 18 + 1 / 2 ^ 20 < 1 / 2 := by norm_num
  exact ⟨cround_lower _ lo (by linarith [hb.1]), cround_upper _ hi (by linarith [hb.2])⟩

/-- C33: for a batch that passes the Catalyst validation, a directive of it with a value and an
adapter `d` it resolves to, with the parameters `od` read for `d`, whose bounds are `int`s: the
integer `round(value * 100.0)` that the merge writes for `coreclk`, the product taken in
binary64, lies in `[od.sEngineClock.iMin, od.sEngineClock.iMax]`, the one for `memclk` in
`[od.sMemoryClock.iMin, od.sMemoryClock.iMax]`, and the integer `round(value * 1000.0)` written
for `vcore` in `[od.sVddc.iMin, od.sVddc.iMax]`, the value having passed the comparison with
the binary64 quotients `iMin / 100.0` and `iMax / 100.0` (`/ 1000.0` for the voltage); for a fan
speed directive with a value `round(value)` lies in `[0, 100]`, and every `setFanSpeed` call of
the batch passes a speed in `[0, 100]`. -/
theorem catalyst_encoding_in_range (mc : ADLMainControl) (active : List Int)
    (params : List OVCParameter) (junk : ADLODParameters)
    (hv : (ADL.validate mc active params junk).failed = false) :
    (∀ p ∈ params, p.useDefault = false →
      ∀ d ∈ iterate p.adapters p.allAdapters (active.length : Int),
      (readAt (ADL.readODParams mc active) d junk).inIntRange →
      (p.type = OVCParamType.CORE_CLOCK →
        (binary64 (((readAt (ADL.readODParams mc active) d junk).sEngineClock.iMin : ℚ) / 100) ≤
            p.value ∧
          p.value ≤
            binary64 (((readAt (ADL.readODParams mc active) d junk).sEngineClock.iMax : ℚ) /
              100)) ∧
        (readAt (ADL.readODParams mc active) d junk).sEngineClock.iMin ≤
            cround (binary64 (p.value * 100)) ∧
          cround (binary64 (p.value * 100)) ≤
            (readAt (ADL.readODParams mc active) d junk).sEngineClock.iMax) ∧
      (p.type = OVCParamType.MEMORY_CLOCK →
        (binary64 (((readAt (ADL.readODParams mc active) d junk).sMemoryClock.iMin : ℚ) / 100) ≤
            p.value ∧
          p.value ≤
            binary64 (((readAt (ADL.readODParams mc active) d junk).sMemoryClock.iMax : ℚ) /
              100)) ∧
        (readAt (ADL.readODParams mc active) d junk).sMemoryClock.iMin ≤
            cround (binary64 (p.value * 100)) ∧
          cround (binary64 (p.value * 100)) ≤
            (readAt (ADL.readODParams mc active) d junk).sMemoryClock.iMax) ∧
      (p.type = OVCParamType.VDDC_VOLTAGE →
        (binary64 (((readAt (ADL.readODParams mc active) d junk).sVddc.iMin : ℚ) / 1000) ≤
            p.value ∧
          p.value ≤
            binary64 (((readAt (ADL.readODParams mc active) d junk).sVddc.iMax : ℚ) / 1000)) ∧
        (readAt (ADL.readODParams mc active) d junk).sVddc.iMin ≤
            cround (binary64 (p.value * 1000)) ∧
          cround (binary64 (p.value * 1000)) ≤
            (readAt (ADL.readODParams mc active) d junk).sVddc.iMax) ∧
      readAt (ADL.readODParams mc active) d junk =
        mc.getODParameters (active.getD d.toNat 0)) ∧
    (∀ (p : OVCParameter) (lvl dflt : ADLODPerformanceLevel), p.useDefault = false →
      (p.type = OVCParamType.CORE_CLOCK →
        (ADL.mergeLevel p lvl dflt).iEngineClock = cround (binary64 (p.value * 100))) ∧
      (p.type = OVCParamType.MEMORY_CLOCK →
        (ADL.mergeLevel p lvl dflt).iMemoryClock = cround (binary64 (p.value * 100))) ∧
      (p.type = OVCParamType.VDDC_VOLTAGE → lvl.iVddc ≠ 0 →
        (ADL.mergeLevel p lvl dflt).iVddc = cround (binary64 (p.value * 1000)))) ∧
    (∀ p ∈ params, p.type = OVCParamType.FAN_SPEED → p.useDefault = false →
      0 ≤ cround p.value ∧ cround p.value ≤ 100) ∧
    (∀ (a t v : Int),
      ADLCall.setFanSpeed a t v ∈ (ADL.setOVCParameters mc active params junk).calls →
      0 ≤ v ∧ v ≤ 100) := by
  have hfan : ∀ p ∈ params, p.type = OVCParamType.FAN_SPEED → p.useDefault = false →
      0 ≤ cround p.value ∧ cround p.value ≤ 100 := by
    intro p hp ht hu
    have h := (adl_validated_fan mc active params junk hv p hp ht).2 hu
    exact cround_bounds p.value 0 100 (by push_cast; exact h.1) (by push_cast; exact h.2)
  refine ⟨?_, ?_, hfan, ?_⟩
  · intro p hp hu d hd hfit
    have hr := adl_validated_inRange mc active params junk hv p hp d hd
    refine ⟨fun ht => ?_, fun ht => ?_, fun ht => ?_,
      readAt_readODParams mc active junk d hr.1 hr.2⟩
    · have h := adl_validated_range mc active params junk hv p hp hu d hd _ _ _
        (by rw [ht]; rfl)
      exact ⟨h, scaled_round_bounds p.value _ _ 100 (Or.inl rfl) hfit.1.1 hfit.1.2 h.1 h.2⟩
    · have h := adl_validated_range mc active params junk hv p hp hu d hd _ _ _
        (by rw [ht]; rfl)
      exact ⟨h, scaled_round_bounds p.value _ _ 100 (Or.inl rfl) hfit.2.1.1 hfit.2.1.2 h.1 h.2⟩
    · have h := adl_validated_range mc active params junk hv p hp hu d hd _ _ _
        (by rw [ht]; rfl)
      exact ⟨h, scaled_round_bounds p.value _ _ 1000 (Or.inr rfl) hfit.2.2.1 hfit.2.2.2 h.1 h.2⟩
  · intro p lvl dflt hu
    refine ⟨fun ht => ?_, fun ht => ?_, fun ht hz => ?_⟩
    · unfold ADL.mergeLevel; rw [ht]; dsimp only; rw [if_neg (by rw [hu]; decide)]
    · unfold ADL.mergeLevel; rw [ht]; dsimp only; rw [if_neg (by rw [hu]; decide)]
    · unfold ADL.mergeLevel; rw [ht]; dsimp only
      rw [if_neg (by rw [hu]; decide), if_neg hz]
  · intro a t v hcall
    unfold ADL.setOVCParameters at hcall
    simp only [hv, Bool.false_eq_true, if_false, List.mem_append] at hcall
    rcases hcall with h | h
    · rw [adl_commitFan_fanMerge, List.mem_filterMap] at h
      obtain ⟨d, -, hd⟩ := h
      cases hl : lastFan params active.length d with
      | none => rw [hl] at hd; simp at hd
      | some p =>
        rw [hl] at hd
        simp only [Option.map_some', Option.some.injEq] at hd
        obtain ⟨hp, ht⟩ := lastFan_mem params _ d p hl
        cases hu : p.useDefault
        · rw [hu] at hd
          simp only [Bool.false_eq_true, if_false, ADLCall.setFanSpeed.injEq] at hd
          rw [← hd.2.2]
          exact hfan p hp ht hu
        · rw [hu] at hd
          simp at hd
    · unfold ADL.commitLevels at h
      rw [List.mem_filterMap] at h
      obtain ⟨i, -, hi⟩ := h
      split at hi <;> simp at hi

/-- Witness of C33: on the example backend (core clock 300-1200 MHz) the batch
`coreclk:0:1=1199.996 fanspeed:0=99.7` passes validation; the core clock written, 120000, lies
within the bounds 30000 and 120000, and the fan speed passed is 100. -/
theorem catalyst_encoding_in_range_witness :
    (ADL.setOVCParameters exampleControl [0]
        [directive "coreclk:0:1=1199.996", directive "fanspeed:0=99.7"] exampleJunk).calls =
      [ADLCall.setFanSpeed 0 0 100,
        ADLCall.setODPerformanceLevels 0 2 [⟨60000, 100000, 1000⟩, ⟨120000, 100000, 1001⟩]] ∧
    ((readAt (ADL.readODParams exampleControl [0]) 0 exampleJunk).sEngineClock.iMin ≤
        cround (binary64 ((directive "coreclk:0:1=1199.996").value * 100)) ∧
      cround (binary64 ((directive "coreclk:0:1=1199.996").value * 100)) ≤
        (readAt (ADL.readODParams exampleControl [0]) 0 exampleJunk).sEngineClock.iMax) ∧
    cround (binary64 ((directive "coreclk:0:1=1199.996").value * 100)) = 120000 ∧
    (0 : Int) ≤ 100 ∧ (100 : Int) ≤ 100 :=
  ⟨by decide!,
    (((catalyst_encoding_in_range exampleControl [0]
      [directive "coreclk:0:1=1199.996", directive "fanspeed:0=99.7"] exampleJunk
      (by decide!)).1 (directive "coreclk:0:1=1199.996") (by decide!) (by decide!) 0
      (by decide!) (by
        unfold ADLODParameters.inIntRange
        decide!)).1 (by decide!)).2,
    by decide!,
    (catalyst_encoding_in_range exampleControl [0]
      [directive "coreclk:0:1=1199.996", directive "fanspeed:0=99.7"] exampleJunk
      (by decide!)).2.2.2 0 0 100 (by decide!)⟩

/-! ### Index safety -/

theorem adl_fanMerge_length (params : List OVCParameter) (N : Nat) :
    (ADL.fanMerge params N).length = N := by
  unfold ADL.fanMerge
  have key : ∀ (xs : List FanSpeedSetup),
      (params.foldl (fun fanSpeedSetups param =>
        if param.type = OVCParamType.FAN_SPEED then
          (iterate param.adapters param.allAdapters N).foldl
            (fun fanSpeedSetups i =>
              writeAt fanSpeedSetups i ⟨param.value, param.useDefault, true⟩)
            fanSpeedSetups
        else fanSpeedSetups) xs).length = xs.length := by
    induction params with
    | nil => intro xs; rfl
    | cons p ps ih =>
      intro xs
      rw [List.foldl_cons, ih]
      split
      · exact length_foldl_writeAt _ _ _
      · rfl
  rw [key, List.length_replicate]

theorem adl_mergeAt_lengths (odParams : List ADLODParameters) (junk : ADLODParameters)
    (dflt : List (List ADLODPerformanceLevel)) (p : OVCParameter) (ls : ADL.LevelState)
    (i : Int) :
    (ADL.mergeAt odParams junk dflt p ls i).perfLevels.length = ls.perfLevels.length ∧
      (ADL.mergeAt odParams junk dflt p ls i).changedDevices.length =
        ls.changedDevices.length := by
  unfold ADL.mergeAt
  dsimp only
  exact ⟨writeAt_length _ _ _, writeAt_length _ _ _⟩

theorem adl_levelMerge_lengths (odParams : List ADLODParameters) (junk : ADLODParameters)
    (dflt : List (List ADLODPerformanceLevel)) (N : Int) (params : List OVCParameter)
    (ls : ADL.LevelState) :
    (ADL.levelMerge odParams junk dflt N params ls).perfLevels.length = ls.perfLevels.length ∧
      (ADL.levelMerge odParams junk dflt N params ls).changedDevices.length =
        ls.changedDevices.length := by
  unfold ADL.levelMerge
  have inner : ∀ (p : OVCParameter) (is : List Int) (ls : ADL.LevelState),
      (is.foldl (ADL.mergeAt odParams junk dflt p) ls).perfLevels.length =
          ls.perfLevels.length ∧
        (is.foldl (ADL.mergeAt odParams junk dflt p) ls).changedDevices.length =
          ls.changedDevices.length := by
    intro p is
    induction is with
    | nil => intro ls; exact ⟨rfl, rfl⟩
    | cons i is ih =>
      intro ls
      rw [List.foldl_cons]
      have h1 := ih (ADL.mergeAt odParams junk dflt p ls i)
      have h2 := adl_mergeAt_lengths odParams junk dflt p ls i
      exact ⟨h1.1.trans h2.1, h1.2.trans h2.2⟩
  induction params generalizing ls with
  | nil => exact ⟨rfl, rfl⟩
  | cons p ps ih =>
    rw [List.foldl_cons]
    split
    · have h1 := ih ((iterate p.adapters p.allAdapters N).foldl
        (ADL.mergeAt odParams junk dflt p) ls)
      have h2 := inner p (iterate p.adapters p.allAdapters N) ls
      exact ⟨h1.1.trans h2.1, h1.2.trans h2.2⟩
    · exact ih ls

theorem readAt_readPerfLevels_length (mc : ADLMainControl) (active : List Int) (b : Bool)
    (i : Int) (h0 : 0 ≤ i) (h1 : i < (active.length : Int)) :
    (readAt (ADL.readPerfLevels mc active b) i []).length =
      (mc.getODParameters (active.getD i.toNat 0)).iNumberOfPerformanceLevels := by
  unfold readAt
  rw [if_pos h0, getD_readPerfLevels mc active b i.toNat (by omega), List.length_map,
    List.length_range]

/-- C31: for a batch that passes validation, every index of the preview, merge and commit
phases is in bounds.  Catalyst engine: the vectors `odParams`, `perfLevels`,
`defaultPerfLevels`, `fanSpeedSetups` and `changedDevices` have one entry for each of the
`realAdaptersNum` active adapters, before and after the merge; every adapter index `i` a
directive of the batch resolves to satisfies `0 ≤ i < realAdaptersNum`; for a directive other
than a fan speed one the level `partId` resolved for `i` satisfies
`0 ≤ partId < iNumberOfPerformanceLevels`, which is the length of `perfLevels[i]` and of
`defaultPerfLevels[i]`, and a step of the merge keeps the length of every vector and every row.
AMDGPU engine of `amdcovc.cpp` and `AmdGpuProOvc::Set`: `fanSpeedSetups` has `adaptersNum`
entries and every adapter index `i` a directive resolves to satisfies `0 ≤ i < adaptersNum`,
hence is an index of a vector `perfClocks` with `adaptersNum` entries. -/
theorem index_safety_validated (mc : ADLMainControl) (active : List Int)
    (params : List OVCParameter) (junk : ADLODParameters) (N : Nat)
    (perfClocks : List PerfClocks) (cjunk : PerfClocks) :
    ((ADL.validate mc active params junk).failed = false →
      (ADL.readODParams mc active).length = active.length ∧
      (∀ b, (ADL.readPerfLevels mc active b).length = active.length) ∧
      (ADL.fanMerge params active.length).length = active.length ∧
      (ADL.merged mc active params junk).perfLevels.length = active.length ∧
      (ADL.merged mc active params junk).changedDevices.length = active.length ∧
      ∀ p ∈ params, ∀ i ∈ iterate p.adapters p.allAdapters (active.length : Int),
        0 ≤ i ∧ i < (active.length : Int) ∧
        (p.type ≠ OVCParamType.FAN_SPEED →
          0 ≤ ADL.resolveLevel (ADL.readODParams mc active) junk p i ∧
          ADL.resolveLevel (ADL.readODParams mc active) junk p i <
            ((mc.getODParameters (active.getD i.toNat 0)).iNumberOfPerformanceLevels : Int) ∧
          (∀ b, (readAt (ADL.readPerfLevels mc active b) i []).length =
            (mc.getODParameters (active.getD i.toNat 0)).iNumberOfPerformanceLevels) ∧
          (readAt (ADL.merged mc active params junk).perfLevels i []).length =
            (mc.getODParameters (active.getD i.toNat 0)).iNumberOfPerformanceLevels)) ∧
    (∀ (odParams : List ADLODParameters) (dflt : List (List ADLODPerformanceLevel))
        (p : OVCParameter) (ls : ADL.LevelState) (i : Int),
      (ADL.mergeAt odParams junk dflt p ls i).perfLevels.length = ls.perfLevels.length ∧
      (ADL.mergeAt odParams junk dflt p ls i).changedDevices.length =
        ls.changedDevices.length ∧
      ∀ d : Nat, ((ADL.mergeAt odParams junk dflt p ls i).perfLevels.getD d []).length =
        (ls.perfLevels.getD d []).length) ∧
    ((AMDGPU.validate N params perfClocks cjunk).failed = false →
      (AMDGPU.fanMerge params N).length = N ∧
      ∀ p ∈ params, ∀ i ∈ iterate p.adapters p.allAdapters (N : Int),
        0 ≤ i ∧ i < (N : Int) ∧ (perfClocks.length = N → i.toNat < perfClocks.length)) ∧
    ((AmdGpuProOvc.validate N params perfClocks cjunk).failed = false →
      (AmdGpuProOvc.setFanSpeedSetup (List.replicate N ⟨0, false, false⟩) params N).length =
        N ∧
      ∀ p ∈ params, ∀ i ∈ iterate p.adapters p.allAdapters (N : Int),
        0 ≤ i ∧ i < (N : Int) ∧ (perfClocks.length = N → i.toNat < perfClocks.length)) := by
  have hamd : (AMDGPU.validate N params perfClocks cjunk).failed = false →
      ∀ p ∈ params, ∀ i ∈ iterate p.adapters p.allAdapters (N : Int),
        0 ≤ i ∧ i < (N : Int) ∧ (perfClocks.length = N → i.toNat < perfClocks.length) := by
    intro hv p hp i hi
    have h := amdgpu_validated_inRange N params perfClocks cjunk hv p hp i hi
    exact ⟨h.1, h.2, fun hl => by omega⟩
  refine ⟨fun hv => ?_, fun odParams dflt p ls i => ?_, fun hv => ?_, fun hv => ?_⟩
  · have hm := adl_levelMerge_lengths (ADL.readODParams mc active) junk
      (ADL.readPerfLevels mc active true) active.length params
      ⟨ADL.readPerfLevels mc active false, List.replicate active.length false⟩
    have hlen : ∀ b, (ADL.readPerfLevels mc active b).length = active.length := by
      intro b
      unfold ADL.readPerfLevels
      rw [List.length_map]
    refine ⟨by unfold ADL.readODParams; rw [List.length_map], hlen,
      adl_fanMerge_length params active.length, ?_, ?_, ?_⟩
    · unfold ADL.merged
      rw [hm.1]
      exact hlen false
    · unfold ADL.merged
      rw [hm.2, List.length_replicate]
    · intro p hp i hi
      have hr := adl_validated_inRange mc active params junk hv p hp i hi
      refine ⟨hr.1, hr.2, fun ht => ?_⟩
      have hl := adl_validated_level mc active params junk hv p hp ht i hi
      rw [readAt_readODParams mc active junk i hr.1 hr.2] at hl
      refine ⟨hl.1, hl.2,
        fun b => readAt_readPerfLevels_length mc active b i hr.1 hr.2, ?_⟩
      rw [← readAt_readPerfLevels_length mc active false i hr.1 hr.2]
      unfold readAt
      rw [if_pos hr.1, if_pos hr.1]
      unfold ADL.merged
      exact adl_levelMerge_length _ _ _ _ _ _ _
  · have h := adl_mergeAt_lengths odParams junk dflt p ls i
    exact ⟨h.1, h.2, fun d => adl_mergeAt_length odParams junk dflt p ls i d⟩
  · refine ⟨?_, hamd hv⟩
    rw [amdgpu_fanMerge_eq]
    exact adl_fanMerge_length params N
  · refine ⟨?_, hamd hv⟩
    rw [proovc_setFanSpeedSetup_eq]
    exact adl_fanMerge_length params N

/-- Witness of C31: the batch `coreclk:0:1=900 fanspeed:0=50` passes the validation of the
Catalyst example backend with one adapter, the batch `coreod:0=5` the one of the AMDGPU
engines with one adapter; adapter 0 and level 1 are in bounds. -/
theorem index_safety_validated_witness :
    ((0 : Int) ≤ 0 ∧ (0 : Int) < (([0] : List Int).length : Int) ∧
      (0 : Int) ≤ ADL.resolveLevel (ADL.readODParams exampleControl [0]) exampleJunk
        (directive "coreclk:0:1=900") 0 ∧
      ADL.resolveLevel (ADL.readODParams exampleControl [0]) exampleJunk
          (directive "coreclk:0:1=900") 0 <
        ((exampleControl.getODParameters
          (([0] : List Int).getD (0 : Int).toNat 0)).iNumberOfPerformanceLevels : Int)) ∧
    ((0 : Int) ≤ 0 ∧ (0 : Int) < ((1 : Nat) : Int)) ∧
    ((0 : Int) ≤ 0 ∧ (0 : Int) < ((1 : Nat) : Int)) :=
  ⟨(fun h => ⟨h.1, h.2.1, (h.2.2 (by decide!)).1, (h.2.2 (by decide!)).2.1⟩)
      (((index_safety_validated exampleControl [0]
        [directive "coreclk:0:1=900", directive "fanspeed:0=50"] exampleJunk 1 [⟨1000, 1500⟩]
        ⟨0, 0⟩).1 (by decide!)).2.2.2.2.2 (directive "coreclk:0:1=900") (by decide!) 0
        (by decide!)),
    (fun h => ⟨h.1, h.2.1⟩)
      (((index_safety_validated exampleControl [0] [directive "coreod:0=5"] exampleJunk 1
        [⟨1000, 1500⟩] ⟨0, 0⟩).2.2.1 (by decide!)).2 (directive "coreod:0=5") (by decide!) 0
        (by decide!)),
    (fun h => ⟨h.1, h.2.1⟩)
      (((index_safety_validated exampleControl [0] [directive "coreod:0=5"] exampleJunk 1
        [⟨1000, 1500⟩] ⟨0, 0⟩).2.2.2 (by decide!)).2 (directive "coreod:0=5") (by decide!) 0
        (by decide!))⟩

/-- An index the per-kind validation of the Catalyst engine reads is below the adapter count;
a negative one comes from a directive the selector phase reports. -/
theorem adl_checkOtherIndices_mem (N : Nat) (params : List OVCParameter) (i : Int)
    (h : i ∈ ADL.checkOtherIndices (N : Int) params) :
    i < (N : Int) ∧ (i < 0 → ∃ p ∈ params, offending (N : Int) p = true ∧ i ∈ p.adapters) := by
  unfold ADL.checkOtherIndices at h
  rw [List.mem_flatMap] at h
  obtain ⟨p, hp, hi⟩ := h
  split at hi
  · rw [List.mem_filter] at hi
    obtain ⟨hmem, hlt⟩ := hi
    simp only [Bool.not_eq_true', decide_eq_false_iff_not, ge_iff_le, not_le] at hlt
    refine ⟨hlt, fun hneg => ⟨p, hp, ?_⟩⟩
    cases hall : p.allAdapters with
    | true =>
      rw [hall, iterate_all, List.mem_map] at hmem
      obtain ⟨k, -, hk⟩ := hmem
      omega
    | false =>
      rw [hall, iterate_explicit] at hmem
      refine ⟨?_, hmem⟩
      unfold offending
      rw [hall]
      simp only [Bool.not_false, Bool.true_and, List.any_eq_true, Bool.or_eq_true,
        decide_eq_true_eq]
      exact ⟨i, hmem, Or.inl hneg⟩
  · simp at hi

/-- The same for the AMDGPU engine of `amdcovc.cpp` and for `AmdGpuProOvc::checkParameters`,
whose reads are the same list. -/
theorem amdgpu_checkOtherIndices_mem (N : Nat) (params : List OVCParameter) (i : Int)
    (h : i ∈ AMDGPU.checkOtherIndices (N : Int) params) :
    i < (N : Int) ∧ (i < 0 → ∃ p ∈ params, offending (N : Int) p = true ∧ i ∈ p.adapters) := by
  unfold AMDGPU.checkOtherIndices at h
  rw [List.mem_flatMap] at h
  obtain ⟨p, hp, hi⟩ := h
  split at hi
  · rw [List.mem_filter] at hi
    obtain ⟨hmem, hlt⟩ := hi
    rw [Bool.and_eq_true] at hlt
    have hlt := hlt.1
    simp only [Bool.not_eq_true', decide_eq_false_iff_not, ge_iff_le, not_le] at hlt
    refine ⟨hlt, fun hneg => ⟨p, hp, ?_⟩⟩
    cases hall : p.allAdapters with
    | true =>
      rw [hall, iterate_all, List.mem_map] at hmem
      obtain ⟨k, -, hk⟩ := hmem
      omega
    | false =>
      rw [hall, iterate_explicit] at hmem
      refine ⟨?_, hmem⟩
      unfold offending
      rw [hall]
      simp only [Bool.not_false, Bool.true_and, List.any_eq_true, Bool.or_eq_true,
        decide_eq_true_eq]
      exact ⟨i, hmem, Or.inl hneg⟩
  · simp at hi

theorem negative_selector_indices (N : Nat) :
    ADL.checkOtherIndices (N : Int) [directive "coreclk:-1=900"] = [-1] ∧
    AMDGPU.checkOtherIndices (N : Int) [directive "coreclk:-1=900"] = [-1] ∧
    AmdGpuProOvc.checkParametersIndices (N : Int) [directive "coreclk:-1=900"] = [-1] := by
  have e : directive "coreclk:-1=900" =
      ⟨OVCParamType.CORE_CLOCK, [-1], false, LAST_PERFLEVEL, 900, false,
        "coreclk:-1=900".toList⟩ := by decide!
  have hN : ¬ ((-1 : Int) ≥ (N : Int)) := by omega
  refine ⟨?_, ?_, ?_⟩
  · unfold ADL.checkOtherIndices
    rw [e]
    simp [iterate_explicit, hN]
  · unfold AMDGPU.checkOtherIndices
    rw [e]
    simp [iterate_explicit, hN]
  · unfold AmdGpuProOvc.checkParametersIndices
    rw [e]
    simp [iterate_explicit, hN]

/-- C32 at the failing input: the parser accepts the token `coreclk:-1=900` with the adapter
list `[-1]`; for every adapter count `N` the per-kind validation of the Catalyst engine then
evaluates `odParams[-1]`, and the one of both AMDGPU engines `perfClocks[-1]`: the loops skip
an index only when `i >= N`.  What the validation prints depends on what that read yields.
What does hold: an index `i >= N` is skipped, every index read is below `N`, and a negative
index read belongs to a directive the selector phase has reported. -/
theorem negative_index_read :
    parseOVCParameter "coreclk:-1=900".toList 0 =
      ParseResult.accepted (directive "coreclk:-1=900") ∧
    (directive "coreclk:-1=900").adapters = [-1] ∧
    (∀ N : Nat,
      ADL.checkOtherIndices (N : Int) [directive "coreclk:-1=900"] = [-1] ∧
      AMDGPU.checkOtherIndices (N : Int) [directive "coreclk:-1=900"] = [-1] ∧
      AmdGpuProOvc.checkParametersIndices (N : Int) [directive "coreclk:-1=900"] = [-1]) ∧
    (ADL.validate exampleControl [0] [directive "coreclk:-1=900"] exampleJunk).err =
      [⟨DiagKind.adapterIndices, "coreclk:-1=900".toList⟩,
        ⟨DiagKind.perfLevel, "coreclk:-1=900".toList⟩] ∧
    (ADL.validate exampleControl [0] [directive "coreclk:-1=900"]
        (exampleControl.getODParameters 0)).err =
      [⟨DiagKind.adapterIndices, "coreclk:-1=900".toList⟩] ∧
    (AMDGPU.validate 1 [directive "coreclk:-1=900"] [⟨1000, 1500⟩] ⟨0, 0⟩).err =
      [⟨DiagKind.adapterIndices, "coreclk:-1=900".toList⟩,
        ⟨DiagKind.coreClock, "coreclk:-1=900".toList⟩] ∧
    (AMDGPU.validate 1 [directive "coreclk:-1=900"] [⟨1000, 1500⟩] ⟨900, 0⟩).err =
      [⟨DiagKind.adapterIndices, "coreclk:-1=900".toList⟩] ∧
    (AmdGpuProOvc.validate 1 [directive "coreclk:-1=900"] [⟨1000, 1500⟩] ⟨0, 0⟩).err ≠
      (AmdGpuProOvc.validate 1 [directive "coreclk:-1=900"] [⟨1000, 1500⟩] ⟨900, 0⟩).err ∧
    (∀ (odParams : List ADLODParameters) (junk : ADLODParameters) (N : Int)
        (param : OVCParameter) (st : Check) (i : Int), i ≥ N →
      ADL.checkOtherAt odParams junk N param st i = st) ∧
    (∀ (perfClocks : List PerfClocks) (junk : PerfClocks) (N : Int)
        (param : OVCParameter) (st : Check) (i : Int), i ≥ N →
      AMDGPU.checkOtherAt perfClocks junk N param st i = st ∧
      AmdGpuProOvc.checkParameterAt perfClocks junk N param st i = st) ∧
    (∀ (N : Nat) (params : List OVCParameter) (i : Int),
      i ∈ ADL.checkOtherIndices (N : Int) params →
      i < (N : Int) ∧
        (i < 0 → ∃ p ∈ params, offending (N : Int) p = true ∧ i ∈ p.adapters)) ∧
    (∀ (N : Nat) (params : List OVCParameter) (i : Int),
      i ∈ AMDGPU.checkOtherIndices (N : Int) params →
      i < (N : Int) ∧
        (i < 0 → ∃ p ∈ params, offending (N : Int) p = true ∧ i ∈ p.adapters)) ∧
    (∀ (N : Int) (params : List OVCParameter),
      AmdGpuProOvc.checkParametersIndices N params = AMDGPU.checkOtherIndices N params) := by
  refine ⟨by decide!, by decide!, negative_selector_indices, by decide!, by decide!,
    by decide!, by decide!, by decide!, ?_, ?_, adl_checkOtherIndices_mem,
    amdgpu_checkOtherIndices_mem, fun _ _ => rfl⟩
  · intro odParams junk N param st i h
    unfold ADL.checkOtherAt
    rw [if_pos h]
  · intro perfClocks junk N param st i h
    constructor
    · unfold AMDGPU.checkOtherAt
      rw [if_pos h]
    · unfold AmdGpuProOvc.checkParameterAt
      rw [if_pos h]

/-! ### Reads outside a vector -/

/-- The Catalyst engine marks a call as undefined exactly when "check other params" indexes
`odParams` with a negative index. -/
theorem adl_undefined_eq (mc : ADLMainControl) (active : List Int)
    (params : List OVCParameter) (junk : ADLODParameters) :
    (ADL.setOVCParameters mc active params junk).undefined =
      (ADL.checkOtherIndices (active.length : Int) params).any (fun i => decide (i < 0)) := by
  unfold ADL.setOVCParameters
  dsimp only
  split <;> rfl

theorem amdgpu_undefined_eq (N : Nat) (params : List OVCParameter)
    (perfClocks : List PerfClocks) (junk : PerfClocks) :
    (AMDGPU.setOVCParameters N params perfClocks junk).undefined =
      (AMDGPU.checkOtherIndices (N : Int) params).any (fun i => decide (i < 0)) := by
  unfold AMDGPU.setOVCParameters
  dsimp only
  split <;> rfl

/-- A directive the selector phase reports resolves to an adapter outside `0 ≤ i < N`. -/
theorem offending_not_inRange (N : Nat) (p : OVCParameter) (i : Int)
    (ho : offending (N : Int) p = true) (hi : i ∈ p.adapters)
    (hr : ∀ j ∈ iterate p.adapters p.allAdapters (N : Int), 0 ≤ j ∧ j < (N : Int)) :
    0 ≤ i := by
  unfold offending at ho
  rw [Bool.and_eq_true] at ho
  have hall : p.allAdapters = false := by simpa using ho.1
  rw [hall, iterate_explicit] at hr
  exact (hr i hi).1

/-- A batch that passes the Catalyst validation makes no read outside `odParams`. -/
theorem adl_validated_defined (mc : ADLMainControl) (active : List Int)
    (params : List OVCParameter) (junk : ADLODParameters)
    (hv : (ADL.validate mc active params junk).failed = false) :
    (ADL.setOVCParameters mc active params junk).undefined = false := by
  rw [adl_undefined_eq, List.any_eq_false]
  intro i hi
  rw [decide_eq_true_eq]
  intro hneg
  obtain ⟨p, hp, ho, hmem⟩ := (adl_checkOtherIndices_mem active.length params i hi).2 hneg
  have := offending_not_inRange active.length p i ho hmem
    (adl_validated_inRange mc active params junk hv p hp)
  omega

/-- A batch that passes validation in an AMDGPU engine makes no read outside `perfClocks`. -/
theorem amdgpu_validated_defined (N : Nat) (params : List OVCParameter)
    (perfClocks : List PerfClocks) (junk : PerfClocks)
    (hv : (AMDGPU.validate N params perfClocks junk).failed = false) :
    (AMDGPU.setOVCParameters N params perfClocks junk).undefined = false := by
  rw [amdgpu_undefined_eq, List.any_eq_false]
  intro i hi
  rw [decide_eq_true_eq]
  intro hneg
  obtain ⟨p, hp, ho, hmem⟩ := (amdgpu_checkOtherIndices_mem N params i hi).2 hneg
  have := offending_not_inRange N p i ho hmem
    (amdgpu_validated_inRange N params perfClocks junk hv p hp)
  omega

/-- C1 at the failing input: for the batch of the token `coreclk:-1=900`, whatever the
adapters and the capability data, validation writes a message and then indexes `odParams`
(Catalyst engine) or `perfClocks` (both AMDGPU engines) with -1 before it reaches the `throw`:
the behaviour of the call is undefined.  What does hold: a call is undefined exactly when the
per-kind validation reads a negative index; a call that is not undefined and whose validation
writes at least one message throws and issues no backend write call, in the three engines
alike; so do the batches `fanspeed:0=50 coreclk:0:1=1300 memclk:0=1000` (Catalyst) and
`fanspeed:0=50 coreod:0=25 memod:0=5` (AMDGPU), which hold one directive out of range between
two valid ones. -/
theorem all_or_nothing :
    (∀ (mc : ADLMainControl) (active : List Int) (junk : ADLODParameters),
      (ADL.validate mc active [directive "coreclk:-1=900"] junk).err ≠ [] ∧
      (ADL.setOVCParameters mc active [directive "coreclk:-1=900"] junk).undefined = true) ∧
    (∀ (N : Nat) (perfClocks : List PerfClocks) (junk : PerfClocks),
      (AMDGPU.validate N [directive "coreclk:-1=900"] perfClocks junk).err ≠ [] ∧
      (AMDGPU.setOVCParameters N [directive "coreclk:-1=900"] perfClocks junk).undefined =
        true ∧
      (AmdGpuProOvc.Set N [directive "coreclk:-1=900"] perfClocks junk).undefined = true) ∧
    (∀ (mc : ADLMainControl) (active : List Int) (params : List OVCParameter)
        (junk : ADLODParameters),
      ((ADL.setOVCParameters mc active params junk).undefined = true ↔
        ∃ i ∈ ADL.checkOtherIndices (active.length : Int) params, i < 0) ∧
      ((ADL.setOVCParameters mc active params junk).undefined = false →
        (ADL.validate mc active params junk).err ≠ [] →
        (ADL.setOVCParameters mc active params junk).thrown = some "Wrong parameters!" ∧
        (ADL.setOVCParameters mc active params junk).calls = [])) ∧
    (∀ (N : Nat) (params : List OVCParameter) (perfClocks : List PerfClocks)
        (junk : PerfClocks),
      ((AMDGPU.setOVCParameters N params perfClocks junk).undefined = true ↔
        ∃ i ∈ AMDGPU.checkOtherIndices (N : Int) params, i < 0) ∧
      ((AmdGpuProOvc.Set N params perfClocks junk).undefined = true ↔
        ∃ i ∈ AmdGpuProOvc.checkParametersIndices (N : Int) params, i < 0) ∧
      ((AMDGPU.setOVCParameters N params perfClocks junk).undefined = false →
        (AMDGPU.validate N params perfClocks junk).err ≠ [] →
        (AMDGPU.setOVCParameters N params perfClocks junk).thrown =
          some "Invalid parameters." ∧
        (AMDGPU.setOVCParameters N params perfClocks junk).calls = []) ∧
      ((AmdGpuProOvc.Set N params perfClocks junk).undefined = false →
        (AmdGpuProOvc.validate N params perfClocks junk).err ≠ [] →
        (AmdGpuProOvc.Set N params perfClocks junk).thrown = some "Invalid parameters." ∧
        (AmdGpuProOvc.Set N params perfClocks junk).calls = [])) ∧
    ((ADL.setOVCParameters exampleControl [0]
        [directive "fanspeed:0=50", directive "coreclk:0:1=1300", directive "memclk:0=1000"]
        exampleJunk).err = [⟨DiagKind.coreClock, "coreclk:0:1=1300".toList⟩] ∧
      (ADL.setOVCParameters exampleControl [0]
        [directive "fanspeed:0=50", directive "coreclk:0:1=1300", directive "memclk:0=1000"]
        exampleJunk).calls = [] ∧
      (ADL.setOVCParameters exampleControl [0]
        [directive "fanspeed:0=50", directive "coreclk:0:1=1300", directive "memclk:0=1000"]
        exampleJunk).thrown = some "Wrong parameters!" ∧
      (ADL.setOVCParameters exampleControl [0]
        [directive "fanspeed:0=50", directive "coreclk:0:1=1300", directive "memclk:0=1000"]
        exampleJunk).undefined = false) ∧
    ((AMDGPU.setOVCParameters 1
        [directive "fanspeed:0=50", directive "coreod:0=25", directive "memod:0=5"]
        [⟨1000, 2000⟩] ⟨0, 0⟩).err = [⟨DiagKind.coreOverdrive, "coreod:0=25".toList⟩] ∧
      (AMDGPU.setOVCParameters 1
        [directive "fanspeed:0=50", directive "coreod:0=25", directive "memod:0=5"]
        [⟨1000, 2000⟩] ⟨0, 0⟩).calls = [] ∧
      (AMDGPU.setOVCParameters 1
        [directive "fanspeed:0=50", directive "coreod:0=25", directive "memod:0=5"]
        [⟨1000, 2000⟩] ⟨0, 0⟩).thrown = some "Invalid parameters." ∧
      (AMDGPU.setOVCParameters 1
        [directive "fanspeed:0=50", directive "coreod:0=25", directive "memod:0=5"]
        [⟨1000, 2000⟩] ⟨0, 0⟩).undefined = false) ∧
    ((AmdGpuProOvc.Set 1
        [directive "fanspeed:0=50", directive "coreod:0=25", directive "memod:0=5"]
        [⟨1000, 2000⟩] ⟨0, 0⟩).calls = [] ∧
      (AmdGpuProOvc.Set 1
        [directive "fanspeed:0=50", directive "coreod:0=25", directive "memod:0=5"]
        [⟨1000, 2000⟩] ⟨0, 0⟩).thrown = some "Invalid parameters." ∧
      (AmdGpuProOvc.Set 1
        [directive "fanspeed:0=50", directive "coreod:0=25", directive "memod:0=5"]
        [⟨1000, 2000⟩] ⟨0, 0⟩).undefined = false) := by
  have e : directive "coreclk:-1=900" =
      ⟨OVCParamType.CORE_CLOCK, [-1], false, LAST_PERFLEVEL, 900, false,
        "coreclk:-1=900".toList⟩ := by decide!
  have hmem : ∀ N : Nat, (-1 : Int) ∈ iterate (directive "coreclk:-1=900").adapters
      (directive "coreclk:-1=900").allAdapters (N : Int) := by
    intro N
    rw [e, iterate_explicit]
    exact List.mem_singleton.mpr rfl
  have hany : (([-1] : List Int).any fun i => decide (i < 0)) = true := by decide
  have hiff : ∀ l : List Int, (l.any (fun i => decide (i < 0)) = true ↔ ∃ i ∈ l, i < 0) := by
    intro l
    rw [List.any_eq_true]
    simp only [decide_eq_true_eq]
  refine ⟨fun mc active junk => ⟨?_, ?_⟩, fun N perfClocks junk => ⟨?_, ?_, ?_⟩,
    fun mc active params junk => ⟨?_, fun hu h => ?_⟩,
    fun N params perfClocks junk => ⟨?_, ?_, fun hu h => ?_, fun hu h => ?_⟩, ?_, ?_, ?_⟩
  · intro hnil
    have hf := (not_congr (adl_validate_ext mc active _ junk).failed_iff).mpr
      (not_not.mpr hnil)
    have := (adl_validated_inRange mc active _ junk (by simpa using hf) _
      (List.mem_singleton.mpr rfl) (-1) (hmem active.length)).1
    omega
  · rw [adl_undefined_eq, (negative_selector_indices active.length).1]
    exact hany
  · intro hnil
    have hf := (not_congr (amdgpu_validate_ext N _ perfClocks junk).failed_iff).mpr
      (not_not.mpr hnil)
    have := (amdgpu_validated_inRange N _ perfClocks junk (by simpa using hf) _
      (List.mem_singleton.mpr rfl) (-1) (hmem N)).1
    omega
  · rw [amdgpu_undefined_eq, (negative_selector_indices N).2.1]
    exact hany
  · rw [proovc_Set_eq, amdgpu_undefined_eq, (negative_selector_indices N).2.1]
    exact hany
  · rw [adl_undefined_eq]
    exact hiff _
  · have hf := (adl_validate_ext mc active params junk).failed_iff.mpr h
    simp [ADL.setOVCParameters, hf]
  · rw [amdgpu_undefined_eq]
    exact hiff _
  · rw [proovc_Set_eq, amdgpu_undefined_eq, proovc_checkParametersIndices_eq]
    exact hiff _
  · have hf := (amdgpu_validate_ext N params perfClocks junk).failed_iff.mpr h
    simp [AMDGPU.setOVCParameters, hf]
  · rw [proovc_validate_eq] at h
    have hf := (amdgpu_validate_ext N params perfClocks junk).failed_iff.mpr h
    simp [AmdGpuProOvc.Set, proovc_validate_eq, hf]
  · exact ⟨by decide!, by decide!, by decide!, by decide!⟩
  · exact ⟨by decide!, by decide!, by decide!, by decide!⟩
  · exact ⟨by decide!, by decide!, by decide!⟩

/-- C36: `AmdGpuProOvc::Set` and the AMDGPU `setOVCParameters` of `amdcovc.cpp` end in the
same way for every batch, device count and list of base clocks: the same messages, the same
`Error` or none, the same write calls in the same order, and the same reads of the base
clocks, so that the one is undefined exactly when the other is.  A call that makes no read
outside the base clocks throws "Invalid parameters." without a write call when validation
fails; when validation passes no such read is made, nothing is thrown, and the calls are the
overdrive calls of the directives other than fan speed ones in input order, each over the
adapters it resolves to, followed by the fan calls in ascending device order, one for each
device with a fan speed directive. -/
theorem set_equivalent (N : Nat) (params : List OVCParameter) (perfClocks : List PerfClocks)
    (junk : PerfClocks) :
    AmdGpuProOvc.Set N params perfClocks junk =
      AMDGPU.setOVCParameters N params perfClocks junk ∧
    AmdGpuProOvc.validate N params perfClocks junk = AMDGPU.validate N params perfClocks junk ∧
    AmdGpuProOvc.checkParametersIndices (N : Int) params =
      AMDGPU.checkOtherIndices (N : Int) params ∧
    ((AMDGPU.validate N params perfClocks junk).failed = true →
      (AMDGPU.setOVCParameters N params perfClocks junk).undefined = false →
      (AmdGpuProOvc.Set N params perfClocks junk).undefined = false ∧
      (AmdGpuProOvc.Set N params perfClocks junk).thrown = some "Invalid parameters." ∧
      (AMDGPU.setOVCParameters N params perfClocks junk).thrown = some "Invalid parameters." ∧
      (AmdGpuProOvc.Set N params perfClocks junk).calls = [] ∧
      (AMDGPU.setOVCParameters N params perfClocks junk).calls = []) ∧
    ((AMDGPU.validate N params perfClocks junk).failed = false →
      (AmdGpuProOvc.Set N params perfClocks junk).undefined = false ∧
      (AMDGPU.setOVCParameters N params perfClocks junk).undefined = false ∧
      (AmdGpuProOvc.Set N params perfClocks junk).thrown = none ∧
      (AMDGPU.setOVCParameters N params perfClocks junk).thrown = none ∧
      (AmdGpuProOvc.Set N params perfClocks junk).calls =
        AmdGpuProOvc.setParameters params N perfClocks junk ++
          AmdGpuProOvc.setFanSpeeds N
            (AmdGpuProOvc.setFanSpeedSetup (List.replicate N ⟨0, false, false⟩) params N) ∧
      (AMDGPU.setOVCParameters N params perfClocks junk).calls =
        params.flatMap (fun p =>
          if p.type ≠ OVCParamType.FAN_SPEED then
            (iterate p.adapters p.allAdapters (N : Int)).flatMap
              (AMDGPU.setParamAt perfClocks junk p)
          else []) ++
        (List.range N).filterMap (fun d =>
          (lastFan params N d).map (fun p =>
            if p.useDefault then AMDGPUCall.setFanSpeedToDefault d
            else AMDGPUCall.setFanSpeed d (cround p.value)))) := by
  refine ⟨proovc_Set_eq N params perfClocks junk, proovc_validate_eq N params perfClocks junk,
    rfl, fun hv hu => ?_, fun hv => ?_⟩
  · rw [proovc_Set_eq]
    refine ⟨hu, ?_⟩
    unfold AMDGPU.setOVCParameters
    simp only [hv, if_true, and_self]
  · have hv1 : (AmdGpuProOvc.validate N params perfClocks junk).failed = false := by
      rw [proovc_validate_eq]; exact hv
    have hd := amdgpu_validated_defined N params perfClocks junk hv
    refine ⟨by rw [proovc_Set_eq]; exact hd, hd, ?_, ?_, ?_, ?_⟩
    · unfold AmdGpuProOvc.Set
      simp only [hv1, Bool.false_eq_true, if_false]
    · unfold AMDGPU.setOVCParameters
      simp only [hv, Bool.false_eq_true, if_false]
    · unfold AmdGpuProOvc.Set
      simp only [hv1, Bool.false_eq_true, if_false]
    · unfold AMDGPU.setOVCParameters
      simp only [hv, Bool.false_eq_true, if_false]
      rw [amdgpu_setParams_eq, amdgpu_fanMerge_eq, amdgpu_commitFan_fanMerge]

/-- Witness of C36: a batch that passes and one that fails, in both engines. -/
theorem set_equivalent_witness :
    (AmdGpuProOvc.Set 2 [directive "fanspeed:1=50", directive "coreclk:0=1050",
        directive "memod=3"] [⟨1000, 1500⟩, ⟨1000, 1500⟩] ⟨0, 0⟩).calls =
      [AMDGPUCall.setOverdriveCoreParam 0 (some 5), AMDGPUCall.setOverdriveMemoryParam 0 (some 3),
        AMDGPUCall.setFanSpeed 1 50] ∧
    (AMDGPU.setOVCParameters 2 [directive "fanspeed:1=50", directive "coreclk:0=1050",
        directive "memod=3"] [⟨1000, 1500⟩, ⟨1000, 1500⟩] ⟨0, 0⟩).calls =
      [AMDGPUCall.setOverdriveCoreParam 0 (some 5), AMDGPUCall.setOverdriveMemoryParam 0 (some 3),
        AMDGPUCall.setFanSpeed 1 50] ∧
    (AmdGpuProOvc.Set 2 [directive "coreclk:0=2000"] [⟨1000, 1500⟩, ⟨1000, 1500⟩]
      ⟨0, 0⟩).thrown = some "Invalid parameters." ∧
    AmdGpuProOvc.Set 2 [directive "coreclk:0=2000"] [⟨1000, 1500⟩, ⟨1000, 1500⟩] ⟨0, 0⟩ =
      AMDGPU.setOVCParameters 2 [directive "coreclk:0=2000"] [⟨1000, 1500⟩, ⟨1000, 1500⟩]
        ⟨0, 0⟩ ∧
    (AmdGpuProOvc.Set 2 [directive "fanspeed:1=50", directive "coreclk:0=1050",
        directive "memod=3"] [⟨1000, 1500⟩, ⟨1000, 1500⟩] ⟨0, 0⟩).undefined = false :=
  ⟨by decide!, by decide!,
    ((set_equivalent 2 [directive "coreclk:0=2000"] [⟨1000, 1500⟩, ⟨1000, 1500⟩] ⟨0, 0⟩).2.2.2.1
      (by decide!) (by decide!)).2.1,
    (set_equivalent 2 [directive "coreclk:0=2000"] [⟨1000, 1500⟩, ⟨1000, 1500⟩] ⟨0, 0⟩).1,
    ((set_equivalent 2 [directive "fanspeed:1=50", directive "coreclk:0=1050",
        directive "memod=3"] [⟨1000, 1500⟩, ⟨1000, 1500⟩] ⟨0, 0⟩).2.2.2.2 (by decide!)).1⟩

/-! ### Explicit levels, end to end -/

/-- The level clause on a level text that is a numeral within `long`: the level is stored in
an `int` and the value clause follows. -/
theorem parseLevel_numeral (Lt v : List Char) (Lv : Int) (param : OVCParameter)
    (hLt : readNumeral Lt = some (Lv, [])) (hlong : LONG_MIN ≤ Lv ∧ Lv ≤ LONG_MAX) :
    parseLevel (':' :: (Lt ++ '=' :: v)) false param =
      parseValue ('=' :: v) { param with partId := toInt32 Lv } := by
  have hnum : readNumeral (Lt ++ '=' :: v) = some (Lv, '=' :: v) :=
    readNumeral_append Lt _ Lv hLt (by
      intro c hc
      simp only [List.head?_cons, Option.some.injEq] at hc
      subst hc; decide)
  obtain ⟨hend, her, hval⟩ := strtol_some hnum
  have her : (strtol (Lt ++ '=' :: v)).erange = false := her.mpr hlong
  have hval := hval her
  have hLne : Lt ++ '=' :: v ≠ '=' :: v := by
    intro h
    have := readNumeral_length hnum
    rw [h] at this
    omega
  rw [parseLevel]
  simp only [and_self, if_true, her, hend, hval, Bool.false_eq_true, if_false, hLne,
    ne_eq, not_false_eq_true]

/-- C8, amended: for a token `name:selector:level=value` of a level-capable kind other than
`fanspeed` whose level is written as a numeral `Lv` within the range of `int` and other than
-1: the parser accepts the token when the selector is empty or a text the list parser accepts
and the value is `default` or a text that `strtod` reads to its end as a finite number; and
every directive the parser returns for such a token, whatever its selector and its value,
holds `partId = Lv`, and in every batch that holds it, for every adapter `0 ≤ d < N` it resolves
to, the Catalyst validation prints "Performance level out of range" for it and fails unless
`0 ≤ Lv < numberOfLevels(d)`. -/
theorem explicit_level_bound (n s Lt v : List Char) (type : OVCParamType) (Lv : Int)
    (value0 : ℚ)
    (hn : (n, type) ∈ levelCapable) (htype : type ≠ OVCParamType.FAN_SPEED)
    (hs : ':' ∉ s)
    (hLt : readNumeral Lt = some (Lv, []))
    (hfit : INT_MIN ≤ Lv ∧ Lv ≤ INT_MAX) (hne : Lv ≠ -1) :
    ((s = [] ∨ (parseAdaptersList s).status = Status.ok) →
      (v = "default".toList ∨ (v ≠ [] ∧ ∃ q, strtod v = ⟨Double.finite q, [], false⟩)) →
      ∃ p, parseOVCParameter (n ++ ':' :: (s ++ ':' :: (Lt ++ '=' :: v))) value0 =
        ParseResult.accepted p) ∧
    ∀ p, parseOVCParameter (n ++ ':' :: (s ++ ':' :: (Lt ++ '=' :: v))) value0 =
        ParseResult.accepted p →
      p.partId = Lv ∧ p.type = type ∧
      p.argText = n ++ ':' :: (s ++ ':' :: (Lt ++ '=' :: v)) ∧
      (p.useDefault = true ↔ v = "default".toList) ∧
      (s = [] → p.adapters = [0] ∧ p.allAdapters = false) ∧
      ∀ (mc : ADLMainControl) (active : List Int) (junk : ADLODParameters)
        (params : List OVCParameter) (d : Int), p ∈ params →
        d ∈ iterate p.adapters p.allAdapters (active.length : Int) →
        0 ≤ d → d < (active.length : Int) →
        ¬ (0 ≤ Lv ∧ Lv <
          ((mc.getODParameters (active.getD d.toNat 0)).iNumberOfPerformanceLevels : Int)) →
        (⟨DiagKind.perfLevel, n ++ ':' :: (s ++ ':' :: (Lt ++ '=' :: v))⟩ : Diag) ∈
            (ADL.validate mc active params junk).err ∧
          (ADL.validate mc active params junk).failed = true := by
  have hlong : LONG_MIN ≤ Lv ∧ Lv ≤ LONG_MAX := by
    obtain ⟨h1, h2⟩ := hfit
    unfold INT_MIN at h1
    unfold INT_MAX at h2
    unfold LONG_MIN LONG_MAX
    constructor <;> omega
  obtain ⟨-, htable⟩ := levelCapable_table (n, type) hn
  dsimp only at htable
  rw [if_neg htype] at htable
  have h32 := toInt32_of_fits hfit.1 hfit.2
  -- what the parser does with the token
  have hparse : ∀ p, parseOVCParameter (n ++ ':' :: (s ++ ':' :: (Lt ++ '=' :: v))) value0 =
      ParseResult.accepted p ↔
      (s = [] ∨ (parseAdaptersList s).status = Status.ok) ∧
        parseValue ('=' :: v)
          ⟨type, if s = [] then [0] else (parseAdaptersList s).adapters,
            if s = [] then false else (parseAdaptersList s).allAdapters, Lv, value0, false,
            n ++ ':' :: (s ++ ':' :: (Lt ++ '=' :: v))⟩ = ParseResult.accepted p := by
    intro p
    rw [parse_two_colons n s _ type LAST_PERFLEVEL false value0 htable hs]
    by_cases he : s = []
    · rw [if_pos he, parseLevel_numeral Lt v Lv _ hLt hlong, h32]
      simp only [he, true_or, true_and, if_true]
    · rw [if_neg he]
      simp only [he, false_or, if_false]
      cases hst : (parseAdaptersList s).status with
      | ok =>
        dsimp only
        rw [parseLevel_numeral Lt v Lv _ hLt hlong, h32]
        simp
      | thrown w => simp
      | undefined => simp
      | outOfFuel => simp
  constructor
  · intro hsel hval
    have hex : ∀ P0 : OVCParameter, ∃ p, parseValue ('=' :: v) P0 = ParseResult.accepted p := by
      intro P0
      by_cases hd : v = "default".toList
      · exact ⟨{ P0 with useDefault := true },
          (parseValue_accepted_iff v P0 _).mpr (Or.inl ⟨hd, rfl⟩)⟩
      · rcases hval with hd1 | ⟨hne1, q, hq⟩
        · exact absurd hd1 hd
        · exact ⟨{ P0 with value := q },
            (parseValue_accepted_iff v P0 _).mpr (Or.inr ⟨hd, hne1, q, hq, rfl⟩)⟩
    obtain ⟨p, hp⟩ := hex ⟨type, if s = [] then [0] else (parseAdaptersList s).adapters,
      if s = [] then false else (parseAdaptersList s).allAdapters, Lv, value0, false,
      n ++ ':' :: (s ++ ':' :: (Lt ++ '=' :: v))⟩
    exact ⟨p, (hparse p).mpr ⟨hsel, hp⟩⟩
  · intro p hp
    obtain ⟨-, hval⟩ := (hparse p).mp hp
    have hfields : p.partId = Lv ∧ p.type = type ∧
        p.argText = n ++ ':' :: (s ++ ':' :: (Lt ++ '=' :: v)) ∧
        (p.useDefault = true ↔ v = "default".toList) ∧
        (s = [] → p.adapters = [0] ∧ p.allAdapters = false) := by
      rcases (parseValue_accepted_iff v _ p).mp hval with ⟨hd, rfl⟩ | ⟨hd, -, q, -, rfl⟩
      · refine ⟨rfl, rfl, rfl, ?_, ?_⟩
        · simp [hd]
        · intro he
          simp [he]
      · refine ⟨rfl, rfl, rfl, ?_, ?_⟩
        · constructor
          · intro h
            exact absurd h (by simp)
          · intro h
            exact absurd h hd
        · intro he
          simp [he]
    obtain ⟨h1, h2, h3, h4, h5⟩ := hfields
    refine ⟨h1, h2, h3, h4, h5, ?_⟩
    intro mc active junk params d hmem hd h0 hN hout
    have hm := level_message_of_out_of_range mc active junk params p d hmem
      (by rw [h2]; exact htype) (by rw [h1]; exact hne) hd h0 hN (by rw [h1]; exact hout)
    rw [h3] at hm
    refine ⟨hm, ?_⟩
    rw [(adl_validate_ext mc active params junk).failed_iff]
    intro hnil
    rw [hnil] at hm
    exact absurd hm (List.not_mem_nil _)

/-- Witness of C8 (amended): with two levels the written level 5 is reported for the tokens
`coreclk:0:5=default`, whose value is `default`, and `coreclk::5=900`, whose selector is
empty, and the written level 2 for `coreclk:0:2=900`. -/
theorem explicit_level_bound_witness :
    ((⟨DiagKind.perfLevel, "coreclk:0:5=default".toList⟩ : Diag) ∈
        (ADL.validate exampleControl [0] [directive "coreclk:0:5=default"] exampleJunk).err ∧
      (ADL.validate exampleControl [0] [directive "coreclk:0:5=default"] exampleJunk).failed =
        true) ∧
    ((⟨DiagKind.perfLevel, "coreclk::5=900".toList⟩ : Diag) ∈
        (ADL.validate exampleControl [0] [directive "coreclk::5=900"] exampleJunk).err ∧
      (ADL.validate exampleControl [0] [directive "coreclk::5=900"] exampleJunk).failed =
        true) ∧
    ((⟨DiagKind.perfLevel, "coreclk:0:2=900".toList⟩ : Diag) ∈
        (ADL.validate exampleControl [0] [directive "coreclk:0:2=900"] exampleJunk).err ∧
      (ADL.validate exampleControl [0] [directive "coreclk:0:2=900"] exampleJunk).failed =
        true) ∧
    (directive "coreclk:0:5=default").useDefault = true ∧
    (directive "coreclk::5=900").adapters = [0] :=
  ⟨((explicit_level_bound "coreclk".toList "0".toList "5".toList "default".toList
      OVCParamType.CORE_CLOCK 5 0 (by decide) (by decide) (by decide) (by decide) (by decide)
      (by decide)).2 (directive "coreclk:0:5=default") (by decide!)).2.2.2.2.2
      exampleControl [0] exampleJunk [directive "coreclk:0:5=default"] 0
      (List.mem_singleton.mpr rfl) (by decide!) (by decide) (by decide) (by decide),
    ((explicit_level_bound "coreclk".toList [] "5".toList "900".toList
      OVCParamType.CORE_CLOCK 5 0 (by decide) (by decide) (by decide) (by decide) (by decide)
      (by decide)).2 (directive "coreclk::5=900") (by decide!)).2.2.2.2.2
      exampleControl [0] exampleJunk [directive "coreclk::5=900"] 0
      (List.mem_singleton.mpr rfl) (by decide!) (by decide) (by decide) (by decide),
    ((explicit_level_bound "coreclk".toList "0".toList "2".toList "900".toList
      OVCParamType.CORE_CLOCK 2 0 (by decide) (by decide) (by decide) (by decide) (by decide)
      (by decide)).2 (directive "coreclk:0:2=900") (by decide!)).2.2.2.2.2
      exampleControl [0] exampleJunk [directive "coreclk:0:2=900"] 0
      (List.mem_singleton.mpr rfl) (by decide!) (by decide) (by decide) (by decide),
    by decide!, by decide!⟩

/-! ### The level merge against the specification -/

/-- The `switch` of the level merge does what the specification says of one directive. -/
theorem mergeLevel_eq_spec (p : OVCParameter) (cur dfl : ADLODPerformanceLevel) :
    ADL.mergeLevel p cur dfl = mergedLevelSpec p cur dfl := by
  unfold ADL.mergeLevel mergedLevelSpec
  cases ht : p.type <;> cases hu : p.useDefault <;> simp
  by_cases hz : cur.iVddc = 0
  · simp only [hz, if_true]
    cases cur
    simp only at hz
    simp [hz]
  · simp [hz]

/-- The array of a device after the level merge of a batch: the directives that resolve to the
device, applied in input order. -/
theorem adl_levelMerge_row (odParams : List ADLODParameters) (junk : ADLODParameters)
    (dflt : List (List ADLODPerformanceLevel)) (N : Int) (params : List OVCParameter)
    (d : Nat) (ls : ADL.LevelState) :
    (ADL.levelMerge odParams junk dflt N params ls).perfLevels.getD d [] =
      params.foldl (fun row p =>
        if p.type ≠ OVCParamType.FAN_SPEED ∧ (d : Int) ∈ iterate p.adapters p.allAdapters N
        then mergedRow p (ADL.resolveLevel odParams junk p d) row (readAt dflt d [])
        else row) (ls.perfLevels.getD d []) := by
  unfold ADL.levelMerge
  induction params generalizing ls with
  | nil => rfl
  | cons p ps ih =>
    rw [List.foldl_cons, List.foldl_cons, ih]
    congr 1
    by_cases hfan : p.type ≠ OVCParamType.FAN_SPEED
    · rw [if_pos hfan, adl_mergeFold_row]
      by_cases hm : (d : Int) ∈ iterate p.adapters p.allAdapters N
      · rw [if_pos hm, if_pos ⟨hfan, hm⟩]
      · rw [if_neg hm, if_neg (fun h => hm h.2)]
    · rw [if_neg hfan, if_neg (fun h => hfan h.1)]

/-- The array of a device after the level merge of a batch is the array the specification
describes. -/
theorem adl_merged_row (mc : ADLMainControl) (active : List Int) (params : List OVCParameter)
    (junk : ADLODParameters) (d : Nat) (hd : d < active.length) :
    (ADL.merged mc active params junk).perfLevels.getD d [] =
      mergedArraySpec params active.length d
        (mc.getODParameters (active.getD d 0)).iNumberOfPerformanceLevels
        ((List.range (mc.getODParameters (active.getD d 0)).iNumberOfPerformanceLevels).map
          (mc.getODPerformanceLevels (active.getD d 0) false))
        ((List.range (mc.getODParameters (active.getD d 0)).iNumberOfPerformanceLevels).map
          (mc.getODPerformanceLevels (active.getD d 0) true)) := by
  unfold ADL.merged
  rw [adl_levelMerge_row]
  have h1 : readAt (ADL.readODParams mc active) (d : Int) junk =
      mc.getODParameters (active.getD d 0) := by
    rw [readAt_readODParams mc active junk d (by omega) (by exact_mod_cast hd)]
    rfl
  have h2 : readAt (ADL.readPerfLevels mc active true) (d : Int) [] =
      (ADL.readPerfLevels mc active true).getD d [] := by
    unfold readAt
    rw [if_pos (by omega)]
    rfl
  dsimp only
  rw [h2, getD_readPerfLevels mc active true d hd, getD_readPerfLevels mc active false d hd]
  unfold mergedArraySpec
  congr 1
  funext row p
  unfold mergedRow ADL.resolveLevel
  rw [h1, mergeLevel_eq_spec]

/-- C6 (Catalyst commit).  For a batch that passes validation, the level calls of
`setOVCParameters` are, in ascending device order, one `setODPerformanceLevels` for each
device that some directive other than a fan speed one resolves to and none for any other
device; the array passed for a device is its current level array, as read from the backend,
after the directives of the batch that resolve to the device have been merged into it one
after the other in input order (`mergedArraySpec`, `mergedLevelSpec`), so that of two
directives for one field of one level the later one determines the field. -/
theorem catalyst_commit (mc : ADLMainControl) (active : List Int) (params : List OVCParameter)
    (junk : ADLODParameters) (hv : (ADL.validate mc active params junk).failed = false) :
    (ADL.setOVCParameters mc active params junk).calls.filter (fun c => !c.isFan) =
      (List.range active.length).filterMap (fun d =>
        if touched params active.length d then
          some (ADLCall.setODPerformanceLevels (active.getD d 0)
            (mc.getODParameters (active.getD d 0)).iNumberOfPerformanceLevels
            (mergedArraySpec params active.length d
              (mc.getODParameters (active.getD d 0)).iNumberOfPerformanceLevels
              ((List.range
                (mc.getODParameters (active.getD d 0)).iNumberOfPerformanceLevels).map
                (mc.getODPerformanceLevels (active.getD d 0) false))
              ((List.range
                (mc.getODParameters (active.getD d 0)).iNumberOfPerformanceLevels).map
                (mc.getODPerformanceLevels (active.getD d 0) true))))
        else none) := by
  rw [adl_level_calls mc active params junk hv]
  apply List.filterMap_congr
  intro d hd
  rw [List.mem_range] at hd
  rw [adl_merged_row mc active params junk d hd]

/-- Witness of C6: two level directives for device 0 give one call for device 0 and none for
device 1; of the two directives `coreclk:0:1=900` and `coreclk:0:1=1000` for one field the
later one is written, in either order. -/
theorem catalyst_commit_witness :
    (ADL.setOVCParameters exampleControl [7, 8]
        [directive "coreclk:0:1=1100", directive "fanspeed:1=50", directive "vcore=1.1"]
        exampleJunk).calls.filter (fun c => !c.isFan) =
      [ADLCall.setODPerformanceLevels 7 2 [⟨60000, 100000, 1000⟩, ⟨110000, 100000, 1100⟩]] ∧
    (ADL.setOVCParameters exampleControl [7, 8]
        [directive "coreclk:0:1=900", directive "coreclk:0:1=1000"]
        exampleJunk).calls.filter (fun c => !c.isFan) =
      [ADLCall.setODPerformanceLevels 7 2 [⟨60000, 100000, 1000⟩, ⟨100000, 100000, 1001⟩]] ∧
    (ADL.setOVCParameters exampleControl [7, 8]
        [directive "coreclk:0:1=1000", directive "coreclk:0:1=900"]
        exampleJunk).calls.filter (fun c => !c.isFan) =
      [ADLCall.setODPerformanceLevels 7 2 [⟨60000, 100000, 1000⟩, ⟨90000, 100000, 1001⟩]] ∧
    mergedArraySpec [directive "coreclk:0:1=900", directive "coreclk:0:1=1000"] 2 0 2
        [⟨60000, 100000, 1000⟩, ⟨60000, 100000, 1001⟩]
        [⟨50000, 100000, 1000⟩, ⟨50000, 100000, 1001⟩] =
      [⟨60000, 100000, 1000⟩, ⟨100000, 100000, 1001⟩] :=
  ⟨(catalyst_commit exampleControl [7, 8]
      [directive "coreclk:0:1=1100", directive "fanspeed:1=50", directive "vcore=1.1"]
      exampleJunk (by decide!)).trans (by decide!),
    (catalyst_commit exampleControl [7, 8]
      [directive "coreclk:0:1=900", directive "coreclk:0:1=1000"]
      exampleJunk (by decide!)).trans (by decide!),
    (catalyst_commit exampleControl [7, 8]
      [directive "coreclk:0:1=1000", directive "coreclk:0:1=900"]
      exampleJunk (by decide!)).trans (by decide!),
    by decide!⟩

end Amdcovc
